import Mathlib

/-!
# CPUInfo

A shallow embedding of `CPUInfo.cpp` (the signal-based, non-MSVC build for a
32-bit x86 target, where `u32` is 4 bytes wide) and theorems about it.

The processor and the operating system are an explicit `World`:

* `Hardware` is what the machine answers: whether the probed instructions
  execute or fault, what `cpuid` returns for each leaf at each successive
  query of that leaf, the samples of the wall clock and of the cycle
  counter, and the precision in which each `double` operation is evaluated;
* `World` adds the mutable process state the code touches (the installed
  `SIGILL`/`SIGSEGV` handlers and the signals left blocked) and a trace of
  the hardware events performed so far.

Every function of the source that touches the hardware takes a `World` and
returns `Option (result × World)`; `none` means that the process does not
return from the call (a failed `assert`, a fault with no recovering handler
or raised while its signal is blocked, an integer division by zero, a loop
that exhausts its fuel).
-/

namespace CPUDetect

/-! ## Machine integers and character arrays -/

/-- Wrap a natural number to an unsigned 32-bit value (`u32`, `unsigned`). -/
def u32 (n : Nat) : Nat := n % 2 ^ 32

/-- Wrap a natural number to an unsigned 64-bit value (`u64`). -/
def u64 (n : Nat) : Nat := n % 2 ^ 64

/-- Conversion of an unsigned value to the 32-bit `int` (two's complement). -/
def toInt (n : Nat) : Int :=
  if n % 2 ^ 32 < 2 ^ 31 then ((n % 2 ^ 32 : Nat) : Int)
  else ((n % 2 ^ 32 : Nat) : Int) - 2 ^ 32

/-- Byte `k` of a value stored in little-endian order (`k = 0` is the byte at
the lowest address). -/
def byteLE (x k : Nat) : Nat := (x >>> (8 * k)) % 256

/-- Read a character array at a plain index (0 outside the array). -/
def charAt {n : Nat} (buf : Fin n → Nat) (i : Nat) : Nat :=
  if h : i < n then buf ⟨i, h⟩ else 0

/-- The store `*(u32*)(buf + off) = x` into a character array. -/
def storeU32 {n : Nat} (buf : Fin n → Nat) (off x : Nat) : Fin n → Nat :=
  fun i => if off ≤ i.val ∧ i.val < off + 4 then byteLE x (i.val - off) else buf i

/-- The store `buf[off] = b` into a character array. -/
def storeByte {n : Nat} (buf : Fin n → Nat) (off b : Nat) : Fin n → Nat :=
  fun i => if i.val = off then b else buf i

/-- The bytes of a string literal. -/
def literal (s : String) : List Nat := s.toList.map Char.toNat

/-- The test `memcmp(buf, s, len) == 0`. -/
def memcmpEq {n : Nat} (buf : Fin n → Nat) (s : List Nat) (len : Nat) : Bool :=
  (List.range len).all fun i => charAt buf i == s.getD i 0

/-- The C-locale `isspace` of `<ctype.h>`: space, and the controls `\t \n \v \f \r`. -/
def isspace (c : Nat) : Bool := c == 32 || (9 ≤ c && c ≤ 13)

/-! ## The machine -/

/-- The four registers written by `cpuid`. -/
structure Regs where
  eax : Nat
  ebx : Nat
  ecx : Nat
  edx : Nat
deriving DecidableEq, Repr

/-- What happens when a probed instruction is executed. -/
inductive ProbeOutcome where
  | executes
  | illegalInstruction
  | protectionFault
deriving DecidableEq, Repr

/-- A signal disposition: some handler installed by the rest of the process,
or the `handleSignal` of this file. -/
inductive SignalHandler where
  | other (n : Nat)
  | handleSignal
deriving DecidableEq, Repr

/-- Hardware events, in the order the code performs them. -/
inductive Event where
  | probeCPUID
  | probeSSEFP
  | cpuid (level : Nat)
  | hpCounter
  | rdtsc
  | timingLoop (loopLength : Nat)
deriving DecidableEq, Repr

/-- How one `double` operation is evaluated. The x87 unit computes in
registers with a significand of 64 bits (`extended`); a result assigned to a
`double` is then rounded a second time, to 53 bits (`stored`); SSE2 arithmetic
rounds once, to 53 bits (`double`). -/
inductive FloatStep where
  | extended
  | stored
  | double
deriving DecidableEq, Repr

/-- What the machine answers. `cpuid level k` is the answer to the query of
leaf `level` that follows `k` earlier queries of that leaf; `hpCounter k` and
`tsc k` are the samples returned by the read that follows `k` earlier reads
(`gettimeofday` in microseconds, and `rdtsc`). `floatStep k` is the way the
`k`-th `double` operation of `getClassicalFrequency` is evaluated: by default
in x87 registers, with the one value the source assigns to a `double`
variable (`duration`, operation 2) rounded to `double`. -/
structure Hardware where
  cpuidInstr : ProbeOutcome
  orpsInstr : ProbeOutcome
  cpuid : Nat → Nat → Regs
  hpCounter : Nat → Nat
  tsc : Nat → Nat
  floatStep : Nat → FloatStep :=
    fun k => if k = 2 then FloatStep.stored else FloatStep.extended

/-- The machine together with the process state the code reads and writes:
the installed handlers, and whether `SIGILL` and `SIGSEGV` are blocked (at the
start of a process they are not). -/
structure World where
  hw : Hardware
  sigILL : SignalHandler
  sigSEGV : SignalHandler
  trace : List Event
  blockedILL : Bool := false
  blockedSEGV : Bool := false

/-- Record one hardware event. -/
def World.log (w : World) (e : Event) : World :=
  { w with trace := w.trace ++ [e] }

/-- The registers the next `cpuid` of leaf `level` returns. -/
def World.answer (w : World) (level : Nat) : Regs :=
  w.hw.cpuid level (w.trace.count (Event.cpuid level))

/-- Delivery of a fault to the installed handler. A handler installed with
`signal()` runs with its signal blocked, and `handleSignal` leaves by
`longjmp` to the checkpoint taken by `setjmp`, which saves no signal mask: the
jump lets `setjmp` return 1 and the signal stays blocked. A fault raised while
its signal is blocked ends the process, and so does a fault under any other
disposition. -/
def deliver (h : SignalHandler) (blocked : Bool) : Option Unit :=
  match h with
  | SignalHandler.handleSignal => if blocked then none else some ()
  | SignalHandler.other _ => none

/-- Run a probed instruction inside `if (setjmp(check_jmpbuf) == 0) {...}`:
`true` when the body ran to its end, `false` when a fault jumped back, which
leaves the signal of the fault blocked. -/
def runProbed (o : ProbeOutcome) (w : World) : Option (Bool × World) :=
  match o with
  | ProbeOutcome.executes => some (true, w)
  | ProbeOutcome.illegalInstruction =>
    (deliver w.sigILL w.blockedILL).map fun _ => (false, { w with blockedILL := true })
  | ProbeOutcome.protectionFault =>
    (deliver w.sigSEGV w.blockedSEGV).map fun _ => (false, { w with blockedSEGV := true })

/-- `getCPUIDSupport`: install the handlers, try `cpuid`, restore the handlers. -/
def getCPUIDSupport (w : World) : Option (Bool × World) := do
  let oldSIGILL := w.sigILL
  let w := { w with sigILL := SignalHandler.handleSignal }
  let oldSIGSEGV := w.sigSEGV
  let w := { w with sigSEGV := SignalHandler.handleSignal }
  let w := w.log Event.probeCPUID
  let (hasCPUID, w) ← runProbed w.hw.cpuidInstr w
  let w := { w with sigILL := oldSIGILL }
  let w := { w with sigSEGV := oldSIGSEGV }
  some (hasCPUID, w)

/-- `getSSEFPSupport`: install the handlers, try `orps`, restore the handlers. -/
def getSSEFPSupport (w : World) : Option (Bool × World) := do
  let oldSIGILL := w.sigILL
  let w := { w with sigILL := SignalHandler.handleSignal }
  let oldSIGSEGV := w.sigSEGV
  let w := { w with sigSEGV := SignalHandler.handleSignal }
  let w := w.log Event.probeSSEFP
  let (hasSSEFP, w) ← runProbed w.hw.orpsInstr w
  let w := { w with sigILL := oldSIGILL }
  let w := { w with sigSEGV := oldSIGSEGV }
  some (hasSSEFP, w)

/-- `CPUID(level, &eax, &ebx, &ecx, &edx)`: the assertion, then the
instruction. All four registers are returned; a caller that passes `NULL` for
one of them ignores it. -/
def CPUID (level : Nat) (w : World) : Option (Regs × World) := do
  let (supported, w) ← getCPUIDSupport w
  if supported then
    let r := w.answer level
    let w := w.log (Event.cpuid level)
    some ({ eax := u32 r.eax, ebx := u32 r.ebx, ecx := u32 r.ecx, edx := u32 r.edx }, w)
  else
    none

/-! ## The data model of `CPUInfo.h` -/

/-- `CPUInfo::Manufacturer`. -/
inductive Manufacturer where
  | AMD
  | Intel
  | NSC
  | UMC
  | Cyrix
  | NexGen
  | IDT
  | Rise
  | Transmeta
  | UnknownManufacturer
deriving DecidableEq, Repr

/-- `CPUInfo::Identity`. -/
structure Identity where
  manufacturer : Manufacturer
  type : Int
  family : Int
  model : Int
  stepping : Int
  vendor : Fin 13 → Nat
  brand : Int
  hasExtendedName : Bool
  firstNonSpace : Nat
  extendedName : Fin 49 → Nat

/-! ## Identity -/

/-- The first part of `checkExtendedLevelSupport`: `true` when one of the
`return false` statements of the vendor branches is reached. -/
def belowVendorFloor (id : Identity) : Bool :=
  if id.manufacturer = Manufacturer.AMD then
    if id.family < 5 then true
    else if id.family = 5 ∧ id.model < 6 then true
    else false
  else if id.manufacturer = Manufacturer.Cyrix then
    if id.family < 5 then true
    else if id.family = 5 ∧ id.model < 4 then true
    else if id.family = 6 ∧ id.model < 5 then true
    else false
  else if id.manufacturer = Manufacturer.IDT then
    if id.family < 5 then true
    else if id.family = 5 ∧ id.model < 8 then true
    else false
  else if id.manufacturer = Manufacturer.Transmeta then
    if id.family < 5 then true
    else false
  else if id.manufacturer = Manufacturer.Intel then
    if id.family < 0xF then true
    else false
  else false

/-- `checkExtendedLevelSupport`: the vendor branches return `false` before any
query; otherwise leaf `0x80000000` is queried and compared. -/
def checkExtendedLevelSupport (id : Identity) (levelToCheck : Nat) (w : World) :
    Option (Bool × World) :=
  if belowVendorFloor id then some (false, w)
  else do
    let (r, w) ← CPUID 0x80000000 w
    let maxExtendedLevel := r.eax
    some (decide (maxExtendedLevel ≥ levelToCheck), w)

/-- `getIdentity`: leaf 0 gives the vendor string, leaf 1 the signature. -/
def getIdentity (id : Identity) (w : World) : Option (Identity × World) := do
  let (r0, w) ← CPUID 0 w
  let vendor := storeU32 id.vendor 0 r0.ebx
  let vendor := storeU32 vendor 8 r0.ecx
  let vendor := storeU32 vendor 4 r0.edx
  let vendor := storeByte vendor 12 0
  let manufacturer :=
    if memcmpEq vendor (literal "GenuineIntel") 12 then Manufacturer.Intel
    else if memcmpEq vendor (literal "UMC UMC UMC ") 12 then Manufacturer.UMC
    else if memcmpEq vendor (literal "AuthenticAMD") 12 then Manufacturer.AMD
    else if memcmpEq vendor (literal "AMD ISBETTER") 12 then Manufacturer.AMD
    else if memcmpEq vendor (literal "CyrixInstead") 12 then Manufacturer.Cyrix
    else if memcmpEq vendor (literal "NexGenDriven") 12 then Manufacturer.NexGen
    else if memcmpEq vendor (literal "CentaurHauls") 12 then Manufacturer.IDT
    else if memcmpEq vendor (literal "RiseRiseRise") 12 then Manufacturer.Rise
    else if memcmpEq vendor (literal "GenuineTMx86") 12 then Manufacturer.Transmeta
    else if memcmpEq vendor (literal "TransmetaCPU") 12 then Manufacturer.Transmeta
    else if memcmpEq vendor (literal "Geode By NSC") 12 then Manufacturer.NSC
    else Manufacturer.UnknownManufacturer
  let (r1, w) ← CPUID 1 w
  let signature_eax := r1.eax
  let signature_ebx := r1.ebx
  let family := (signature_eax >>> 8) &&& 0xF
  let ex_family := (signature_eax >>> 20) &&& 0xFF
  let model := (signature_eax >>> 4) &&& 0xF
  let ex_model := (signature_eax >>> 16) &&& 0xF
  some ({ id with
          vendor := vendor
          manufacturer := manufacturer
          type := toInt ((signature_eax >>> 12) &&& 0x3)
          family := toInt (u32 ((ex_family <<< 4) + family))
          model := toInt (u32 ((ex_model <<< 4) + model))
          stepping := toInt (signature_eax &&& 0xF)
          brand := toInt (signature_ebx &&& 0xFF) }, w)

/-- The loop `while (firstNonSpace < 48 && isspace(name[firstNonSpace])) ++firstNonSpace`.
The fuel bounds the number of iterations; 48 is always enough, since the
index grows by one at each iteration and the loop stops at 48. -/
def skipSpace (name : Fin 49 → Nat) : Nat → Nat → Nat
  | 0, firstNonSpace => firstNonSpace
  | fuel + 1, firstNonSpace =>
    if firstNonSpace < 48 ∧ isspace (charAt name firstNonSpace) = true then
      skipSpace name fuel (firstNonSpace + 1)
    else firstNonSpace

/-- `getExtendedIdentity`: the processor name string of leaves
`0x80000002..0x80000004`. -/
def getExtendedIdentity (id : Identity) (w : World) : Option (Identity × World) := do
  let id := { id with hasExtendedName := false }
  let (s2, w) ← checkExtendedLevelSupport id 0x80000002 w
  if !s2 then some (id, w) else
  let (s3, w) ← checkExtendedLevelSupport id 0x80000003 w
  if !s3 then some (id, w) else
  let (s4, w) ← checkExtendedLevelSupport id 0x80000004 w
  if !s4 then some (id, w) else
  let (r2, w) ← CPUID 0x80000002 w
  let name := storeU32 id.extendedName 0 r2.eax
  let name := storeU32 name 4 r2.ebx
  let name := storeU32 name 8 r2.ecx
  let name := storeU32 name 12 r2.edx
  let (r3, w) ← CPUID 0x80000003 w
  let name := storeU32 name 16 r3.eax
  let name := storeU32 name 20 r3.ebx
  let name := storeU32 name 24 r3.ecx
  let name := storeU32 name 28 r3.edx
  let (r4, w) ← CPUID 0x80000004 w
  let name := storeU32 name 32 r4.eax
  let name := storeU32 name 36 r4.ebx
  let name := storeU32 name 40 r4.ecx
  let name := storeU32 name 44 r4.edx
  let name := storeByte name 48 0
  let firstNonSpace := skipSpace name 48 0
  some ({ id with extendedName := name, hasExtendedName := true,
                  firstNonSpace := firstNonSpace }, w)

/-! ## Features -/

/-- `CPUInfo::Features`. -/
structure Features where
  fpu : Bool
  vme : Bool
  de : Bool
  pse : Bool
  tsc : Bool
  msr : Bool
  pae : Bool
  mce : Bool
  cx8 : Bool
  apic : Bool
  sep : Bool
  mtrr : Bool
  pge : Bool
  mca : Bool
  cmov : Bool
  pat : Bool
  pse36 : Bool
  serial : Bool
  clfsh : Bool
  ds : Bool
  acpi : Bool
  mmx : Bool
  fxsr : Bool
  sse : Bool
  sse2 : Bool
  ss : Bool
  htt : Bool
  thermal : Bool
  ia64 : Bool
  pbe : Bool
  ssefp : Bool
  serialNumber : Fin 30 → Nat
  logicalProcessorsPerPhysical : Int
  CLFLUSHCacheLineSize : Int
  APIC_ID : Int
  sse3 : Bool
  monitor : Bool
  ds_cpl : Bool
  est : Bool
  tm2 : Bool
  cnxt_id : Bool
  _3dnow : Bool
  _3dnowPlus : Bool
  ssemmx : Bool
  mmxPlus : Bool
  supportsMP : Bool

/-- `isBitSet(word, bit)`: `(word & (1 << bit)) != 0`, the mask converted to
`unsigned`; for `bit = 31` the shift gives the bit pattern `0x80000000`, as on
every two's complement compiler. -/
def isBitSet (word bit : Nat) : Bool :=
  (u32 word &&& u32 (1 <<< bit)) != 0

/-- `getFeatures`: the feature words of leaf 1. -/
def getFeatures (features : Features) (w : World) : Option (Features × World) := do
  let (r, w) ← CPUID 1 w
  let features_ebx := r.ebx
  let features_ecx := r.ecx
  let features_edx := r.edx
  let features := { features with
    fpu := isBitSet features_edx 0
    vme := isBitSet features_edx 1
    de := isBitSet features_edx 2
    pse := isBitSet features_edx 3
    tsc := isBitSet features_edx 4
    msr := isBitSet features_edx 5
    pae := isBitSet features_edx 6
    mce := isBitSet features_edx 7
    cx8 := isBitSet features_edx 8
    apic := isBitSet features_edx 9
    sep := isBitSet features_edx 11
    mtrr := isBitSet features_edx 12
    pge := isBitSet features_edx 13
    mca := isBitSet features_edx 14
    cmov := isBitSet features_edx 15
    pat := isBitSet features_edx 16
    pse36 := isBitSet features_edx 17
    serial := isBitSet features_edx 18
    clfsh := isBitSet features_edx 19
    ds := isBitSet features_edx 21
    acpi := isBitSet features_edx 22
    mmx := isBitSet features_edx 23
    fxsr := isBitSet features_edx 24
    sse := isBitSet features_edx 25
    sse2 := isBitSet features_edx 26
    ss := isBitSet features_edx 27
    htt := isBitSet features_edx 28
    thermal := isBitSet features_edx 29
    ia64 := isBitSet features_edx 30
    pbe := isBitSet features_edx 31 }
  let (ssefp, w) ← (if features.sse then getSSEFPSupport w else some (false, w))
  let features := { features with ssefp := ssefp }
  let features := { features with
    CLFLUSHCacheLineSize := toInt ((features_ebx >>> 8) &&& 0xFF)
    APIC_ID := toInt ((features_ebx >>> 24) &&& 0xFF) }
  let features := { features with
    sse3 := isBitSet features_ecx 0
    monitor := isBitSet features_ecx 3
    ds_cpl := isBitSet features_ecx 4
    est := isBitSet features_ecx 7
    tm2 := isBitSet features_ecx 8
    cnxt_id := isBitSet features_ecx 10 }
  let features := { features with
    logicalProcessorsPerPhysical :=
      if features.htt then toInt ((features_ebx >>> 16) &&& 0xFF) else 1 }
  some (features, w)

/-- `getExtendedFeatures`: the feature word of leaf `0x80000001`. -/
def getExtendedFeatures (id : Identity) (features : Features) (w : World) :
    Option (Features × World) := do
  let (supported, w) ← checkExtendedLevelSupport id 0x80000001 w
  if supported then
    let (r, w) ← CPUID 0x80000001 w
    let ex_features := r.edx
    let features := { features with
      _3dnow := isBitSet ex_features 31
      _3dnowPlus := isBitSet ex_features 30
      ssemmx := isBitSet ex_features 22
      supportsMP := isBitSet ex_features 19 }
    let features := { features with
      mmxPlus :=
        if id.manufacturer = Manufacturer.AMD then isBitSet ex_features 22
        else if id.manufacturer = Manufacturer.Cyrix then isBitSet ex_features 24
        else false }
    some (features, w)
  else
    some ({ features with
      _3dnow := false
      _3dnowPlus := false
      ssemmx := false
      mmxPlus := false
      supportsMP := false }, w)

/-! ## Cache, power management and the whole record -/

/-- `CPUInfo::Cache`: sizes in KB, negative if not supported. -/
structure Cache where
  L1CacheSize : Int
  L2CacheSize : Int
  L3CacheSize : Int
deriving DecidableEq, Repr

/-- `CPUInfo::PowerManagement`. -/
structure PowerManagement where
  ts : Bool
  fid : Bool
  vid : Bool
  ttp : Bool
  tm : Bool
  stc : Bool
deriving DecidableEq, Repr

/-- The record `struct CPUInfo`. -/
structure CPUInfo where
  supportsCPUID : Bool
  identity : Identity
  features : Features
  cache : Cache
  powerManagement : PowerManagement
  frequency : Int

/-- One lower-case hexadecimal digit, as a character code. -/
def hexDigit (d : Nat) : Nat := if d < 10 then 48 + d else 87 + d

/-- The conversion `%.2x` of an `unsigned char`. -/
def hex2 (b : Nat) : List Nat := [hexDigit (b / 16 % 16), hexDigit (b % 16)]

/-- The text `sprintf` writes for the format
`"%.2x%.2x-%.2x%.2x-%.2x%.2x-%.2x%.2x-%.2x%.2x-%.2x%.2x"`, terminator included. -/
def serialText (s : Nat → Nat) : List Nat :=
  hex2 (s 0) ++ hex2 (s 1) ++ [45] ++ hex2 (s 2) ++ hex2 (s 3) ++ [45] ++
  hex2 (s 4) ++ hex2 (s 5) ++ [45] ++ hex2 (s 6) ++ hex2 (s 7) ++ [45] ++
  hex2 (s 8) ++ hex2 (s 9) ++ [45] ++ hex2 (s 10) ++ hex2 (s 11) ++ [0]

/-- `getSerialNumber`: the assertion, leaf 3, and the formatted text. -/
def getSerialNumber (info : CPUInfo) (w : World) : Option (CPUInfo × World) :=
  if info.features.serial then do
    let (r, w) ← CPUID 3 w
    let serialNumber : Nat → Nat := fun i =>
      if i < 4 then byteLE r.ebx i
      else if i < 8 then byteLE r.ecx (i - 4)
      else byteLE r.edx (i - 8)
    let text := serialText serialNumber
    some ({ info with features :=
              { info.features with serialNumber := fun i => text.getD i.val 0 } }, w)
  else
    none

/-- `getCacheDetails`: the sizes of leaves `0x80000005` and `0x80000006`. -/
def getCacheDetails (id : Identity) (cache : Cache) (w : World) :
    Option (Bool × Cache × World) := do
  let (s5, w) ← checkExtendedLevelSupport id 0x80000005 w
  let (cache, w) ←
    (if s5 then do
      let (L1, w) ← CPUID 0x80000005 w
      let cache := { cache with L1CacheSize := toInt ((L1.ecx >>> 24) &&& 0xFF) }
      let cache := { cache with
        L1CacheSize := cache.L1CacheSize + toInt ((L1.edx >>> 24) &&& 0xFF) }
      some (cache, w)
    else some ({ cache with L1CacheSize := -1 }, w))
  let (s6, w) ← checkExtendedLevelSupport id 0x80000006 w
  let (cache, w) ←
    (if s6 then do
      let (L2, w) ← CPUID 0x80000006 w
      some ({ cache with L2CacheSize := toInt ((L2.ecx >>> 16) &&& 0xFFFF) }, w)
    else some ({ cache with L2CacheSize := -1 }, w))
  let cache := { cache with L3CacheSize := -1 }
  some (cache.L1CacheSize != -1 || cache.L2CacheSize != -1, cache, w)

/-- The local variables of `getClassicalCacheDetails`. -/
structure Descriptors where
  L1Code : Int
  L1Data : Int
  L1Trace : Int
  L2Unified : Int
  L3Unified : Int
deriving DecidableEq, Repr

/-- The `switch` over one descriptor byte. -/
def processDescriptor (d : Descriptors) (b : Nat) : Descriptors :=
  if b = 0x00 then d
  else if b = 0x06 then { d with L1Code := 8 }
  else if b = 0x08 then { d with L1Code := 16 }
  else if b = 0x0a then { d with L1Data := 8 }
  else if b = 0x0c then { d with L1Data := 16 }
  else if b = 0x10 then { d with L1Data := 16 }
  else if b = 0x15 then { d with L1Code := 16 }
  else if b = 0x1a then { d with L2Unified := 96 }
  else if b = 0x22 then { d with L3Unified := 512 }
  else if b = 0x23 then { d with L3Unified := 1024 }
  else if b = 0x25 then { d with L3Unified := 2048 }
  else if b = 0x29 then { d with L3Unified := 4096 }
  else if b = 0x39 then { d with L2Unified := 128 }
  else if b = 0x3c then { d with L2Unified := 256 }
  else if b = 0x40 then { d with L2Unified := 0 }
  else if b = 0x41 then { d with L2Unified := 128 }
  else if b = 0x42 then { d with L2Unified := 256 }
  else if b = 0x43 then { d with L2Unified := 512 }
  else if b = 0x44 then { d with L2Unified := 1024 }
  else if b = 0x45 then { d with L2Unified := 2048 }
  else if b = 0x66 then { d with L1Data := 8 }
  else if b = 0x67 then { d with L1Data := 16 }
  else if b = 0x68 then { d with L1Data := 32 }
  else if b = 0x70 then { d with L1Trace := 12 }
  else if b = 0x71 then { d with L1Trace := 16 }
  else if b = 0x72 then { d with L1Trace := 32 }
  else if b = 0x77 then { d with L1Code := 16 }
  else if b = 0x79 then { d with L2Unified := 128 }
  else if b = 0x7a then { d with L2Unified := 256 }
  else if b = 0x7b then { d with L2Unified := 512 }
  else if b = 0x7c then { d with L2Unified := 1024 }
  else if b = 0x7e then { d with L2Unified := 256 }
  else if b = 0x81 then { d with L2Unified := 128 }
  else if b = 0x82 then { d with L2Unified := 256 }
  else if b = 0x83 then { d with L2Unified := 512 }
  else if b = 0x84 then { d with L2Unified := 1024 }
  else if b = 0x85 then { d with L2Unified := 2048 }
  else if b = 0x88 then { d with L3Unified := 2048 }
  else if b = 0x89 then { d with L3Unified := 4096 }
  else if b = 0x8a then { d with L3Unified := 8192 }
  else if b = 0x8d then { d with L3Unified := 3096 }
  else d

/-- The byte `cacheData[i]` of the 16 bytes written by `CPUID(2, ...)`. -/
def cacheData (r : Regs) (i : Nat) : Nat :=
  if i < 4 then byteLE r.eax i
  else if i < 8 then byteLE r.ebx (i - 4)
  else if i < 12 then byteLE r.ecx (i - 8)
  else byteLE r.edx (i - 12)

/-- The `do ... while (passCounter < passTotal)` loop of
`getClassicalCacheDetails`. `passCounter` is the value at the top of the body;
the fuel is the number of further passes allowed after this one. -/
def classicalPasses : Nat → Nat → Descriptors → World → Option (Descriptors × World)
  | fuel, passCounter, d, w =>
    match CPUID 2 w with
    | none => none
    | some (r, w) =>
      let passTotal := cacheData r 0
      let d := (List.range' 1 15).foldl (fun d counter => processDescriptor d (cacheData r counter)) d
      let passCounter := passCounter + 1
      if passCounter < passTotal then
        match fuel with
        | 0 => none
        | fuel + 1 => classicalPasses fuel passCounter d w
      else some (d, w)

/-- `getClassicalCacheDetails`: the descriptor bytes of leaf 2. The count read
from `cacheData[0]` is at most 255, so the loop makes at most 255 passes and
254 further passes after the first are always enough fuel. -/
def getClassicalCacheDetails (cache : Cache) (w : World) : Option (Cache × World) := do
  let (d, w) ← classicalPasses 254 0
    { L1Code := -1, L1Data := -1, L1Trace := -1, L2Unified := -1, L3Unified := -1 } w
  let cache :=
    if d.L1Code = -1 ∧ d.L1Data = -1 ∧ d.L1Trace = -1 then
      { cache with L1CacheSize := -1 }
    else
      let cache := { cache with L1CacheSize := 0 }
      let cache := if d.L1Code ≠ -1 then
        { cache with L1CacheSize := cache.L1CacheSize + d.L1Code } else cache
      let cache := if d.L1Data ≠ -1 then
        { cache with L1CacheSize := cache.L1CacheSize + d.L1Data } else cache
      let cache := if d.L1Trace ≠ -1 then
        { cache with L1CacheSize := cache.L1CacheSize + d.L1Trace } else cache
      cache
  let cache := { cache with L2CacheSize := d.L2Unified }
  let cache := { cache with L3CacheSize := d.L3Unified }
  some (cache, w)

/-- `getPowerManagement`: the flags of leaf `0x80000007`. -/
def getPowerManagement (id : Identity) (pm : PowerManagement) (w : World) :
    Option (PowerManagement × World) := do
  let (supported, w) ← checkExtendedLevelSupport id 0x80000007 w
  if supported then
    let (r, w) ← CPUID 0x80000007 w
    let pmflags := r.edx
    some ({ pm with
      ts := isBitSet pmflags 0
      fid := isBitSet pmflags 1
      vid := isBitSet pmflags 2
      ttp := isBitSet pmflags 3
      tm := isBitSet pmflags 4
      stc := isBitSet pmflags 5 }, w)
  else
    some ({ pm with ts := false, fid := false, vid := false,
                    ttp := false, tm := false, stc := false }, w)

/-! ## Frequency -/

/-- `getHPFrequency`: the tick frequency of the wall clock, the constant of
the `gettimeofday` build. -/
def getHPFrequency : Nat := 1000000

/-- `getHPCounter`: one sample of the wall clock. -/
def getHPCounter (w : World) : Nat × World :=
  (u64 (w.hw.hpCounter (w.trace.count Event.hpCounter)), w.log Event.hpCounter)

/-- `RDTSC`: one sample of the cycle counter. -/
def RDTSC (w : World) : Nat × World :=
  (u64 (w.hw.tsc (w.trace.count Event.rdtsc)), w.log Event.rdtsc)

/-- `classicalTimingLoop`: the `bsf` loop; it only takes time. -/
def classicalTimingLoop (loopLength : Nat) (w : World) : World :=
  w.log (Event.timingLoop loopLength)

/-- The loop `do { endPC = getHPCounter(); } while ((endPC - startPC) < ticks)`.
The fuel is the number of samples the loop may take; `none` when none of
them ends the wait. -/
def busyWait (startPC ticks : Nat) : Nat → World → Option (Nat × World)
  | 0, _ => none
  | fuel + 1, w =>
    let (endPC, w) := getHPCounter w
    if u64 (endPC + 2 ^ 64 - startPC) < ticks then busyWait startPC ticks fuel w
    else some (endPC, w)

/-- `measureFrequency(duration)`: cycle counter against wall clock, in 64-bit
unsigned arithmetic; the division by `elapsedPC` faults when it is zero. -/
def measureFrequency (fuel : Nat) (duration : Nat) (w : World) : Option (Int × World) := do
  let frequencyPC := getHPFrequency
  let ticks := u64 (u32 duration * frequencyPC) / 1000
  let (startPC, w) := getHPCounter w
  let (startTSC, w) := RDTSC w
  let (endPC, w) ← busyWait startPC ticks fuel w
  let (endTSC, w) := RDTSC w
  let elapsedPC := u64 (endPC + 2 ^ 64 - startPC)
  let elapsedTSC := u64 (endTSC + 2 ^ 64 - startTSC)
  if elapsedPC = 0 then none
  else some (toInt (u64 (elapsedTSC * frequencyPC) / elapsedPC / 1000000), w)

/-- `getFrequency`: a window of 50 milliseconds. -/
def getFrequency (fuel : Nat) (w : World) : Option (Int × World) :=
  measureFrequency fuel 50 w

/-- The constant `LOOP_LENGTH` of `getClassicalFrequency`. -/
def LOOP_LENGTH : Nat := 10000000

/-- Rounding of a rational to the nearest integer, ties to the even one. -/
def roundHalfEven (q : ℚ) : Int :=
  let f := ⌊q⌋
  let d := q - f
  if d < 1 / 2 then f
  else if 1 / 2 < d then f + 1
  else if f % 2 = 0 then f else f + 1

/-- The number of halvings that bring `n` below 2 (for `fuel ≥ n`, the
position of the leading binary digit of `n`). -/
def log2Fuel : Nat → Nat → Nat
  | 0, _ => 0
  | fuel + 1, n => if n < 2 then 0 else log2Fuel fuel (n / 2) + 1

/-- The binary exponent of a nonzero rational: the integer `k` with
`2^k ≤ |q| < 2^(k+1)`. -/
def binaryExponent (q : ℚ) : Int :=
  let e0 : Int := (log2Fuel q.num.natAbs q.num.natAbs : Int) - (log2Fuel q.den q.den : Int)
  if (2 : ℚ) ^ e0 ≤ |q| then e0 else e0 - 1

/-- The number with `p` significant bits nearest to `q`: round to nearest,
ties to even. The exponent range is not bounded: the values met in
`getClassicalFrequency`, quotients of numbers below `2^64`, are far inside the
range of `double`. -/
def roundTo (p : Nat) (q : ℚ) : ℚ :=
  if q = 0 then 0
  else
    let e := binaryExponent q - ((p - 1 : Nat) : Int)
    roundHalfEven (q / 2 ^ e) * 2 ^ e

/-- The result of one `double` operation whose exact value is `q`. -/
def roundStep (s : FloatStep) (q : ℚ) : ℚ :=
  match s with
  | FloatStep.extended => roundTo 64 q
  | FloatStep.stored => roundTo 53 (roundTo 64 q)
  | FloatStep.double => roundTo 53 q

/-- Division of two `double`s, evaluated as `s` says. With a zero divisor the
source gets an infinity or a NaN, whose conversion to `int` is undefined:
outside the model. -/
def fdiv (s : FloatStep) (a b : ℚ) : Option ℚ :=
  if b = 0 then none else some (roundStep s (a / b))

/-- The conversion `int(x)` of a `double`: truncation toward zero, undefined
outside the range of `int`. -/
def truncToInt (q : ℚ) : Option Int :=
  let t := Int.tdiv q.num q.den
  if -2 ^ 31 ≤ t ∧ t < 2 ^ 31 then some t else none

/-- `getClassicalFrequency`: time the fixed loop and scale by the known cycle
cost of the family. The `double` operations are, in order: the conversions of
the two 64-bit counts (0 and 1), the quotient `duration` (2), the quotient by
`duration` (3) and the quotient by 1000000 (4); each is evaluated as the
machine's `floatStep` says. The products `LOOP_LENGTH * 115.0`,
`LOOP_LENGTH * 47.0` and `LOOP_LENGTH * 43.0` are exact. -/
def getClassicalFrequency (info : CPUInfo) (w : World) : Option (Int × World) :=
  let (start, w) := getHPCounter w
  let w := classicalTimingLoop LOOP_LENGTH w
  let (stop, w) := getHPCounter w
  let countsPerSecond := getHPFrequency
  let step := w.hw.floatStep
  let duration : Option ℚ :=
    fdiv (step 2) (roundStep (step 0) (u64 (stop + 2 ^ 64 - start) : Nat))
      (roundStep (step 1) (countsPerSecond : Nat))
  if info.identity.family = 3 then do
    let x ← fdiv (step 3) ((LOOP_LENGTH : ℚ) * 115) (← duration)
    let y ← fdiv (step 4) x 1000000
    some (← truncToInt y, w)
  else if info.identity.family = 4 then do
    let x ← fdiv (step 3) ((LOOP_LENGTH : ℚ) * 47) (← duration)
    let y ← fdiv (step 4) x 1000000
    some (← truncToInt y, w)
  else if info.identity.family = 5 then do
    let x ← fdiv (step 3) ((LOOP_LENGTH : ℚ) * 43) (← duration)
    let y ← fdiv (step 4) x 1000000
    some (← truncToInt y, w)
  else
    some (0, w)

/-- `getCPUFrequency`: by the cycle counter when there is one. -/
def getCPUFrequency (fuel : Nat) (info : CPUInfo) (w : World) : Option (Int × World) :=
  if info.features.tsc then getFrequency fuel w
  else getClassicalFrequency info w

/-! ## The detection pass -/

/-- `getCPUInfo`: fill `info` for the current processor. `fuel` bounds the
busy wait of the frequency measurement. -/
def getCPUInfo (fuel : Nat) (info : CPUInfo) (w : World) : Option (CPUInfo × World) := do
  let (supportsCPUID, w) ← getCPUIDSupport w
  let info := { info with supportsCPUID := supportsCPUID }
  if info.supportsCPUID then
    let (identity, w) ← getIdentity info.identity w
    let info := { info with identity := identity }
    let (identity, w) ← getExtendedIdentity info.identity w
    let info := { info with identity := identity }
    let (features, w) ← getFeatures info.features w
    let info := { info with features := features }
    let (features, w) ← getExtendedFeatures info.identity info.features w
    let info := { info with features := features }
    let (info, w) ← (if info.features.serial then getSerialNumber info w else some (info, w))
    let (found, cache, w) ← getCacheDetails info.identity info.cache w
    let info := { info with cache := cache }
    let (cache, w) ←
      (if !found then getClassicalCacheDetails info.cache w else some (info.cache, w))
    let info := { info with cache := cache }
    let (powerManagement, w) ← getPowerManagement info.identity info.powerManagement w
    let info := { info with powerManagement := powerManagement }
    let (frequency, w) ← getCPUFrequency fuel info w
    some ({ info with frequency := frequency }, w)
  else
    some (info, w)

/-! ## Vocabulary of the statements -/

/-- The 32-bit register value whose little-endian bytes are the first four
elements of `l`. -/
def leU32 (l : List Nat) : Nat :=
  l.getD 0 0 + 256 * l.getD 1 0 + 65536 * l.getD 2 0 + 16777216 * l.getD 3 0

/-- Register number `k` of a `cpuid` answer, in the order EAX, EBX, ECX, EDX. -/
def Regs.word (r : Regs) (k : Nat) : Nat :=
  if k = 0 then r.eax else if k = 1 then r.ebx else if k = 2 then r.ecx else r.edx

/-- The world `w'` is the world `w` after further hardware events, each of
them one of `allowed`, with the same machine and the same signal handlers. -/
def World.Reaches (w w' : World) (allowed : List Event) : Prop :=
  w'.hw = w.hw ∧ w'.sigILL = w.sigILL ∧ w'.sigSEGV = w.sigSEGV ∧
  ∃ es : List Event, w'.trace = w.trace ++ es ∧ ∀ e ∈ es, e ∈ allowed

/-- Leaf `level` is eligible under `checkExtendedLevelSupport`: the call made
in world `w` returns `true`. -/
def eligible (id : Identity) (level : Nat) (w : World) : Prop :=
  ∃ w', checkExtendedLevelSupport id level w = some (true, w')

/-- The 36 flags that `getFeatures` reads from the feature words of leaf 1,
in the order in which `CPUInfo::Features` declares them. -/
def Features.leaf1Flags (f : Features) : List Bool :=
  [f.fpu, f.vme, f.de, f.pse, f.tsc, f.msr, f.pae, f.mce, f.cx8, f.apic, f.sep, f.mtrr,
   f.pge, f.mca, f.cmov, f.pat, f.pse36, f.serial, f.clfsh, f.ds, f.acpi, f.mmx, f.fxsr,
   f.sse, f.sse2, f.ss, f.htt, f.thermal, f.ia64, f.pbe,
   f.sse3, f.monitor, f.ds_cpl, f.est, f.tm2, f.cnxt_id]

/-- The hardware events of the decoding phases of `getCPUInfo`, the ones that
come before the frequency measurement: the two probes and the `cpuid` queries. -/
def decodingEvents : List Event :=
  [Event.probeCPUID, Event.probeSSEFP, Event.cpuid 0, Event.cpuid 1, Event.cpuid 2,
   Event.cpuid 3, Event.cpuid 0x80000000, Event.cpuid 0x80000001, Event.cpuid 0x80000002,
   Event.cpuid 0x80000003, Event.cpuid 0x80000004, Event.cpuid 0x80000005,
   Event.cpuid 0x80000006, Event.cpuid 0x80000007]

/-! ## Example machines -/

/-- A record with every field zero. -/
def blankInfo : CPUInfo where
  supportsCPUID := false
  identity :=
    { manufacturer := Manufacturer.AMD, type := 0, family := 0, model := 0, stepping := 0,
      vendor := fun _ => 0, brand := 0, hasExtendedName := false, firstNonSpace := 0,
      extendedName := fun _ => 0 }
  features :=
    { fpu := false, vme := false, de := false, pse := false, tsc := false, msr := false,
      pae := false, mce := false, cx8 := false, apic := false, sep := false, mtrr := false,
      pge := false, mca := false, cmov := false, pat := false, pse36 := false,
      serial := false, clfsh := false, ds := false, acpi := false, mmx := false,
      fxsr := false, sse := false, sse2 := false, ss := false, htt := false,
      thermal := false, ia64 := false, pbe := false, ssefp := false,
      serialNumber := fun _ => 0, logicalProcessorsPerPhysical := 0,
      CLFLUSHCacheLineSize := 0, APIC_ID := 0, sse3 := false, monitor := false,
      ds_cpl := false, est := false, tm2 := false, cnxt_id := false, _3dnow := false,
      _3dnowPlus := false, ssemmx := false, mmxPlus := false, supportsMP := false }
  cache := { L1CacheSize := 0, L2CacheSize := 0, L3CacheSize := 0 }
  powerManagement :=
    { ts := false, fid := false, vid := false, ttp := false, tm := false, stc := false }
  frequency := 0

/-- The name string of the example Pentium 4, 47 characters. -/
def pentium4Name : List Nat := literal "              Intel(R) Pentium(R) 4 CPU 2.40GHz"

/-- A Pentium 4: family 15, hyper-threading, extended leaves up to
`0x80000004`, a microsecond wall clock. -/
def pentium4 : Hardware where
  cpuidInstr := ProbeOutcome.executes
  orpsInstr := ProbeOutcome.executes
  cpuid := fun level k =>
    if level = 0 then
      { eax := 2, ebx := leU32 (literal "Genu"), ecx := leU32 (literal "ntel"),
        edx := leU32 (literal "ineI") }
    else if level = 1 then
      { eax := 0x00000F29, ebx := 0x00020809, ecx := 0x0000041D, edx := 0xBFEBFBFF }
    else if level = 2 then
      if k = 0 then { eax := 0x665B5001, ebx := 0, ecx := 0, edx := 0x007A7040 }
      else { eax := 0, ebx := 0, ecx := 0, edx := 0 }
    else if level = 0x80000000 then
      { eax := 0x80000004, ebx := 0, ecx := 0, edx := 0 }
    else if 0x80000002 ≤ level ∧ level ≤ 0x80000004 then
      let part := pentium4Name.drop (16 * (level - 0x80000002))
      { eax := leU32 part, ebx := leU32 (part.drop 4), ecx := leU32 (part.drop 8),
        edx := leU32 (part.drop 12) }
    else { eax := 0, ebx := 0, ecx := 0, edx := 0 }
  hpCounter := fun k => 1000 + 60000 * k
  tsc := fun k => 5000 + 144000000 * k

/-- The example Pentium 4 at the start of a process. -/
def pentium4World : World :=
  { hw := pentium4, sigILL := SignalHandler.other 0, sigSEGV := SignalHandler.other 0,
    trace := [] }

/-- A National Semiconductor Geode: family 5, no APIC, no CLFLUSH, extended
leaves up to `0x80000005`. -/
def geode : Hardware where
  cpuidInstr := ProbeOutcome.executes
  orpsInstr := ProbeOutcome.illegalInstruction
  cpuid := fun level _ =>
    if level = 0 then
      { eax := 2, ebx := leU32 (literal "Geod"), ecx := leU32 (literal " NSC"),
        edx := leU32 (literal "e By") }
    else if level = 1 then
      { eax := 0x00000540, ebx := 0x05000800, ecx := 0, edx := 0x00808131 }
    else if level = 2 then
      { eax := 0x00000001, ebx := 0, ecx := 0, edx := 0 }
    else if level = 0x80000000 then
      { eax := 0x80000005, ebx := 0, ecx := 0, edx := 0 }
    else if level = 0x80000005 then
      { eax := 0, ebx := 0, ecx := 0x10000000, edx := 0x10000000 }
    else { eax := 0, ebx := 0, ecx := 0, edx := 0 }
  hpCounter := fun k => 1000 + 60000 * k
  tsc := fun k => 5000 + 18000000 * k

/-- The example Geode at the start of a process. -/
def geodeWorld : World :=
  { hw := geode, sigILL := SignalHandler.other 0, sigSEGV := SignalHandler.other 0,
    trace := [] }

/-- The identity of the example Pentium 4 as `getIdentity` decodes it. -/
def pentium4Identity : Identity :=
  { blankInfo.identity with
    manufacturer := Manufacturer.Intel, family := 15, model := 2, stepping := 9, brand := 9 }

/-- The identity of the example Geode as `getIdentity` decodes it. -/
def geodeIdentity : Identity :=
  { blankInfo.identity with manufacturer := Manufacturer.NSC, family := 5, model := 4 }

/-- An Athlon MP: AMD, family 6, model 6, extended leaves up to `0x80000007`,
64 KB + 64 KB of L1 cache and 256 KB of L2 cache. -/
def athlon : Hardware where
  cpuidInstr := ProbeOutcome.executes
  orpsInstr := ProbeOutcome.executes
  cpuid := fun level _ =>
    if level = 0 then
      { eax := 1, ebx := leU32 (literal "Auth"), ecx := leU32 (literal "cAMD"),
        edx := leU32 (literal "enti") }
    else if level = 1 then
      { eax := 0x00000662, ebx := 0, ecx := 0, edx := 0x0383FBFF }
    else if level = 0x80000000 then
      { eax := 0x80000007, ebx := 0, ecx := 0, edx := 0 }
    else if level = 0x80000001 then
      { eax := 0x00000762, ebx := 0, ecx := 0, edx := 0xC1CBFBFF }
    else if level = 0x80000005 then
      { eax := 0, ebx := 0, ecx := 0x40020140, edx := 0x40020140 }
    else if level = 0x80000006 then
      { eax := 0, ebx := 0, ecx := 0x01004140, edx := 0 }
    else if level = 0x80000007 then
      { eax := 0, ebx := 0, ecx := 0, edx := 0x00000001 }
    else { eax := 0, ebx := 0, ecx := 0, edx := 0 }
  hpCounter := fun k => 1000 + 60000 * k
  tsc := fun k => 5000 + 96000000 * k

/-- The example Athlon MP at the start of a process. -/
def athlonWorld : World :=
  { hw := athlon, sigILL := SignalHandler.other 0, sigSEGV := SignalHandler.other 0,
    trace := [] }

/-- The identity of the example Athlon MP as `getIdentity` decodes it. -/
def athlonIdentity : Identity :=
  { blankInfo.identity with
    manufacturer := Manufacturer.AMD, family := 6, model := 6, stepping := 2 }

/-! ## Vocabulary of the leaf-2 descriptors -/

/-- The registers as `CPUID` hands them to its caller: truncated to 32 bits. -/
def Regs.trunc (r : Regs) : Regs :=
  { eax := u32 r.eax, ebx := u32 r.ebx, ecx := u32 r.ecx, edx := u32 r.edx }

/-- The count byte `cacheData[0]` of the leaf-2 result number `i` of the machine. -/
def passTotalAt (hw : Hardware) (i : Nat) : Nat := cacheData (hw.cpuid 2 i).trunc 0

/-- The descriptor bytes `cacheData[1..15]` of `k` successive leaf-2 results,
starting with result number `c`, in the order in which the loop reads them. -/
def descriptorBytes (hw : Hardware) : Nat → Nat → List Nat
  | _, 0 => []
  | c, k + 1 =>
    (List.range' 1 15).map (cacheData (hw.cpuid 2 c).trunc) ++ descriptorBytes hw (c + 1) k

/-- The sub-caches that the descriptor table distinguishes. -/
inductive CacheKind where
  | code
  | data
  | trace
  | L2
  | L3
deriving DecidableEq, Repr

/-- The descriptor table of the `switch` as a list: descriptor byte, the
sub-cache it describes, its size in KB. The case `0x00` describes nothing. -/
def descriptorTable : List (Nat × CacheKind × Int) :=
  [(0x06, CacheKind.code, 8), (0x08, CacheKind.code, 16), (0x0a, CacheKind.data, 8),
   (0x0c, CacheKind.data, 16), (0x10, CacheKind.data, 16), (0x15, CacheKind.code, 16),
   (0x1a, CacheKind.L2, 96), (0x22, CacheKind.L3, 512), (0x23, CacheKind.L3, 1024),
   (0x25, CacheKind.L3, 2048), (0x29, CacheKind.L3, 4096), (0x39, CacheKind.L2, 128),
   (0x3c, CacheKind.L2, 256), (0x40, CacheKind.L2, 0), (0x41, CacheKind.L2, 128),
   (0x42, CacheKind.L2, 256), (0x43, CacheKind.L2, 512), (0x44, CacheKind.L2, 1024),
   (0x45, CacheKind.L2, 2048), (0x66, CacheKind.data, 8), (0x67, CacheKind.data, 16),
   (0x68, CacheKind.data, 32), (0x70, CacheKind.trace, 12), (0x71, CacheKind.trace, 16),
   (0x72, CacheKind.trace, 32), (0x77, CacheKind.code, 16), (0x79, CacheKind.L2, 128),
   (0x7a, CacheKind.L2, 256), (0x7b, CacheKind.L2, 512), (0x7c, CacheKind.L2, 1024),
   (0x7e, CacheKind.L2, 256), (0x81, CacheKind.L2, 128), (0x82, CacheKind.L2, 256),
   (0x83, CacheKind.L2, 512), (0x84, CacheKind.L2, 1024), (0x85, CacheKind.L2, 2048),
   (0x88, CacheKind.L3, 2048), (0x89, CacheKind.L3, 4096), (0x8a, CacheKind.L3, 8192),
   (0x8d, CacheKind.L3, 3096)]

/-- The byte `b` is a case label of the `switch`. -/
def isDescriptorCase (b : Nat) : Bool :=
  b == 0x00 || descriptorTable.any (fun e => e.1 == b)

/-- The size that the descriptor byte `b` gives for the sub-cache `kind`, when
`b` is a descriptor of that sub-cache. -/
def observedSize (kind : CacheKind) (b : Nat) : Option Int :=
  (descriptorTable.find? (fun e => e.1 == b && e.2.1 == kind)).map (fun e => e.2.2)

/-- The size given by the last descriptor of sub-cache `kind` among `bytes`,
when there is one. -/
def lastObserved (kind : CacheKind) (bytes : List Nat) : Option Int :=
  (bytes.filterMap (observedSize kind)).getLast?

/-- A machine whose leaf 2 answers the successive `results` (and zeros after
them), and whose other leaves are all zero. -/
def descriptorMachine (results : List Regs) : Hardware where
  cpuidInstr := ProbeOutcome.executes
  orpsInstr := ProbeOutcome.executes
  cpuid := fun level k =>
    if level = 2 then results.getD k { eax := 0, ebx := 0, ecx := 0, edx := 0 }
    else { eax := 0, ebx := 0, ecx := 0, edx := 0 }
  hpCounter := fun k => 1000 + 60000 * k
  tsc := fun k => 5000 + 96000000 * k

/-- The machine `descriptorMachine results` at the start of a process. -/
def descriptorWorld (results : List Regs) : World :=
  { hw := descriptorMachine results, sigILL := SignalHandler.other 0,
    sigSEGV := SignalHandler.other 0, trace := [] }

/-- The L1 size computed from the three sub-caches: the sum of the sizes of
those that were observed, or -1 when none of them was. -/
def sumObserved (code data trace : Option Int) : Int :=
  if code = none ∧ data = none ∧ trace = none then -1
  else code.getD 0 + data.getD 0 + trace.getD 0

/-- A machine whose only leaf-2 result carries the descriptors `0x06`, `0x3c`
and the byte `0x99`, which is not in the descriptor table. -/
def unknownByteWorld : World :=
  descriptorWorld [{ eax := 0x993c0601, ebx := 0, ecx := 0, edx := 0 }]

/-- The machine of `unknownByteWorld` with the byte `0x99` replaced by `0x00`. -/
def clearedByteWorld : World :=
  descriptorWorld [{ eax := 0x003c0601, ebx := 0, ecx := 0, edx := 0 }]

/-- A machine whose first leaf-2 result announces 3 passes and whose second
announces 1. -/
def staleCountWorld : World :=
  descriptorWorld [{ eax := 0x00000003, ebx := 0, ecx := 0, edx := 0 },
                   { eax := 0x00000001, ebx := 0, ecx := 0, edx := 0 }]

/-- A machine whose every leaf-2 result announces 2 passes. -/
def twoPassWorld : World :=
  descriptorWorld [{ eax := 0x00000602, ebx := 0, ecx := 0, edx := 0 },
                   { eax := 0x003c0002, ebx := 0, ecx := 0, edx := 0 }]

/-- The hardware events of a detection pass other than the queries of leaf 2:
the probes, the other `cpuid` queries, and the clock reads and timing loop of
the frequency measurement. -/
def eventsExceptLeaf2 : List Event :=
  [Event.probeCPUID, Event.probeSSEFP, Event.cpuid 0, Event.cpuid 1, Event.cpuid 3,
   Event.cpuid 0x80000000, Event.cpuid 0x80000001, Event.cpuid 0x80000002,
   Event.cpuid 0x80000003, Event.cpuid 0x80000004, Event.cpuid 0x80000005,
   Event.cpuid 0x80000006, Event.cpuid 0x80000007, Event.hpCounter, Event.rdtsc,
   Event.timingLoop LOOP_LENGTH]

/-- The wall-clock delta, in 64-bit unsigned arithmetic, between the next
sample of the wall clock taken in world `w` and the sample taken `i` reads
after it (`endPC - startPC` when the wait of `measureFrequency` ends at
that sample). -/
def pcDelta (w : World) (i : Nat) : Nat :=
  u64 (u64 (w.hw.hpCounter (w.trace.count Event.hpCounter + i)) + 2 ^ 64 -
    u64 (w.hw.hpCounter (w.trace.count Event.hpCounter)))

/-- The cycle delta, in 64-bit unsigned arithmetic, between the next two
samples of the cycle counter taken in world `w` (`endTSC - startTSC` of
`measureFrequency`). -/
def tscDelta (w : World) : Nat :=
  u64 (u64 (w.hw.tsc (w.trace.count Event.rdtsc + 1)) + 2 ^ 64 -
    u64 (w.hw.tsc (w.trace.count Event.rdtsc)))

/-- The number of wall-clock ticks `measureFrequency(duration)` waits for
(`duration * frequencyPC / 1000`). -/
def waitTicks (duration : Nat) : Nat :=
  u64 (u32 duration * getHPFrequency) / 1000

/-- The probe of an instruction with outcome `o` returns in the world `w`: the
instruction executes, or the signal of its fault is not blocked. -/
def World.survives (w : World) (o : ProbeOutcome) : Bool :=
  match o with
  | ProbeOutcome.executes => true
  | ProbeOutcome.illegalInstruction => !w.blockedILL
  | ProbeOutcome.protectionFault => !w.blockedSEGV

/-- The world a probe that returned leaves behind: the event `e` of the probe
is logged, and the signal of a caught fault is blocked. -/
def World.afterProbe (w : World) (o : ProbeOutcome) (e : Event) : World :=
  match o with
  | ProbeOutcome.executes => w.log e
  | ProbeOutcome.illegalInstruction => { w.log e with blockedILL := true }
  | ProbeOutcome.protectionFault => { w.log e with blockedSEGV := true }

/-- The world `w` with the given signals blocked. -/
def World.withBlocked (w : World) (ill segv : Bool) : World :=
  { w with blockedILL := ill, blockedSEGV := segv }

/-- A machine whose wall clock does not advance between the reads of one
measurement. -/
def stoppedClock : Hardware where
  cpuidInstr := ProbeOutcome.executes
  orpsInstr := ProbeOutcome.executes
  cpuid := fun _ _ => { eax := 0, ebx := 0, ecx := 0, edx := 0 }
  hpCounter := fun _ => 5
  tsc := fun k => 1000 * k

/-- The machine `stoppedClock` at the start of a process. -/
def stoppedClockWorld : World :=
  { hw := stoppedClock, sigILL := SignalHandler.other 0, sigSEGV := SignalHandler.other 0,
    trace := [] }

/-- An 80386: the `cpuid` instruction raises an illegal-instruction fault. -/
def i386 : Hardware where
  cpuidInstr := ProbeOutcome.illegalInstruction
  orpsInstr := ProbeOutcome.illegalInstruction
  cpuid := fun _ _ => { eax := 0, ebx := 0, ecx := 0, edx := 0 }
  hpCounter := fun k => 1000 + 60000 * k
  tsc := fun _ => 0

/-- The example 80386 at the start of a process. -/
def i386World : World :=
  { hw := i386, sigILL := SignalHandler.other 0, sigSEGV := SignalHandler.other 0,
    trace := [] }

/-- A 100 MHz 80486 DX4: family 4, `cpuid` with basic leaves only, no cycle
counter; a microsecond wall clock that advances by 4.7 seconds between two
reads, the time of 10,000,000 iterations of 47 cycles at 100 MHz. -/
def i486 : Hardware where
  cpuidInstr := ProbeOutcome.executes
  orpsInstr := ProbeOutcome.illegalInstruction
  cpuid := fun level _ =>
    if level = 0 then
      { eax := 1, ebx := leU32 (literal "Genu"), ecx := leU32 (literal "ntel"),
        edx := leU32 (literal "ineI") }
    else if level = 1 then
      { eax := 0x00000480, ebx := 0, ecx := 0, edx := 0x00000003 }
    else { eax := 0, ebx := 0, ecx := 0, edx := 0 }
  hpCounter := fun k => 2000 + 4700000 * k
  tsc := fun _ => 0

/-- The example 80486 at the start of a process. -/
def i486World : World :=
  { hw := i486, sigILL := SignalHandler.other 0, sigSEGV := SignalHandler.other 0,
    trace := [] }

/-- A record whose identity says family 4. -/
def i486Info : CPUInfo :=
  { blankInfo with
    identity := { blankInfo.identity with manufacturer := Manufacturer.Intel, family := 4,
                                          model := 8 } }

/-- A machine whose wall clock advances by 1150000 microseconds between two
reads: the time of 10,000,000 iterations of 115 cycles at 1000 MHz. -/
def timerClock : Hardware where
  cpuidInstr := ProbeOutcome.executes
  orpsInstr := ProbeOutcome.executes
  cpuid := fun _ _ => { eax := 0, ebx := 0, ecx := 0, edx := 0 }
  hpCounter := fun k => 1150000 * k
  tsc := fun _ => 0

/-- The machine `timerClock` at the start of a process. -/
def timerClockWorld : World :=
  { hw := timerClock, sigILL := SignalHandler.other 0, sigSEGV := SignalHandler.other 0,
    trace := [] }

/-- A record whose identity says family 3. -/
def i386Info : CPUInfo :=
  { blankInfo with identity := { blankInfo.identity with family := 3 } }

/-- A machine that keeps every `double` operation in the x87 registers and
whose wall clock advances by 4300000 microseconds between two reads: the time
of 10,000,000 iterations of 43 cycles at 100 MHz. -/
def registerPentium : Hardware where
  cpuidInstr := ProbeOutcome.executes
  orpsInstr := ProbeOutcome.executes
  cpuid := fun _ _ => { eax := 0, ebx := 0, ecx := 0, edx := 0 }
  hpCounter := fun k => 4300000 * k
  tsc := fun _ => 0
  floatStep := fun _ => FloatStep.extended

/-- The machine `registerPentium` at the start of a process. -/
def registerPentiumWorld : World :=
  { hw := registerPentium, sigILL := SignalHandler.other 0, sigSEGV := SignalHandler.other 0,
    trace := [] }

/-- A record whose identity says family 5. -/
def pentiumInfo : CPUInfo :=
  { blankInfo with identity := { blankInfo.identity with family := 5 } }

/-- The record `r` returned by a detection pass, with the fields that the pass
leaves unwritten taken from the record `old`: everything but `supportsCPUID`
when CPUID is not supported; otherwise `firstNonSpace` and `extendedName` when
there is no extended name, and `serialNumber` when there is no serial number. -/
def carryOver (old r : CPUInfo) : CPUInfo :=
  if r.supportsCPUID then
    { r with
      identity := { r.identity with
        firstNonSpace :=
          if r.identity.hasExtendedName then r.identity.firstNonSpace
          else old.identity.firstNonSpace
        extendedName :=
          if r.identity.hasExtendedName then r.identity.extendedName
          else old.identity.extendedName }
      features := { r.features with
        serialNumber :=
          if r.features.serial then r.features.serialNumber else old.features.serialNumber } }
  else { old with supportsCPUID := false }

/-- A record that holds data of an earlier use: a first non-space index of 7
and a serial number text of letters `A`. -/
def staleInfo : CPUInfo :=
  { blankInfo with
    identity := { blankInfo.identity with firstNonSpace := 7 }
    features := { blankInfo.features with serialNumber := fun _ => 65 } }

/-! ## The census (`getCPUCount` and `getMultipleCPUInfo` of the `sched_*` build)

The operating system is explicit as well: a `Kernel` says which calls
succeed and which machine each processor is; a `Process` holds the affinity
mask in force, the signal handlers, the system calls made so far and the
hardware events performed so far on each processor. -/

/-- `CPU_SETSIZE` of `<sched.h>`: the number of processors a `cpu_set_t`
can hold (1024 in glibc). -/
def CPU_SETSIZE : Nat := 1024

/-- `CPU_ZERO(&mask)`. A `cpu_set_t` is the number whose bit `i` says that
processor `i` is in the set. -/
def CPU_ZERO : Nat := 0

/-- `CPU_SET(i, &mask)`: nothing happens for an index outside the set size. -/
def CPU_SET (i : Nat) (mask : Nat) : Nat :=
  if i < CPU_SETSIZE then mask ||| (1 <<< i) else mask

/-- `CPU_ISSET(i, &mask)`. -/
def CPU_ISSET (i : Nat) (mask : Nat) : Bool :=
  decide (i < CPU_SETSIZE) && mask.testBit i

/-- System calls, in the order the code performs them. -/
inductive Syscall where
  | getaffinity
  | setaffinity (mask : Nat)
deriving DecidableEq, Repr

/-- What the operating system answers: `getaffinityFails k` says whether the
`sched_getaffinity` call that follows `k` earlier ones returns -1;
`permitted mask` says whether `sched_setaffinity` accepts the mask;
`processor i` is the machine that runs the process once it is bound to
processor `i`. -/
structure Kernel where
  getaffinityFails : Nat → Bool
  permitted : Nat → Bool
  processor : Nat → Hardware

/-- The state of the process that takes the census. -/
structure Process where
  kernel : Kernel
  affinity : Nat
  sigILL : SignalHandler
  sigSEGV : SignalHandler
  calls : List Syscall
  traces : Nat → List Event
  blockedILL : Bool := false
  blockedSEGV : Bool := false

/-- The world the process sees while it runs on processor `i`. -/
def Process.world (p : Process) (i : Nat) : World :=
  { hw := p.kernel.processor i, sigILL := p.sigILL, sigSEGV := p.sigSEGV, trace := p.traces i,
    blockedILL := p.blockedILL, blockedSEGV := p.blockedSEGV }

/-- The process after it has run on processor `i` and left the world `w`. -/
def Process.leave (p : Process) (i : Nat) (w : World) : Process :=
  { p with sigILL := w.sigILL, sigSEGV := w.sigSEGV,
           traces := fun j => if j = i then w.trace else p.traces j,
           blockedILL := w.blockedILL, blockedSEGV := w.blockedSEGV }

/-- `sched_getaffinity(0, sizeof(mask), &mask)`: `none` for the result -1,
otherwise the mask in force. -/
def sched_getaffinity (p : Process) : Option Nat × Process :=
  let fails := p.kernel.getaffinityFails (p.calls.count Syscall.getaffinity)
  let p := { p with calls := p.calls ++ [Syscall.getaffinity] }
  if fails then (none, p) else (some p.affinity, p)

/-- `sched_setaffinity(0, sizeof(mask), &mask)`: `false` for the result -1,
which leaves the affinity as it was. -/
def sched_setaffinity (mask : Nat) (p : Process) : Bool × Process :=
  let p := { p with calls := p.calls ++ [Syscall.setaffinity mask] }
  if p.kernel.permitted mask then (true, { p with affinity := mask }) else (false, p)

/-- `getCPUCount`: the number of processors in the affinity mask, 0 when the
query fails. -/
def getCPUCount (p : Process) : Nat × Process :=
  match sched_getaffinity p with
  | (none, p) => (0, p)
  | (some mask, p) =>
    ((List.range CPU_SETSIZE).foldl
      (fun cpuCount i => if CPU_ISSET i mask then cpuCount + 1 else cpuCount) 0, p)

/-- The body of the loop `for (int i = 0; i < cpuCount; ++i)` of
`getMultipleCPUInfo`, over the indices still to visit. A failed bind
continues with the next index; after a successful one the pass runs on
processor `i` and writes `array[totalQueried]`. An index outside the array is
outside the model. -/
def censusLoop (fuel : Nat) :
    List Nat → Nat → List CPUInfo → Process → Option (Nat × List CPUInfo × Process)
  | [], totalQueried, array, p => some (totalQueried, array, p)
  | i :: rest, totalQueried, array, p =>
    let mask := CPU_SET i CPU_ZERO
    let (res, p) := sched_setaffinity mask p
    if !res then censusLoop fuel rest totalQueried array p
    else do
      let info ← array[totalQueried]?
      let (info, w) ← getCPUInfo fuel info (p.world i)
      let p := p.leave i w
      censusLoop fuel rest (totalQueried + 1) (array.set totalQueried info) p

/-- `getMultipleCPUInfo(array)`: the census over the processors
`0 .. getCPUCount() - 1`, then the restoring call, whose result is ignored. -/
def getMultipleCPUInfo (fuel : Nat) (array : List CPUInfo) (p : Process) :
    Option (Nat × List CPUInfo × Process) :=
  match sched_getaffinity p with
  | (none, p) => some (0, array, p)
  | (some oldMask, p) =>
    let (cpuCount, p) := getCPUCount p
    do
      let (totalQueried, array, p) ← censusLoop fuel (List.range cpuCount) 0 array p
      let (_, p) := sched_setaffinity oldMask p
      some (totalQueried, array, p)

/-- Four Pentium 4 processors; every non-empty set of them is accepted by
`sched_setaffinity`. -/
def fourWay : Kernel where
  getaffinityFails := fun _ => false
  permitted := fun mask => decide (0 < mask ∧ mask < 16)
  processor := fun _ => pentium4

/-- A process on `fourWay` that was started on processors 1 and 3 only
(affinity mask `0b1010`). -/
def restrictedProcess : Process :=
  { kernel := fourWay, affinity := 10, sigILL := SignalHandler.other 0,
    sigSEGV := SignalHandler.other 0, calls := [], traces := fun _ => [] }

/-- Eight Pentium 4 processors, of which only those with an even index accept
a bind; the full mask is accepted. -/
def eightWay : Kernel where
  getaffinityFails := fun _ => false
  permitted := fun mask =>
    decide (mask = 255 ∨ mask = 1 ∨ mask = 4 ∨ mask = 16 ∨ mask = 64)
  processor := fun _ => pentium4

/-- A process on `eightWay` with all eight processors enabled. -/
def eightWayProcess : Process :=
  { kernel := eightWay, affinity := 255, sigILL := SignalHandler.other 0,
    sigSEGV := SignalHandler.other 0, calls := [], traces := fun _ => [] }

/-- A process whose affinity query fails. -/
def blindProcess : Process :=
  { kernel := { fourWay with getaffinityFails := fun _ => true }, affinity := 15,
    sigILL := SignalHandler.other 0, sigSEGV := SignalHandler.other 0, calls := [],
    traces := fun _ => [] }

/-- The processor indices `getMultipleCPUInfo` attempts to bind to, in the
order of the attempts: none when the affinity query fails, otherwise
`0 .. cpuCount - 1` for the value `cpuCount` that `getCPUCount` returns. -/
def censusAttempts (p : Process) : List Nat :=
  match sched_getaffinity p with
  | (none, _) => []
  | (some _, p) => List.range (getCPUCount p).1

/-- The attempted processors whose bind the kernel accepts, in the order of
the attempts. -/
def boundProcessors (p : Process) : List Nat :=
  (censusAttempts p).filter (fun i => p.kernel.permitted (CPU_SET i CPU_ZERO))

/-! ## The names (`getVendorName`, `getProcessorName` and the tables behind them)

A returned string is the list of its bytes, without the terminator. The source
file is UTF-8, so the characters of a literal outside ASCII are written as the
bytes that encode them (`\xc2\xb5` for the micro sign, `\xc2\xae` for the
registered sign, `\xe2\x84\xa2` for the trade mark sign). -/

/-- The string that starts at `buf + off`: the bytes up to the first zero byte.
`none` when the array ends before a zero byte is found, where the read would
leave the array. The fuel bounds the number of bytes read; the length of the
array is always enough. -/
def cString {n : Nat} (buf : Fin n → Nat) : Nat → Nat → Option (List Nat)
  | 0, _ => none
  | fuel + 1, off =>
    if h : off < n then
      if buf ⟨off, h⟩ = 0 then some []
      else (cString buf fuel (off + 1)).map (fun s => buf ⟨off, h⟩ :: s)
    else none

/-- The conversion `%d` of an `int`. -/
def decimal (n : Int) : List Nat :=
  if n < 0 then 45 :: (Nat.toDigits 10 n.natAbs).map Char.toNat
  else (Nat.toDigits 10 n.toNat).map Char.toNat

/-- The 32 bits of an `int` in two's complement, as an unsigned value. -/
def intBits (n : Int) : Nat := (n % 2 ^ 32).toNat

/-- `CPUInfo::getVendorName`: the name of the manufacturer, and the vendor
string of the record when the manufacturer is not known. -/
def getVendorName (info : CPUInfo) : Option (List Nat) :=
  match info.identity.manufacturer with
  | Manufacturer.Intel => some (literal "Intel Corporation")
  | Manufacturer.AMD => some (literal "Advanced Micro Devices")
  | Manufacturer.NSC => some (literal "National Semiconductor")
  | Manufacturer.Cyrix => some (literal "Cyrix Corp., VIA Inc.")
  | Manufacturer.NexGen => some (literal "NexGen Inc., Advanced Micro Devices")
  | Manufacturer.IDT => some (literal "IDT\\Centaur, Via Inc.")
  | Manufacturer.UMC => some (literal "United Microelectronics Corp.")
  | Manufacturer.Rise => some (literal "Rise")
  | Manufacturer.Transmeta => some (literal "Transmeta")
  | _ => cString info.identity.vendor 13 0

/-- `CPUInfo::getProcessorBrandName`: the table of brand indices, then the
names computed from the upper three and lower five bits of the index. The
shift and the masks act on bits 0 to 7 of the index, which are the same in
the signed and in the unsigned reading. -/
def getProcessorBrandName (info : CPUInfo) : List Nat :=
  if info.identity.brand = 0x00 then literal "Not Supported"
  else if info.identity.brand = 0x01 then literal "0.18 \xc2\xb5m Intel Celeron"
  else if info.identity.brand = 0x02 then literal "0.18 \xc2\xb5m Intel Pentium III"
  else if info.identity.brand = 0x03 then
    literal "0.18 \xc2\xb5m Intel Pentium III Xeon" ++
    literal " -OR- " ++
    literal "0.13 \xc2\xb5m Intel Celeron"
  else if info.identity.brand = 0x04 then literal "0.13 \xc2\xb5m Intel Pentium III"
  else if info.identity.brand = 0x06 then literal "0.13 \xc2\xb5m Intel Pentium III mobile"
  else if info.identity.brand = 0x07 then literal "0.13 \xc2\xb5m Intel Celeron mobile"
  else if info.identity.brand = 0x08 then
    literal "0.18 \xc2\xb5m Intel Pentium 4" ++
    literal " -OR- " ++
    literal "0.13 \xc2\xb5m Intel Celeron 4 mobile (0F24h)"
  else if info.identity.brand = 0x09 then literal "0.13 \xc2\xb5m Intel Pentium 4"
  else if info.identity.brand = 0x0A then literal "0.18 \xc2\xb5m Intel Celeron 4"
  else if info.identity.brand = 0x0B then
    literal "0.18 \xc2\xb5m Intel Pentium 4 Xeon MP" ++
    literal " -OR- " ++
    literal "0.13 \xc2\xb5m Intel Pentium 4 Xeon"
  else if info.identity.brand = 0x0C then literal "0.13 \xc2\xb5m Intel Pentium 4 Xeon MP"
  else if info.identity.brand = 0x0E then
    literal "0.18 \xc2\xb5m Intel Pentium 4 Xeon" ++
    literal " -OR- " ++
    literal "0.13 \xc2\xb5m Intel Pentium 4 mobile (production)"
  else if info.identity.brand = 0x0F then
    literal "0.13 \xc2\xb5m Intel Celeron 4 mobile (0F27h)" ++
    literal " -OR- " ++
    literal "0.13 \xc2\xb5m Intel Pentium 4 mobile (samples)"
  else if info.identity.brand = 0x11 then literal "Mobile Genuine Intel processor"
  else if info.identity.brand = 0x12 then
    literal "0.13 \xc2\xb5m Intel Celeron M" ++
    literal " -OR- " ++
    literal "0.09 \xc2\xb5m Intel Celeron M"
  else if info.identity.brand = 0x13 then literal "Mobile Intel Celeron processor"
  else if info.identity.brand = 0x14 then literal "Intel Celeron processor"
  else if info.identity.brand = 0x15 then literal "Mobile Genuine Intel processor"
  else if info.identity.brand = 0x16 then
    literal "0.13 \xc2\xb5m Intel Pentium M" ++
    literal " -OR- " ++
    literal "0.09 \xc2\xb5m Intel Pentium M"
  else if info.identity.brand = 0x17 then literal "Mobile Intel Celeron processor"
  else
    let top3 : Int := (((intBits info.identity.brand >>> 5) &&& 7 : Nat) : Int)
    let bottom5 : Int := ((intBits info.identity.brand &&& 31 : Nat) : Int)
    if top3 = 0 then literal "Engineering Sample " ++ decimal bottom5
    else if top3 = 1 then literal "AMD Athlon 64 " ++ decimal (22 + bottom5) ++ literal "00+"
    else if top3 = 2 then
      literal "AMD Athlon 64 " ++ decimal (22 + bottom5) ++ literal "00+ mobile"
    else if top3 = 3 then literal "AMD Opteron UP 1" ++ decimal (38 + 2 * bottom5)
    else if top3 = 4 then literal "AMD Opteron DP 2" ++ decimal (38 + 2 * bottom5)
    else if top3 = 5 then literal "AMD Opteron MP 8" ++ decimal (38 + 2 * bottom5)
    else literal "Unknown"

/-- `CPUInfo::getClassicalProcessorName`: the name from the manufacturer, the
family and the model. -/
def getClassicalProcessorName (info : CPUInfo) : List Nat :=
  match info.identity.manufacturer with
  | Manufacturer.Intel =>
    if info.identity.family = 3 then literal "Newer i80386 family"
    else if info.identity.family = 4 then
      if info.identity.model = 0 then literal "i80486DX-25/33"
      else if info.identity.model = 1 then literal "i80486DX-50"
      else if info.identity.model = 2 then literal "i80486SX"
      else if info.identity.model = 3 then literal "i80486DX2"
      else if info.identity.model = 4 then literal "i80486SL"
      else if info.identity.model = 5 then literal "i80486SX2"
      else if info.identity.model = 7 then literal "i80486DX2 WriteBack"
      else if info.identity.model = 8 then literal "i80486DX4"
      else if info.identity.model = 9 then literal "i80486DX4 WriteBack"
      else literal "Unknown 80486 family"
    else if info.identity.family = 5 then
      if info.identity.model = 0 then literal "P5 A-Step"
      else if info.identity.model = 1 then literal "P5"
      else if info.identity.model = 2 then literal "P54C"
      else if info.identity.model = 3 then literal "P24T OverDrive"
      else if info.identity.model = 4 then literal "P55C"
      else if info.identity.model = 7 then literal "P54C"
      else if info.identity.model = 8 then literal "P55C (0.25\xc2\xb5m)"
      else literal "Unknown Pentium\xc2\xae family"
    else if info.identity.family = 6 then
      if info.identity.model = 0 then literal "P6 A-Step"
      else if info.identity.model = 1 then literal "P6"
      else if info.identity.model = 3 then literal "Pentium\xc2\xae II (0.28 \xc2\xb5m)"
      else if info.identity.model = 5 then literal "Pentium\xc2\xae II (0.25 \xc2\xb5m)"
      else if info.identity.model = 6 then literal "Pentium\xc2\xae II With On-Die L2 Cache"
      else if info.identity.model = 7 then literal "Pentium\xc2\xae III (0.25 \xc2\xb5m)"
      else if info.identity.model = 8 then
        literal "Pentium\xc2\xae III (0.18 \xc2\xb5m) With 256 KB On-Die L2 Cache"
      else if info.identity.model = 9 then literal "Pentium\xc2\xae M or Celeron M"
      else if info.identity.model = 0xa then
        literal "Pentium\xc2\xae III (0.18 \xc2\xb5m) With 1 Or 2 MB On-Die L2 Cache"
      else if info.identity.model = 0xb then
        literal "Pentium\xc2\xae III (0.13 \xc2\xb5m) With 256 Or 512 KB On-Die L2 Cache"
      else if info.identity.model = 0xd then literal "Pentium M (90 nm)"
      else if info.identity.model = 0xe then literal "Core Solo or Duo (65 nm)"
      else if info.identity.model = 0xf then literal "Core 2 Solo or Duo (65 nm)"
      else literal "Unknown P6 family"
    else if info.identity.family = 7 then literal "Intel Merced (IA-64)"
    else if info.identity.family = 15 then
      if info.identity.model = 0 then literal "Pentium\xc2\xae IV (0.18 \xc2\xb5m)"
      else if info.identity.model = 1 then literal "Pentium\xc2\xae IV (0.18 \xc2\xb5m)"
      else if info.identity.model = 2 then literal "Pentium\xc2\xae IV (0.13 \xc2\xb5m)"
      else literal "Unknown Pentium 4 family"
    else if info.identity.family = 31 then literal "Intel McKinley (IA-64)"
    else literal "Unknown Intel family"
  | Manufacturer.AMD =>
    if info.identity.family = 4 then
      if info.identity.model = 3 then literal "80486DX2"
      else if info.identity.model = 7 then literal "80486DX2 WriteBack"
      else if info.identity.model = 8 then literal "80486DX4"
      else if info.identity.model = 9 then literal "80486DX4 WriteBack"
      else if info.identity.model = 0xe then literal "5x86"
      else if info.identity.model = 0xf then literal "5x86WB"
      else literal "Unknown 80486 family"
    else if info.identity.family = 5 then
      if info.identity.model = 0 then literal "SSA5 (PR75, PR90, PR100)"
      else if info.identity.model = 1 then literal "5k86 (PR120, PR133)"
      else if info.identity.model = 2 then literal "5k86 (PR166)"
      else if info.identity.model = 3 then literal "5k86 (PR200)"
      else if info.identity.model = 6 then literal "K6 (0.30 \xc2\xb5m)"
      else if info.identity.model = 7 then literal "K6 (0.25 \xc2\xb5m)"
      else if info.identity.model = 8 then literal "K6-2"
      else if info.identity.model = 9 then literal "K6-III"
      else if info.identity.model = 0xd then literal "K6-2+ or K6-III+ (0.18 \xc2\xb5m)"
      else literal "Unknown 80586 family"
    else if info.identity.family = 6 then
      if info.identity.model = 1 then literal "Athlon\xe2\x84\xa2 (0.25 \xc2\xb5m)"
      else if info.identity.model = 2 then literal "Athlon\xe2\x84\xa2 (0.18 \xc2\xb5m)"
      else if info.identity.model = 3 then literal "Duron\xe2\x84\xa2 (SF core)"
      else if info.identity.model = 4 then literal "Athlon\xe2\x84\xa2 (Thunderbird core)"
      else if info.identity.model = 6 then literal "Athlon\xe2\x84\xa2 (Palomino core)"
      else if info.identity.model = 7 then literal "Duron\xe2\x84\xa2 (Morgan core)"
      else if info.identity.model = 8 then
        if info.features.supportsMP then literal "Athlon\xe2\x84\xa2 MP (Thoroughbred core)"
        else literal "Athlon\xe2\x84\xa2 XP (Thoroughbred core)"
      else literal "Unknown K7 family"
    else literal "Unknown AMD family"
  | Manufacturer.Transmeta =>
    if info.identity.family = 5 then
      if info.identity.model = 4 then literal "Crusoe TM3x00 and TM5x00"
      else literal "Unknown Crusoe family"
    else literal "Unknown Transmeta family"
  | Manufacturer.Rise =>
    if info.identity.family = 5 then
      if info.identity.model = 0 then literal "mP6 (0.25 \xc2\xb5m)"
      else if info.identity.model = 2 then literal "mP6 (0.18 \xc2\xb5m)"
      else literal "Unknown Rise family"
    else literal "Unknown Rise family"
  | Manufacturer.UMC =>
    if info.identity.family = 4 then
      if info.identity.model = 1 then literal "U5D"
      else if info.identity.model = 2 then literal "U5S"
      else literal "Unknown UMC family"
    else literal "Unknown UMC family"
  | Manufacturer.IDT =>
    if info.identity.family = 5 then
      if info.identity.model = 4 then literal "C6"
      else if info.identity.model = 8 then literal "C2"
      else if info.identity.model = 9 then literal "C3"
      else literal "Unknown IDT\\Centaur family"
    else if info.identity.family = 6 then
      if info.identity.model = 6 then literal "VIA Cyrix III - Samuel"
      else literal "Unknown IDT\\Centaur family"
    else literal "Unknown IDT\\Centaur family"
  | Manufacturer.Cyrix =>
    if info.identity.family = 4 then
      if info.identity.model = 4 then literal "MediaGX GX, GXm"
      else if info.identity.model = 9 then literal "5x86"
      else literal "Unknown Cx5x86 family"
    else if info.identity.family = 5 then
      if info.identity.model = 2 then literal "Cx6x86"
      else if info.identity.model = 4 then literal "MediaGX GXm"
      else literal "Unknown Cx6x86 family"
    else if info.identity.family = 6 then
      if info.identity.model = 0 then literal "6x86MX"
      else if info.identity.model = 5 then literal "Cyrix M2 Core"
      else if info.identity.model = 6 then literal "WinChip C5A Core"
      else if info.identity.model = 7 then literal "WinChip C5B\\C5C Core"
      else if info.identity.model = 8 then literal "WinChip C5C-T Core"
      else literal "Unknown 6x86MX\\Cyrix III family"
    else literal "Unknown Cyrix family"
  | Manufacturer.NexGen =>
    if info.identity.family = 5 then
      if info.identity.model = 0 then literal "Nx586 or Nx586FPU"
      else literal "Unknown NexGen family"
    else literal "Unknown NexGen family"
  | Manufacturer.NSC =>
    literal "Cx486SLC \\ DLC \\ Cx486S A-Step"
  | _ =>
    literal "Unknown manufacturer."


/-- `CPUInfo::getProcessorName`: the extended name from its first character
that is not whitespace, else the brand name, else the classical name. -/
def getProcessorName (info : CPUInfo) : Option (List Nat) :=
  if info.identity.hasExtendedName then
    cString info.identity.extendedName 49 info.identity.firstNonSpace
  else if info.identity.brand ≠ 0 then
    some (getProcessorBrandName info)
  else
    some (getClassicalProcessorName info)

/-! ## Example machines for the names and the serial number -/

/-- A Pentium III: family 6, model 7, brand index 2, the serial number
enabled, no extended leaves (an Intel family below 15 is never asked). -/
def pentium3 : Hardware where
  cpuidInstr := ProbeOutcome.executes
  orpsInstr := ProbeOutcome.executes
  cpuid := fun level _ =>
    if level = 0 then
      { eax := 3, ebx := leU32 (literal "Genu"), ecx := leU32 (literal "ntel"),
        edx := leU32 (literal "ineI") }
    else if level = 1 then
      { eax := 0x00000673, ebx := 0x00000002, ecx := 0, edx := 0x0387FBFF }
    else if level = 2 then
      { eax := 0x03020101, ebx := 0, ecx := 0, edx := 0x0C040843 }
    else if level = 3 then
      { eax := 0, ebx := 0x0000A5F0, ecx := 0x89ABCDEF, edx := 0x01234567 }
    else { eax := 0, ebx := 0, ecx := 0, edx := 0 }
  hpCounter := fun k => 1000 + 60000 * k
  tsc := fun k => 5000 + 27000000 * k

/-- The example Pentium III at the start of a process. -/
def pentium3World : World :=
  { hw := pentium3, sigILL := SignalHandler.other 0, sigSEGV := SignalHandler.other 0,
    trace := [] }

/-- The example Pentium III under an operating system that has not enabled
SSE: the sse bit is set and `orps` raises an illegal-instruction fault. -/
def pentium3NoSSE : Hardware :=
  { pentium3 with orpsInstr := ProbeOutcome.illegalInstruction }

/-- The machine `pentium3NoSSE` at the start of a process. -/
def pentium3NoSSEWorld : World :=
  { hw := pentium3NoSSE, sigILL := SignalHandler.other 0, sigSEGV := SignalHandler.other 0,
    trace := [] }

/-- Two processors `pentium3NoSSE`; every non-empty set of them is accepted by
`sched_setaffinity`. -/
def twoWayNoSSE : Kernel where
  getaffinityFails := fun _ => false
  permitted := fun mask => decide (0 < mask ∧ mask < 4)
  processor := fun _ => pentium3NoSSE

/-- A process on `twoWayNoSSE` with both processors enabled. -/
def twoWayNoSSEProcess : Process :=
  { kernel := twoWayNoSSE, affinity := 3, sigILL := SignalHandler.other 0,
    sigSEGV := SignalHandler.other 0, calls := [], traces := fun _ => [] }

/-- A record whose serial-number flag is set, as `getFeatures` leaves it on the
example Pentium III. -/
def serialInfo : CPUInfo :=
  { blankInfo with features := { blankInfo.features with serial := true } }

/-- A machine whose every leaf-2 result announces 255 passes. -/
def fullCountWorld : World :=
  descriptorWorld (List.replicate 255 { eax := 0x000000FF, ebx := 0, ecx := 0, edx := 0 })

/-- A machine whose only leaf-2 result carries the descriptor `0x8d`. -/
def descriptor8dWorld : World :=
  descriptorWorld [{ eax := 0x00008d01, ebx := 0, ecx := 0, edx := 0 }]

/-- A machine whose vendor string is `"VIA VIA VIA "`, which the vendor table
does not list. -/
def unlistedVendor : Hardware :=
  { pentium3 with
    cpuid := fun level k =>
      if level = 0 then
        { eax := 1, ebx := leU32 (literal "VIA "), ecx := leU32 (literal "VIA "),
          edx := leU32 (literal "VIA ") }
      else pentium3.cpuid level k }

/-- The machine `unlistedVendor` at the start of a process. -/
def unlistedVendorWorld : World :=
  { hw := unlistedVendor, sigILL := SignalHandler.other 0, sigSEGV := SignalHandler.other 0,
    trace := [] }

/-! ## Vocabulary of the names and the serial number -/

/-- The bytes of a character array from index `off` on, up to the first zero
byte. -/
def bytesFrom {n : Nat} (buf : Fin n → Nat) (off : Nat) : List Nat :=
  (((List.range n).map (charAt buf)).drop off).takeWhile (fun c => c != 0)

/-- Byte `j` of the 12 bytes `getSerialNumber` reads from leaf 3: the
little-endian bytes of EBX, then of ECX, then of EDX. -/
def serialByte (r : Regs) (j : Nat) : Nat :=
  byteLE (u32 (r.word (1 + j / 4))) (j % 4)

/-- A character code is a lower-case hexadecimal digit. -/
def isLowerHex (c : Nat) : Bool := (48 ≤ c && c ≤ 57) || (97 ≤ c && c ≤ 102)

@[simp] theorem World.log_hw (w : World) (e : Event) : (w.log e).hw = w.hw := rfl

@[simp] theorem World.log_trace (w : World) (e : Event) :
    (w.log e).trace = w.trace ++ [e] := rfl

@[simp] theorem World.log_sigILL (w : World) (e : Event) : (w.log e).sigILL = w.sigILL := rfl

@[simp] theorem World.log_sigSEGV (w : World) (e : Event) :
    (w.log e).sigSEGV = w.sigSEGV := rfl

theorem World.Reaches.refl (w : World) (allowed : List Event) : w.Reaches w allowed :=
  ⟨rfl, rfl, rfl, [], by simp, by simp⟩

theorem World.Reaches.log (w : World) (e : Event) (allowed : List Event) (h : e ∈ allowed) :
    w.Reaches (w.log e) allowed :=
  ⟨rfl, rfl, rfl, [e], rfl, by simpa using h⟩

theorem World.Reaches.trans {w₁ w₂ w₃ : World} {a : List Event}
    (h₁ : w₁.Reaches w₂ a) (h₂ : w₂.Reaches w₃ a) : w₁.Reaches w₃ a := by
  obtain ⟨hw₁, hi₁, hs₁, es₁, ht₁, ha₁⟩ := h₁
  obtain ⟨hw₂, hi₂, hs₂, es₂, ht₂, ha₂⟩ := h₂
  refine ⟨hw₂.trans hw₁, hi₂.trans hi₁, hs₂.trans hs₁, es₁ ++ es₂, ?_, ?_⟩
  · rw [ht₂, ht₁, List.append_assoc]
  · intro e he
    rcases List.mem_append.mp he with h | h
    · exact ha₁ e h
    · exact ha₂ e h

theorem World.Reaches.mono {w₁ w₂ : World} {a b : List Event}
    (h : w₁.Reaches w₂ a) (hab : ∀ e ∈ a, e ∈ b) : w₁.Reaches w₂ b := by
  obtain ⟨hw, hi, hs, es, ht, ha⟩ := h
  exact ⟨hw, hi, hs, es, ht, fun e he => hab e (ha e he)⟩

theorem World.Reaches.count_eq {w₁ w₂ : World} {a : List Event}
    (h : w₁.Reaches w₂ a) (e : Event) (he : e ∉ a) :
    w₂.trace.count e = w₁.trace.count e := by
  obtain ⟨_, _, _, es, ht, ha⟩ := h
  rw [ht, List.count_append]
  have : es.count e = 0 := List.count_eq_zero.mpr (fun hmem => he (ha e hmem))
  omega

theorem World.Reaches.answer_eq {w₁ w₂ : World} {a : List Event}
    (h : w₁.Reaches w₂ a) (level : Nat) (he : Event.cpuid level ∉ a) :
    w₂.answer level = w₁.answer level := by
  unfold World.answer
  rw [h.count_eq _ he, h.1]

theorem World.survives_executes (w : World) :
    w.survives ProbeOutcome.executes = true := rfl

theorem World.afterProbe_executes (w : World) (e : Event) :
    w.afterProbe ProbeOutcome.executes e = w.log e := rfl

theorem World.afterProbe_hw (w : World) (o : ProbeOutcome) (e : Event) :
    (w.afterProbe o e).hw = w.hw := by
  cases o <;> rfl

theorem World.afterProbe_sigILL (w : World) (o : ProbeOutcome) (e : Event) :
    (w.afterProbe o e).sigILL = w.sigILL := by
  cases o <;> rfl

theorem World.afterProbe_sigSEGV (w : World) (o : ProbeOutcome) (e : Event) :
    (w.afterProbe o e).sigSEGV = w.sigSEGV := by
  cases o <;> rfl

theorem World.afterProbe_trace (w : World) (o : ProbeOutcome) (e : Event) :
    (w.afterProbe o e).trace = w.trace ++ [e] := by
  cases o <;> rfl

theorem World.Reaches.afterProbe (w : World) (o : ProbeOutcome) (e : Event) :
    w.Reaches (w.afterProbe o e) [e] :=
  ⟨World.afterProbe_hw w o e, World.afterProbe_sigILL w o e, World.afterProbe_sigSEGV w o e,
    [e], World.afterProbe_trace w o e, fun _ h => h⟩

theorem World.survives_log (w : World) (e : Event) (o : ProbeOutcome) :
    (w.log e).survives o = w.survives o := by
  cases o <;> rfl

theorem getCPUIDSupport_eq (w : World) :
    getCPUIDSupport w =
      if w.survives w.hw.cpuidInstr = true then
        some (decide (w.hw.cpuidInstr = ProbeOutcome.executes),
          w.afterProbe w.hw.cpuidInstr Event.probeCPUID)
      else none := by
  cases w with
  | mk hw a b t i s =>
    cases h : hw.cpuidInstr
    · simp [getCPUIDSupport, runProbed, World.log, World.survives, World.afterProbe, h]
    · cases i <;>
        simp [getCPUIDSupport, runProbed, deliver, World.log, World.survives,
          World.afterProbe, h]
    · cases s <;>
        simp [getCPUIDSupport, runProbed, deliver, World.log, World.survives,
          World.afterProbe, h]

theorem getSSEFPSupport_eq (w : World) :
    getSSEFPSupport w =
      if w.survives w.hw.orpsInstr = true then
        some (decide (w.hw.orpsInstr = ProbeOutcome.executes),
          w.afterProbe w.hw.orpsInstr Event.probeSSEFP)
      else none := by
  cases w with
  | mk hw a b t i s =>
    cases h : hw.orpsInstr
    · simp [getSSEFPSupport, runProbed, World.log, World.survives, World.afterProbe, h]
    · cases i <;>
        simp [getSSEFPSupport, runProbed, deliver, World.log, World.survives,
          World.afterProbe, h]
    · cases s <;>
        simp [getSSEFPSupport, runProbed, deliver, World.log, World.survives,
          World.afterProbe, h]

theorem getCPUIDSupport_of_executes (w : World)
    (h : w.hw.cpuidInstr = ProbeOutcome.executes) :
    getCPUIDSupport w = some (true, w.log Event.probeCPUID) := by
  rw [getCPUIDSupport_eq, h]
  rfl

theorem CPUID_eq (level : Nat) (w : World) (h : w.hw.cpuidInstr = ProbeOutcome.executes) :
    CPUID level w = some
      ({ eax := u32 (w.answer level).eax, ebx := u32 (w.answer level).ebx,
         ecx := u32 (w.answer level).ecx, edx := u32 (w.answer level).edx },
       (w.log Event.probeCPUID).log (Event.cpuid level)) := by
  simp [CPUID, getCPUIDSupport_of_executes w h, World.answer, List.count_append]

theorem CPUID_reaches (level : Nat) (w : World) :
    w.Reaches ((w.log Event.probeCPUID).log (Event.cpuid level))
      [Event.probeCPUID, Event.cpuid level] :=
  (World.Reaches.log w _ _ (by simp)).trans (World.Reaches.log _ _ _ (by simp))

theorem toInt_small (n : Nat) (h : n < 2 ^ 31) : toInt n = (n : Int) := by
  unfold toInt
  have h1 : n % 2 ^ 32 = n := Nat.mod_eq_of_lt (by omega)
  rw [h1, if_pos h]

theorem u32_of_lt (n : Nat) (h : n < 2 ^ 32) : u32 n = n := Nat.mod_eq_of_lt h

theorem and_0x3 (x : Nat) : x &&& 0x3 = x % 4 := Nat.and_pow_two_sub_one_eq_mod x 2

theorem and_0xF (x : Nat) : x &&& 0xF = x % 16 := Nat.and_pow_two_sub_one_eq_mod x 4

theorem and_0xFF (x : Nat) : x &&& 0xFF = x % 256 := Nat.and_pow_two_sub_one_eq_mod x 8

theorem and_0xFFFF (x : Nat) : x &&& 0xFFFF = x % 65536 :=
  Nat.and_pow_two_sub_one_eq_mod x 16

/-! ## Identity: the vendor table and the signature -/

theorem memcmpEq_iff {n : Nat} (buf : Fin n → Nat) (s t : List Nat)
    (hs : s.length = 12) (ht : t.length = 12)
    (hbuf : ∀ i, i < 12 → charAt buf i = s.getD i 0) :
    memcmpEq buf t 12 = decide (s = t) := by
  have key : memcmpEq buf t 12 = true ↔ s = t := by
    unfold memcmpEq
    rw [List.all_eq_true]
    constructor
    · intro h
      apply List.ext_getElem (by omega)
      intro i h1 h2
      have := h i (List.mem_range.mpr (by omega))
      rw [hbuf i (by omega)] at this
      rw [List.getD_eq_getElem _ _ h1, List.getD_eq_getElem _ _ h2] at this
      simpa using this
    · rintro rfl i hi
      rw [hbuf i (List.mem_range.mp hi)]
      simp
  cases h : memcmpEq buf t 12
  · symm; rw [decide_eq_false_iff_not]; intro e; rw [key.mpr e] at h; cases h
  · symm; rw [decide_eq_true_iff]; exact key.mp h

theorem vendor_bytes (v : Fin 13 → Nat) (s : List Nat) (hs : s.length = 12)
    (hb : ∀ b ∈ s, b < 256) (i : Nat) (hi : i < 12) :
    charAt (storeByte (storeU32 (storeU32 (storeU32 v 0 (u32 (leU32 (s.take 4)))) 8
      (u32 (leU32 (s.drop 8)))) 4 (u32 (leU32 ((s.drop 4).take 4)))) 12 0) i = s.getD i 0 := by
  rcases s with _ | ⟨b0, _ | ⟨b1, _ | ⟨b2, _ | ⟨b3, _ | ⟨b4, _ | ⟨b5, _ | ⟨b6, _ | ⟨b7, _ | ⟨b8,
    _ | ⟨b9, _ | ⟨b10, _ | ⟨b11, _ | ⟨b12, t⟩⟩⟩⟩⟩⟩⟩⟩⟩⟩⟩⟩⟩ <;> simp at hs
  simp only [List.mem_cons, List.mem_singleton, forall_eq_or_imp, forall_eq, List.not_mem_nil,
    IsEmpty.forall_iff, implies_true, and_true] at hb
  obtain ⟨h0, h1, h2, h3, h4, h5, h6, h7, h8, h9, h10, h11⟩ := hb
  have hi' : i = 0 ∨ i = 1 ∨ i = 2 ∨ i = 3 ∨ i = 4 ∨ i = 5 ∨ i = 6 ∨ i = 7 ∨ i = 8 ∨ i = 9 ∨
      i = 10 ∨ i = 11 := by omega
  rcases hi' with rfl | rfl | rfl | rfl | rfl | rfl | rfl | rfl | rfl | rfl | rfl | rfl <;>
    simp [charAt, storeByte, storeU32, byteLE, leU32, u32, Nat.shiftRight_eq_div_pow] <;> omega

/-- **C1.** For every 12-byte vendor string `s` that leaf 0 returns in EBX, EDX,
ECX, `getIdentity` returns, and the manufacturer it stores is the one the
table gives for `s`: Intel, UMC, AMD (two signatures), Cyrix, NexGen, IDT,
Rise, Transmeta (two signatures), NSC, and `UnknownManufacturer` for every
other string. -/
theorem getIdentity_manufacturer (id : Identity) (w : World) (s : List Nat)
    (hsup : w.hw.cpuidInstr = ProbeOutcome.executes)
    (hs : s.length = 12) (hb : ∀ b ∈ s, b < 256)
    (hebx : (w.answer 0).ebx = leU32 (s.take 4))
    (hedx : (w.answer 0).edx = leU32 ((s.drop 4).take 4))
    (hecx : (w.answer 0).ecx = leU32 (s.drop 8)) :
    ∃ id' w', getIdentity id w = some (id', w') ∧
      (s = literal "GenuineIntel" → id'.manufacturer = Manufacturer.Intel) ∧
      (s = literal "UMC UMC UMC " → id'.manufacturer = Manufacturer.UMC) ∧
      (s = literal "AuthenticAMD" → id'.manufacturer = Manufacturer.AMD) ∧
      (s = literal "AMD ISBETTER" → id'.manufacturer = Manufacturer.AMD) ∧
      (s = literal "CyrixInstead" → id'.manufacturer = Manufacturer.Cyrix) ∧
      (s = literal "NexGenDriven" → id'.manufacturer = Manufacturer.NexGen) ∧
      (s = literal "CentaurHauls" → id'.manufacturer = Manufacturer.IDT) ∧
      (s = literal "RiseRiseRise" → id'.manufacturer = Manufacturer.Rise) ∧
      (s = literal "GenuineTMx86" → id'.manufacturer = Manufacturer.Transmeta) ∧
      (s = literal "TransmetaCPU" → id'.manufacturer = Manufacturer.Transmeta) ∧
      (s = literal "Geode By NSC" → id'.manufacturer = Manufacturer.NSC) ∧
      (s ∉ [literal "GenuineIntel", literal "UMC UMC UMC ", literal "AuthenticAMD",
            literal "AMD ISBETTER", literal "CyrixInstead", literal "NexGenDriven",
            literal "CentaurHauls", literal "RiseRiseRise", literal "GenuineTMx86",
            literal "TransmetaCPU", literal "Geode By NSC"] →
        id'.manufacturer = Manufacturer.UnknownManufacturer) := by
  have hv : ∀ t : List Nat, t.length = 12 →
      memcmpEq (storeByte (storeU32 (storeU32 (storeU32 id.vendor 0 (u32 (leU32 (s.take 4)))) 8
        (u32 (leU32 (s.drop 8)))) 4 (u32 (leU32 ((s.drop 4).take 4)))) 12 0) t 12
      = decide (s = t) :=
    fun t ht => memcmpEq_iff _ s t hs ht (fun i hi => vendor_bytes id.vendor s hs hb i hi)
  simp only [getIdentity, CPUID_eq 0 w hsup, Option.bind_eq_bind, Option.some_bind]
  rw [CPUID_eq 1 _ (by simpa using hsup)]
  simp only [Option.some_bind, hebx, hedx, hecx]
  rw [hv (literal "GenuineIntel") (by decide), hv (literal "UMC UMC UMC ") (by decide),
    hv (literal "AuthenticAMD") (by decide), hv (literal "AMD ISBETTER") (by decide),
    hv (literal "CyrixInstead") (by decide), hv (literal "NexGenDriven") (by decide),
    hv (literal "CentaurHauls") (by decide), hv (literal "RiseRiseRise") (by decide),
    hv (literal "GenuineTMx86") (by decide), hv (literal "TransmetaCPU") (by decide),
    hv (literal "Geode By NSC") (by decide)]
  refine ⟨_, _, rfl, ?_⟩
  simp only [decide_eq_true_eq]
  refine ⟨?_, ?_, ?_, ?_, ?_, ?_, ?_, ?_, ?_, ?_, ?_, ?_⟩
  iterate 11 (intro h; subst h; decide)
  intro h
  simp only [List.mem_cons, List.mem_singleton, List.not_mem_nil, or_false, not_or] at h
  obtain ⟨h1, h2, h3, h4, h5, h6, h7, h8, h9, h10, h11⟩ := h
  simp only [h1, h2, h3, h4, h5, h6, h7, h8, h9, h10, h11, if_false]

/-- Witness of **C1**: the example Pentium 4 answers `GenuineIntel` and is
recognised as Intel. -/
theorem getIdentity_manufacturer_witness :
    (pentium4World.hw.cpuidInstr = ProbeOutcome.executes ∧
      (literal "GenuineIntel").length = 12 ∧ (∀ b ∈ literal "GenuineIntel", b < 256) ∧
      (pentium4World.answer 0).ebx = leU32 ((literal "GenuineIntel").take 4) ∧
      (pentium4World.answer 0).edx = leU32 (((literal "GenuineIntel").drop 4).take 4) ∧
      (pentium4World.answer 0).ecx = leU32 ((literal "GenuineIntel").drop 8)) ∧
    ∃ id' w', getIdentity blankInfo.identity pentium4World = some (id', w') ∧
      id'.manufacturer = Manufacturer.Intel := by
  have h := getIdentity_manufacturer blankInfo.identity pentium4World (literal "GenuineIntel")
    rfl (by decide) (by decide) (by decide) (by decide) (by decide)
  obtain ⟨id', w', hget, hintel, _⟩ := h
  exact ⟨⟨rfl, by decide, by decide, by decide, by decide, by decide⟩,
    id', w', hget, hintel rfl⟩

/-- **C2.** For every 32-bit EAX and EBX returned by leaf 1, `getIdentity`
returns with type = EAX bits 12..13, family = (EAX bits 20..27) * 16 + EAX bits
8..11, model = (EAX bits 16..19) * 16 + EAX bits 4..7, stepping = EAX bits 0..3
and brand = EBX bits 0..7; so the five fields lie in 0..3, 0..4095, 0..255,
0..15 and 0..255. -/
theorem getIdentity_signature (id : Identity) (w : World) (eax ebx : Nat)
    (hsup : w.hw.cpuidInstr = ProbeOutcome.executes)
    (heax : (w.answer 1).eax = eax) (hebx : (w.answer 1).ebx = ebx)
    (h32 : eax < 2 ^ 32) (h32' : ebx < 2 ^ 32) :
    ∃ id' w', getIdentity id w = some (id', w') ∧
      id'.type = ((eax / 2 ^ 12 % 4 : Nat) : Int) ∧
      id'.family = ((eax / 2 ^ 20 % 256 * 16 + eax / 2 ^ 8 % 16 : Nat) : Int) ∧
      id'.model = ((eax / 2 ^ 16 % 16 * 16 + eax / 2 ^ 4 % 16 : Nat) : Int) ∧
      id'.stepping = ((eax % 16 : Nat) : Int) ∧
      id'.brand = ((ebx % 256 : Nat) : Int) ∧
      (0 ≤ id'.type ∧ id'.type ≤ 3) ∧ (0 ≤ id'.family ∧ id'.family ≤ 4095) ∧
      (0 ≤ id'.model ∧ id'.model ≤ 255) ∧ (0 ≤ id'.stepping ∧ id'.stepping ≤ 15) ∧
      (0 ≤ id'.brand ∧ id'.brand ≤ 255) := by
  have ha1 : ((w.log Event.probeCPUID).log (Event.cpuid 0)).answer 1 = w.answer 1 :=
    (CPUID_reaches 0 w).answer_eq 1 (by simp)
  simp only [getIdentity, CPUID_eq 0 w hsup, Option.bind_eq_bind, Option.some_bind]
  rw [CPUID_eq 1 _ (by simpa using hsup)]
  simp only [Option.some_bind, ha1, heax, hebx, u32_of_lt _ h32, u32_of_lt _ h32', and_0x3,
    and_0xF, and_0xFF, Nat.shiftRight_eq_div_pow, Nat.shiftLeft_eq]
  refine ⟨_, _, rfl, ?_⟩
  simp only []
  have e1 : toInt (eax / 2 ^ 12 % 4) = ((eax / 2 ^ 12 % 4 : Nat) : Int) :=
    toInt_small _ (by omega)
  have e2 : toInt (u32 (eax / 2 ^ 20 % 256 * 2 ^ 4 + eax / 2 ^ 8 % 16)) =
      ((eax / 2 ^ 20 % 256 * 16 + eax / 2 ^ 8 % 16 : Nat) : Int) := by
    have : u32 (eax / 2 ^ 20 % 256 * 2 ^ 4 + eax / 2 ^ 8 % 16) =
        eax / 2 ^ 20 % 256 * 16 + eax / 2 ^ 8 % 16 := by
      unfold u32; omega
    rw [this]; exact toInt_small _ (by omega)
  have e3 : toInt (u32 (eax / 2 ^ 16 % 16 * 2 ^ 4 + eax / 2 ^ 4 % 16)) =
      ((eax / 2 ^ 16 % 16 * 16 + eax / 2 ^ 4 % 16 : Nat) : Int) := by
    have : u32 (eax / 2 ^ 16 % 16 * 2 ^ 4 + eax / 2 ^ 4 % 16) =
        eax / 2 ^ 16 % 16 * 16 + eax / 2 ^ 4 % 16 := by
      unfold u32; omega
    rw [this]; exact toInt_small _ (by omega)
  have e4 : toInt (eax % 16) = ((eax % 16 : Nat) : Int) := toInt_small _ (by omega)
  have e5 : toInt (ebx % 256) = ((ebx % 256 : Nat) : Int) := toInt_small _ (by omega)
  rw [e1, e2, e3, e4, e5]
  refine ⟨rfl, rfl, rfl, rfl, rfl, ?_⟩
  omega

/-- Witness of **C2**: the signature `0x00000F29` of the example Pentium 4 is
family 15, model 2, stepping 9, type 0, and its brand index is 9. -/
theorem getIdentity_signature_witness :
    (pentium4World.hw.cpuidInstr = ProbeOutcome.executes ∧
      (pentium4World.answer 1).eax = 0x00000F29 ∧
      (pentium4World.answer 1).ebx = 0x00020809) ∧
    ∃ id' w', getIdentity blankInfo.identity pentium4World = some (id', w') ∧
      id'.type = 0 ∧ id'.family = 15 ∧ id'.model = 2 ∧ id'.stepping = 9 ∧ id'.brand = 9 := by
  obtain ⟨id', w', hget, h1, h2, h3, h4, h5, _⟩ :=
    getIdentity_signature blankInfo.identity pentium4World 0x00000F29 0x00020809
      rfl (by decide) (by decide) (by decide) (by decide)
  refine ⟨⟨rfl, by decide, by decide⟩, id', w', hget, ?_, ?_, ?_, ?_, ?_⟩
  · rw [h1]; decide
  · rw [h2]; decide
  · rw [h3]; decide
  · rw [h4]; decide
  · rw [h5]; decide

/-! ## Eligibility of extended leaves -/

theorem checkExtendedLevelSupport_eq (id : Identity) (L : Nat) (w : World)
    (hsup : w.hw.cpuidInstr = ProbeOutcome.executes) :
    checkExtendedLevelSupport id L w =
      if belowVendorFloor id = true then some (false, w)
      else some (decide (L ≤ u32 (w.answer 0x80000000).eax),
        (w.log Event.probeCPUID).log (Event.cpuid 0x80000000)) := by
  unfold checkExtendedLevelSupport
  split
  · rfl
  · simp [CPUID_eq _ w hsup]

theorem checkExtendedLevelSupport_reaches (id : Identity) (L : Nat) (w : World)
    (hsup : w.hw.cpuidInstr = ProbeOutcome.executes) :
    ∃ w', checkExtendedLevelSupport id L w =
        some (!belowVendorFloor id && decide (L ≤ u32 (w.answer 0x80000000).eax), w') ∧
      w.Reaches w' [Event.probeCPUID, Event.cpuid 0x80000000] := by
  rw [checkExtendedLevelSupport_eq id L w hsup]
  by_cases h : belowVendorFloor id = true
  · exact ⟨w, by simp [h], World.Reaches.refl _ _⟩
  · exact ⟨_, by simp [h], CPUID_reaches _ w⟩

/-- **C3.** For an identity whose manufacturer is AMD, Cyrix, IDT, Transmeta or
Intel and every target leaf `L`, `checkExtendedLevelSupport` returns, and it
returns `true` exactly when the maximum extended leaf reported by leaf
`0x80000000` is at least `L` and the vendor floor is met; so below the floor it
returns `false` whatever leaf `0x80000000` reports. -/
theorem checkExtendedLevelSupport_floors (id : Identity) (L : Nat) (w : World)
    (maxLevel : Nat) (hsup : w.hw.cpuidInstr = ProbeOutcome.executes)
    (hmax : (w.answer 0x80000000).eax = maxLevel) (h32 : maxLevel < 2 ^ 32) :
    ∃ b w', checkExtendedLevelSupport id L w = some (b, w') ∧
      (id.manufacturer = Manufacturer.AMD →
        (b = true ↔ maxLevel ≥ L ∧ (id.family > 5 ∨ (id.family = 5 ∧ id.model ≥ 6)))) ∧
      (id.manufacturer = Manufacturer.Cyrix →
        (b = true ↔ maxLevel ≥ L ∧ (id.family ≥ 5 ∧ (id.family = 5 → id.model ≥ 4) ∧
          (id.family = 6 → id.model ≥ 5)))) ∧
      (id.manufacturer = Manufacturer.IDT →
        (b = true ↔ maxLevel ≥ L ∧ (id.family > 5 ∨ (id.family = 5 ∧ id.model ≥ 8)))) ∧
      (id.manufacturer = Manufacturer.Transmeta →
        (b = true ↔ maxLevel ≥ L ∧ id.family ≥ 5)) ∧
      (id.manufacturer = Manufacturer.Intel →
        (b = true ↔ maxLevel ≥ L ∧ id.family ≥ 15)) := by
  obtain ⟨w', hw', _⟩ := checkExtendedLevelSupport_reaches id L w hsup
  rw [hmax, u32_of_lt _ h32] at hw'
  refine ⟨_, w', hw', ?_, ?_, ?_, ?_, ?_⟩ <;> intro hm <;>
    simp only [belowVendorFloor, hm, Bool.and_eq_true, Bool.not_eq_true', decide_eq_true_eq,
      if_true, if_false, reduceCtorEq] <;>
    constructor <;> intro h
  all_goals (split_ifs at h ⊢ <;> simp_all <;> omega)

/-- Witness of **C3**: the example Pentium 4 (Intel, family 15) reports
`0x80000004`, so leaf `0x80000004` is eligible. -/
theorem checkExtendedLevelSupport_floors_witness :
    (pentium4World.hw.cpuidInstr = ProbeOutcome.executes ∧
      (pentium4World.answer 0x80000000).eax = 0x80000004) ∧
    ∃ w', checkExtendedLevelSupport pentium4Identity 0x80000004 pentium4World =
      some (true, w') := by
  obtain ⟨b, w', hcheck, _, _, _, _, hintel⟩ :=
    checkExtendedLevelSupport_floors pentium4Identity 0x80000004 pentium4World 0x80000004
      rfl (by decide) (by decide)
  have hb : b = true := (hintel rfl).mpr (by decide)
  subst hb
  exact ⟨⟨rfl, by decide⟩, w', hcheck⟩

/-- Counterexample to **C4** as stated: the example Geode has manufacturer NSC,
which has no vendor branch, and leaf `0x80000002` is reported eligible. -/
theorem checkExtendedLevelSupport_unlisted_counterexample :
    geodeIdentity.manufacturer = Manufacturer.NSC ∧
    (checkExtendedLevelSupport geodeIdentity 0x80000002 geodeWorld).map Prod.fst =
      some true := by
  decide!

/-- **C4**, amended. For an identity whose manufacturer is UMC, NexGen, Rise,
NSC or `UnknownManufacturer` no vendor floor applies: for every leaf `L`,
`checkExtendedLevelSupport` returns, and it returns `true` exactly when the
maximum extended leaf reported by leaf `0x80000000` is at least `L`. -/
theorem checkExtendedLevelSupport_unlisted (id : Identity) (L : Nat) (w : World)
    (maxLevel : Nat) (hsup : w.hw.cpuidInstr = ProbeOutcome.executes)
    (hmax : (w.answer 0x80000000).eax = maxLevel) (h32 : maxLevel < 2 ^ 32)
    (hm : id.manufacturer = Manufacturer.UMC ∨ id.manufacturer = Manufacturer.NexGen ∨
      id.manufacturer = Manufacturer.Rise ∨ id.manufacturer = Manufacturer.NSC ∨
      id.manufacturer = Manufacturer.UnknownManufacturer) :
    ∃ b w', checkExtendedLevelSupport id L w = some (b, w') ∧ (b = true ↔ maxLevel ≥ L) := by
  obtain ⟨w', hw', _⟩ := checkExtendedLevelSupport_reaches id L w hsup
  rw [hmax, u32_of_lt _ h32] at hw'
  refine ⟨_, w', hw', ?_⟩
  rcases hm with hm | hm | hm | hm | hm <;> simp [belowVendorFloor, hm]

/-- Witness of **C4**, amended: on the example Geode leaf `0x80000002` is
eligible and leaf `0x80000006` is not. -/
theorem checkExtendedLevelSupport_unlisted_witness :
    (geodeWorld.hw.cpuidInstr = ProbeOutcome.executes ∧
      (geodeWorld.answer 0x80000000).eax = 0x80000005 ∧
      geodeIdentity.manufacturer = Manufacturer.NSC) ∧
    ∃ w', checkExtendedLevelSupport geodeIdentity 0x80000006 geodeWorld =
      some (false, w') := by
  obtain ⟨b, w', hcheck, hb⟩ :=
    checkExtendedLevelSupport_unlisted geodeIdentity 0x80000006 geodeWorld 0x80000005
      rfl (by decide) (by decide) (Or.inr (Or.inr (Or.inr (Or.inl rfl))))
  have hb' : b = false := by
    cases b
    · rfl
    · exact absurd (hb.mp rfl) (by decide)
  subst hb'
  exact ⟨⟨rfl, by decide, rfl⟩, w', hcheck⟩

/-! ## The extended name -/

theorem skipSpace_spec (name : Fin 49 → Nat) :
    ∀ fuel i : Nat, i ≤ 48 → 48 ≤ i + fuel →
      i ≤ skipSpace name fuel i ∧ skipSpace name fuel i ≤ 48 ∧
      (∀ j, i ≤ j → j < skipSpace name fuel i → isspace (charAt name j) = true) ∧
      (skipSpace name fuel i < 48 → isspace (charAt name (skipSpace name fuel i)) = false) := by
  intro fuel
  induction fuel with
  | zero =>
    intro i h1 h2
    have : i = 48 := by omega
    subst this
    simp only [skipSpace]
    exact ⟨le_refl _, le_refl _, fun j a b => by omega, fun h => by omega⟩
  | succ n ih =>
    intro i h1 h2
    unfold skipSpace
    by_cases hc : i < 48 ∧ isspace (charAt name i) = true
    · rw [if_pos hc]
      obtain ⟨a, b, c, d⟩ := ih (i + 1) (by omega) (by omega)
      refine ⟨by omega, b, ?_, d⟩
      intro j hj1 hj2
      by_cases hji : j = i
      · subst hji; exact hc.2
      · exact c j (by omega) hj2
    · rw [if_neg hc]
      refine ⟨le_refl _, h1, fun j hj1 hj2 => by omega, ?_⟩
      intro hlt
      by_cases hs : isspace (charAt name i) = true
      · exact absurd ⟨hlt, hs⟩ hc
      · simpa using hs

theorem belowVendorFloor_congr (id id' : Identity) (hm : id'.manufacturer = id.manufacturer)
    (hf : id'.family = id.family) (hmo : id'.model = id.model) :
    belowVendorFloor id' = belowVendorFloor id := by
  unfold belowVendorFloor
  rw [hm, hf, hmo]

theorem checkExtendedLevelSupport_congr (id id' : Identity) (L : Nat) (w : World)
    (hm : id'.manufacturer = id.manufacturer)
    (hf : id'.family = id.family) (hmo : id'.model = id.model) :
    checkExtendedLevelSupport id' L w = checkExtendedLevelSupport id L w := by
  unfold checkExtendedLevelSupport
  rw [belowVendorFloor_congr id id' hm hf hmo]

theorem nameBytes (buf : Fin 49 → Nat) (x : Nat → Nat) (i : Nat) (hi : i < 48) :
    charAt (storeByte (storeU32 (storeU32 (storeU32 (storeU32 (storeU32 (storeU32 (storeU32
      (storeU32 (storeU32 (storeU32 (storeU32 (storeU32 buf 0 (x 0)) 4 (x 1)) 8 (x 2)) 12 (x 3))
      16 (x 4)) 20 (x 5)) 24 (x 6)) 28 (x 7)) 32 (x 8)) 36 (x 9)) 40 (x 10)) 44 (x 11)) 48 0) i
    = byteLE (x (i / 4)) (i % 4) := by
  interval_cases i <;> simp [charAt, storeByte, storeU32]

theorem answer_after_cpuid (w : World) (level level' : Nat) :
    ((w.log Event.probeCPUID).log (Event.cpuid level)).answer level' =
      w.hw.cpuid level' (w.trace.count (Event.cpuid level') + if level = level' then 1 else 0) := by
  by_cases h : level = level'
  · subst h; simp [World.answer, List.count_append]
  · have : Event.cpuid level ≠ Event.cpuid level' := fun e => h (by injection e)
    simp [World.answer, List.count_append, h, this, List.count_singleton]

theorem CPUID_reaches_of (level : Nat) (w : World) (allowed : List Event)
    (hp : Event.probeCPUID ∈ allowed) (hl : Event.cpuid level ∈ allowed) :
    w.Reaches ((w.log Event.probeCPUID).log (Event.cpuid level)) allowed :=
  (World.Reaches.log w _ _ hp).trans (World.Reaches.log _ _ _ hl)

theorem Regs.word_u32 (r : Regs) (k : Nat) :
    ({ eax := u32 r.eax, ebx := u32 r.ebx, ecx := u32 r.ecx, edx := u32 r.edx } : Regs).word k =
      u32 (r.word k) := by
  unfold Regs.word
  split_ifs <;> rfl

theorem getExtendedIdentity_core (id : Identity) (w : World)
    (hsup : w.hw.cpuidInstr = ProbeOutcome.executes) :
    ∃ id' w', getExtendedIdentity id w = some (id', w') ∧
      w.Reaches w' [Event.probeCPUID, Event.cpuid 0x80000000, Event.cpuid 0x80000002,
        Event.cpuid 0x80000003, Event.cpuid 0x80000004] ∧
      (id'.manufacturer = id.manufacturer ∧ id'.type = id.type ∧ id'.family = id.family ∧
        id'.model = id.model ∧ id'.stepping = id.stepping ∧ id'.vendor = id.vendor ∧
        id'.brand = id.brand) ∧
      id'.hasExtendedName =
        (!belowVendorFloor id &&
          decide (0x80000002 ≤
            u32 (w.hw.cpuid 0x80000000 (w.trace.count (Event.cpuid 0x80000000))).eax) &&
          decide (0x80000003 ≤
            u32 (w.hw.cpuid 0x80000000 (w.trace.count (Event.cpuid 0x80000000) + 1)).eax) &&
          decide (0x80000004 ≤
            u32 (w.hw.cpuid 0x80000000 (w.trace.count (Event.cpuid 0x80000000) + 2)).eax)) ∧
      (id'.hasExtendedName = false →
        id'.extendedName = id.extendedName ∧ id'.firstNonSpace = id.firstNonSpace ∧
        w.Reaches w' [Event.probeCPUID, Event.cpuid 0x80000000]) ∧
      (id'.hasExtendedName = true →
        (∀ i, i < 48 → charAt id'.extendedName i =
          byteLE (u32 ((w.answer (0x80000002 + i / 16)).word (i / 4 % 4))) (i % 4)) ∧
        charAt id'.extendedName 48 = 0 ∧
        id'.firstNonSpace = skipSpace id'.extendedName 48 0) := by
  have hbf : belowVendorFloor { id with hasExtendedName := false } = belowVendorFloor id :=
    belowVendorFloor_congr _ _ rfl rfl rfl
  unfold getExtendedIdentity
  simp only [Option.bind_eq_bind]
  rw [checkExtendedLevelSupport_eq _ _ w hsup, hbf]
  by_cases hb : belowVendorFloor id = true
  · simp only [hb, if_true, Option.some_bind, Bool.not_false, Bool.not_true, Bool.false_and]
    exact ⟨_, _, rfl, World.Reaches.refl _ _, ⟨rfl, rfl, rfl, rfl, rfl, rfl, rfl⟩, rfl,
      fun _ => ⟨rfl, rfl, World.Reaches.refl _ _⟩, fun h => by cases h⟩
  · have hb' : belowVendorFloor id = false := by simpa using hb
    have hM0 : (w.answer 0x80000000) =
        w.hw.cpuid 0x80000000 (w.trace.count (Event.cpuid 0x80000000)) := rfl
    have hallow : ∀ e ∈ [Event.probeCPUID, Event.cpuid 0x80000000],
        e ∈ [Event.probeCPUID, Event.cpuid 0x80000000, Event.cpuid 0x80000002,
          Event.cpuid 0x80000003, Event.cpuid 0x80000004] := by
      intro e he; simp at he ⊢; tauto
    simp only [hb', Bool.false_eq_true, if_false, Option.some_bind, Bool.not_false,
      Bool.true_and, ← hM0]
    have r1 := CPUID_reaches 0x80000000 w
    by_cases h2 : 0x80000002 ≤ u32 (w.answer 0x80000000).eax
    · rw [checkExtendedLevelSupport_eq _ _ _
        (show ((w.log Event.probeCPUID).log (Event.cpuid 0x80000000)).hw.cpuidInstr = _ from hsup),
        hbf]
      have hM1 : ((w.log Event.probeCPUID).log (Event.cpuid 0x80000000)).answer 0x80000000 =
          w.hw.cpuid 0x80000000 (w.trace.count (Event.cpuid 0x80000000) + 1) := by
        rw [answer_after_cpuid]; simp
      have r2 := r1.trans (CPUID_reaches 0x80000000 _)
      simp only [hb', h2, decide_True, Bool.not_true, Bool.false_eq_true, if_false,
        Option.some_bind, Bool.true_and, hM1]
      by_cases h3 : 0x80000003 ≤
          u32 (w.hw.cpuid 0x80000000 (w.trace.count (Event.cpuid 0x80000000) + 1)).eax
      · rw [checkExtendedLevelSupport_eq _ _ _
          (show ((((w.log Event.probeCPUID).log (Event.cpuid 0x80000000)).log
            Event.probeCPUID).log (Event.cpuid 0x80000000)).hw.cpuidInstr = _ from hsup), hbf]
        have hM2 : ((((w.log Event.probeCPUID).log (Event.cpuid 0x80000000)).log
            Event.probeCPUID).log (Event.cpuid 0x80000000)).answer 0x80000000 =
            w.hw.cpuid 0x80000000 (w.trace.count (Event.cpuid 0x80000000) + 2) := by
          rw [answer_after_cpuid, World.log_hw, World.log_hw]
          simp [List.count_append]
        have r3 := r2.trans (CPUID_reaches 0x80000000 _)
        simp only [hb', h3, decide_True, Bool.not_true, Bool.false_eq_true, if_false,
          Option.some_bind, Bool.true_and, hM2]
        by_cases h4 : 0x80000004 ≤
            u32 (w.hw.cpuid 0x80000000 (w.trace.count (Event.cpuid 0x80000000) + 2)).eax
        · simp only [h4, decide_True, Bool.not_true, Bool.false_eq_true, if_false]
          generalize hw3 : (((((w.log Event.probeCPUID).log (Event.cpuid 0x80000000)).log
            Event.probeCPUID).log (Event.cpuid 0x80000000)).log Event.probeCPUID).log
            (Event.cpuid 0x80000000) = w3 at r3 ⊢
          have hs3 : w3.hw.cpuidInstr = ProbeOutcome.executes := r3.1.symm ▸ hsup
          have q2 : w.Reaches ((w3.log Event.probeCPUID).log (Event.cpuid 0x80000002))
              [Event.probeCPUID, Event.cpuid 0x80000000, Event.cpuid 0x80000002] :=
            (r3.mono (by intro e he; simp at he ⊢; tauto)).trans
              (CPUID_reaches_of _ _ _ (by simp) (by simp))
          have q3 : w.Reaches ((((w3.log Event.probeCPUID).log (Event.cpuid 0x80000002)).log
              Event.probeCPUID).log (Event.cpuid 0x80000003))
              [Event.probeCPUID, Event.cpuid 0x80000000, Event.cpuid 0x80000002,
                Event.cpuid 0x80000003] :=
            (q2.mono (by intro e he; simp at he ⊢; tauto)).trans
              (CPUID_reaches_of _ _ _ (by simp) (by simp))
          have q4 : w.Reaches ((((((w3.log Event.probeCPUID).log (Event.cpuid 0x80000002)).log
              Event.probeCPUID).log (Event.cpuid 0x80000003)).log
              Event.probeCPUID).log (Event.cpuid 0x80000004))
              [Event.probeCPUID, Event.cpuid 0x80000000, Event.cpuid 0x80000002,
                Event.cpuid 0x80000003, Event.cpuid 0x80000004] :=
            (q3.mono (by intro e he; simp at he ⊢; tauto)).trans
              (CPUID_reaches_of _ _ _ (by simp) (by simp))
          have a2 : w3.answer 0x80000002 = w.answer 0x80000002 := r3.answer_eq _ (by simp)
          have a3 := q2.answer_eq 0x80000003 (by simp)
          have a4 := q3.answer_eq 0x80000004 (by simp)
          rw [CPUID_eq 0x80000002 _ hs3]
          simp only [Option.some_bind]
          rw [CPUID_eq 0x80000003 _ (q2.1.symm ▸ hsup)]
          simp only [Option.some_bind]
          rw [CPUID_eq 0x80000004 _ (q3.1.symm ▸ hsup)]
          simp only [Option.some_bind, a2, a3, a4]
          refine ⟨_, _, rfl, q4, ⟨rfl, rfl, rfl, rfl, rfl, rfl, rfl⟩, ?_,
            (fun h => by cases h), fun _ => ⟨?_, ?_, rfl⟩⟩
          · simp only [h2, h3, h4, decide_True, Bool.and_self]
          · intro i hi
            have hx := nameBytes id.extendedName
              (fun k => u32 ((w.answer (0x80000002 + k / 4)).word (k % 4))) i hi
            simp only [Nat.div_div_eq_div_mul] at hx
            exact hx
          · simp [charAt, storeByte]
        · simp only [h4, decide_False, Bool.not_false, if_true]
          exact ⟨_, _, rfl, r3.mono hallow, ⟨rfl, rfl, rfl, rfl, rfl, rfl, rfl⟩, rfl,
            fun _ => ⟨rfl, rfl, r3⟩, fun h => by cases h⟩
      · simp only [h3, decide_False, Bool.not_false, if_true, Bool.false_and]
        exact ⟨_, _, rfl, r2.mono hallow, ⟨rfl, rfl, rfl, rfl, rfl, rfl, rfl⟩, rfl,
          fun _ => ⟨rfl, rfl, r2⟩, fun h => by cases h⟩
    · simp only [h2, decide_False, Bool.not_false, if_true, Bool.false_and]
      exact ⟨_, _, rfl, r1.mono hallow, ⟨rfl, rfl, rfl, rfl, rfl, rfl, rfl⟩, rfl,
        fun _ => ⟨rfl, rfl, r1⟩, fun h => by cases h⟩

theorem eligible_iff (id : Identity) (L : Nat) (w : World)
    (hsup : w.hw.cpuidInstr = ProbeOutcome.executes) :
    eligible id L w ↔
      belowVendorFloor id = false ∧ L ≤ u32 (w.answer 0x80000000).eax := by
  unfold eligible
  rw [checkExtendedLevelSupport_eq id L w hsup]
  by_cases hb : belowVendorFloor id = true
  · simp [hb]
  · simp [hb]

/-- **C5.** On a machine whose leaf `0x80000000` reports the same maximum at
every query, `getExtendedIdentity` returns, and `hasExtendedName` is `true`
exactly when leaves `0x80000002`, `0x80000003` and `0x80000004` are all
eligible under `checkExtendedLevelSupport`; otherwise it is `false`, none of
the three name leaves has been queried, and `extendedName` and
`firstNonSpace` are unchanged. -/
theorem getExtendedIdentity_hasExtendedName (id : Identity) (w : World)
    (hsup : w.hw.cpuidInstr = ProbeOutcome.executes)
    (hstable : ∀ k, (w.hw.cpuid 0x80000000 k).eax = (w.hw.cpuid 0x80000000 0).eax) :
    ∃ id' w', getExtendedIdentity id w = some (id', w') ∧
      (id'.hasExtendedName = true ↔
        eligible id 0x80000002 w ∧ eligible id 0x80000003 w ∧ eligible id 0x80000004 w) ∧
      (¬ (eligible id 0x80000002 w ∧ eligible id 0x80000003 w ∧ eligible id 0x80000004 w) →
        id'.hasExtendedName = false ∧
        w'.trace.count (Event.cpuid 0x80000002) = w.trace.count (Event.cpuid 0x80000002) ∧
        w'.trace.count (Event.cpuid 0x80000003) = w.trace.count (Event.cpuid 0x80000003) ∧
        w'.trace.count (Event.cpuid 0x80000004) = w.trace.count (Event.cpuid 0x80000004) ∧
        id'.extendedName = id.extendedName ∧ id'.firstNonSpace = id.firstNonSpace) := by
  obtain ⟨id', w', hget, _, _, hname, hfalse, _⟩ := getExtendedIdentity_core id w hsup
  have hiff : id'.hasExtendedName = true ↔
      eligible id 0x80000002 w ∧ eligible id 0x80000003 w ∧ eligible id 0x80000004 w := by
    rw [hname, eligible_iff _ _ _ hsup, eligible_iff _ _ _ hsup, eligible_iff _ _ _ hsup]
    unfold World.answer
    rw [hstable (w.trace.count _), hstable (w.trace.count _ + 1),
      hstable (w.trace.count _ + 2)]
    cases belowVendorFloor id <;> simp [and_assoc]
  refine ⟨id', w', hget, hiff, ?_⟩
  intro hne
  have hf : id'.hasExtendedName = false := by
    cases h : id'.hasExtendedName
    · rfl
    · exact absurd (hiff.mp h) hne
  obtain ⟨h1, h2, hr⟩ := hfalse hf
  exact ⟨hf, hr.count_eq _ (by simp), hr.count_eq _ (by simp), hr.count_eq _ (by simp), h1, h2⟩

/-- Witness of **C5**: on the example Geode, whose manufacturer has no floor and
which reports `0x80000005`, the three name leaves are eligible and
`hasExtendedName` is set. -/
theorem getExtendedIdentity_hasExtendedName_witness :
    (geodeWorld.hw.cpuidInstr = ProbeOutcome.executes ∧
      ∀ k, (geodeWorld.hw.cpuid 0x80000000 k).eax = (geodeWorld.hw.cpuid 0x80000000 0).eax) ∧
    ∃ id' w', getExtendedIdentity geodeIdentity geodeWorld = some (id', w') ∧
      id'.hasExtendedName = true := by
  obtain ⟨id', w', hget, hiff, _⟩ :=
    getExtendedIdentity_hasExtendedName geodeIdentity geodeWorld rfl (fun _ => rfl)
  have he : ∀ L, L ≤ 0x80000005 → eligible geodeIdentity L geodeWorld := by
    intro L hL
    rw [eligible_iff _ _ _ rfl]
    exact ⟨by decide, hL⟩
  exact ⟨⟨rfl, fun _ => rfl⟩, id', w', hget,
    hiff.mpr ⟨he _ (by decide), he _ (by decide), he _ (by decide)⟩⟩

/-- **C6.** `getExtendedIdentity` returns, and when it sets `hasExtendedName`
(the three name leaves were eligible) `extendedName[0..47]` holds the
little-endian bytes of EAX, EBX, ECX, EDX of leaf `0x80000002`, then of
`0x80000003`, then of `0x80000004`, `extendedName[48]` is zero, and
`firstNonSpace` is the least index below 48 whose byte is not whitespace, or 48
when all 48 bytes are whitespace: it is at most 48, every byte before it is
whitespace, and the byte at it is not when it is below 48. -/
theorem getExtendedIdentity_name (id : Identity) (w : World)
    (hsup : w.hw.cpuidInstr = ProbeOutcome.executes) :
    ∃ id' w', getExtendedIdentity id w = some (id', w') ∧
      (id'.hasExtendedName = true →
        (∀ i, i < 48 → charAt id'.extendedName i =
          byteLE (u32 ((w.answer (0x80000002 + i / 16)).word (i / 4 % 4))) (i % 4)) ∧
        charAt id'.extendedName 48 = 0 ∧
        id'.firstNonSpace ≤ 48 ∧
        (∀ j, j < id'.firstNonSpace → isspace (charAt id'.extendedName j) = true) ∧
        (id'.firstNonSpace < 48 →
          isspace (charAt id'.extendedName id'.firstNonSpace) = false)) := by
  obtain ⟨id', w', hget, _, _, _, _, htrue⟩ := getExtendedIdentity_core id w hsup
  refine ⟨id', w', hget, fun h => ?_⟩
  obtain ⟨hbytes, hzero, hfirst⟩ := htrue h
  obtain ⟨_, hle, hsp, hnsp⟩ := skipSpace_spec id'.extendedName 48 0 (by omega) (by omega)
  rw [← hfirst] at hle hsp hnsp
  exact ⟨hbytes, hzero, hle, fun j hj => hsp j (Nat.zero_le _) hj, hnsp⟩

/-- Witness of **C6**: on the example Pentium 4 the name is set, it starts with
14 spaces, and `firstNonSpace` is 14, the index of the `I` of `Intel`. -/
theorem getExtendedIdentity_name_witness :
    pentium4World.hw.cpuidInstr = ProbeOutcome.executes ∧
    ∃ id' w', getExtendedIdentity pentium4Identity pentium4World = some (id', w') ∧
      id'.hasExtendedName = true ∧ id'.firstNonSpace = 14 ∧
      charAt id'.extendedName 14 = 73 ∧
      (∀ j, j < id'.firstNonSpace → isspace (charAt id'.extendedName j) = true) := by
  obtain ⟨id', w', hget, hname⟩ := getExtendedIdentity_name pentium4Identity pentium4World rfl
  have hval : (getExtendedIdentity pentium4Identity pentium4World).map
      (fun p => (p.1.hasExtendedName, p.1.firstNonSpace, charAt p.1.extendedName 14)) =
      some (true, 14, 73) := by decide!
  rw [hget] at hval
  simp only [Option.map_some', Option.some.injEq, Prod.mk.injEq] at hval
  obtain ⟨h1, h2, h3⟩ := hval
  exact ⟨rfl, id', w', hget, h1, h2, h3, (hname h1).2.2.2.1⟩

/-! ## Features -/

theorem isBitSet_u32 (x bit : Nat) (h : bit < 32) : isBitSet (u32 x) bit = x.testBit bit := by
  have h1 : u32 (1 <<< bit) = 2 ^ bit := by
    unfold u32
    rw [Nat.one_shiftLeft]
    exact Nat.mod_eq_of_lt (Nat.pow_lt_pow_right (by omega) h)
  have h2 : u32 (u32 x) = u32 x := by unfold u32; exact Nat.mod_mod _ _
  unfold isBitSet
  rw [h1, h2, Nat.and_two_pow]
  unfold u32
  rw [Nat.testBit_mod_two_pow]
  have hlt : decide (bit < 32) = true := by simpa using h
  rw [hlt, Bool.true_and]
  cases x.testBit bit <;> simp

theorem getFeatures_eq (f : Features) (w : World)
    (hsup : w.hw.cpuidInstr = ProbeOutcome.executes)
    (hlive : (w.answer 1).edx.testBit 25 = true → w.survives w.hw.orpsInstr = true) :
    getFeatures f w = some
      ({ f with
          fpu := (w.answer 1).edx.testBit 0
          vme := (w.answer 1).edx.testBit 1
          de := (w.answer 1).edx.testBit 2
          pse := (w.answer 1).edx.testBit 3
          tsc := (w.answer 1).edx.testBit 4
          msr := (w.answer 1).edx.testBit 5
          pae := (w.answer 1).edx.testBit 6
          mce := (w.answer 1).edx.testBit 7
          cx8 := (w.answer 1).edx.testBit 8
          apic := (w.answer 1).edx.testBit 9
          sep := (w.answer 1).edx.testBit 11
          mtrr := (w.answer 1).edx.testBit 12
          pge := (w.answer 1).edx.testBit 13
          mca := (w.answer 1).edx.testBit 14
          cmov := (w.answer 1).edx.testBit 15
          pat := (w.answer 1).edx.testBit 16
          pse36 := (w.answer 1).edx.testBit 17
          serial := (w.answer 1).edx.testBit 18
          clfsh := (w.answer 1).edx.testBit 19
          ds := (w.answer 1).edx.testBit 21
          acpi := (w.answer 1).edx.testBit 22
          mmx := (w.answer 1).edx.testBit 23
          fxsr := (w.answer 1).edx.testBit 24
          sse := (w.answer 1).edx.testBit 25
          sse2 := (w.answer 1).edx.testBit 26
          ss := (w.answer 1).edx.testBit 27
          htt := (w.answer 1).edx.testBit 28
          thermal := (w.answer 1).edx.testBit 29
          ia64 := (w.answer 1).edx.testBit 30
          pbe := (w.answer 1).edx.testBit 31
          ssefp := (w.answer 1).edx.testBit 25 &&
            decide (w.hw.orpsInstr = ProbeOutcome.executes)
          CLFLUSHCacheLineSize := toInt ((u32 (w.answer 1).ebx >>> 8) &&& 0xFF)
          APIC_ID := toInt ((u32 (w.answer 1).ebx >>> 24) &&& 0xFF)
          sse3 := (w.answer 1).ecx.testBit 0
          monitor := (w.answer 1).ecx.testBit 3
          ds_cpl := (w.answer 1).ecx.testBit 4
          est := (w.answer 1).ecx.testBit 7
          tm2 := (w.answer 1).ecx.testBit 8
          cnxt_id := (w.answer 1).ecx.testBit 10
          logicalProcessorsPerPhysical :=
            if (w.answer 1).edx.testBit 28 = true then
              toInt ((u32 (w.answer 1).ebx >>> 16) &&& 0xFF)
            else 1 },
       if (w.answer 1).edx.testBit 25 = true then
         ((w.log Event.probeCPUID).log (Event.cpuid 1)).afterProbe w.hw.orpsInstr
           Event.probeSSEFP
       else (w.log Event.probeCPUID).log (Event.cpuid 1)) := by
  unfold getFeatures
  simp only [Option.bind_eq_bind, CPUID_eq 1 w hsup, Option.some_bind]
  simp only [isBitSet_u32 _ _ (by decide : 0 < 32), isBitSet_u32 _ _ (by decide : 1 < 32),
    isBitSet_u32 _ _ (by decide : 2 < 32), isBitSet_u32 _ _ (by decide : 3 < 32),
    isBitSet_u32 _ _ (by decide : 4 < 32), isBitSet_u32 _ _ (by decide : 5 < 32),
    isBitSet_u32 _ _ (by decide : 6 < 32), isBitSet_u32 _ _ (by decide : 7 < 32),
    isBitSet_u32 _ _ (by decide : 8 < 32), isBitSet_u32 _ _ (by decide : 9 < 32),
    isBitSet_u32 _ _ (by decide : 10 < 32), isBitSet_u32 _ _ (by decide : 11 < 32),
    isBitSet_u32 _ _ (by decide : 12 < 32), isBitSet_u32 _ _ (by decide : 13 < 32),
    isBitSet_u32 _ _ (by decide : 14 < 32), isBitSet_u32 _ _ (by decide : 15 < 32),
    isBitSet_u32 _ _ (by decide : 16 < 32), isBitSet_u32 _ _ (by decide : 17 < 32),
    isBitSet_u32 _ _ (by decide : 18 < 32), isBitSet_u32 _ _ (by decide : 19 < 32),
    isBitSet_u32 _ _ (by decide : 21 < 32), isBitSet_u32 _ _ (by decide : 22 < 32),
    isBitSet_u32 _ _ (by decide : 23 < 32), isBitSet_u32 _ _ (by decide : 24 < 32),
    isBitSet_u32 _ _ (by decide : 25 < 32), isBitSet_u32 _ _ (by decide : 26 < 32),
    isBitSet_u32 _ _ (by decide : 27 < 32), isBitSet_u32 _ _ (by decide : 28 < 32),
    isBitSet_u32 _ _ (by decide : 29 < 32), isBitSet_u32 _ _ (by decide : 30 < 32),
    isBitSet_u32 _ _ (by decide : 31 < 32)]
  cases h : (w.answer 1).edx.testBit 25
  · simp
  · have hl := hlive h
    have hl2 : ((w.log Event.probeCPUID).log (Event.cpuid 1)).survives w.hw.orpsInstr = true := by
      rw [World.survives_log, World.survives_log]
      exact hl
    have hhw : ((w.log Event.probeCPUID).log (Event.cpuid 1)).hw = w.hw := rfl
    simp [getSSEFPSupport_eq, hhw, hl2]

theorem getFeatures_killed (f : Features) (w : World)
    (hsup : w.hw.cpuidInstr = ProbeOutcome.executes)
    (hsse : (w.answer 1).edx.testBit 25 = true)
    (hdead : w.survives w.hw.orpsInstr = false) :
    getFeatures f w = none := by
  unfold getFeatures
  simp only [Option.bind_eq_bind, CPUID_eq 1 w hsup, Option.some_bind]
  have hl2 : ((w.log Event.probeCPUID).log (Event.cpuid 1)).survives w.hw.orpsInstr = false := by
    rw [World.survives_log, World.survives_log]
    exact hdead
  have hhw : ((w.log Event.probeCPUID).log (Event.cpuid 1)).hw = w.hw := rfl
  simp [isBitSet_u32 _ _ (by decide : 25 < 32), hsse, getSSEFPSupport_eq, hhw, hl2]

/-- **C7.** For every leaf-1 EDX and ECX, `getFeatures` returns (provided the
`orps` probe it runs when the sse bit is set is not killed by a blocked signal)
and each flag is the value of one fixed bit: from EDX fpu=0, vme=1, de=2, pse=3, tsc=4, msr=5,
pae=6, mce=7, cx8=8, apic=9, sep=11, mtrr=12, pge=13, mca=14, cmov=15, pat=16,
pse36=17, serial=18, clfsh=19, ds=21, acpi=22, mmx=23, fxsr=24, sse=25, sse2=26,
ss=27, htt=28, thermal=29, ia64=30, pbe=31; from ECX sse3=0, monitor=3,
ds_cpl=4, est=7, tm2=8, cnxt_id=10. No flag depends on EDX bits 10 or 20 or on
another ECX bit: a run on any machine whose leaf-1 words agree with these on
the other bits yields the same 36 flags. -/
theorem getFeatures_flags (f : Features) (w : World) (edx ecx : Nat)
    (hsup : w.hw.cpuidInstr = ProbeOutcome.executes)
    (hlive : (w.answer 1).edx.testBit 25 = true → w.survives w.hw.orpsInstr = true)
    (hedx : (w.answer 1).edx = edx) (hecx : (w.answer 1).ecx = ecx) :
    ∃ f' w', getFeatures f w = some (f', w') ∧
      (f'.fpu = edx.testBit 0 ∧ f'.vme = edx.testBit 1 ∧ f'.de = edx.testBit 2 ∧
       f'.pse = edx.testBit 3 ∧ f'.tsc = edx.testBit 4 ∧ f'.msr = edx.testBit 5 ∧
       f'.pae = edx.testBit 6 ∧ f'.mce = edx.testBit 7 ∧ f'.cx8 = edx.testBit 8 ∧
       f'.apic = edx.testBit 9 ∧ f'.sep = edx.testBit 11 ∧ f'.mtrr = edx.testBit 12 ∧
       f'.pge = edx.testBit 13 ∧ f'.mca = edx.testBit 14 ∧ f'.cmov = edx.testBit 15 ∧
       f'.pat = edx.testBit 16 ∧ f'.pse36 = edx.testBit 17 ∧ f'.serial = edx.testBit 18 ∧
       f'.clfsh = edx.testBit 19 ∧ f'.ds = edx.testBit 21 ∧ f'.acpi = edx.testBit 22 ∧
       f'.mmx = edx.testBit 23 ∧ f'.fxsr = edx.testBit 24 ∧ f'.sse = edx.testBit 25 ∧
       f'.sse2 = edx.testBit 26 ∧ f'.ss = edx.testBit 27 ∧ f'.htt = edx.testBit 28 ∧
       f'.thermal = edx.testBit 29 ∧ f'.ia64 = edx.testBit 30 ∧ f'.pbe = edx.testBit 31) ∧
      (f'.sse3 = ecx.testBit 0 ∧ f'.monitor = ecx.testBit 3 ∧ f'.ds_cpl = ecx.testBit 4 ∧
       f'.est = ecx.testBit 7 ∧ f'.tm2 = ecx.testBit 8 ∧ f'.cnxt_id = ecx.testBit 10) ∧
      (∀ (g : Features) (v : World), v.hw.cpuidInstr = ProbeOutcome.executes →
        ((v.answer 1).edx.testBit 25 = true → v.survives v.hw.orpsInstr = true) →
        (∀ i, i < 32 → i ≠ 10 → i ≠ 20 → (v.answer 1).edx.testBit i = edx.testBit i) →
        (∀ i ∈ [0, 3, 4, 7, 8, 10], (v.answer 1).ecx.testBit i = ecx.testBit i) →
        ∃ g' v', getFeatures g v = some (g', v') ∧ g'.leaf1Flags = f'.leaf1Flags) := by
  subst hedx hecx
  refine ⟨_, _, getFeatures_eq f w hsup hlive, ?_, ?_, ?_⟩
  · exact ⟨rfl, rfl, rfl, rfl, rfl, rfl, rfl, rfl, rfl, rfl, rfl, rfl, rfl, rfl, rfl, rfl, rfl,
      rfl, rfl, rfl, rfl, rfl, rfl, rfl, rfl, rfl, rfl, rfl, rfl, rfl⟩
  · exact ⟨rfl, rfl, rfl, rfl, rfl, rfl⟩
  · intro g v hv hl hd hc
    refine ⟨_, _, getFeatures_eq g v hv hl, ?_⟩
    simp only [Features.leaf1Flags]
    rw [hd 0 (by decide) (by decide) (by decide), hd 1 (by decide) (by decide) (by decide),
      hd 2 (by decide) (by decide) (by decide), hd 3 (by decide) (by decide) (by decide),
      hd 4 (by decide) (by decide) (by decide), hd 5 (by decide) (by decide) (by decide),
      hd 6 (by decide) (by decide) (by decide), hd 7 (by decide) (by decide) (by decide),
      hd 8 (by decide) (by decide) (by decide), hd 9 (by decide) (by decide) (by decide),
      hd 11 (by decide) (by decide) (by decide), hd 12 (by decide) (by decide) (by decide),
      hd 13 (by decide) (by decide) (by decide), hd 14 (by decide) (by decide) (by decide),
      hd 15 (by decide) (by decide) (by decide), hd 16 (by decide) (by decide) (by decide),
      hd 17 (by decide) (by decide) (by decide), hd 18 (by decide) (by decide) (by decide),
      hd 19 (by decide) (by decide) (by decide), hd 21 (by decide) (by decide) (by decide),
      hd 22 (by decide) (by decide) (by decide), hd 23 (by decide) (by decide) (by decide),
      hd 24 (by decide) (by decide) (by decide), hd 25 (by decide) (by decide) (by decide),
      hd 26 (by decide) (by decide) (by decide), hd 27 (by decide) (by decide) (by decide),
      hd 28 (by decide) (by decide) (by decide), hd 29 (by decide) (by decide) (by decide),
      hd 30 (by decide) (by decide) (by decide), hd 31 (by decide) (by decide) (by decide),
      hc 0 (by decide), hc 3 (by decide), hc 4 (by decide), hc 7 (by decide),
      hc 8 (by decide), hc 10 (by decide)]

/-- Witness of **C7**: the feature words `0xBFEBFBFF` and `0x0000041D` of the
example Pentium 4 give, among others, fpu, tsc, sse2, htt, sse3 set and ia64
and est clear. -/
theorem getFeatures_flags_witness :
    (pentium4World.hw.cpuidInstr = ProbeOutcome.executes ∧
      pentium4World.survives pentium4World.hw.orpsInstr = true ∧
      (pentium4World.answer 1).edx = 0xBFEBFBFF ∧ (pentium4World.answer 1).ecx = 0x0000041D) ∧
    ∃ f' w', getFeatures blankInfo.features pentium4World = some (f', w') ∧
      f'.fpu = true ∧ f'.tsc = true ∧ f'.sse2 = true ∧ f'.htt = true ∧ f'.ia64 = false ∧
      f'.pbe = true ∧ f'.sse3 = true ∧ f'.est = false ∧ f'.cnxt_id = true := by
  obtain ⟨f', w', hget, hd, hc, _⟩ :=
    getFeatures_flags blankInfo.features pentium4World 0xBFEBFBFF 0x0000041D
      rfl (fun _ => rfl) (by decide) (by decide)
  refine ⟨⟨rfl, rfl, by decide, by decide⟩, f', w', hget, ?_, ?_, ?_, ?_, ?_, ?_, ?_, ?_, ?_⟩
  · rw [hd.1]; decide
  · rw [hd.2.2.2.2.1]; decide
  · rw [hd.2.2.2.2.2.2.2.2.2.2.2.2.2.2.2.2.2.2.2.2.2.2.2.2.1]; decide
  · rw [hd.2.2.2.2.2.2.2.2.2.2.2.2.2.2.2.2.2.2.2.2.2.2.2.2.2.2.1]; decide
  · rw [hd.2.2.2.2.2.2.2.2.2.2.2.2.2.2.2.2.2.2.2.2.2.2.2.2.2.2.2.2.1]; decide
  · rw [hd.2.2.2.2.2.2.2.2.2.2.2.2.2.2.2.2.2.2.2.2.2.2.2.2.2.2.2.2.2]; decide
  · rw [hc.1]; decide
  · rw [hc.2.2.2.1]; decide
  · rw [hc.2.2.2.2.2]; decide

/-- **C8.** For every leaf-1 result and probe outcome, `getFeatures` returns
(provided the `orps` probe it runs when the sse bit is set is not killed by a
blocked signal) with `ssefp` = (`sse` and the `orps` probe succeeds); so
`ssefp` implies `sse`, and when `sse` is clear `ssefp` is `false` and the probe
has not been executed (when `sse` is set it has been executed once). -/
theorem getFeatures_ssefp (f : Features) (w : World)
    (hsup : w.hw.cpuidInstr = ProbeOutcome.executes)
    (hlive : (w.answer 1).edx.testBit 25 = true → w.survives w.hw.orpsInstr = true) :
    ∃ f' w', getFeatures f w = some (f', w') ∧
      f'.ssefp = (f'.sse && decide (w.hw.orpsInstr = ProbeOutcome.executes)) ∧
      (f'.ssefp = true → f'.sse = true) ∧
      (f'.sse = false → f'.ssefp = false ∧
        w'.trace.count Event.probeSSEFP = w.trace.count Event.probeSSEFP) ∧
      (f'.sse = true →
        w'.trace.count Event.probeSSEFP = w.trace.count Event.probeSSEFP + 1) := by
  refine ⟨_, _, getFeatures_eq f w hsup hlive, rfl, ?_, ?_, ?_⟩
  · intro h
    simp only [Bool.and_eq_true] at h
    exact h.1
  · intro h
    simp only [] at h
    simp [h, List.count_append]
  · intro h
    simp only [] at h
    simp [h, List.count_append, World.afterProbe_trace]

/-- Witness of **C8**: the example Pentium 4 has the sse bit and executes `orps`:
`ssefp` is set. -/
theorem getFeatures_ssefp_witness :
    (pentium4World.hw.cpuidInstr = ProbeOutcome.executes ∧
      pentium4World.survives pentium4World.hw.orpsInstr = true) ∧
    ∃ f' w', getFeatures blankInfo.features pentium4World = some (f', w') ∧
      f'.sse = true ∧ f'.ssefp = true := by
  obtain ⟨f', w', hget, hs, _⟩ :=
    getFeatures_ssefp blankInfo.features pentium4World rfl (fun _ => rfl)
  have hsse : (getFeatures blankInfo.features pentium4World).map (fun p => p.1.sse) =
      some true := by decide!
  rw [hget] at hsse
  simp only [Option.map_some', Option.some.injEq] at hsse
  refine ⟨⟨rfl, rfl⟩, f', w', hget, hsse, ?_⟩
  rw [hs, hsse]
  decide

/-- **C9.** For every leaf-1 result, `getFeatures` returns (provided the
`orps` probe it runs when the sse bit is set is not killed by a blocked signal)
with `logicalProcessorsPerPhysical` equal to 1 when `htt` is `false` and to
bits 16..23 of EBX when `htt` is `true`. -/
theorem getFeatures_logicalProcessors (f : Features) (w : World) (ebx : Nat)
    (hsup : w.hw.cpuidInstr = ProbeOutcome.executes)
    (hlive : (w.answer 1).edx.testBit 25 = true → w.survives w.hw.orpsInstr = true)
    (hebx : (w.answer 1).ebx = ebx) (h32 : ebx < 2 ^ 32) :
    ∃ f' w', getFeatures f w = some (f', w') ∧
      (f'.htt = false → f'.logicalProcessorsPerPhysical = 1) ∧
      (f'.htt = true →
        f'.logicalProcessorsPerPhysical = ((ebx / 2 ^ 16 % 256 : Nat) : Int)) := by
  refine ⟨_, _, getFeatures_eq f w hsup hlive, ?_, ?_⟩
  · intro h
    simp only [] at h
    simp [h]
  · intro h
    simp only [] at h
    simp only [h, if_true, hebx, u32_of_lt _ h32, and_0xFF, Nat.shiftRight_eq_div_pow]
    exact toInt_small _ (by omega)

/-- Witness of **C9**: the example Pentium 4 has `htt` set and EBX `0x00020809`:
two logical processors per physical processor. -/
theorem getFeatures_logicalProcessors_witness :
    (pentium4World.hw.cpuidInstr = ProbeOutcome.executes ∧
      pentium4World.survives pentium4World.hw.orpsInstr = true ∧
      (pentium4World.answer 1).ebx = 0x00020809) ∧
    ∃ f' w', getFeatures blankInfo.features pentium4World = some (f', w') ∧
      f'.htt = true ∧ f'.logicalProcessorsPerPhysical = 2 := by
  obtain ⟨f', w', hget, _, ht⟩ :=
    getFeatures_logicalProcessors blankInfo.features pentium4World 0x00020809
      rfl (fun _ => rfl) (by decide) (by decide)
  have hhtt : (getFeatures blankInfo.features pentium4World).map (fun p => p.1.htt) =
      some true := by decide!
  rw [hget] at hhtt
  simp only [Option.map_some', Option.some.injEq] at hhtt
  refine ⟨⟨rfl, rfl, by decide⟩, f', w', hget, hhtt, ?_⟩
  rw [ht hhtt]
  decide

/-! ## The detection pass -/

theorem getIdentity_core (id : Identity) (w : World)
    (hsup : w.hw.cpuidInstr = ProbeOutcome.executes) :
    ∃ id', getIdentity id w = some (id',
      (((w.log Event.probeCPUID).log (Event.cpuid 0)).log Event.probeCPUID).log
        (Event.cpuid 1)) := by
  simp only [getIdentity, CPUID_eq 0 w hsup, Option.bind_eq_bind, Option.some_bind]
  rw [CPUID_eq 1 _ (by simpa using hsup)]
  exact ⟨_, rfl⟩

theorem getExtendedFeatures_core (id : Identity) (f : Features) (w : World)
    (hsup : w.hw.cpuidInstr = ProbeOutcome.executes) :
    ∃ f' w', getExtendedFeatures id f w = some (f', w') ∧
      w.Reaches w' [Event.probeCPUID, Event.cpuid 0x80000000, Event.cpuid 0x80000001] ∧
      f' = { f with _3dnow := f'._3dnow, _3dnowPlus := f'._3dnowPlus, ssemmx := f'.ssemmx,
                    mmxPlus := f'.mmxPlus, supportsMP := f'.supportsMP } := by
  unfold getExtendedFeatures
  obtain ⟨w1, h1, r1⟩ := checkExtendedLevelSupport_reaches id 0x80000001 w hsup
  simp only [Option.bind_eq_bind, h1, Option.some_bind]
  have r1' := r1.mono (b := [Event.probeCPUID, Event.cpuid 0x80000000, Event.cpuid 0x80000001])
    (by intro e he; simp at he ⊢; tauto)
  split
  · rw [CPUID_eq _ w1 (r1.1.symm ▸ hsup)]
    exact ⟨_, _, rfl, r1'.trans (CPUID_reaches_of _ _ _ (by simp) (by simp)), rfl⟩
  · exact ⟨_, _, rfl, r1', rfl⟩

theorem getSerialNumber_core (info : CPUInfo) (w : World)
    (hsup : w.hw.cpuidInstr = ProbeOutcome.executes) (hserial : info.features.serial = true) :
    ∃ sn, getSerialNumber info w =
      some ({ info with features := { info.features with serialNumber := sn } },
        (w.log Event.probeCPUID).log (Event.cpuid 3)) := by
  unfold getSerialNumber
  rw [if_pos hserial]
  simp only [Option.bind_eq_bind, CPUID_eq 3 w hsup, Option.some_bind]
  exact ⟨_, rfl⟩

theorem getCacheDetails_core (id : Identity) (cache : Cache) (w : World)
    (hsup : w.hw.cpuidInstr = ProbeOutcome.executes) :
    ∃ found cache' w', getCacheDetails id cache w = some (found, cache', w') ∧
      w.Reaches w' [Event.probeCPUID, Event.cpuid 0x80000000, Event.cpuid 0x80000005,
        Event.cpuid 0x80000006] := by
  have hall : ∀ e ∈ [Event.probeCPUID, Event.cpuid 0x80000000],
      e ∈ [Event.probeCPUID, Event.cpuid 0x80000000, Event.cpuid 0x80000005,
        Event.cpuid 0x80000006] := by
    intro e he; simp at he ⊢; tauto
  have step2 : ∀ (l1 l3 : Int) (w2 : World), w2.hw.cpuidInstr = ProbeOutcome.executes →
      ∃ found cache' w', ((checkExtendedLevelSupport id 0x80000006 w2).bind fun s6 =>
        (if s6.1 = true then
          (CPUID 0x80000006 s6.2).bind fun L2 =>
            some (({ L1CacheSize := l1, L2CacheSize := toInt ((L2.1.ecx >>> 16) &&& 0xFFFF),
                     L3CacheSize := l3 } : Cache), L2.2)
        else some (({ L1CacheSize := l1, L2CacheSize := -1, L3CacheSize := l3 } : Cache),
          s6.2)).bind fun r =>
          some (r.1.L1CacheSize != -1 || r.1.L2CacheSize != -1,
            ({ L1CacheSize := r.1.L1CacheSize, L2CacheSize := r.1.L2CacheSize,
               L3CacheSize := -1 } : Cache), r.2)) = some (found, cache', w') ∧
        w2.Reaches w' [Event.probeCPUID, Event.cpuid 0x80000000, Event.cpuid 0x80000005,
          Event.cpuid 0x80000006] := by
    intro l1 l3 w2 hs2
    obtain ⟨w3, h3, r3⟩ := checkExtendedLevelSupport_reaches id 0x80000006 w2 hs2
    rw [h3]
    simp only [Option.some_bind]
    split
    · rw [CPUID_eq _ w3 (r3.1.symm ▸ hs2)]
      exact ⟨_, _, _, rfl, (r3.mono hall).trans (CPUID_reaches_of _ _ _ (by simp) (by simp))⟩
    · exact ⟨_, _, _, rfl, r3.mono hall⟩
  unfold getCacheDetails
  obtain ⟨w1, h1, r1⟩ := checkExtendedLevelSupport_reaches id 0x80000005 w hsup
  simp only [Option.bind_eq_bind, h1, Option.some_bind]
  split
  · rw [CPUID_eq _ w1 (r1.1.symm ▸ hsup)]
    simp only [Option.some_bind]
    have rr := (r1.mono hall).trans
      (CPUID_reaches_of 0x80000005 w1 [Event.probeCPUID, Event.cpuid 0x80000000,
        Event.cpuid 0x80000005, Event.cpuid 0x80000006] (by simp) (by simp))
    obtain ⟨found, c', w', h, r⟩ := step2 _ _ _ (rr.1.symm ▸ hsup)
    exact ⟨found, c', w', h, rr.trans r⟩
  · simp only [Option.some_bind]
    obtain ⟨found, c', w', h, r⟩ := step2 _ _ _ (r1.1.symm ▸ hsup)
    exact ⟨found, c', w', h, (r1.mono hall).trans r⟩

theorem cacheData_zero_lt (r : Regs) : cacheData r 0 < 256 := by
  unfold cacheData byteLE
  simp only [Nat.lt_irrefl, if_true, Nat.zero_lt_succ]
  exact Nat.mod_lt _ (by decide)

theorem classicalPasses_core :
    ∀ (fuel passCounter : Nat) (d : Descriptors) (w : World),
      w.hw.cpuidInstr = ProbeOutcome.executes → 254 ≤ passCounter + fuel →
      ∃ d' w', classicalPasses fuel passCounter d w = some (d', w') ∧
        w.Reaches w' [Event.probeCPUID, Event.cpuid 2] := by
  intro fuel
  induction fuel with
  | zero =>
    intro pc d w hsup hf
    unfold classicalPasses
    rw [CPUID_eq 2 w hsup]
    simp only []
    have := cacheData_zero_lt
      { eax := u32 (w.answer 2).eax, ebx := u32 (w.answer 2).ebx,
        ecx := u32 (w.answer 2).ecx, edx := u32 (w.answer 2).edx }
    rw [if_neg (by omega)]
    exact ⟨_, _, rfl, CPUID_reaches 2 w⟩
  | succ n ih =>
    intro pc d w hsup hf
    unfold classicalPasses
    rw [CPUID_eq 2 w hsup]
    simp only []
    split
    · obtain ⟨d', w', h, r⟩ := ih (pc + 1) _ _
        (show ((w.log Event.probeCPUID).log (Event.cpuid 2)).hw.cpuidInstr = _ from hsup)
        (by omega)
      exact ⟨d', w', h, (CPUID_reaches 2 w).trans r⟩
    · exact ⟨_, _, rfl, CPUID_reaches 2 w⟩

theorem getClassicalCacheDetails_core (cache : Cache) (w : World)
    (hsup : w.hw.cpuidInstr = ProbeOutcome.executes) :
    ∃ cache' w', getClassicalCacheDetails cache w = some (cache', w') ∧
      w.Reaches w' [Event.probeCPUID, Event.cpuid 2] := by
  unfold getClassicalCacheDetails
  obtain ⟨d', w', h, r⟩ := classicalPasses_core 254 0
    { L1Code := -1, L1Data := -1, L1Trace := -1, L2Unified := -1, L3Unified := -1 } w hsup
    (by omega)
  simp only [Option.bind_eq_bind, h, Option.some_bind]
  exact ⟨_, _, rfl, r⟩

theorem getPowerManagement_core (id : Identity) (pm : PowerManagement) (w : World)
    (hsup : w.hw.cpuidInstr = ProbeOutcome.executes) :
    ∃ pm' w', getPowerManagement id pm w = some (pm', w') ∧
      w.Reaches w' [Event.probeCPUID, Event.cpuid 0x80000000, Event.cpuid 0x80000007] := by
  unfold getPowerManagement
  obtain ⟨w1, h1, r1⟩ := checkExtendedLevelSupport_reaches id 0x80000007 w hsup
  simp only [Option.bind_eq_bind, h1, Option.some_bind]
  have r1' := r1.mono (b := [Event.probeCPUID, Event.cpuid 0x80000000, Event.cpuid 0x80000007])
    (by intro e he; simp at he ⊢; tauto)
  split
  · rw [CPUID_eq _ w1 (r1.1.symm ▸ hsup)]
    exact ⟨_, _, rfl, r1'.trans (CPUID_reaches_of _ _ _ (by simp) (by simp))⟩
  · exact ⟨_, _, rfl, r1'⟩

theorem CPUID_blocked (level : Nat) (w : World) (p : Regs × World)
    (h : CPUID level w = some p) :
    p.2.hw = w.hw ∧ p.2.blockedILL = w.blockedILL ∧ p.2.blockedSEGV = w.blockedSEGV := by
  by_cases hsup : w.hw.cpuidInstr = ProbeOutcome.executes
  · rw [CPUID_eq level w hsup] at h
    cases h
    exact ⟨rfl, rfl, rfl⟩
  · exfalso
    unfold CPUID at h
    rw [getCPUIDSupport_eq] at h
    split at h <;> simp [hsup] at h

theorem checkExtendedLevelSupport_blocked (id : Identity) (L : Nat) (w : World)
    (p : Bool × World) (h : checkExtendedLevelSupport id L w = some p) :
    p.2.hw = w.hw ∧ p.2.blockedILL = w.blockedILL ∧ p.2.blockedSEGV = w.blockedSEGV := by
  unfold checkExtendedLevelSupport at h
  split at h
  · cases h
    exact ⟨rfl, rfl, rfl⟩
  · simp only [Option.bind_eq_bind] at h
    rcases hc : CPUID 0x80000000 w with _ | ⟨r, w1⟩
    · rw [hc] at h; cases h
    · rw [hc] at h
      cases h
      exact CPUID_blocked _ _ _ hc

theorem getExtendedIdentity_blocked (id : Identity) (w : World) (p : Identity × World)
    (h : getExtendedIdentity id w = some p) :
    p.2.hw = w.hw ∧ p.2.blockedILL = w.blockedILL ∧ p.2.blockedSEGV = w.blockedSEGV := by
  unfold getExtendedIdentity at h
  simp only [Option.bind_eq_bind] at h
  rcases h2 : checkExtendedLevelSupport { id with hasExtendedName := false } 0x80000002 w
    with _ | ⟨s2, w1⟩
  · rw [h2] at h; cases h
  rw [h2] at h
  have m1 := checkExtendedLevelSupport_blocked _ _ _ _ h2
  simp only [Option.some_bind] at h
  cases s2
  · cases h; exact m1
  simp only [Bool.not_true, Bool.false_eq_true, if_false] at h
  rcases h3 : checkExtendedLevelSupport { id with hasExtendedName := false } 0x80000003 w1
    with _ | ⟨s3, w2⟩
  · rw [h3] at h; cases h
  rw [h3] at h
  have m2 := checkExtendedLevelSupport_blocked _ _ _ _ h3
  simp only [Option.some_bind] at h
  cases s3
  · cases h; exact ⟨m2.1.trans m1.1, m2.2.1.trans m1.2.1, m2.2.2.trans m1.2.2⟩
  simp only [Bool.not_true, Bool.false_eq_true, if_false] at h
  rcases h4 : checkExtendedLevelSupport { id with hasExtendedName := false } 0x80000004 w2
    with _ | ⟨s4, w3⟩
  · rw [h4] at h; cases h
  rw [h4] at h
  have m3 := checkExtendedLevelSupport_blocked _ _ _ _ h4
  simp only [Option.some_bind] at h
  cases s4
  · cases h
    exact ⟨m3.1.trans (m2.1.trans m1.1), m3.2.1.trans (m2.2.1.trans m1.2.1),
      m3.2.2.trans (m2.2.2.trans m1.2.2)⟩
  simp only [Bool.not_true, Bool.false_eq_true, if_false] at h
  rcases c2 : CPUID 0x80000002 w3 with _ | ⟨r2, w4⟩
  · rw [c2] at h; cases h
  rw [c2] at h
  have m4 := CPUID_blocked _ _ _ c2
  simp only [Option.some_bind] at h
  rcases c3 : CPUID 0x80000003 w4 with _ | ⟨r3, w5⟩
  · rw [c3] at h; cases h
  rw [c3] at h
  have m5 := CPUID_blocked _ _ _ c3
  simp only [Option.some_bind] at h
  rcases c4 : CPUID 0x80000004 w5 with _ | ⟨r4, w6⟩
  · rw [c4] at h; cases h
  rw [c4] at h
  have m6 := CPUID_blocked _ _ _ c4
  simp only [Option.some_bind, Option.some.injEq] at h
  rw [← h]
  simp only [] at m1 m2 m3 m4 m5 m6 ⊢
  exact ⟨by rw [m6.1, m5.1, m4.1, m3.1, m2.1, m1.1],
    by rw [m6.2.1, m5.2.1, m4.2.1, m3.2.1, m2.2.1, m1.2.1],
    by rw [m6.2.2, m5.2.2, m4.2.2, m3.2.2, m2.2.2, m1.2.2]⟩

theorem World.survives_congr (w w' : World) (h1 : w'.blockedILL = w.blockedILL)
    (h2 : w'.blockedSEGV = w.blockedSEGV) (o : ProbeOutcome) :
    w'.survives o = w.survives o := by
  cases o <;> simp [World.survives, h1, h2]

theorem getCPUInfo_killed (fuel : Nat) (info : CPUInfo) (w : World)
    (hsup : w.hw.cpuidInstr = ProbeOutcome.executes)
    (hsse : (w.hw.cpuid 1 (w.trace.count (Event.cpuid 1) + 1)).edx.testBit 25 = true)
    (hdead : w.survives w.hw.orpsInstr = false) :
    getCPUInfo fuel info w = none := by
  unfold getCPUInfo
  simp only [Option.bind_eq_bind, getCPUIDSupport_of_executes w hsup, Option.some_bind,
    if_true]
  obtain ⟨id1, h1⟩ := getIdentity_core info.identity (w.log Event.probeCPUID) hsup
  rw [h1]
  simp only [Option.some_bind]
  generalize hw1 : ((((w.log Event.probeCPUID).log Event.probeCPUID).log (Event.cpuid 0)).log
    Event.probeCPUID).log (Event.cpuid 1) = w1
  have hs1 : w1.hw.cpuidInstr = ProbeOutcome.executes := by rw [← hw1]; exact hsup
  have hh1 : w1.hw = w.hw := by rw [← hw1]; rfl
  have c1 : w1.trace.count (Event.cpuid 1) = w.trace.count (Event.cpuid 1) + 1 := by
    rw [← hw1]; simp [List.count_append]
  have b1 : w1.blockedILL = w.blockedILL ∧ w1.blockedSEGV = w.blockedSEGV := by
    rw [← hw1]; exact ⟨rfl, rfl⟩
  obtain ⟨id2, w2, h2, r2, _⟩ := getExtendedIdentity_core id1 w1 hs1
  rw [h2]
  simp only [Option.some_bind]
  have hs2 : w2.hw.cpuidInstr = ProbeOutcome.executes := r2.1.symm ▸ hs1
  have a2 : w2.answer 1 = w.hw.cpuid 1 (w.trace.count (Event.cpuid 1) + 1) := by
    rw [r2.answer_eq 1 (by simp)]
    unfold World.answer
    rw [c1, hh1]
  have b2 := getExtendedIdentity_blocked id1 w1 _ h2
  simp only [] at b2
  rw [getFeatures_killed _ w2 hs2 (a2 ▸ hsse)
    (by rw [World.survives_congr w w2 (b2.2.1.trans b1.1) (b2.2.2.trans b1.2), r2.1, hh1]
        exact hdead)]
  rfl

/-! ## Extended features and power management -/

theorem getExtendedFeatures_eq (id : Identity) (f : Features) (w : World)
    (hsup : w.hw.cpuidInstr = ProbeOutcome.executes) :
    getExtendedFeatures id f w =
      if belowVendorFloor id = true then
        some ({ f with _3dnow := false, _3dnowPlus := false, ssemmx := false,
                       mmxPlus := false, supportsMP := false }, w)
      else if 0x80000001 ≤ u32 (w.answer 0x80000000).eax then
        some ({ f with
                _3dnow := (w.answer 0x80000001).edx.testBit 31
                _3dnowPlus := (w.answer 0x80000001).edx.testBit 30
                ssemmx := (w.answer 0x80000001).edx.testBit 22
                supportsMP := (w.answer 0x80000001).edx.testBit 19
                mmxPlus :=
                  if id.manufacturer = Manufacturer.AMD then
                    (w.answer 0x80000001).edx.testBit 22
                  else if id.manufacturer = Manufacturer.Cyrix then
                    (w.answer 0x80000001).edx.testBit 24
                  else false },
          (((w.log Event.probeCPUID).log (Event.cpuid 0x80000000)).log Event.probeCPUID).log
            (Event.cpuid 0x80000001))
      else
        some ({ f with _3dnow := false, _3dnowPlus := false, ssemmx := false,
                       mmxPlus := false, supportsMP := false },
          (w.log Event.probeCPUID).log (Event.cpuid 0x80000000)) := by
  unfold getExtendedFeatures
  rw [checkExtendedLevelSupport_eq id _ w hsup]
  by_cases hb : belowVendorFloor id = true
  · simp [hb]
  · by_cases hm : 0x80000001 ≤ u32 (w.answer 0x80000000).eax
    · have ha : ((w.log Event.probeCPUID).log (Event.cpuid 0x80000000)).answer 0x80000001 =
          w.answer 0x80000001 := (CPUID_reaches 0x80000000 w).answer_eq _ (by simp)
      have hb' : belowVendorFloor id = false := by simpa using hb
      simp only [hb', hm, Bool.false_eq_true, if_false, if_true, Option.bind_eq_bind,
        Option.some_bind, decide_True]
      rw [CPUID_eq _ _
        (show ((w.log Event.probeCPUID).log (Event.cpuid 0x80000000)).hw.cpuidInstr = _
          from hsup)]
      simp only [Option.some_bind, ha, isBitSet_u32 _ _ (by decide : 31 < 32),
        isBitSet_u32 _ _ (by decide : 30 < 32), isBitSet_u32 _ _ (by decide : 22 < 32),
        isBitSet_u32 _ _ (by decide : 19 < 32), isBitSet_u32 _ _ (by decide : 24 < 32)]
    · simp [hb, hm]

/-- **C11.** `getExtendedFeatures` returns; when leaf `0x80000001` is eligible
under `checkExtendedLevelSupport` it queries that leaf once and sets `_3dnow`,
`_3dnowPlus`, `ssemmx`, `supportsMP` to bits 31, 30, 22, 19 of its EDX; when the
leaf is not eligible it does not query it and sets `_3dnow`, `_3dnowPlus`,
`ssemmx`, `mmxPlus` and `supportsMP` all to `false`. -/
theorem getExtendedFeatures_flags (id : Identity) (f : Features) (w : World) (edx : Nat)
    (hsup : w.hw.cpuidInstr = ProbeOutcome.executes)
    (hedx : (w.answer 0x80000001).edx = edx) :
    ∃ f' w', getExtendedFeatures id f w = some (f', w') ∧
      (eligible id 0x80000001 w →
        f'._3dnow = edx.testBit 31 ∧ f'._3dnowPlus = edx.testBit 30 ∧
        f'.ssemmx = edx.testBit 22 ∧ f'.supportsMP = edx.testBit 19 ∧
        w'.trace.count (Event.cpuid 0x80000001) =
          w.trace.count (Event.cpuid 0x80000001) + 1) ∧
      (¬ eligible id 0x80000001 w →
        f'._3dnow = false ∧ f'._3dnowPlus = false ∧ f'.ssemmx = false ∧
        f'.mmxPlus = false ∧ f'.supportsMP = false ∧
        w'.trace.count (Event.cpuid 0x80000001) = w.trace.count (Event.cpuid 0x80000001)) := by
  subst hedx
  rw [getExtendedFeatures_eq id f w hsup, eligible_iff id _ w hsup]
  by_cases hb : belowVendorFloor id = true
  · rw [if_pos hb]
    refine ⟨_, _, rfl, fun h => ?_, fun _ => ⟨rfl, rfl, rfl, rfl, rfl, rfl⟩⟩
    rw [hb] at h
    exact absurd h.1 (by decide)
  · rw [if_neg hb]
    by_cases hm : 0x80000001 ≤ u32 (w.answer 0x80000000).eax
    · rw [if_pos hm]
      refine ⟨_, _, rfl, fun _ => ⟨rfl, rfl, rfl, rfl, ?_⟩, fun h => ?_⟩
      · simp [List.count_append]
      · exact absurd ⟨by simpa using hb, hm⟩ h
    · rw [if_neg hm]
      refine ⟨_, _, rfl, fun h => absurd h.2 hm, fun _ => ⟨rfl, rfl, rfl, rfl, rfl, ?_⟩⟩
      simp [List.count_append]

theorem athlon_eligible (L : Nat) (hL : L ≤ 0x80000007) :
    eligible athlonIdentity L athlonWorld := by
  rw [eligible_iff _ _ _ rfl]
  exact ⟨by decide, hL⟩

/-- Witness of **C11**: on the example Athlon MP leaf `0x80000001` is eligible
and its EDX `0xC1CBFBFF` sets the four flags. -/
theorem getExtendedFeatures_flags_witness :
    (athlonWorld.hw.cpuidInstr = ProbeOutcome.executes ∧
      (athlonWorld.answer 0x80000001).edx = 0xC1CBFBFF) ∧
    ∃ f' w', getExtendedFeatures athlonIdentity blankInfo.features athlonWorld = some (f', w') ∧
      f'._3dnow = true ∧ f'._3dnowPlus = true ∧ f'.ssemmx = true ∧ f'.supportsMP = true := by
  obtain ⟨f', w', hget, helig, _⟩ :=
    getExtendedFeatures_flags athlonIdentity blankInfo.features athlonWorld 0xC1CBFBFF
      rfl (by decide)
  obtain ⟨h1, h2, h3, h4, _⟩ := helig (athlon_eligible _ (by decide))
  refine ⟨⟨rfl, by decide⟩, f', w', hget, ?_, ?_, ?_, ?_⟩
  · rw [h1]; decide
  · rw [h2]; decide
  · rw [h3]; decide
  · rw [h4]; decide

/-- **C12.** When leaf `0x80000001` is eligible, `getExtendedFeatures` returns
with `mmxPlus` equal to EDX bit 22 if the manufacturer is AMD (so equal to
`ssemmx`), to EDX bit 24 if the manufacturer is Cyrix, and to `false` for every
other manufacturer, whatever the register holds. -/
theorem getExtendedFeatures_mmxPlus (id : Identity) (f : Features) (w : World) (edx : Nat)
    (hsup : w.hw.cpuidInstr = ProbeOutcome.executes)
    (hedx : (w.answer 0x80000001).edx = edx)
    (helig : eligible id 0x80000001 w) :
    ∃ f' w', getExtendedFeatures id f w = some (f', w') ∧
      (id.manufacturer = Manufacturer.AMD →
        f'.mmxPlus = edx.testBit 22 ∧ f'.mmxPlus = f'.ssemmx) ∧
      (id.manufacturer = Manufacturer.Cyrix → f'.mmxPlus = edx.testBit 24) ∧
      (id.manufacturer ≠ Manufacturer.AMD → id.manufacturer ≠ Manufacturer.Cyrix →
        f'.mmxPlus = false) := by
  subst hedx
  rw [eligible_iff id _ w hsup] at helig
  rw [getExtendedFeatures_eq id f w hsup, if_neg (by simp [helig.1]), if_pos helig.2]
  refine ⟨_, _, rfl, ?_, ?_, ?_⟩
  · intro hm
    simp [hm]
  · intro hm
    simp only [hm, reduceCtorEq, if_false, if_true]
  · intro h1 h2
    simp only [h1, h2, if_false]

/-- Witness of **C12**: the example Athlon MP is an AMD processor with EDX bit
22 set, so `mmxPlus` is set. -/
theorem getExtendedFeatures_mmxPlus_witness :
    (athlonWorld.hw.cpuidInstr = ProbeOutcome.executes ∧
      (athlonWorld.answer 0x80000001).edx = 0xC1CBFBFF ∧
      eligible athlonIdentity 0x80000001 athlonWorld) ∧
    ∃ f' w', getExtendedFeatures athlonIdentity blankInfo.features athlonWorld = some (f', w') ∧
      f'.mmxPlus = true := by
  obtain ⟨f', w', hget, hamd, _⟩ :=
    getExtendedFeatures_mmxPlus athlonIdentity blankInfo.features athlonWorld 0xC1CBFBFF
      rfl (by decide) (athlon_eligible _ (by decide))
  refine ⟨⟨rfl, by decide, athlon_eligible _ (by decide)⟩, f', w', hget, ?_⟩
  rw [(hamd rfl).1]; decide

theorem getPowerManagement_eq (id : Identity) (pm : PowerManagement) (w : World)
    (hsup : w.hw.cpuidInstr = ProbeOutcome.executes) :
    getPowerManagement id pm w =
      if belowVendorFloor id = true then
        some ({ ts := false, fid := false, vid := false, ttp := false, tm := false,
                stc := false }, w)
      else if 0x80000007 ≤ u32 (w.answer 0x80000000).eax then
        some ({ ts := (w.answer 0x80000007).edx.testBit 0
                fid := (w.answer 0x80000007).edx.testBit 1
                vid := (w.answer 0x80000007).edx.testBit 2
                ttp := (w.answer 0x80000007).edx.testBit 3
                tm := (w.answer 0x80000007).edx.testBit 4
                stc := (w.answer 0x80000007).edx.testBit 5 },
          (((w.log Event.probeCPUID).log (Event.cpuid 0x80000000)).log Event.probeCPUID).log
            (Event.cpuid 0x80000007))
      else
        some ({ ts := false, fid := false, vid := false, ttp := false, tm := false,
                stc := false }, (w.log Event.probeCPUID).log (Event.cpuid 0x80000000)) := by
  unfold getPowerManagement
  rw [checkExtendedLevelSupport_eq id _ w hsup]
  by_cases hb : belowVendorFloor id = true
  · simp [hb]
  · by_cases hm : 0x80000007 ≤ u32 (w.answer 0x80000000).eax
    · have ha : ((w.log Event.probeCPUID).log (Event.cpuid 0x80000000)).answer 0x80000007 =
          w.answer 0x80000007 := (CPUID_reaches 0x80000000 w).answer_eq _ (by simp)
      have hb' : belowVendorFloor id = false := by simpa using hb
      simp only [hb', hm, Bool.false_eq_true, if_false, if_true, Option.bind_eq_bind,
        Option.some_bind, decide_True]
      rw [CPUID_eq _ _
        (show ((w.log Event.probeCPUID).log (Event.cpuid 0x80000000)).hw.cpuidInstr = _
          from hsup)]
      simp only [Option.some_bind, ha, isBitSet_u32 _ _ (by decide : 0 < 32),
        isBitSet_u32 _ _ (by decide : 1 < 32), isBitSet_u32 _ _ (by decide : 2 < 32),
        isBitSet_u32 _ _ (by decide : 3 < 32), isBitSet_u32 _ _ (by decide : 4 < 32),
        isBitSet_u32 _ _ (by decide : 5 < 32)]
    · simp [hb, hm]

/-- **C19.** `getPowerManagement` returns; when leaf `0x80000007` is eligible
under `checkExtendedLevelSupport` it sets `ts`, `fid`, `vid`, `ttp`, `tm`, `stc`
to bits 0, 1, 2, 3, 4, 5 of the EDX of that leaf; when the leaf is not eligible
it sets all six to `false` and does not query the leaf. -/
theorem getPowerManagement_flags (id : Identity) (pm : PowerManagement) (w : World)
    (edx : Nat) (hsup : w.hw.cpuidInstr = ProbeOutcome.executes)
    (hedx : (w.answer 0x80000007).edx = edx) :
    ∃ pm' w', getPowerManagement id pm w = some (pm', w') ∧
      (eligible id 0x80000007 w →
        pm'.ts = edx.testBit 0 ∧ pm'.fid = edx.testBit 1 ∧ pm'.vid = edx.testBit 2 ∧
        pm'.ttp = edx.testBit 3 ∧ pm'.tm = edx.testBit 4 ∧ pm'.stc = edx.testBit 5) ∧
      (¬ eligible id 0x80000007 w →
        pm'.ts = false ∧ pm'.fid = false ∧ pm'.vid = false ∧ pm'.ttp = false ∧
        pm'.tm = false ∧ pm'.stc = false ∧
        w'.trace.count (Event.cpuid 0x80000007) = w.trace.count (Event.cpuid 0x80000007)) := by
  subst hedx
  rw [getPowerManagement_eq id pm w hsup, eligible_iff id _ w hsup]
  by_cases hb : belowVendorFloor id = true
  · rw [if_pos hb]
    refine ⟨_, _, rfl, fun h => ?_, fun _ => ⟨rfl, rfl, rfl, rfl, rfl, rfl, rfl⟩⟩
    rw [hb] at h
    exact absurd h.1 (by decide)
  · rw [if_neg hb]
    by_cases hm : 0x80000007 ≤ u32 (w.answer 0x80000000).eax
    · rw [if_pos hm]
      exact ⟨_, _, rfl, fun _ => ⟨rfl, rfl, rfl, rfl, rfl, rfl⟩,
        fun h => absurd ⟨by simpa using hb, hm⟩ h⟩
    · rw [if_neg hm]
      refine ⟨_, _, rfl, fun h => absurd h.2 hm, fun _ => ⟨rfl, rfl, rfl, rfl, rfl, rfl, ?_⟩⟩
      simp [List.count_append]

/-- Witness of **C19**: on the example Athlon MP leaf `0x80000007` is eligible
and its EDX is 1: `ts` is set and `fid` is clear. -/
theorem getPowerManagement_flags_witness :
    (athlonWorld.hw.cpuidInstr = ProbeOutcome.executes ∧
      (athlonWorld.answer 0x80000007).edx = 1) ∧
    ∃ pm' w', getPowerManagement athlonIdentity blankInfo.powerManagement athlonWorld =
        some (pm', w') ∧ pm'.ts = true ∧ pm'.fid = false := by
  obtain ⟨pm', w', hget, helig, _⟩ :=
    getPowerManagement_flags athlonIdentity blankInfo.powerManagement athlonWorld 1
      rfl (by decide)
  obtain ⟨h1, h2, _⟩ := helig (athlon_eligible _ (by decide))
  refine ⟨⟨rfl, by decide⟩, pm', w', hget, ?_, ?_⟩
  · rw [h1]; decide
  · rw [h2]; decide

/-! ## The cache sizes of the extended leaves -/

theorem getCacheDetails_values (id : Identity) (cache : Cache) (w : World)
    (hsup : w.hw.cpuidInstr = ProbeOutcome.executes) :
    ∃ found cache' w', getCacheDetails id cache w = some (found, cache', w') ∧
      cache'.L1CacheSize =
        (if (!belowVendorFloor id && decide (0x80000005 ≤ u32 (w.answer 0x80000000).eax)) = true
         then toInt ((u32 (w.answer 0x80000005).ecx >>> 24) &&& 0xFF) +
              toInt ((u32 (w.answer 0x80000005).edx >>> 24) &&& 0xFF)
         else -1) ∧
      cache'.L2CacheSize =
        (if (!belowVendorFloor id && decide (0x80000006 ≤
            u32 (w.hw.cpuid 0x80000000 (w.trace.count (Event.cpuid 0x80000000) + 1)).eax)) = true
         then toInt ((u32 (w.answer 0x80000006).ecx >>> 16) &&& 0xFFFF)
         else -1) ∧
      cache'.L3CacheSize = -1 ∧
      found = (cache'.L1CacheSize != -1 || cache'.L2CacheSize != -1) := by
  unfold getCacheDetails
  simp only [Option.bind_eq_bind]
  rw [checkExtendedLevelSupport_eq id _ w hsup]
  by_cases hb : belowVendorFloor id = true
  · simp only [hb, if_true, Option.some_bind, Bool.false_eq_true, if_false]
    rw [checkExtendedLevelSupport_eq id _ w hsup]
    simp only [hb, if_true, Option.some_bind, Bool.false_eq_true, if_false, Bool.not_true,
      Bool.false_and]
    exact ⟨_, _, _, rfl, rfl, rfl, rfl, rfl⟩
  · have hb' : belowVendorFloor id = false := by simpa using hb
    simp only [hb', Bool.false_eq_true, if_false, Option.some_bind, Bool.not_false,
      Bool.true_and]
    have hs1 : ((w.log Event.probeCPUID).log (Event.cpuid 0x80000000)).hw.cpuidInstr =
        ProbeOutcome.executes := hsup
    have a5 : ((w.log Event.probeCPUID).log (Event.cpuid 0x80000000)).answer 0x80000005 =
        w.answer 0x80000005 := (CPUID_reaches 0x80000000 w).answer_eq _ (by simp)
    have hM1 : ((w.log Event.probeCPUID).log (Event.cpuid 0x80000000)).answer 0x80000000 =
        w.hw.cpuid 0x80000000 (w.trace.count (Event.cpuid 0x80000000) + 1) := by
      rw [answer_after_cpuid]; simp
    by_cases h5 : 0x80000005 ≤ u32 (w.answer 0x80000000).eax
    · simp only [h5, decide_True, if_true]
      rw [CPUID_eq _ _ hs1]
      simp only [Option.some_bind, a5]
      rw [checkExtendedLevelSupport_eq id _ _
        (show ((((w.log Event.probeCPUID).log (Event.cpuid 0x80000000)).log
          Event.probeCPUID).log (Event.cpuid 0x80000005)).hw.cpuidInstr = _ from hsup)]
      have hM1' : ((((w.log Event.probeCPUID).log (Event.cpuid 0x80000000)).log
          Event.probeCPUID).log (Event.cpuid 0x80000005)).answer 0x80000000 =
          w.hw.cpuid 0x80000000 (w.trace.count (Event.cpuid 0x80000000) + 1) := by
        rw [(CPUID_reaches 0x80000005 _).answer_eq _ (by simp), hM1]
      simp only [hb', Bool.false_eq_true, if_false, Option.some_bind, hM1']
      by_cases h6 : 0x80000006 ≤
          u32 (w.hw.cpuid 0x80000000 (w.trace.count (Event.cpuid 0x80000000) + 1)).eax
      · simp only [h6, decide_True, if_true]
        rw [CPUID_eq _ _ (show ((((((w.log Event.probeCPUID).log (Event.cpuid 0x80000000)).log
          Event.probeCPUID).log (Event.cpuid 0x80000005)).log Event.probeCPUID).log
          (Event.cpuid 0x80000000)).hw.cpuidInstr = _ from hsup)]
        have a6 : ((((((w.log Event.probeCPUID).log (Event.cpuid 0x80000000)).log
            Event.probeCPUID).log (Event.cpuid 0x80000005)).log Event.probeCPUID).log
            (Event.cpuid 0x80000000)).answer 0x80000006 = w.answer 0x80000006 := by
          simp [World.answer, List.count_append]
        simp only [Option.some_bind, a6]
        exact ⟨_, _, _, rfl, rfl, rfl, rfl, rfl⟩
      · simp only [h6, decide_False, Bool.false_eq_true, if_false, Option.some_bind]
        exact ⟨_, _, _, rfl, rfl, rfl, rfl, rfl⟩
    · simp only [h5, decide_False, Bool.false_eq_true, if_false, Option.some_bind]
      rw [checkExtendedLevelSupport_eq id _ _ hs1]
      simp only [hb', Bool.false_eq_true, if_false, Option.some_bind, hM1]
      by_cases h6 : 0x80000006 ≤
          u32 (w.hw.cpuid 0x80000000 (w.trace.count (Event.cpuid 0x80000000) + 1)).eax
      · simp only [h6, decide_True, if_true]
        rw [CPUID_eq _ _ (show ((((w.log Event.probeCPUID).log (Event.cpuid 0x80000000)).log
          Event.probeCPUID).log (Event.cpuid 0x80000000)).hw.cpuidInstr = _ from hsup)]
        have a6 : ((((w.log Event.probeCPUID).log (Event.cpuid 0x80000000)).log
            Event.probeCPUID).log (Event.cpuid 0x80000000)).answer 0x80000006 =
            w.answer 0x80000006 := by
          simp [World.answer, List.count_append]
        simp only [Option.some_bind, a6]
        exact ⟨_, _, _, rfl, rfl, rfl, rfl, rfl⟩
      · simp only [h6, decide_False, Bool.false_eq_true, if_false, Option.some_bind]
        exact ⟨_, _, _, rfl, rfl, rfl, rfl, rfl⟩

/-- **C13.** On a machine whose leaf `0x80000000` reports the same maximum at
every query, `getCacheDetails` returns with `L1CacheSize` = (bits 24..31 of ECX)
+ (bits 24..31 of EDX) of leaf `0x80000005` when that leaf is eligible and -1
otherwise, `L2CacheSize` = bits 16..31 of ECX of leaf `0x80000006` when that
leaf is eligible and -1 otherwise, `L3CacheSize` = -1, and the returned flag
is `true` exactly when `L1CacheSize` or `L2CacheSize` differs from -1. -/
theorem getCacheDetails_sizes (id : Identity) (cache : Cache) (w : World)
    (ecx5 edx5 ecx6 : Nat)
    (hsup : w.hw.cpuidInstr = ProbeOutcome.executes)
    (hstable : ∀ k, (w.hw.cpuid 0x80000000 k).eax = (w.hw.cpuid 0x80000000 0).eax)
    (hecx5 : (w.answer 0x80000005).ecx = ecx5) (hedx5 : (w.answer 0x80000005).edx = edx5)
    (hecx6 : (w.answer 0x80000006).ecx = ecx6)
    (h5c : ecx5 < 2 ^ 32) (h5d : edx5 < 2 ^ 32) (h6c : ecx6 < 2 ^ 32) :
    ∃ found cache' w', getCacheDetails id cache w = some (found, cache', w') ∧
      (eligible id 0x80000005 w →
        cache'.L1CacheSize = ((ecx5 / 2 ^ 24 % 256 + edx5 / 2 ^ 24 % 256 : Nat) : Int)) ∧
      (¬ eligible id 0x80000005 w → cache'.L1CacheSize = -1) ∧
      (eligible id 0x80000006 w →
        cache'.L2CacheSize = ((ecx6 / 2 ^ 16 % 65536 : Nat) : Int)) ∧
      (¬ eligible id 0x80000006 w → cache'.L2CacheSize = -1) ∧
      cache'.L3CacheSize = -1 ∧
      (found = true ↔ cache'.L1CacheSize ≠ -1 ∨ cache'.L2CacheSize ≠ -1) := by
  obtain ⟨found, cache', w', hget, h1, h2, h3, hf⟩ := getCacheDetails_values id cache w hsup
  have e5 : eligible id 0x80000005 w ↔
      (!belowVendorFloor id && decide (0x80000005 ≤ u32 (w.answer 0x80000000).eax)) = true := by
    rw [eligible_iff id _ w hsup]
    cases belowVendorFloor id <;> simp
  have e6 : eligible id 0x80000006 w ↔
      (!belowVendorFloor id && decide (0x80000006 ≤
        u32 (w.hw.cpuid 0x80000000 (w.trace.count (Event.cpuid 0x80000000) + 1)).eax)) =
        true := by
    rw [eligible_iff id _ w hsup]
    unfold World.answer
    rw [hstable (w.trace.count _), hstable (w.trace.count _ + 1)]
    cases belowVendorFloor id <;> simp
  rw [hecx5, hedx5, u32_of_lt _ h5c, u32_of_lt _ h5d, and_0xFF, and_0xFF,
    Nat.shiftRight_eq_div_pow, Nat.shiftRight_eq_div_pow,
    toInt_small _ (by omega), toInt_small _ (by omega)] at h1
  rw [hecx6, u32_of_lt _ h6c, and_0xFFFF, Nat.shiftRight_eq_div_pow,
    toInt_small _ (by omega)] at h2
  refine ⟨found, cache', w', hget, ?_, ?_, ?_, ?_, h3, ?_⟩
  · intro h
    rw [h1, if_pos (e5.mp h)]
    push_cast
    rfl
  · intro h
    rw [h1, if_neg (fun h' => h (e5.mpr h'))]
  · intro h
    rw [h2, if_pos (e6.mp h)]
  · intro h
    rw [h2, if_neg (fun h' => h (e6.mpr h'))]
  · rw [hf]
    simp

/-- Witness of **C13**: the example Athlon MP reports `0x80000007`; leaf
`0x80000005` gives 64 + 64 KB of L1 and leaf `0x80000006` gives 256 KB of L2. -/
theorem getCacheDetails_sizes_witness :
    (athlonWorld.hw.cpuidInstr = ProbeOutcome.executes ∧
      (∀ k, (athlonWorld.hw.cpuid 0x80000000 k).eax = (athlonWorld.hw.cpuid 0x80000000 0).eax) ∧
      (athlonWorld.answer 0x80000005).ecx = 0x40020140 ∧
      (athlonWorld.answer 0x80000005).edx = 0x40020140 ∧
      (athlonWorld.answer 0x80000006).ecx = 0x01004140) ∧
    ∃ found cache' w', getCacheDetails athlonIdentity blankInfo.cache athlonWorld =
        some (found, cache', w') ∧
      found = true ∧ cache'.L1CacheSize = 128 ∧ cache'.L2CacheSize = 256 ∧
      cache'.L3CacheSize = -1 := by
  obtain ⟨found, cache', w', hget, h1, _, h2, _, h3, hf⟩ :=
    getCacheDetails_sizes athlonIdentity blankInfo.cache athlonWorld
      0x40020140 0x40020140 0x01004140 rfl (fun _ => rfl) (by decide) (by decide) (by decide)
      (by decide) (by decide) (by decide)
  have l1 : cache'.L1CacheSize = 128 := by
    rw [h1 (athlon_eligible _ (by decide))]; decide
  have l2 : cache'.L2CacheSize = 256 := by
    rw [h2 (athlon_eligible _ (by decide))]; decide
  refine ⟨⟨rfl, fun _ => rfl, by decide, by decide, by decide⟩, found, cache', w', hget,
    hf.mpr (Or.inl (by rw [l1]; decide)), l1, l2, h3⟩

/-! ## The descriptors of leaf 2 -/

theorem observedSize_none_of_not_case (kind : CacheKind) (b : Nat)
    (h : isDescriptorCase b = false) : observedSize kind b = none := by
  unfold isDescriptorCase at h
  simp only [Bool.or_eq_false_iff, List.any_eq_false] at h
  unfold observedSize
  rw [Option.map_eq_none', List.find?_eq_none]
  intro e he hp
  simp only [Bool.and_eq_true] at hp
  exact h.2 e he hp.1

theorem processDescriptor_of_not_case (d : Descriptors) (b : Nat)
    (h : isDescriptorCase b = false) : processDescriptor d b = d := by
  unfold isDescriptorCase at h
  simp only [Bool.or_eq_false_iff, List.any_eq_false, descriptorTable, List.mem_cons,
    List.mem_singleton, forall_eq_or_imp, forall_eq, List.not_mem_nil, IsEmpty.forall_iff,
    implies_true, and_true, beq_iff_eq, beq_eq_false_iff_ne, ne_eq] at h
  simp only [@eq_comm Nat _ b] at h
  unfold processDescriptor
  simp only [h, if_false]

theorem processDescriptor_fields (d : Descriptors) (b : Nat) :
    (processDescriptor d b).L1Code = (observedSize CacheKind.code b).getD d.L1Code ∧
    (processDescriptor d b).L1Data = (observedSize CacheKind.data b).getD d.L1Data ∧
    (processDescriptor d b).L1Trace = (observedSize CacheKind.trace b).getD d.L1Trace ∧
    (processDescriptor d b).L2Unified = (observedSize CacheKind.L2 b).getD d.L2Unified ∧
    (processDescriptor d b).L3Unified = (observedSize CacheKind.L3 b).getD d.L3Unified := by
  by_cases hc : isDescriptorCase b = false
  · rw [processDescriptor_of_not_case d b hc]
    simp [observedSize_none_of_not_case _ b hc]
  · have hc' : isDescriptorCase b = true := by simpa using hc
    unfold isDescriptorCase at hc'
    simp only [Bool.or_eq_true, List.any_eq_true, descriptorTable, List.mem_cons,
      List.mem_singleton, List.not_mem_nil, or_false, beq_iff_eq] at hc'
    rcases hc' with h | ⟨e, he, hb⟩
    · subst h
      exact ⟨rfl, rfl, rfl, rfl, rfl⟩
    · subst hb
      rcases he with h | h | h | h | h | h | h | h | h | h | h | h | h | h | h | h | h | h | h | h |
        h | h | h | h | h | h | h | h | h | h | h | h | h | h | h | h | h | h | h | h <;>
      (subst h; exact ⟨rfl, rfl, rfl, rfl, rfl⟩)

theorem observedSize_nonneg (kind : CacheKind) (b : Nat) (s : Int)
    (h : observedSize kind b = some s) : 0 ≤ s := by
  unfold observedSize at h
  obtain ⟨e, he, hs⟩ := Option.map_eq_some'.mp h
  have hmem := List.mem_of_find?_eq_some he
  have hall : ∀ e ∈ descriptorTable, 0 ≤ e.2.2 := by decide
  rw [← hs]
  exact hall e hmem

theorem getLast?_cons_getD {α : Type} (s x : α) (l : List α) :
    (s :: l).getLast?.getD x = l.getLast?.getD s := by
  cases l with
  | nil => rfl
  | cons a t =>
    rw [List.getLast?_cons_cons]
    obtain ⟨y, hy⟩ : ∃ y, (a :: t).getLast? = some y :=
      ⟨_, List.getLast?_eq_getLast _ (by simp)⟩
    rw [hy]
    rfl

theorem lastObserved_cons (kind : CacheKind) (b : Nat) (bs : List Nat) (x : Int) :
    (lastObserved kind (b :: bs)).getD x =
      (lastObserved kind bs).getD ((observedSize kind b).getD x) := by
  unfold lastObserved
  rw [List.filterMap_cons]
  cases h : observedSize kind b with
  | none => rfl
  | some s => exact getLast?_cons_getD s x _

theorem foldl_processDescriptor_fields (bytes : List Nat) :
    ∀ d : Descriptors,
      (bytes.foldl processDescriptor d).L1Code =
        (lastObserved CacheKind.code bytes).getD d.L1Code ∧
      (bytes.foldl processDescriptor d).L1Data =
        (lastObserved CacheKind.data bytes).getD d.L1Data ∧
      (bytes.foldl processDescriptor d).L1Trace =
        (lastObserved CacheKind.trace bytes).getD d.L1Trace ∧
      (bytes.foldl processDescriptor d).L2Unified =
        (lastObserved CacheKind.L2 bytes).getD d.L2Unified ∧
      (bytes.foldl processDescriptor d).L3Unified =
        (lastObserved CacheKind.L3 bytes).getD d.L3Unified := by
  induction bytes with
  | nil => intro d; exact ⟨rfl, rfl, rfl, rfl, rfl⟩
  | cons b bs ih =>
    intro d
    obtain ⟨h1, h2, h3, h4, h5⟩ := ih (processDescriptor d b)
    obtain ⟨g1, g2, g3, g4, g5⟩ := processDescriptor_fields d b
    rw [List.foldl_cons, h1, h2, h3, h4, h5, g1, g2, g3, g4, g5]
    simp only [lastObserved_cons, and_self]

theorem lastObserved_nonneg (kind : CacheKind) (bytes : List Nat) (s : Int)
    (h : lastObserved kind bytes = some s) : 0 ≤ s := by
  unfold lastObserved at h
  have hmem := List.mem_of_getLast?_eq_some h
  obtain ⟨b, _, hb⟩ := List.mem_filterMap.mp hmem
  exact observedSize_nonneg kind b s hb

theorem passTotalAt_lt (hw : Hardware) (i : Nat) : passTotalAt hw i < 256 :=
  cacheData_zero_lt _

theorem classicalPasses_spec :
    ∀ (fuel passCounter : Nat) (d : Descriptors) (w : World),
      w.hw.cpuidInstr = ProbeOutcome.executes → 254 ≤ passCounter + fuel →
      ∃ k w', 1 ≤ k ∧
        classicalPasses fuel passCounter d w =
          some ((descriptorBytes w.hw (w.trace.count (Event.cpuid 2)) k).foldl
            processDescriptor d, w') ∧
        w.Reaches w' [Event.probeCPUID, Event.cpuid 2] ∧
        w'.trace.count (Event.cpuid 2) = w.trace.count (Event.cpuid 2) + k ∧
        (∀ j, j + 1 < k →
          passCounter + j + 1 < passTotalAt w.hw (w.trace.count (Event.cpuid 2) + j)) ∧
        passTotalAt w.hw (w.trace.count (Event.cpuid 2) + (k - 1)) ≤ passCounter + k := by
  intro fuel
  induction fuel with
  | zero =>
    intro pc d w hsup hf
    unfold classicalPasses
    rw [CPUID_eq 2 w hsup]
    simp only []
    have hlt := passTotalAt_lt w.hw (w.trace.count (Event.cpuid 2))
    have hpt : cacheData
        { eax := u32 (w.answer 2).eax, ebx := u32 (w.answer 2).ebx,
          ecx := u32 (w.answer 2).ecx, edx := u32 (w.answer 2).edx } 0 =
        passTotalAt w.hw (w.trace.count (Event.cpuid 2)) := rfl
    rw [hpt, if_neg (by omega)]
    refine ⟨1, _, le_refl _, ?_, CPUID_reaches 2 w, ?_, fun j hj => by omega, ?_⟩
    · simp only [descriptorBytes, List.append_nil, List.foldl_map]
      rfl
    · simp [List.count_append]
    · simp only [Nat.sub_self, Nat.add_zero]; omega
  | succ n ih =>
    intro pc d w hsup hf
    unfold classicalPasses
    rw [CPUID_eq 2 w hsup]
    simp only []
    have hlt := passTotalAt_lt w.hw (w.trace.count (Event.cpuid 2))
    have hpt : cacheData
        { eax := u32 (w.answer 2).eax, ebx := u32 (w.answer 2).ebx,
          ecx := u32 (w.answer 2).ecx, edx := u32 (w.answer 2).edx } 0 =
        passTotalAt w.hw (w.trace.count (Event.cpuid 2)) := rfl
    rw [hpt]
    have hc1 : ((w.log Event.probeCPUID).log (Event.cpuid 2)).trace.count (Event.cpuid 2) =
        w.trace.count (Event.cpuid 2) + 1 := by simp [List.count_append]
    by_cases hcont : pc + 1 < passTotalAt w.hw (w.trace.count (Event.cpuid 2))
    · rw [if_pos hcont]
      obtain ⟨k, w', hk, hrun, hr, hcount, hgo, hstop⟩ := ih (pc + 1)
        ((List.range' 1 15).foldl (fun d counter => processDescriptor d
          (cacheData
            { eax := u32 (w.answer 2).eax, ebx := u32 (w.answer 2).ebx,
              ecx := u32 (w.answer 2).ecx, edx := u32 (w.answer 2).edx } counter)) d)
        ((w.log Event.probeCPUID).log (Event.cpuid 2)) hsup (by omega)
      rw [hc1] at hrun hcount hgo hstop
      refine ⟨k + 1, w', by omega, ?_, (CPUID_reaches 2 w).trans hr, by omega, ?_, ?_⟩
      · rw [hrun]
        simp only [descriptorBytes, List.foldl_append, List.foldl_map, World.log_hw]
        rfl
      · intro j hj
        cases j with
        | zero => simpa using hcont
        | succ j' =>
          have := hgo j' (by omega)
          simp only [World.log_hw] at this
          have e : w.trace.count (Event.cpuid 2) + (j' + 1) =
              w.trace.count (Event.cpuid 2) + 1 + j' := by omega
          rw [e]; omega
      · simp only [World.log_hw] at hstop
        have e : w.trace.count (Event.cpuid 2) + (k + 1 - 1) =
            w.trace.count (Event.cpuid 2) + 1 + (k - 1) := by omega
        rw [e]; omega
    · rw [if_neg hcont]
      refine ⟨1, _, le_refl _, ?_, CPUID_reaches 2 w, ?_, fun j hj => by omega, ?_⟩
      · simp only [descriptorBytes, List.append_nil, List.foldl_map]
        rfl
      · simp [List.count_append]
      · simp only [Nat.sub_self, Nat.add_zero]; omega

theorem lastObserved_getD_eq_neg_one (kind : CacheKind) (bytes : List Nat) :
    (lastObserved kind bytes).getD (-1) = -1 ↔ lastObserved kind bytes = none := by
  cases h : lastObserved kind bytes with
  | none => simp
  | some s =>
    have := lastObserved_nonneg kind bytes s h
    simp only [Option.getD_some, reduceCtorEq, iff_false]
    omega

theorem sumObserved_eq (cache : Cache) (a b c : Option Int)
    (na : ∀ s, a = some s → 0 ≤ s) (nb : ∀ s, b = some s → 0 ≤ s)
    (nc : ∀ s, c = some s → 0 ≤ s) :
    (if a.getD (-1) = -1 ∧ b.getD (-1) = -1 ∧ c.getD (-1) = -1 then
        ({ cache with L1CacheSize := -1 } : Cache)
      else
        let cache : Cache := { cache with L1CacheSize := 0 }
        let cache : Cache := if a.getD (-1) ≠ -1 then
          { cache with L1CacheSize := cache.L1CacheSize + a.getD (-1) } else cache
        let cache : Cache := if b.getD (-1) ≠ -1 then
          { cache with L1CacheSize := cache.L1CacheSize + b.getD (-1) } else cache
        let cache : Cache := if c.getD (-1) ≠ -1 then
          { cache with L1CacheSize := cache.L1CacheSize + c.getD (-1) } else cache
        cache).L1CacheSize = sumObserved a b c := by
  have ha : ∀ s, a = some s → s ≠ -1 := fun s h => by have := na s h; omega
  have hb : ∀ s, b = some s → s ≠ -1 := fun s h => by have := nb s h; omega
  have hc : ∀ s, c = some s → s ≠ -1 := fun s h => by have := nc s h; omega
  rcases a with _ | a <;> rcases b with _ | b <;> rcases c with _ | c <;>
    simp [sumObserved, ha, hb, hc]

theorem getClassicalCacheDetails_spec (cache : Cache) (w : World)
    (hsup : w.hw.cpuidInstr = ProbeOutcome.executes) :
    ∃ k cache' w', 1 ≤ k ∧ k ≤ 255 ∧
      getClassicalCacheDetails cache w = some (cache', w') ∧
      w.Reaches w' [Event.probeCPUID, Event.cpuid 2] ∧
      w'.trace.count (Event.cpuid 2) = w.trace.count (Event.cpuid 2) + k ∧
      (∀ j, j + 1 < k → j + 1 < passTotalAt w.hw (w.trace.count (Event.cpuid 2) + j)) ∧
      passTotalAt w.hw (w.trace.count (Event.cpuid 2) + (k - 1)) ≤ k ∧
      cache'.L1CacheSize =
        sumObserved
          (lastObserved CacheKind.code (descriptorBytes w.hw (w.trace.count (Event.cpuid 2)) k))
          (lastObserved CacheKind.data (descriptorBytes w.hw (w.trace.count (Event.cpuid 2)) k))
          (lastObserved CacheKind.trace
            (descriptorBytes w.hw (w.trace.count (Event.cpuid 2)) k)) ∧
      cache'.L2CacheSize =
        (lastObserved CacheKind.L2
          (descriptorBytes w.hw (w.trace.count (Event.cpuid 2)) k)).getD (-1) ∧
      cache'.L3CacheSize =
        (lastObserved CacheKind.L3
          (descriptorBytes w.hw (w.trace.count (Event.cpuid 2)) k)).getD (-1) := by
  obtain ⟨k, w', hk, hrun, hr, hcount, hgo, hstop⟩ := classicalPasses_spec 254 0
    { L1Code := -1, L1Data := -1, L1Trace := -1, L2Unified := -1, L3Unified := -1 } w hsup
    (by omega)
  have hk255 : k ≤ 255 := by
    by_cases h1 : k = 1
    · omega
    · have := hgo (k - 2) (by omega)
      have := passTotalAt_lt w.hw (w.trace.count (Event.cpuid 2) + (k - 2))
      omega
  obtain ⟨f1, f2, f3, f4, f5⟩ := foldl_processDescriptor_fields
    (descriptorBytes w.hw (w.trace.count (Event.cpuid 2)) k)
    { L1Code := -1, L1Data := -1, L1Trace := -1, L2Unified := -1, L3Unified := -1 }
  simp only [] at f1 f2 f3 f4 f5
  unfold getClassicalCacheDetails
  simp only [Option.bind_eq_bind, hrun, Option.some_bind]
  refine ⟨k, _, w', hk, hk255, rfl, hr, hcount, ?_, ?_, ?_, f4, f5⟩
  · intro j hj
    have := hgo j hj
    omega
  · omega
  · simp only [f1, f2, f3]
    exact sumObserved_eq cache _ _ _ (lastObserved_nonneg _ _) (lastObserved_nonneg _ _)
      (lastObserved_nonneg _ _)

/-- **C14.** For every sequence of leaf-2 results, `getClassicalCacheDetails`
returns after some `k ≥ 1` queries, and with `bytes` the descriptor bytes of
the `k` results it read: `L1CacheSize` is the sum of the last observed code,
data and trace sizes among the kinds observed, and -1 if none was observed;
`L2CacheSize` and `L3CacheSize` are the size of the last observed L2 and L3
descriptor, or -1 if none was observed. In particular the descriptor bytes
`0x06`, `0x3c` alone give L1 = 8, L2 = 256, L3 = -1. -/
theorem getClassicalCacheDetails_sizes (cache : Cache) (w : World)
    (hsup : w.hw.cpuidInstr = ProbeOutcome.executes) :
    (∃ k cache' w', 1 ≤ k ∧ getClassicalCacheDetails cache w = some (cache', w') ∧
      w'.trace.count (Event.cpuid 2) = w.trace.count (Event.cpuid 2) + k ∧
      cache'.L1CacheSize =
        sumObserved
          (lastObserved CacheKind.code (descriptorBytes w.hw (w.trace.count (Event.cpuid 2)) k))
          (lastObserved CacheKind.data (descriptorBytes w.hw (w.trace.count (Event.cpuid 2)) k))
          (lastObserved CacheKind.trace
            (descriptorBytes w.hw (w.trace.count (Event.cpuid 2)) k)) ∧
      cache'.L2CacheSize =
        (lastObserved CacheKind.L2
          (descriptorBytes w.hw (w.trace.count (Event.cpuid 2)) k)).getD (-1) ∧
      cache'.L3CacheSize =
        (lastObserved CacheKind.L3
          (descriptorBytes w.hw (w.trace.count (Event.cpuid 2)) k)).getD (-1)) ∧
    (getClassicalCacheDetails cache
        (descriptorWorld [{ eax := 0x003c0601, ebx := 0, ecx := 0, edx := 0 }])).map Prod.fst =
      some { L1CacheSize := 8, L2CacheSize := 256, L3CacheSize := -1 } := by
  constructor
  · obtain ⟨k, cache', w', hk, _, hget, _, hcount, _, _, h1, h2, h3⟩ :=
      getClassicalCacheDetails_spec cache w hsup
    exact ⟨k, cache', w', hk, hget, hcount, h1, h2, h3⟩
  · rfl

/-- Witness of **C14**: the leaf-2 result of the example Pentium 4 carries the
descriptors `0x66` (data, 8 KB), `0x40` (L2, 0 KB), `0x70` (trace, 12 KB) and
`0x7a` (L2, 256 KB) in that order: L1 = 20, L2 = 256, L3 = -1. -/
theorem getClassicalCacheDetails_sizes_witness :
    pentium4World.hw.cpuidInstr = ProbeOutcome.executes ∧
    ∃ cache' w', getClassicalCacheDetails blankInfo.cache pentium4World = some (cache', w') ∧
      cache' = { L1CacheSize := 20, L2CacheSize := 256, L3CacheSize := -1 } ∧
      lastObserved CacheKind.L2 (descriptorBytes pentium4World.hw 0 1) = some 256 := by
  obtain ⟨⟨k, cache', w', _, hget, _, _, _, _⟩, _⟩ :=
    getClassicalCacheDetails_sizes blankInfo.cache pentium4World rfl
  have hval : (getClassicalCacheDetails blankInfo.cache pentium4World).map Prod.fst =
      some { L1CacheSize := 20, L2CacheSize := 256, L3CacheSize := -1 } := by decide!
  rw [hget] at hval
  simp only [Option.map_some', Option.some.injEq] at hval
  exact ⟨rfl, cache', w', hget, hval, by decide!⟩

theorem observedSize_zero (kind : CacheKind) : observedSize kind 0 = none := by
  cases kind <;> rfl

theorem descriptorBytes_observed_congr (kind : CacheKind) (hw hv : Hardware) :
    ∀ (k cw cv : Nat),
      (∀ i j, 1 ≤ j → j < 16 →
        cacheData (hv.cpuid 2 (cv + i)).trunc j = cacheData (hw.cpuid 2 (cw + i)).trunc j ∨
        (isDescriptorCase (cacheData (hw.cpuid 2 (cw + i)).trunc j) = false ∧
          cacheData (hv.cpuid 2 (cv + i)).trunc j = 0)) →
      lastObserved kind (descriptorBytes hv cv k) = lastObserved kind (descriptorBytes hw cw k) := by
  have key : ∀ (k cw cv : Nat),
      (∀ i j, 1 ≤ j → j < 16 →
        cacheData (hv.cpuid 2 (cv + i)).trunc j = cacheData (hw.cpuid 2 (cw + i)).trunc j ∨
        (isDescriptorCase (cacheData (hw.cpuid 2 (cw + i)).trunc j) = false ∧
          cacheData (hv.cpuid 2 (cv + i)).trunc j = 0)) →
      (descriptorBytes hv cv k).filterMap (observedSize kind) =
        (descriptorBytes hw cw k).filterMap (observedSize kind) := by
    intro k
    induction k with
    | zero => intro cw cv _; rfl
    | succ n ih =>
      intro cw cv h
      simp only [descriptorBytes, List.filterMap_append, List.filterMap_map]
      congr 1
      · apply List.filterMap_congr
        intro j hj
        have hj' := List.mem_range'_1.mp hj
        rcases h 0 j hj'.1 (by omega) with e | ⟨e1, e2⟩
        · simp only [Function.comp, Nat.add_zero] at e ⊢
          rw [e]
        · simp only [Function.comp, Nat.add_zero] at e1 e2 ⊢
          rw [e2, observedSize_zero, observedSize_none_of_not_case _ _ e1]
      · apply ih
        intro i j h1 h2
        have := h (i + 1) j h1 h2
        have ew : cw + (i + 1) = cw + 1 + i := by omega
        have ev : cv + (i + 1) = cv + 1 + i := by omega
        rw [ew, ev] at this
        exact this
  intro k cw cv h
  unfold lastObserved
  rw [key k cw cv h]

/-- **C15.** Unrecognized descriptor bytes do not affect the result: if the
leaf-2 results of machine `v` are those of machine `w` with some descriptor
bytes (bytes 1..15) that are not a case of the descriptor table replaced by
`0x00`, then `getClassicalCacheDetails` computes the same L1, L2 and L3 sizes
on both. -/
theorem getClassicalCacheDetails_unrecognized (cache cache₂ : Cache) (w v : World)
    (hsupw : w.hw.cpuidInstr = ProbeOutcome.executes)
    (hsupv : v.hw.cpuidInstr = ProbeOutcome.executes)
    (hcount : ∀ i, passTotalAt v.hw (v.trace.count (Event.cpuid 2) + i) =
      passTotalAt w.hw (w.trace.count (Event.cpuid 2) + i))
    (hbytes : ∀ i j, 1 ≤ j → j < 16 →
      cacheData (v.hw.cpuid 2 (v.trace.count (Event.cpuid 2) + i)).trunc j =
        cacheData (w.hw.cpuid 2 (w.trace.count (Event.cpuid 2) + i)).trunc j ∨
      (isDescriptorCase
          (cacheData (w.hw.cpuid 2 (w.trace.count (Event.cpuid 2) + i)).trunc j) = false ∧
        cacheData (v.hw.cpuid 2 (v.trace.count (Event.cpuid 2) + i)).trunc j = 0)) :
    ∃ cw' cv' w' v', getClassicalCacheDetails cache w = some (cw', w') ∧
      getClassicalCacheDetails cache₂ v = some (cv', v') ∧
      cv'.L1CacheSize = cw'.L1CacheSize ∧ cv'.L2CacheSize = cw'.L2CacheSize ∧
      cv'.L3CacheSize = cw'.L3CacheSize := by
  obtain ⟨kw, cw', w', hkw, _, hgetw, _, _, hgow, hstopw, w1, w2, w3⟩ :=
    getClassicalCacheDetails_spec cache w hsupw
  obtain ⟨kv, cv', v', hkv, _, hgetv, _, _, hgov, hstopv, v1, v2, v3⟩ :=
    getClassicalCacheDetails_spec cache₂ v hsupv
  have hk : kv = kw := by
    rcases Nat.lt_trichotomy kv kw with h | h | h
    · have := hgow (kv - 1) (by omega)
      rw [← hcount] at this
      omega
    · exact h
    · have := hgov (kw - 1) (by omega)
      rw [hcount] at this
      omega
  subst hk
  refine ⟨cw', cv', w', v', hgetw, hgetv, ?_, ?_, ?_⟩
  · rw [v1, w1, descriptorBytes_observed_congr _ w.hw v.hw kv _ _ hbytes,
      descriptorBytes_observed_congr _ w.hw v.hw kv _ _ hbytes,
      descriptorBytes_observed_congr _ w.hw v.hw kv _ _ hbytes]
  · rw [v2, w2, descriptorBytes_observed_congr _ w.hw v.hw kv _ _ hbytes]
  · rw [v3, w3, descriptorBytes_observed_congr _ w.hw v.hw kv _ _ hbytes]

/-- Witness of **C15**: replacing the unknown byte `0x99` of a leaf-2 result by
`0x00` leaves the sizes L1 = 8, L2 = 256, L3 = -1 unchanged. -/
theorem getClassicalCacheDetails_unrecognized_witness :
    (unknownByteWorld.hw.cpuidInstr = ProbeOutcome.executes ∧
      clearedByteWorld.hw.cpuidInstr = ProbeOutcome.executes ∧
      cacheData (unknownByteWorld.hw.cpuid 2 0).trunc 3 = 0x99 ∧
      isDescriptorCase 0x99 = false ∧
      cacheData (clearedByteWorld.hw.cpuid 2 0).trunc 3 = 0) ∧
    ∃ cw' cv' w' v',
      getClassicalCacheDetails blankInfo.cache unknownByteWorld = some (cw', w') ∧
      getClassicalCacheDetails blankInfo.cache clearedByteWorld = some (cv', v') ∧
      cv'.L1CacheSize = cw'.L1CacheSize ∧ cv'.L2CacheSize = cw'.L2CacheSize ∧
      cv'.L3CacheSize = cw'.L3CacheSize := by
  refine ⟨⟨rfl, rfl, by decide, by decide, by decide⟩, ?_⟩
  apply getClassicalCacheDetails_unrecognized blankInfo.cache blankInfo.cache
    unknownByteWorld clearedByteWorld rfl rfl
  · intro i
    cases i with
    | zero => decide
    | succ n => rfl
  · intro i j h1 h2
    cases i with
    | zero => interval_cases j <;> decide
    | succ n => exact Or.inl rfl

/-- Counterexample to **C16** as stated: the first byte of the first leaf-2
result announces 3 passes, the second result announces 1, and leaf 2 is
queried 2 times, not 3; and a first result that announces 0 passes is
followed by no further query, yet leaf 2 has been queried once. -/
theorem getClassicalCacheDetails_queries_counterexample :
    (passTotalAt staleCountWorld.hw 0 = 3 ∧
      (getClassicalCacheDetails blankInfo.cache staleCountWorld).map
        (fun p => p.2.trace.count (Event.cpuid 2)) = some 2) ∧
    (passTotalAt (descriptorWorld []).hw 0 = 0 ∧
      (getClassicalCacheDetails blankInfo.cache (descriptorWorld [])).map
        (fun p => p.2.trace.count (Event.cpuid 2)) = some 1) := by
  decide!

/-- **C16**, amended. `getClassicalCacheDetails` returns after querying leaf 2
`k` times, where `k` is the least number `≥ 1` such that the count in the first
byte of the `k`-th result is at most `k`: the count is read again from every
result, and `1 ≤ k ≤ 255`. When every leaf-2 result carries the same count `n`,
that is `n` queries for `n ≥ 1` and one query for `n = 0`. -/
theorem getClassicalCacheDetails_queries (cache : Cache) (w : World)
    (hsup : w.hw.cpuidInstr = ProbeOutcome.executes) :
    ∃ k cache' w', getClassicalCacheDetails cache w = some (cache', w') ∧
      w'.trace.count (Event.cpuid 2) = w.trace.count (Event.cpuid 2) + k ∧
      1 ≤ k ∧ k ≤ 255 ∧
      (∀ j, 1 ≤ j → j < k →
        j < passTotalAt w.hw (w.trace.count (Event.cpuid 2) + (j - 1))) ∧
      passTotalAt w.hw (w.trace.count (Event.cpuid 2) + (k - 1)) ≤ k ∧
      (∀ n, (∀ i, passTotalAt w.hw (w.trace.count (Event.cpuid 2) + i) = n) →
        k = max n 1) := by
  obtain ⟨k, cache', w', hk, hk255, hget, _, hcount, hgo, hstop, _⟩ :=
    getClassicalCacheDetails_spec cache w hsup
  refine ⟨k, cache', w', hget, hcount, hk, hk255, ?_, hstop, ?_⟩
  · intro j h1 h2
    have := hgo (j - 1) (by omega)
    omega
  · intro n hn
    rw [hn] at hstop
    by_cases h1 : k = 1
    · subst h1
      omega
    · have := hgo (k - 2) (by omega)
      rw [hn] at this
      omega

/-- Witness of **C16**, amended: on a machine whose leaf-2 results all announce
2 passes, leaf 2 is queried twice, and both results are decoded. -/
theorem getClassicalCacheDetails_queries_witness :
    twoPassWorld.hw.cpuidInstr = ProbeOutcome.executes ∧
    ∃ cache' w', getClassicalCacheDetails blankInfo.cache twoPassWorld = some (cache', w') ∧
      w'.trace.count (Event.cpuid 2) = 2 ∧
      cache' = { L1CacheSize := 8, L2CacheSize := 256, L3CacheSize := -1 } := by
  obtain ⟨k, cache', w', hget, _, _, _, _, _, _⟩ :=
    getClassicalCacheDetails_queries blankInfo.cache twoPassWorld rfl
  have hval : (getClassicalCacheDetails blankInfo.cache twoPassWorld).map
      (fun p => (p.2.trace.count (Event.cpuid 2), p.1)) =
      some (2, { L1CacheSize := 8, L2CacheSize := 256, L3CacheSize := -1 }) := by decide!
  rw [hget] at hval
  simp only [Option.map_some', Option.some.injEq, Prod.mk.injEq] at hval
  exact ⟨rfl, cache', w', hget, hval.1, hval.2⟩

/-! ## The frequency measurement -/

theorem busyWait_reaches (startPC ticks : Nat) :
    ∀ (fuel : Nat) (w : World) (endPC : Nat) (w' : World),
      busyWait startPC ticks fuel w = some (endPC, w') → w.Reaches w' [Event.hpCounter] := by
  intro fuel
  induction fuel with
  | zero => intro w endPC w' h; simp [busyWait] at h
  | succ n ih =>
    intro w endPC w' h
    unfold busyWait at h
    simp only [getHPCounter] at h
    have r1 : w.Reaches (w.log Event.hpCounter) [Event.hpCounter] :=
      World.Reaches.log _ _ _ (by simp)
    split at h
    · exact r1.trans (ih _ _ _ h)
    · simp only [Option.some.injEq, Prod.mk.injEq] at h
      rw [← h.2]
      exact r1

theorem measureFrequency_reaches (fuel duration : Nat) (w : World) (r : Int) (w' : World)
    (h : measureFrequency fuel duration w = some (r, w')) :
    w.Reaches w' [Event.hpCounter, Event.rdtsc] := by
  unfold measureFrequency at h
  simp only [getHPCounter, RDTSC, Option.bind_eq_bind] at h
  obtain ⟨⟨endPC, w2⟩, hb, h2⟩ := Option.bind_eq_some.mp h
  have rb := busyWait_reaches _ _ _ _ _ _ hb
  split at h2
  · cases h2
  · simp only [Option.some.injEq, Prod.mk.injEq] at h2
    rw [← h2.2]
    have r1 : w.Reaches ((w.log Event.hpCounter).log Event.rdtsc)
        [Event.hpCounter, Event.rdtsc] :=
      (World.Reaches.log _ _ _ (by simp)).trans (World.Reaches.log _ _ _ (by simp))
    exact (r1.trans (rb.mono (by intro e he; simp at he ⊢; tauto))).trans
      (World.Reaches.log _ _ _ (by simp))

theorem getClassicalFrequency_reaches (info : CPUInfo) (w : World) (r : Int) (w' : World)
    (h : getClassicalFrequency info w = some (r, w')) :
    w.Reaches w' [Event.hpCounter, Event.timingLoop LOOP_LENGTH] := by
  have r1 : w.Reaches (((w.log Event.hpCounter).log (Event.timingLoop LOOP_LENGTH)).log
      Event.hpCounter) [Event.hpCounter, Event.timingLoop LOOP_LENGTH] :=
    ((World.Reaches.log _ _ _ (by simp)).trans (World.Reaches.log _ _ _ (by simp))).trans
      (World.Reaches.log _ _ _ (by simp))
  unfold getClassicalFrequency at h
  simp only [getHPCounter, classicalTimingLoop, Option.bind_eq_bind] at h
  split at h
  · obtain ⟨_, _, h2⟩ := Option.bind_eq_some.mp h
    obtain ⟨_, _, h3⟩ := Option.bind_eq_some.mp h2
    obtain ⟨_, _, h4⟩ := Option.bind_eq_some.mp h3
    obtain ⟨_, _, h5⟩ := Option.bind_eq_some.mp h4
    simp only [Option.some.injEq, Prod.mk.injEq] at h5
    rw [← h5.2]; exact r1
  · split at h
    · obtain ⟨_, _, h2⟩ := Option.bind_eq_some.mp h
      obtain ⟨_, _, h3⟩ := Option.bind_eq_some.mp h2
      obtain ⟨_, _, h4⟩ := Option.bind_eq_some.mp h3
      obtain ⟨_, _, h5⟩ := Option.bind_eq_some.mp h4
      simp only [Option.some.injEq, Prod.mk.injEq] at h5
      rw [← h5.2]; exact r1
    · split at h
      · obtain ⟨_, _, h2⟩ := Option.bind_eq_some.mp h
        obtain ⟨_, _, h3⟩ := Option.bind_eq_some.mp h2
        obtain ⟨_, _, h4⟩ := Option.bind_eq_some.mp h3
        obtain ⟨_, _, h5⟩ := Option.bind_eq_some.mp h4
        simp only [Option.some.injEq, Prod.mk.injEq] at h5
        rw [← h5.2]; exact r1
      · simp only [Option.some.injEq, Prod.mk.injEq] at h
        rw [← h.2]; exact r1

theorem getCPUFrequency_reaches (fuel : Nat) (info : CPUInfo) (w : World) (r : Int)
    (w' : World) (h : getCPUFrequency fuel info w = some (r, w')) :
    w.Reaches w' [Event.hpCounter, Event.rdtsc, Event.timingLoop LOOP_LENGTH] := by
  unfold getCPUFrequency at h
  split at h
  · exact (measureFrequency_reaches _ _ _ _ _ h).mono (by intro e he; simp at he ⊢; tauto)
  · exact (getClassicalFrequency_reaches _ _ _ _ h).mono (by intro e he; simp at he ⊢; tauto)

/-! ## The phases of the detection pass -/

theorem getCPUInfo_stages (fuel : Nat) (info : CPUInfo) (w : World)
    (hsup : w.hw.cpuidInstr = ProbeOutcome.executes)
    (hlive : (w.hw.cpuid 1 (w.trace.count (Event.cpuid 1) + 1)).edx.testBit 25 = true →
      w.survives w.hw.orpsInstr = true) :
    ∃ (id2 : Identity) (f5 : Features) (w5 : World) (found : Bool) (c6 : Cache) (w6 : World)
      (c7 : Cache) (w7 : World) (pm8 : PowerManagement) (w8 : World),
      w.Reaches w5 eventsExceptLeaf2 ∧
      getCacheDetails id2 info.cache w5 = some (found, c6, w6) ∧
      w5.Reaches w6 eventsExceptLeaf2 ∧
      (found = true → c7 = c6 ∧ w7 = w6) ∧
      (found = false → getClassicalCacheDetails c6 w6 = some (c7, w7)) ∧
      w6.Reaches w7 [Event.probeCPUID, Event.cpuid 2] ∧
      getPowerManagement id2 info.powerManagement w7 = some (pm8, w8) ∧
      w7.Reaches w8 eventsExceptLeaf2 ∧
      w.Reaches w8 decodingEvents ∧
      getCPUInfo fuel info w =
        (getCPUFrequency fuel
          { supportsCPUID := true, identity := id2, features := f5, cache := c7,
            powerManagement := pm8, frequency := info.frequency } w8).map
          (fun r =>
            ({ supportsCPUID := true, identity := id2, features := f5, cache := c7,
               powerManagement := pm8, frequency := r.1 }, r.2)) := by
  have sub : ∀ (a : List Event), (∀ e ∈ a, e ∈ eventsExceptLeaf2) →
      ∀ {x y : World}, x.Reaches y a → x.Reaches y eventsExceptLeaf2 :=
    fun a ha x y h => h.mono ha
  unfold getCPUInfo
  simp only [Option.bind_eq_bind, getCPUIDSupport_of_executes w hsup, Option.some_bind,
    if_true]
  have r0 : w.Reaches (w.log Event.probeCPUID) eventsExceptLeaf2 :=
    World.Reaches.log _ _ _ (by decide)
  obtain ⟨id1, h1⟩ := getIdentity_core info.identity (w.log Event.probeCPUID) hsup
  rw [h1]
  simp only [Option.some_bind]
  generalize hw1 : ((((w.log Event.probeCPUID).log Event.probeCPUID).log (Event.cpuid 0)).log
    Event.probeCPUID).log (Event.cpuid 1) = w1
  have hs1 : w1.hw.cpuidInstr = ProbeOutcome.executes := by rw [← hw1]; exact hsup
  have c1 : w1.trace.count (Event.cpuid 1) = w.trace.count (Event.cpuid 1) + 1 := by
    rw [← hw1]; simp [List.count_append]
  have b1 : w1.blockedILL = w.blockedILL ∧ w1.blockedSEGV = w.blockedSEGV := by
    rw [← hw1]; exact ⟨rfl, rfl⟩
  have r1 : w.Reaches w1 eventsExceptLeaf2 := by
    rw [← hw1]
    exact r0.trans ((CPUID_reaches_of 0 _ _ (by decide) (by decide)).trans
      (CPUID_reaches_of 1 _ _ (by decide) (by decide)))
  have r1d : w.Reaches w1 decodingEvents := by
    rw [← hw1]
    exact (World.Reaches.log _ _ _ (by decide)).trans
      ((CPUID_reaches_of 0 _ _ (by decide) (by decide)).trans
        (CPUID_reaches_of 1 _ _ (by decide) (by decide)))
  obtain ⟨id2, w2, h2, r2, _⟩ := getExtendedIdentity_core id1 w1 hs1
  rw [h2]
  simp only [Option.some_bind]
  have hs2 : w2.hw.cpuidInstr = ProbeOutcome.executes := r2.1.symm ▸ hs1
  have a2 : w2.answer 1 = w.hw.cpuid 1 (w.trace.count (Event.cpuid 1) + 1) := by
    rw [r2.answer_eq 1 (by simp)]
    unfold World.answer
    rw [c1, r1.1]
  have b2 := getExtendedIdentity_blocked id1 w1 _ h2
  simp only [] at b2
  have hl2 : (w2.answer 1).edx.testBit 25 = true → w2.survives w2.hw.orpsInstr = true := by
    intro hb
    rw [World.survives_congr w w2 (b2.2.1.trans b1.1) (b2.2.2.trans b1.2), r2.1, r1.1]
    exact hlive (a2 ▸ hb)
  rw [getFeatures_eq _ w2 hs2 hl2]
  simp only [Option.some_bind]
  have r3 : ∀ b : Bool, w2.Reaches
      (if b = true then
        ((w2.log Event.probeCPUID).log (Event.cpuid 1)).afterProbe w2.hw.orpsInstr
          Event.probeSSEFP
        else (w2.log Event.probeCPUID).log (Event.cpuid 1)) eventsExceptLeaf2 := by
    intro b
    have q := CPUID_reaches_of 1 w2 eventsExceptLeaf2 (by decide) (by decide)
    cases b
    · exact q
    · exact q.trans ((World.Reaches.afterProbe _ _ _).mono (by decide))
  generalize hw3 : (if (w2.answer 1).edx.testBit 25 = true then
      ((w2.log Event.probeCPUID).log (Event.cpuid 1)).afterProbe w2.hw.orpsInstr
        Event.probeSSEFP
    else (w2.log Event.probeCPUID).log (Event.cpuid 1)) = w3
  have r3' : w2.Reaches w3 eventsExceptLeaf2 := hw3 ▸ r3 _
  have r3d : w2.Reaches w3 decodingEvents := by
    rw [← hw3]
    have q := CPUID_reaches_of 1 w2 decodingEvents (by decide) (by decide)
    split
    · exact q.trans ((World.Reaches.afterProbe _ _ _).mono (by decide))
    · exact q
  have hs3 : w3.hw.cpuidInstr = ProbeOutcome.executes := r3'.1.symm ▸ hs2
  obtain ⟨f4, w4, h4, r4, _⟩ := getExtendedFeatures_core id2 _ w3 hs3
  rw [h4]
  simp only [Option.some_bind]
  have hs4 : w4.hw.cpuidInstr = ProbeOutcome.executes := r4.1.symm ▸ hs3
  have r04 : w.Reaches w4 eventsExceptLeaf2 :=
    ((r1.trans (sub _ (by decide) r2)).trans r3').trans (sub _ (by decide) r4)
  have r04d : w.Reaches w4 decodingEvents :=
    ((r1d.trans (r2.mono (by decide))).trans r3d).trans (r4.mono (by decide))
  have hser : ∀ I : CPUInfo,
      ∃ f5 w5, (if I.features.serial = true then getSerialNumber I w4 else some (I, w4)) =
          some ({ I with features := f5 }, w5) ∧ w4.Reaches w5 eventsExceptLeaf2 ∧
          w4.Reaches w5 decodingEvents := by
    intro I
    by_cases hs : I.features.serial = true
    · obtain ⟨sn, hsn⟩ := getSerialNumber_core I w4 hs4 hs
      rw [if_pos hs, hsn]
      exact ⟨_, _, rfl, CPUID_reaches_of 3 w4 _ (by decide) (by decide),
        CPUID_reaches_of 3 w4 _ (by decide) (by decide)⟩
    · rw [if_neg hs]
      exact ⟨_, _, rfl, World.Reaches.refl _ _, World.Reaches.refl _ _⟩
  obtain ⟨f5, w5, h5, r5, r5d⟩ := hser
    { supportsCPUID := true, identity := id2, features := f4, cache := info.cache,
      powerManagement := info.powerManagement, frequency := info.frequency }
  simp only [] at h5
  rw [h5]
  simp only [Option.some_bind]
  have hs5 : w5.hw.cpuidInstr = ProbeOutcome.executes := r5.1.symm ▸ hs4
  obtain ⟨found, c6, w6, h6, r6⟩ := getCacheDetails_core id2 info.cache w5 hs5
  rw [h6]
  simp only [Option.some_bind]
  have hs6 : w6.hw.cpuidInstr = ProbeOutcome.executes := r6.1.symm ▸ hs5
  have hcache : ∃ c7 w7, (if (!found) = true then getClassicalCacheDetails c6 w6
      else some (c6, w6)) = some (c7, w7) ∧ w6.Reaches w7 [Event.probeCPUID, Event.cpuid 2] ∧
      (found = true → c7 = c6 ∧ w7 = w6) ∧
      (found = false → getClassicalCacheDetails c6 w6 = some (c7, w7)) := by
    cases found
    · obtain ⟨c7, w7, h7, r7⟩ := getClassicalCacheDetails_core c6 w6 hs6
      exact ⟨c7, w7, by simpa using h7, r7, (fun h => by cases h), fun _ => h7⟩
    · exact ⟨_, _, rfl, World.Reaches.refl _ _, fun _ => ⟨rfl, rfl⟩, fun h => by cases h⟩
  obtain ⟨c7, w7, h7, r7, hyes, hno⟩ := hcache
  rw [h7]
  simp only [Option.some_bind]
  have hs7 : w7.hw.cpuidInstr = ProbeOutcome.executes := r7.1.symm ▸ hs6
  obtain ⟨pm8, w8, h8, r8⟩ := getPowerManagement_core id2 info.powerManagement w7 hs7
  rw [h8]
  simp only [Option.some_bind]
  refine ⟨id2, f5, w5, found, c6, w6, c7, w7, pm8, w8, r04.trans r5, h6,
    sub _ (by decide) r6, hyes, hno, r7, h8, sub _ (by decide) r8,
    (((r04d.trans r5d).trans (r6.mono (by decide))).trans (r7.mono (by decide))).trans
      (r8.mono (by decide)), ?_⟩
  cases getCPUFrequency fuel _ w8 <;> rfl

theorem getCacheDetails_range (id : Identity) (cache : Cache) (w : World)
    (hsup : w.hw.cpuidInstr = ProbeOutcome.executes) :
    ∃ found cache' w', getCacheDetails id cache w = some (found, cache', w') ∧
      (cache'.L1CacheSize = -1 ∨ 0 ≤ cache'.L1CacheSize) ∧
      (cache'.L2CacheSize = -1 ∨ 0 ≤ cache'.L2CacheSize) ∧
      (cache'.L3CacheSize = -1 ∨ 0 ≤ cache'.L3CacheSize) := by
  obtain ⟨found, cache', w', hget, h1, h2, h3, _⟩ := getCacheDetails_values id cache w hsup
  refine ⟨found, cache', w', hget, ?_, ?_, Or.inl h3⟩
  · rw [h1]
    split
    · right
      rw [and_0xFF, and_0xFF, toInt_small _ (by omega), toInt_small _ (by omega)]
      omega
    · left; rfl
  · rw [h2]
    split
    · right
      rw [and_0xFFFF, toInt_small _ (by omega)]
      omega
    · left; rfl

theorem sumObserved_range (a b c : Option Int)
    (na : ∀ s, a = some s → 0 ≤ s) (nb : ∀ s, b = some s → 0 ≤ s)
    (nc : ∀ s, c = some s → 0 ≤ s) :
    sumObserved a b c = -1 ∨ 0 ≤ sumObserved a b c := by
  unfold sumObserved
  split
  · left; rfl
  · right
    have ha : 0 ≤ a.getD 0 := by
      cases h : a with
      | none => simp
      | some s => simpa using na s h
    have hb : 0 ≤ b.getD 0 := by
      cases h : b with
      | none => simp
      | some s => simpa using nb s h
    have hc : 0 ≤ c.getD 0 := by
      cases h : c with
      | none => simp
      | some s => simpa using nc s h
    omega

theorem getD_range (a : Option Int) (na : ∀ s, a = some s → 0 ≤ s) :
    a.getD (-1) = -1 ∨ 0 ≤ a.getD (-1) := by
  cases h : a with
  | none => left; rfl
  | some s => right; simpa using na s h

theorem getClassicalCacheDetails_range (cache : Cache) (w : World)
    (hsup : w.hw.cpuidInstr = ProbeOutcome.executes) :
    ∃ cache' w', getClassicalCacheDetails cache w = some (cache', w') ∧
      (cache'.L1CacheSize = -1 ∨ 0 ≤ cache'.L1CacheSize) ∧
      (cache'.L2CacheSize = -1 ∨ 0 ≤ cache'.L2CacheSize) ∧
      (cache'.L3CacheSize = -1 ∨ 0 ≤ cache'.L3CacheSize) := by
  obtain ⟨k, cache', w', _, _, hget, _, _, _, _, h1, h2, h3⟩ :=
    getClassicalCacheDetails_spec cache w hsup
  refine ⟨cache', w', hget, ?_, ?_, ?_⟩
  · rw [h1]
    exact sumObserved_range _ _ _ (lastObserved_nonneg _ _) (lastObserved_nonneg _ _)
      (lastObserved_nonneg _ _)
  · rw [h2]; exact getD_range _ (lastObserved_nonneg _ _)
  · rw [h3]; exact getD_range _ (lastObserved_nonneg _ _)

/-- **C18.** On a processor that supports CPUID, the detection pass returns
exactly when the frequency measurement on the decoded record returns, and
then each of `L1CacheSize`, `L2CacheSize` and `L3CacheSize` is either -1 or
non-negative; this holds for every CPUID answer and for each strategy on its
own: `getCacheDetails` and `getClassicalCacheDetails` always return, with
sizes that are -1 or non-negative. -/
theorem getCPUInfo_cache_range (fuel : Nat) (info : CPUInfo) (w : World)
    (hsup : w.hw.cpuidInstr = ProbeOutcome.executes) :
    (∃ pre w₁, getCPUInfo fuel info w =
      (getCPUFrequency fuel pre w₁).map (fun r => ({ pre with frequency := r.1 }, r.2))) ∧
    (∀ info' w', getCPUInfo fuel info w = some (info', w') →
      (info'.cache.L1CacheSize = -1 ∨ 0 ≤ info'.cache.L1CacheSize) ∧
      (info'.cache.L2CacheSize = -1 ∨ 0 ≤ info'.cache.L2CacheSize) ∧
      (info'.cache.L3CacheSize = -1 ∨ 0 ≤ info'.cache.L3CacheSize)) ∧
    (∀ (id : Identity) (cache : Cache),
      ∃ found cache' w', getCacheDetails id cache w = some (found, cache', w') ∧
        (cache'.L1CacheSize = -1 ∨ 0 ≤ cache'.L1CacheSize) ∧
        (cache'.L2CacheSize = -1 ∨ 0 ≤ cache'.L2CacheSize) ∧
        (cache'.L3CacheSize = -1 ∨ 0 ≤ cache'.L3CacheSize)) ∧
    (∀ cache : Cache,
      ∃ cache' w', getClassicalCacheDetails cache w = some (cache', w') ∧
        (cache'.L1CacheSize = -1 ∨ 0 ≤ cache'.L1CacheSize) ∧
        (cache'.L2CacheSize = -1 ∨ 0 ≤ cache'.L2CacheSize) ∧
        (cache'.L3CacheSize = -1 ∨ 0 ≤ cache'.L3CacheSize)) := by
  by_cases hlive : (w.hw.cpuid 1 (w.trace.count (Event.cpuid 1) + 1)).edx.testBit 25 = true →
      w.survives w.hw.orpsInstr = true
  swap
  · have hk : getCPUInfo fuel info w = none := by
      simp only [Classical.not_imp, Bool.not_eq_true] at hlive
      exact getCPUInfo_killed fuel info w hsup hlive.1 hlive.2
    refine ⟨⟨i486Info, stoppedClockWorld, ?_⟩, ?_,
      fun id cache => getCacheDetails_range id cache w hsup,
      fun cache => getClassicalCacheDetails_range cache w hsup⟩
    · rw [hk]
      have hn : getClassicalFrequency i486Info stoppedClockWorld = none :=
        Option.isNone_iff_eq_none.mp (by decide!)
      unfold getCPUFrequency
      rw [if_neg (by decide), hn]
      rfl
    · intro info' w' hret
      rw [hk] at hret
      cases hret
  obtain ⟨id2, f5, w5, found, c6, w6, c7, w7, pm8, w8, r5, h6, r6, hyes, hno, r7, h8, r8, _,
      hrun⟩ := getCPUInfo_stages fuel info w hsup hlive
  refine ⟨⟨_, _, hrun⟩, ?_, fun id cache => getCacheDetails_range id cache w hsup,
    fun cache => getClassicalCacheDetails_range cache w hsup⟩
  intro info' w' hret
  rw [hrun] at hret
  obtain ⟨r, _, hmk⟩ := Option.map_eq_some'.mp hret
  have hinfo : info'.cache = c7 := by
    have := congrArg (fun p : CPUInfo × World => p.1.cache) hmk
    exact this.symm
  rw [hinfo]
  have hs5 : w5.hw.cpuidInstr = ProbeOutcome.executes := r5.1.symm ▸ hsup
  have hs6 : w6.hw.cpuidInstr = ProbeOutcome.executes := r6.1.symm ▸ hs5
  cases hf : found with
  | true =>
    obtain ⟨found', c', w'', hget, hrange⟩ := getCacheDetails_range id2 info.cache w5 hs5
    rw [h6] at hget
    simp only [Option.some.injEq, Prod.mk.injEq] at hget
    rw [(hyes hf).1, hget.2.1]
    exact hrange
  | false =>
    obtain ⟨c', w'', hget, hrange⟩ := getClassicalCacheDetails_range c6 w6 hs6
    rw [hno hf] at hget
    simp only [Option.some.injEq, Prod.mk.injEq] at hget
    rw [hget.1]
    exact hrange

/-- Witness of **C18**: on the example Pentium 4, which has no extended cache
leaves, the pass falls back to leaf 2 and ends with L1 = 20, L2 = 256, L3 = -1. -/
theorem getCPUInfo_cache_range_witness :
    pentium4World.hw.cpuidInstr = ProbeOutcome.executes ∧
    ∃ info' w', getCPUInfo 10 blankInfo pentium4World = some (info', w') ∧
      info'.cache = { L1CacheSize := 20, L2CacheSize := 256, L3CacheSize := -1 } ∧
      (info'.cache.L3CacheSize = -1 ∨ 0 ≤ info'.cache.L3CacheSize) := by
  obtain ⟨_, hall, _, _⟩ := getCPUInfo_cache_range 10 blankInfo pentium4World rfl
  have hval : (getCPUInfo 10 blankInfo pentium4World).map (fun p => p.1.cache) =
      some { L1CacheSize := 20, L2CacheSize := 256, L3CacheSize := -1 } := by decide!
  obtain ⟨⟨info', w'⟩, hret, hcache⟩ := Option.map_eq_some'.mp hval
  exact ⟨rfl, info', w', hret, hcache, (hall info' w' hret).2.2⟩

/-! ## The values of the frequency measurement -/

/-- The wait returns the first sample whose delta reaches the tick target,
when that sample is within the fuel. -/
theorem busyWait_spec (startPC ticks : Nat) :
    ∀ (n fuel : Nat) (w : World), n < fuel →
      (∀ i, i < n →
        u64 (u64 (w.hw.hpCounter (w.trace.count Event.hpCounter + i)) + 2 ^ 64 - startPC) <
          ticks) →
      ticks ≤
        u64 (u64 (w.hw.hpCounter (w.trace.count Event.hpCounter + n)) + 2 ^ 64 - startPC) →
      ∃ w', busyWait startPC ticks fuel w =
        some (u64 (w.hw.hpCounter (w.trace.count Event.hpCounter + n)), w') := by
  intro n
  induction n with
  | zero =>
    intro fuel w hf _ hend
    cases fuel with
    | zero => omega
    | succ m =>
      unfold busyWait
      simp only [getHPCounter]
      simp only [Nat.add_zero] at hend
      rw [if_neg (by omega)]
      exact ⟨_, rfl⟩
  | succ n ih =>
    intro fuel w hf hwait hend
    cases fuel with
    | zero => omega
    | succ m =>
      unfold busyWait
      simp only [getHPCounter]
      have h0 := hwait 0 (by omega)
      simp only [Nat.add_zero] at h0
      rw [if_pos h0]
      have hc : (w.log Event.hpCounter).trace.count Event.hpCounter =
          w.trace.count Event.hpCounter + 1 := by simp [List.count_append]
      have e : ∀ i, w.trace.count Event.hpCounter + 1 + i =
          w.trace.count Event.hpCounter + (i + 1) := fun i => by omega
      obtain ⟨w', hw'⟩ := ih m (w.log Event.hpCounter) (by omega)
        (by
          intro i hi
          rw [hc, World.log_hw, e]
          exact hwait (i + 1) (by omega))
        (by
          rw [hc, World.log_hw, e]
          exact hend)
      rw [hc, World.log_hw, e] at hw'
      exact ⟨w', hw'⟩

theorem busyWait_blocked (startPC ticks : Nat) :
    ∀ (fuel : Nat) (w : World) (endPC : Nat) (w' : World),
      busyWait startPC ticks fuel w = some (endPC, w') →
      w'.blockedILL = w.blockedILL ∧ w'.blockedSEGV = w.blockedSEGV := by
  intro fuel
  induction fuel with
  | zero => intro w endPC w' h; simp [busyWait] at h
  | succ n ih =>
    intro w endPC w' h
    unfold busyWait at h
    simp only [getHPCounter] at h
    split at h
    · exact ih (w.log Event.hpCounter) _ _ h
    · simp only [Option.some.injEq, Prod.mk.injEq] at h
      rw [← h.2]
      exact ⟨rfl, rfl⟩

theorem busyWait_none (startPC ticks : Nat) :
    ∀ (fuel : Nat) (w : World),
      (∀ i, i < fuel →
        u64 (u64 (w.hw.hpCounter (w.trace.count Event.hpCounter + i)) + 2 ^ 64 - startPC) <
          ticks) →
      busyWait startPC ticks fuel w = none := by
  intro fuel
  induction fuel with
  | zero => intro w _; rfl
  | succ m ih =>
    intro w hwait
    unfold busyWait
    simp only [getHPCounter]
    have h0 := hwait 0 (by omega)
    simp only [Nat.add_zero] at h0
    rw [if_pos h0]
    have hc : (w.log Event.hpCounter).trace.count Event.hpCounter =
        w.trace.count Event.hpCounter + 1 := by simp [List.count_append]
    have e : ∀ i, w.trace.count Event.hpCounter + 1 + i =
        w.trace.count Event.hpCounter + (i + 1) := fun i => by omega
    apply ih
    intro i hi
    rw [hc, World.log_hw, e]
    exact hwait (i + 1) (by omega)

/-- When the wait of `measureFrequency` ends at the sample `n + 1` reads after
the start sample, the call is the division by the wall-clock delta at that
sample. -/
theorem measureFrequency_eq (fuel duration : Nat) (w : World) (n : Nat)
    (hfuel : n < fuel)
    (hwait : ∀ i, i < n → pcDelta w (i + 1) < waitTicks duration)
    (hend : waitTicks duration ≤ pcDelta w (n + 1)) :
    ∃ w', w.Reaches w' [Event.hpCounter, Event.rdtsc] ∧
      w'.blockedILL = w.blockedILL ∧ w'.blockedSEGV = w.blockedSEGV ∧
      measureFrequency fuel duration w =
      if pcDelta w (n + 1) = 0 then none
      else some (toInt (u64 (tscDelta w * getHPFrequency) / pcDelta w (n + 1) / 1000000), w') := by
  have hc : ((w.log Event.hpCounter).log Event.rdtsc).trace.count Event.hpCounter =
      w.trace.count Event.hpCounter + 1 := by simp [World.log, List.count_append]
  have e : ∀ i, w.trace.count Event.hpCounter + 1 + i =
      w.trace.count Event.hpCounter + (i + 1) := fun i => by omega
  obtain ⟨w2, hb⟩ := busyWait_spec (u64 (w.hw.hpCounter (w.trace.count Event.hpCounter)))
    (waitTicks duration) n fuel ((w.log Event.hpCounter).log Event.rdtsc) hfuel
    (by
      intro i hi
      rw [hc, World.log_hw, World.log_hw, e]
      exact hwait i hi)
    (by
      rw [hc, World.log_hw, World.log_hw, e]
      exact hend)
  rw [hc, World.log_hw, World.log_hw, e] at hb
  have rb := busyWait_reaches _ _ _ _ _ _ hb
  have mb := busyWait_blocked _ _ _ _ _ _ hb
  have hhw : w2.hw = w.hw := by rw [rb.1, World.log_hw, World.log_hw]
  have hct : w2.trace.count Event.rdtsc = w.trace.count Event.rdtsc + 1 := by
    rw [rb.count_eq Event.rdtsc (by decide)]
    simp [World.log, List.count_append]
  have r1 : w.Reaches ((w.log Event.hpCounter).log Event.rdtsc)
      [Event.hpCounter, Event.rdtsc] :=
    (World.Reaches.log _ _ _ (by simp)).trans (World.Reaches.log _ _ _ (by simp))
  refine ⟨w2.log Event.rdtsc,
    (r1.trans (rb.mono (by intro e he; simp at he ⊢; tauto))).trans
      (World.Reaches.log _ _ _ (by simp)), mb.1, mb.2, ?_⟩
  have hct0 : (w.log Event.hpCounter).trace.count Event.rdtsc = w.trace.count Event.rdtsc := by
    simp [World.log, List.count_append]
  unfold measureFrequency
  simp only [getHPCounter, RDTSC, Option.bind_eq_bind, World.log_hw, hct0]
  have hb' : busyWait (u64 (w.hw.hpCounter (w.trace.count Event.hpCounter)))
      (u64 (u32 duration * getHPFrequency) / 1000) fuel
      ((w.log Event.hpCounter).log Event.rdtsc) =
      some (u64 (w.hw.hpCounter (w.trace.count Event.hpCounter + (n + 1))), w2) := hb
  rw [hb']
  simp only [Option.some_bind, hhw, hct]
  rfl

theorem measureFrequency_none (fuel duration : Nat) (w : World)
    (hwait : ∀ n, n < fuel → pcDelta w (n + 1) < waitTicks duration) :
    measureFrequency fuel duration w = none := by
  have hc : ((w.log Event.hpCounter).log Event.rdtsc).trace.count Event.hpCounter =
      w.trace.count Event.hpCounter + 1 := by simp [World.log, List.count_append]
  have e : ∀ i, w.trace.count Event.hpCounter + 1 + i =
      w.trace.count Event.hpCounter + (i + 1) := fun i => by omega
  have hb := busyWait_none (u64 (w.hw.hpCounter (w.trace.count Event.hpCounter)))
    (waitTicks duration) fuel ((w.log Event.hpCounter).log Event.rdtsc)
    (by
      intro i hi
      rw [hc, World.log_hw, World.log_hw, e]
      exact hwait i hi)
  have hct0 : (w.log Event.hpCounter).trace.count Event.rdtsc = w.trace.count Event.rdtsc := by
    simp [World.log, List.count_append]
  unfold measureFrequency
  simp only [getHPCounter, RDTSC, Option.bind_eq_bind, World.log_hw, hct0]
  have hb' : busyWait (u64 (w.hw.hpCounter (w.trace.count Event.hpCounter)))
      (u64 (u32 duration * getHPFrequency) / 1000) fuel
      ((w.log Event.hpCounter).log Event.rdtsc) = none := hb
  rw [hb']
  rfl

theorem waitTicks_50 : waitTicks 50 = 50000 := by decide

/-- The first of the samples that ends the wait. -/
theorem firstEnd (w : World) (ticks fuel : Nat)
    (h : ∃ n, n < fuel ∧ ticks ≤ pcDelta w (n + 1)) :
    ∃ n, n < fuel ∧ (∀ i, i < n → pcDelta w (i + 1) < ticks) ∧ ticks ≤ pcDelta w (n + 1) := by
  classical
  have hex : ∃ n, ticks ≤ pcDelta w (n + 1) := by
    obtain ⟨n, _, hn⟩ := h
    exact ⟨n, hn⟩
  refine ⟨Nat.find hex, ?_, ?_, Nat.find_spec hex⟩
  · obtain ⟨n, hn, hle⟩ := h
    exact lt_of_le_of_lt (Nat.find_min' hex hle) hn
  · intro i hi
    exact Nat.lt_of_not_le (Nat.find_min hex hi)

/-- **C20.** In this build the wall-clock tick frequency `f` is the constant
1000000 and the only call is `measureFrequency(50)`. Let `dT` be the cycle
delta between the two cycle-counter samples and `dP` the wall-clock delta at
the sample that ends the wait (the sample `n + 1` reads after the start
sample, the earlier ones being below the tick target, with `n` below the
fuel). If `dT * f < 2^64` then `dP` is positive, the two successive truncating
divisions (by `dP`, then by 1000000) give the same integer as one truncated
division by the product, and `measureFrequency` returns exactly
`floor((dT * f) / (dP * 1000000))`. -/
theorem measureFrequency_value (fuel : Nat) (w : World) (n : Nat)
    (hfuel : n < fuel)
    (hwait : ∀ i, i < n → pcDelta w (i + 1) < waitTicks 50)
    (hend : waitTicks 50 ≤ pcDelta w (n + 1))
    (hmul : tscDelta w * getHPFrequency < 2 ^ 64) :
    0 < pcDelta w (n + 1) ∧
    tscDelta w * getHPFrequency / pcDelta w (n + 1) / 1000000 =
      tscDelta w * getHPFrequency / (pcDelta w (n + 1) * 1000000) ∧
    ∃ w', measureFrequency fuel 50 w =
      some (((tscDelta w * getHPFrequency / (pcDelta w (n + 1) * 1000000) : Nat) : Int),
        w') := by
  have h50 := waitTicks_50
  rw [h50] at hend
  have hpos : 0 < pcDelta w (n + 1) := by omega
  have hdiv := Nat.div_div_eq_div_mul (tscDelta w * getHPFrequency) (pcDelta w (n + 1)) 1000000
  obtain ⟨w', _, _, _, h⟩ := measureFrequency_eq fuel 50 w n hfuel hwait (by rw [h50]; exact hend)
  rw [if_neg (by omega), show u64 (tscDelta w * getHPFrequency) =
    tscDelta w * getHPFrequency from Nat.mod_eq_of_lt hmul, hdiv] at h
  refine ⟨hpos, hdiv, w', ?_⟩
  rw [h, toInt_small]
  apply Nat.div_lt_of_lt_mul
  omega

/-- Witness of **C20**: on the example Pentium 4 the first sample ends the
50 ms wait with a delta of 60000 ticks and the cycle delta is 144000000: the
result is 2400. -/
theorem measureFrequency_value_witness :
    waitTicks 50 ≤ pcDelta pentium4World 1 ∧
    tscDelta pentium4World * getHPFrequency < 2 ^ 64 ∧
    pcDelta pentium4World 1 = 60000 ∧ tscDelta pentium4World = 144000000 ∧
    ∃ w', measureFrequency 10 50 pentium4World = some (2400, w') := by
  have h1 : waitTicks 50 ≤ pcDelta pentium4World 1 := by decide!
  have h3 : tscDelta pentium4World * getHPFrequency < 2 ^ 64 := by decide!
  obtain ⟨_, _, w', h⟩ := measureFrequency_value 10 pentium4World 0 (by decide)
    (fun i hi => absurd hi (Nat.not_lt_zero i)) h1 h3
  have hq : tscDelta pentium4World * getHPFrequency /
      (pcDelta pentium4World 1 * 1000000) = 2400 := by decide!
  rw [hq] at h
  exact ⟨h1, h3, by decide!, by decide!, w', h⟩

/-- **C21.** `measureFrequency(50)` never divides by a zero wall-clock delta.
The tick target of the window is 50000. A sample whose delta is below the
target, a zero delta included, makes the loop sample again: the call fails to
return exactly when none of the `fuel` samples reaches the target (the window
is still being retried, and no division has been performed). At the first
sample that reaches the target the call returns, and the divisor is the delta
of that sample, at least 50000. -/
theorem measureFrequency_divisor (fuel : Nat) (w : World) :
    waitTicks 50 = 50000 ∧
    (measureFrequency fuel 50 w = none ↔
      ∀ n, n < fuel → pcDelta w (n + 1) < waitTicks 50) ∧
    (∀ n, n < fuel → (∀ i, i < n → pcDelta w (i + 1) < waitTicks 50) →
      waitTicks 50 ≤ pcDelta w (n + 1) →
      50000 ≤ pcDelta w (n + 1) ∧
      ∃ w', measureFrequency fuel 50 w =
        some (toInt (u64 (tscDelta w * getHPFrequency) / pcDelta w (n + 1) / 1000000),
          w')) := by
  have h50 := waitTicks_50
  have hret : ∀ n, n < fuel → (∀ i, i < n → pcDelta w (i + 1) < waitTicks 50) →
      waitTicks 50 ≤ pcDelta w (n + 1) →
      50000 ≤ pcDelta w (n + 1) ∧
      ∃ w', measureFrequency fuel 50 w =
        some (toInt (u64 (tscDelta w * getHPFrequency) / pcDelta w (n + 1) / 1000000),
          w') := by
    intro n hn hwait hend
    obtain ⟨w', _, _, _, h⟩ := measureFrequency_eq fuel 50 w n hn hwait hend
    rw [h50] at hend
    rw [if_neg (by omega)] at h
    exact ⟨hend, w', h⟩
  refine ⟨h50, ⟨?_, measureFrequency_none fuel 50 w⟩, hret⟩
  intro hnone
  by_contra hcon
  simp only [not_forall, not_lt] at hcon
  obtain ⟨n, hn, hle⟩ := hcon
  obtain ⟨m, hm, hwait, hend⟩ := firstEnd w (waitTicks 50) fuel ⟨n, hn, hle⟩
  obtain ⟨_, w', h⟩ := hret m hm hwait hend
  rw [hnone] at h
  cases h

/-- Witness of **C21**: on the machine `stoppedClock` every sample has a zero
delta and the window is retried until the fuel is spent, without any division;
on the example Pentium 4 the first sample ends the wait with a delta of 60000
ticks and the call returns 2400. -/
theorem measureFrequency_divisor_witness :
    (∀ n, n < 10 → pcDelta stoppedClockWorld (n + 1) = 0) ∧
    measureFrequency 10 50 stoppedClockWorld = none ∧
    pcDelta pentium4World 1 = 60000 ∧
    ∃ w', measureFrequency 10 50 pentium4World = some (2400, w') := by
  have hz : ∀ n, pcDelta stoppedClockWorld (n + 1) = 0 := fun n => by
    show u64 (u64 5 + 2 ^ 64 - u64 5) = 0
    decide
  have hp : pcDelta pentium4World 1 = 60000 := by decide!
  refine ⟨fun n _ => hz n, ?_, hp, ?_⟩
  · exact (measureFrequency_divisor 10 stoppedClockWorld).2.1.mpr
      (fun n _ => by rw [hz n]; decide)
  · obtain ⟨_, w', h⟩ := (measureFrequency_divisor 10 pentium4World).2.2 0 (by decide)
      (fun i hi => absurd hi (Nat.not_lt_zero i)) (by decide!)
    have hq : toInt (u64 (tscDelta pentium4World * getHPFrequency) /
        pcDelta pentium4World 1 / 1000000) = 2400 := by decide!
    rw [hq] at h
    exact ⟨w', h⟩

theorem log2Fuel_spec : ∀ (fuel n : Nat), n ≤ fuel → n ≠ 0 →
    2 ^ log2Fuel fuel n ≤ n ∧ n < 2 ^ (log2Fuel fuel n + 1) := by
  intro fuel
  induction fuel with
  | zero => intro n h1 h2; omega
  | succ k ih =>
    intro n h1 h2
    unfold log2Fuel
    by_cases h : n < 2
    · rw [if_pos h]
      constructor <;> simp <;> omega
    · rw [if_neg h]
      obtain ⟨a, b⟩ := ih (n / 2) (by omega) (by omega)
      constructor
      · rw [pow_succ]; omega
      · rw [pow_succ]; omega

theorem binaryExponent_le (q : ℚ) (hq : q ≠ 0) : (2 : ℚ) ^ binaryExponent q ≤ |q| := by
  unfold binaryExponent
  simp only
  split
  · assumption
  · have hn : q.num.natAbs ≠ 0 := by
      simpa using hq
    obtain ⟨a, _⟩ := log2Fuel_spec q.num.natAbs q.num.natAbs le_rfl hn
    obtain ⟨_, b⟩ := log2Fuel_spec q.den q.den le_rfl q.den_nz
    have hq' : |q| = (q.num.natAbs : ℚ) / (q.den : ℚ) := by
      rw [← Rat.num_div_den q, abs_div, Nat.cast_natAbs, Rat.num_div_den]
      simp
    rw [hq', zpow_sub_one₀ (by norm_num), zpow_sub₀ (by norm_num), zpow_natCast, zpow_natCast]
    have ha : ((2:ℚ) ^ log2Fuel q.num.natAbs q.num.natAbs) ≤ (q.num.natAbs : ℚ) := by
      exact_mod_cast a
    have hb : (q.den : ℚ) ≤ (2:ℚ) ^ (log2Fuel q.den q.den + 1) := by
      exact_mod_cast b.le
    have hd : (0:ℚ) < q.den := by exact_mod_cast q.den_pos
    rw [div_mul_eq_mul_div, div_le_div_iff₀ (by positivity) hd]
    have : (2:ℚ) ^ (log2Fuel q.den q.den + 1) = 2 ^ (log2Fuel q.den q.den) * 2 := pow_succ _ _
    rw [this] at hb
    have h2 : (0:ℚ) < 2 ^ log2Fuel q.den q.den := by positivity
    have h3 : (0:ℚ) < 2 ^ log2Fuel q.num.natAbs q.num.natAbs := by positivity
    calc (2:ℚ) ^ log2Fuel q.num.natAbs q.num.natAbs * 2⁻¹ * q.den
        ≤ (2:ℚ) ^ log2Fuel q.num.natAbs q.num.natAbs * 2⁻¹ * (2 ^ (log2Fuel q.den q.den) * 2) := by
          apply mul_le_mul_of_nonneg_left hb (by positivity)
      _ = (2:ℚ) ^ log2Fuel q.num.natAbs q.num.natAbs * 2 ^ (log2Fuel q.den q.den) := by ring
      _ ≤ q.num.natAbs * 2 ^ (log2Fuel q.den q.den) := by
          apply mul_le_mul_of_nonneg_right ha (by positivity)

theorem binaryExponent_lt (q : ℚ) (hq : q ≠ 0) : |q| < (2 : ℚ) ^ (binaryExponent q + 1) := by
  unfold binaryExponent
  simp only
  split
  · have hn : q.num.natAbs ≠ 0 := by
      simpa using hq
    obtain ⟨_, a⟩ := log2Fuel_spec q.num.natAbs q.num.natAbs le_rfl hn
    obtain ⟨b, _⟩ := log2Fuel_spec q.den q.den le_rfl q.den_nz
    have hq' : |q| = (q.num.natAbs : ℚ) / (q.den : ℚ) := by
      rw [← Rat.num_div_den q, abs_div, Nat.cast_natAbs, Rat.num_div_den]
      simp
    rw [hq', zpow_add_one₀ (by norm_num), zpow_sub₀ (by norm_num), zpow_natCast, zpow_natCast]
    have ha : (q.num.natAbs : ℚ) < (2:ℚ) ^ (log2Fuel q.num.natAbs q.num.natAbs + 1) := by
      exact_mod_cast a
    have hb : (2:ℚ) ^ (log2Fuel q.den q.den) ≤ (q.den : ℚ) := by
      exact_mod_cast b
    have hd : (0:ℚ) < q.den := by exact_mod_cast q.den_pos
    rw [div_mul_eq_mul_div, div_lt_div_iff₀ hd (by positivity)]
    rw [pow_succ] at ha
    have h3 : (0:ℚ) < 2 ^ log2Fuel q.num.natAbs q.num.natAbs := by positivity
    calc (q.num.natAbs : ℚ) * 2 ^ (log2Fuel q.den q.den)
        < (2:ℚ) ^ log2Fuel q.num.natAbs q.num.natAbs * 2 * 2 ^ (log2Fuel q.den q.den) := by
          apply mul_lt_mul_of_pos_right ha (by positivity)
      _ ≤ (2:ℚ) ^ log2Fuel q.num.natAbs q.num.natAbs * 2 * q.den := by
          apply mul_le_mul_of_nonneg_left hb (by positivity)
  · rw [sub_add_cancel]
    rename_i h
    exact lt_of_not_le h

theorem roundHalfEven_abs (x : ℚ) : |(roundHalfEven x : ℚ) - x| ≤ 1 / 2 := by
  have h1 := Int.floor_le x
  have h2 := Int.lt_floor_add_one x
  unfold roundHalfEven
  simp only
  split_ifs with a b c
  · rw [abs_le]; constructor <;> linarith
  · rw [abs_le]; push_cast; constructor <;> linarith
  · rw [abs_le]; constructor <;> linarith
  · rw [abs_le]; push_cast; constructor <;> linarith

theorem roundTo_abs (k : Nat) (q : ℚ) : |roundTo (k + 1) q - q| ≤ |q| / 2 ^ (k + 1) := by
  unfold roundTo
  by_cases hq : q = 0
  · simp [hq]
  · rw [if_neg hq]
    simp only [Nat.add_sub_cancel]
    have hp : (0:ℚ) < 2 ^ (binaryExponent q - (k : Int)) := by positivity
    have hr := roundHalfEven_abs (q / 2 ^ (binaryExponent q - (k : Int)))
    have he := binaryExponent_le q hq
    have e1 : (roundHalfEven (q / 2 ^ (binaryExponent q - (k : Int))) : ℚ) *
          2 ^ (binaryExponent q - (k : Int)) - q
        = ((roundHalfEven (q / 2 ^ (binaryExponent q - (k : Int))) : ℚ) -
            q / 2 ^ (binaryExponent q - (k : Int))) *
          2 ^ (binaryExponent q - (k : Int)) := by
      field_simp
    rw [e1, abs_mul, abs_of_pos hp]
    have e2 : (2:ℚ) ^ (binaryExponent q - (k : Int)) = 2 ^ binaryExponent q / 2 ^ k := by
      rw [zpow_sub₀ (by norm_num), zpow_natCast]
    calc |(roundHalfEven (q / 2 ^ (binaryExponent q - (k : Int))) : ℚ) -
            q / 2 ^ (binaryExponent q - (k : Int))| *
          2 ^ (binaryExponent q - (k : Int))
        ≤ 1 / 2 * 2 ^ (binaryExponent q - (k : Int)) := by
          apply mul_le_mul_of_nonneg_right hr hp.le
      _ = 2 ^ binaryExponent q / 2 ^ (k + 1) := by rw [e2, pow_succ]; ring
      _ ≤ |q| / 2 ^ (k + 1) := by
          apply div_le_div_of_nonneg_right he (by positivity)

theorem roundTo_pos_bounds (k : Nat) (q : ℚ) (hq : 0 < q) :
    q * (1 - 1 / 2 ^ (k + 1)) ≤ roundTo (k + 1) q ∧
    roundTo (k + 1) q ≤ q * (1 + 1 / 2 ^ (k + 1)) := by
  have h := roundTo_abs k q
  rw [abs_of_pos hq, abs_le] at h
  have e1 : q * (1 - 1 / 2 ^ (k + 1)) = q - q / 2 ^ (k + 1) := by ring
  have e2 : q * (1 + 1 / 2 ^ (k + 1)) = q + q / 2 ^ (k + 1) := by ring
  rw [e1, e2]
  constructor <;> linarith [h.1, h.2]

/-- Every way of evaluating one operation keeps the exact positive value
within a relative `2^-52`. -/
theorem roundStep_pos_bounds (s : FloatStep) (q : ℚ) (hq : 0 < q) :
    q * (1 - 1 / 2 ^ 52) ≤ roundStep s q ∧ roundStep s q ≤ q * (1 + 1 / 2 ^ 52) := by
  obtain ⟨a1, a2⟩ := roundTo_pos_bounds 63 q hq
  obtain ⟨b1, b2⟩ := roundTo_pos_bounds 52 q hq
  norm_num at a1 a2 b1 b2
  cases s with
  | extended =>
    show q * (1 - 1 / 2 ^ 52) ≤ roundTo 64 q ∧ roundTo 64 q ≤ q * (1 + 1 / 2 ^ 52)
    norm_num
    constructor <;> nlinarith
  | double =>
    show q * (1 - 1 / 2 ^ 52) ≤ roundTo 53 q ∧ roundTo 53 q ≤ q * (1 + 1 / 2 ^ 52)
    norm_num
    constructor <;> nlinarith
  | stored =>
    show q * (1 - 1 / 2 ^ 52) ≤ roundTo 53 (roundTo 64 q) ∧
      roundTo 53 (roundTo 64 q) ≤ q * (1 + 1 / 2 ^ 52)
    have hpos : 0 < roundTo 64 q := by nlinarith
    obtain ⟨c1, c2⟩ := roundTo_pos_bounds 52 (roundTo 64 q) hpos
    norm_num at c1 c2
    norm_num
    constructor <;> nlinarith

theorem truncToInt_of_nonneg (y : ℚ) (hy : 0 ≤ y) (hlt : y < 2 ^ 31) :
    truncToInt y = some ⌊y⌋ := by
  unfold truncToInt
  have hnum : 0 ≤ y.num := Rat.num_nonneg.mpr hy
  have hden : (0 : Int) ≤ y.den := Int.natCast_nonneg _
  have e : Int.tdiv y.num y.den = ⌊y⌋ := by
    rw [Int.tdiv_eq_ediv hnum hden, Rat.floor_def]
  simp only [e]
  have h0 : (0 : Int) ≤ ⌊y⌋ := Int.floor_nonneg.mpr hy
  have h1 : ⌊y⌋ < 2 ^ 31 := by
    rw [Int.floor_lt]; exact_mod_cast hlt
  rw [if_pos ⟨by omega, h1⟩]

theorem near_round (ρ : ℚ) (h1 : 1 ≤ ρ * (1 - 1 / 2 ^ 52)) (h2 : 1 + 1 / 2 ^ 52 ≤ ρ)
    (s : FloatStep) (x y : ℚ) (n : Nat) (hy : 0 < y)
    (h : x ≤ y * ρ ^ n ∧ y ≤ x * ρ ^ n) :
    0 < roundStep s y ∧ x ≤ roundStep s y * ρ ^ (n + 1) ∧ roundStep s y ≤ x * ρ ^ (n + 1) := by
  obtain ⟨b1, b2⟩ := roundStep_pos_bounds s y hy
  have hρ : 0 < ρ := by
    have : (0:ℚ) < 1 + 1 / 2 ^ 52 := by norm_num
    linarith
  have hρn : 0 < ρ ^ n := by positivity
  have hpos : 0 < roundStep s y := by
    have : (0:ℚ) < y * (1 - 1 / 2 ^ 52) := by
      apply mul_pos hy; norm_num
    linarith
  have hy1 : y ≤ roundStep s y * ρ := by
    calc y = y * 1 := by ring
      _ ≤ y * (ρ * (1 - 1 / 2 ^ 52)) := by
          apply mul_le_mul_of_nonneg_left h1 hy.le
      _ = y * (1 - 1 / 2 ^ 52) * ρ := by ring
      _ ≤ roundStep s y * ρ := by
          apply mul_le_mul_of_nonneg_right b1 hρ.le
  have hy2 : roundStep s y ≤ y * ρ := by
    calc roundStep s y ≤ y * (1 + 1 / 2 ^ 52) := b2
      _ ≤ y * ρ := by apply mul_le_mul_of_nonneg_left h2 hy.le
  refine ⟨hpos, ?_, ?_⟩
  · calc x ≤ y * ρ ^ n := h.1
      _ ≤ roundStep s y * ρ * ρ ^ n := by
          apply mul_le_mul_of_nonneg_right hy1 hρn.le
      _ = roundStep s y * ρ ^ (n + 1) := by ring
  · calc roundStep s y ≤ y * ρ := hy2
      _ ≤ x * ρ ^ n * ρ := by
          apply mul_le_mul_of_nonneg_right h.2 hρ.le
      _ = x * ρ ^ (n + 1) := by ring

theorem near_div (ρ : ℚ) (hρ : 0 < ρ) (x y x' y' : ℚ) (n m : Nat)
    (hx : 0 < x) (hy : 0 < y) (hx' : 0 < x') (hy' : 0 < y')
    (h : x ≤ y * ρ ^ n ∧ y ≤ x * ρ ^ n) (h' : x' ≤ y' * ρ ^ m ∧ y' ≤ x' * ρ ^ m) :
    x / x' ≤ y / y' * ρ ^ (n + m) ∧ y / y' ≤ x / x' * ρ ^ (n + m) := by
  have hn : 0 < ρ ^ n := by positivity
  have hm : 0 < ρ ^ m := by positivity
  constructor
  · rw [div_mul_eq_mul_div, div_le_div_iff₀ hx' hy', pow_add]
    calc x * y' ≤ (y * ρ ^ n) * (x' * ρ ^ m) := by
          apply mul_le_mul h.1 h'.2 hy'.le (by positivity)
      _ = y * (ρ ^ n * ρ ^ m) * x' := by ring
  · rw [div_mul_eq_mul_div, div_le_div_iff₀ hy' hx', pow_add]
    calc y * x' ≤ (x * ρ ^ n) * (y' * ρ ^ m) := by
          apply mul_le_mul h.2 h'.1 hx'.le (by positivity)
      _ = x * (ρ ^ n * ρ ^ m) * y' := by ring

/-- The value `getClassicalFrequency` converts to `int`, for a cycle cost
`K = LOOP_LENGTH * c`, elapsed ticks `E` and tick frequency `f`, whatever way
`s` each of the five operations is evaluated: the divisors are positive, and
the value is within a factor `1 ± 2^-48` of the exact quotient
`K / (E / f) / 1000000`. -/
theorem classicalValue_bounds (s : Nat → FloatStep) (E f K : ℚ)
    (hE : 0 < E) (hf : 0 < f) (hK : 0 < K) :
    0 < roundStep (s 1) f ∧
    0 < roundStep (s 2) (roundStep (s 0) E / roundStep (s 1) f) ∧
    0 < roundStep (s 4) (roundStep (s 3)
      (K / roundStep (s 2) (roundStep (s 0) E / roundStep (s 1) f)) / 1000000) ∧
    K / (E / f) / 1000000 * (1 - 1 / 2 ^ 48) ≤
      roundStep (s 4) (roundStep (s 3)
        (K / roundStep (s 2) (roundStep (s 0) E / roundStep (s 1) f)) / 1000000) ∧
    roundStep (s 4) (roundStep (s 3)
        (K / roundStep (s 2) (roundStep (s 0) E / roundStep (s 1) f)) / 1000000) ≤
      K / (E / f) / 1000000 * (1 + 1 / 2 ^ 48) := by
  obtain ⟨ρ, hρdef⟩ : ∃ ρ : ℚ, ρ = (2 ^ 52 + 1) / (2 ^ 52 - 1) := ⟨_, rfl⟩
  have h1 : 1 ≤ ρ * (1 - 1 / 2 ^ 52) := by rw [hρdef]; norm_num
  have h2 : 1 + 1 / 2 ^ 52 ≤ ρ := by rw [hρdef]; norm_num
  have hρ : 0 < ρ := by rw [hρdef]; norm_num
  have n0 : ∀ x : ℚ, x ≤ x * ρ ^ 0 ∧ x ≤ x * ρ ^ 0 := fun x => by simp
  obtain ⟨pa, na⟩ := near_round ρ h1 h2 (s 0) E E 0 hE (n0 E)
  obtain ⟨pb, nb⟩ := near_round ρ h1 h2 (s 1) f f 0 hf (n0 f)
  have nab := near_div ρ hρ E (roundStep (s 0) E) f (roundStep (s 1) f) 1 1 hE pa hf pb na nb
  obtain ⟨pD, nD⟩ := near_round ρ h1 h2 (s 2) (E / f) (roundStep (s 0) E / roundStep (s 1) f) 2
    (div_pos pa pb) nab
  have nKD := near_div ρ hρ K K (E / f)
    (roundStep (s 2) (roundStep (s 0) E / roundStep (s 1) f)) 0 3
    hK hK (div_pos hE hf) pD (n0 K) nD
  obtain ⟨px, nx⟩ := near_round ρ h1 h2 (s 3) (K / (E / f))
    (K / roundStep (s 2) (roundStep (s 0) E / roundStep (s 1) f)) 3
    (div_pos hK pD) nKD
  have nxm := near_div ρ hρ (K / (E / f))
    (roundStep (s 3) (K / roundStep (s 2) (roundStep (s 0) E / roundStep (s 1) f)))
    1000000 1000000 4 0
    (div_pos hK (div_pos hE hf)) px (by norm_num) (by norm_num) nx (n0 _)
  obtain ⟨py, ny⟩ := near_round ρ h1 h2 (s 4) (K / (E / f) / 1000000)
    (roundStep (s 3) (K / roundStep (s 2) (roundStep (s 0) E / roundStep (s 1) f)) / 1000000) 4
    (div_pos px (by norm_num)) nxm
  have hv : 0 < K / (E / f) / 1000000 := by positivity
  have r5 : ρ ^ 5 ≤ 1 + 1 / 2 ^ 48 := by rw [hρdef]; norm_num
  have r5' : (1 - 1 / 2 ^ 48) * ρ ^ 5 ≤ 1 := by rw [hρdef]; norm_num
  have hρ5 : 0 < ρ ^ 5 := by positivity
  refine ⟨pb, pD, py, ?_, ?_⟩
  · have : K / (E / f) / 1000000 * ((1 - 1 / 2 ^ 48) * ρ ^ 5) ≤ K / (E / f) / 1000000 * 1 :=
      mul_le_mul_of_nonneg_left r5' hv.le
    have h3 := ny.1
    have : K / (E / f) / 1000000 * (1 - 1 / 2 ^ 48) * ρ ^ 5 ≤
        roundStep (s 4) (roundStep (s 3)
          (K / roundStep (s 2) (roundStep (s 0) E / roundStep (s 1) f)) / 1000000) *
          ρ ^ 5 := by
      calc K / (E / f) / 1000000 * (1 - 1 / 2 ^ 48) * ρ ^ 5
          = K / (E / f) / 1000000 * ((1 - 1 / 2 ^ 48) * ρ ^ 5) := by ring
        _ ≤ K / (E / f) / 1000000 * 1 := this
        _ = K / (E / f) / 1000000 := by ring
        _ ≤ _ := h3
    exact le_of_mul_le_mul_right this hρ5
  · calc _ ≤ K / (E / f) / 1000000 * ρ ^ 5 := ny.2
      _ ≤ K / (E / f) / 1000000 * (1 + 1 / 2 ^ 48) := mul_le_mul_of_nonneg_left r5 hv.le

/-- The value computed by `getClassicalFrequency` for a family with cycle
cost `c`: when the elapsed tick count is positive, the call is the conversion
to `int` of the formula evaluated operation by operation. -/
theorem getClassicalFrequency_eq (info : CPUInfo) (w : World) (c : Nat)
    (hfam : (info.identity.family = 3 ∧ c = 115) ∨ (info.identity.family = 4 ∧ c = 47) ∨
      (info.identity.family = 5 ∧ c = 43))
    (hE : 0 < pcDelta w 1) :
    getClassicalFrequency info w =
      (truncToInt (roundStep (w.hw.floatStep 4) (roundStep (w.hw.floatStep 3)
        (((LOOP_LENGTH : ℚ) * c) /
          roundStep (w.hw.floatStep 2) (roundStep (w.hw.floatStep 0) (pcDelta w 1 : ℚ) /
            roundStep (w.hw.floatStep 1) (getHPFrequency : ℚ))) / 1000000))).map
        (fun t => (t, ((w.log Event.hpCounter).log (Event.timingLoop LOOP_LENGTH)).log
          Event.hpCounter)) := by
  have hE' : (0 : ℚ) < (pcDelta w 1 : ℚ) := by exact_mod_cast hE
  have hf' : (0 : ℚ) < (getHPFrequency : ℚ) := by norm_num [getHPFrequency]
  have hK : (0 : ℚ) < (LOOP_LENGTH : ℚ) * c := by
    have : 0 < c := by rcases hfam with ⟨_, h⟩ | ⟨_, h⟩ | ⟨_, h⟩ <;> omega
    have : (0 : ℚ) < c := by exact_mod_cast this
    have : (0 : ℚ) < (LOOP_LENGTH : ℚ) := by norm_num [LOOP_LENGTH]
    positivity
  obtain ⟨pb, pD, _, _, _⟩ := classicalValue_bounds w.hw.floatStep _ _ _ hE' hf' hK
  have hc : ((w.log Event.hpCounter).log (Event.timingLoop LOOP_LENGTH)).trace.count
      Event.hpCounter = w.trace.count Event.hpCounter + 1 := by
    simp [World.log, List.count_append]
  unfold getClassicalFrequency
  simp only [getHPCounter, classicalTimingLoop, World.log_hw, hc]
  have hP : u64 (u64 (w.hw.hpCounter (w.trace.count Event.hpCounter + 1)) + 2 ^ 64 -
      u64 (w.hw.hpCounter (w.trace.count Event.hpCounter))) = pcDelta w 1 := rfl
  rw [hP]
  have d1 : ∀ s, fdiv s (roundStep (w.hw.floatStep 0) (pcDelta w 1 : ℚ))
      (roundStep (w.hw.floatStep 1) (getHPFrequency : ℚ)) =
      some (roundStep s (roundStep (w.hw.floatStep 0) (pcDelta w 1 : ℚ) /
        roundStep (w.hw.floatStep 1) (getHPFrequency : ℚ))) := by
    intro s; unfold fdiv; rw [if_neg pb.ne']
  have d2 : ∀ s (K : ℚ), fdiv s K
      (roundStep (w.hw.floatStep 2) (roundStep (w.hw.floatStep 0) (pcDelta w 1 : ℚ) /
        roundStep (w.hw.floatStep 1) (getHPFrequency : ℚ))) =
      some (roundStep s (K /
        roundStep (w.hw.floatStep 2) (roundStep (w.hw.floatStep 0) (pcDelta w 1 : ℚ) /
          roundStep (w.hw.floatStep 1) (getHPFrequency : ℚ)))) := by
    intro s K; unfold fdiv; rw [if_neg pD.ne']
  have d3 : ∀ s (x : ℚ), fdiv s x 1000000 = some (roundStep s (x / 1000000)) := by
    intro s x; unfold fdiv; rw [if_neg (by norm_num)]
  rcases hfam with ⟨h, hc⟩ | ⟨h, hc⟩ | ⟨h, hc⟩
  · subst hc
    rw [if_pos h]
    simp only [d1, d2, d3, Option.bind_eq_bind, Option.some_bind, Nat.cast_ofNat]
    cases truncToInt _ <;> rfl
  · subst hc
    rw [if_neg (by rw [h]; decide), if_pos h]
    simp only [d1, d2, d3, Option.bind_eq_bind, Option.some_bind, Nat.cast_ofNat]
    cases truncToInt _ <;> rfl
  · subst hc
    rw [if_neg (by rw [h]; decide), if_neg (by rw [h]; decide), if_pos h]
    simp only [d1, d2, d3, Option.bind_eq_bind, Option.some_bind, Nat.cast_ofNat]
    cases truncToInt _ <;> rfl

/-- Counterexample to **C23** as stated: the example 80486 measures 4700000
microseconds, the time of 10,000,000 * 47 cycles at 100 MHz; the formula has the
exact value 100, yet `getClassicalFrequency` returns 99, because the quotient
`duration` is rounded when it is stored in a `double`. With every operation
kept in the registers the same happens on the machine `registerPentium`
(family 5, 4300000 microseconds: exact value 100, result 99). And with an
elapsed time of zero ticks (`stoppedClock`) the call has no defined result. -/
theorem getClassicalFrequency_value_counterexample :
    (i486Info.identity.family = 4 ∧ pcDelta i486World 1 = 4700000 ∧
      (LOOP_LENGTH : ℚ) * 47 / ((pcDelta i486World 1 : ℚ) / (getHPFrequency : ℚ)) / 1000000 =
        100 ∧
      (getClassicalFrequency i486Info i486World).map Prod.fst = some 99) ∧
    (pentiumInfo.identity.family = 5 ∧ pcDelta registerPentiumWorld 1 = 4300000 ∧
      (LOOP_LENGTH : ℚ) * 43 / ((pcDelta registerPentiumWorld 1 : ℚ) / (getHPFrequency : ℚ)) /
        1000000 = 100 ∧
      (getClassicalFrequency pentiumInfo registerPentiumWorld).map Prod.fst = some 99) ∧
    (pcDelta stoppedClockWorld 1 = 0 ∧
      (getClassicalFrequency i486Info stoppedClockWorld).map Prod.fst = none) := by
  decide!

/-- The result of `getClassicalFrequency` for the families 3, 4 and 5 and a
positive elapsed tick count. -/
theorem getClassicalFrequency_floor (info : CPUInfo) (w : World) (c : Nat)
    (hfam : (info.identity.family = 3 ∧ c = 115) ∨ (info.identity.family = 4 ∧ c = 47) ∨
      (info.identity.family = 5 ∧ c = 43))
    (hE : 0 < pcDelta w 1) :
    ∃ (y : ℚ) (w' : World), getClassicalFrequency info w = some (⌊y⌋, w') ∧
      y = roundStep (w.hw.floatStep 4) (roundStep (w.hw.floatStep 3)
        (((LOOP_LENGTH : ℚ) * c) /
          roundStep (w.hw.floatStep 2) (roundStep (w.hw.floatStep 0) (pcDelta w 1 : ℚ) /
            roundStep (w.hw.floatStep 1) (getHPFrequency : ℚ))) / 1000000) ∧
      (LOOP_LENGTH : ℚ) * c / ((pcDelta w 1 : ℚ) / (getHPFrequency : ℚ)) / 1000000 *
        (1 - 1 / 2 ^ 48) ≤ y ∧
      y ≤ (LOOP_LENGTH : ℚ) * c / ((pcDelta w 1 : ℚ) / (getHPFrequency : ℚ)) / 1000000 *
        (1 + 1 / 2 ^ 48) ∧
      (LOOP_LENGTH : ℚ) * c / ((pcDelta w 1 : ℚ) / (getHPFrequency : ℚ)) / 1000000 ≤
        1150000000 := by
  have hE' : (0 : ℚ) < (pcDelta w 1 : ℚ) := by exact_mod_cast hE
  have hE1 : (1 : ℚ) ≤ (pcDelta w 1 : ℚ) := by exact_mod_cast hE
  have hf' : (0 : ℚ) < (getHPFrequency : ℚ) := by norm_num [getHPFrequency]
  have hc0 : 0 < c ∧ c ≤ 115 := by rcases hfam with ⟨_, h⟩ | ⟨_, h⟩ | ⟨_, h⟩ <;> omega
  have hcq : (0 : ℚ) < c ∧ (c : ℚ) ≤ 115 := ⟨by exact_mod_cast hc0.1, by exact_mod_cast hc0.2⟩
  have hK : (0 : ℚ) < (LOOP_LENGTH : ℚ) * c := by
    have : (0 : ℚ) < (LOOP_LENGTH : ℚ) := by norm_num [LOOP_LENGTH]
    have := hcq.1
    positivity
  obtain ⟨_, _, py, lo, hi⟩ := classicalValue_bounds w.hw.floatStep _ _ _ hE' hf' hK
  obtain ⟨y, hy⟩ : ∃ y : ℚ, y = roundStep (w.hw.floatStep 4) (roundStep (w.hw.floatStep 3)
        (((LOOP_LENGTH : ℚ) * c) /
          roundStep (w.hw.floatStep 2) (roundStep (w.hw.floatStep 0) (pcDelta w 1 : ℚ) /
            roundStep (w.hw.floatStep 1) (getHPFrequency : ℚ))) / 1000000) := ⟨_, rfl⟩
  rw [← hy] at py lo hi
  obtain ⟨v, hvdef⟩ : ∃ v : ℚ,
      v = (LOOP_LENGTH : ℚ) * c / ((pcDelta w 1 : ℚ) / (getHPFrequency : ℚ)) / 1000000 :=
    ⟨_, rfl⟩
  rw [← hvdef] at lo hi
  have hvE : v * (pcDelta w 1 : ℚ) = (LOOP_LENGTH : ℚ) * c := by
    rw [hvdef]
    have : (getHPFrequency : ℚ) = 1000000 := by norm_num [getHPFrequency]
    rw [this]
    field_simp
    ring
  have hv0 : 0 < v := by rw [hvdef]; positivity
  have hv : v ≤ 1150000000 := by
    have h1 : v ≤ v * (pcDelta w 1 : ℚ) := by nlinarith
    have h2 : (LOOP_LENGTH : ℚ) * c ≤ 1150000000 := by
      have : (LOOP_LENGTH : ℚ) = 10000000 := by norm_num [LOOP_LENGTH]
      rw [this]
      linarith [hcq.2]
    linarith
  have hy31 : y < 2 ^ 31 := by
    have : v * (1 + 1 / 2 ^ 48) ≤ 1150000000 * (1 + 1 / 2 ^ 48) :=
      mul_le_mul_of_nonneg_right hv (by norm_num)
    have : (1150000000 : ℚ) * (1 + 1 / 2 ^ 48) < 2 ^ 31 := by norm_num
    linarith
  refine ⟨y, ((w.log Event.hpCounter).log (Event.timingLoop LOOP_LENGTH)).log Event.hpCounter,
    ?_, hy, by rw [← hvdef]; exact lo, by rw [← hvdef]; exact hi, by rw [← hvdef]; exact hv⟩
  · rw [getClassicalFrequency_eq info w c hfam hE, ← hy, truncToInt_of_nonneg _ py.le hy31]
    rfl

/-- **C23**, amended. For family 3, 4 and 5, with `c` = 115, 47 and 43, and a
positive elapsed tick count `E`, `getClassicalFrequency` returns the
truncation of `10,000,000 * c / (E / 1000000) / 1,000,000` as evaluated in
floating point: of a value `y` that is the formula computed operation by
operation, each operation rounded as the machine evaluates it, and that lies
within `v * (1 ± 2^-48)` of the exact value `v`. In particular, when the
elapsed time is that of `10,000,000 * c` cycles at `R` MHz, the result is `R`
or `R - 1`. -/
theorem getClassicalFrequency_value (info : CPUInfo) (w : World) (c : Nat)
    (hfam : (info.identity.family = 3 ∧ c = 115) ∨ (info.identity.family = 4 ∧ c = 47) ∨
      (info.identity.family = 5 ∧ c = 43))
    (hE : 0 < pcDelta w 1) :
    ∃ (y : ℚ) (w' : World), getClassicalFrequency info w = some (⌊y⌋, w') ∧
      y = roundStep (w.hw.floatStep 4) (roundStep (w.hw.floatStep 3)
        (((LOOP_LENGTH : ℚ) * c) /
          roundStep (w.hw.floatStep 2) (roundStep (w.hw.floatStep 0) (pcDelta w 1 : ℚ) /
            roundStep (w.hw.floatStep 1) (getHPFrequency : ℚ))) / 1000000) ∧
      (LOOP_LENGTH : ℚ) * c / ((pcDelta w 1 : ℚ) / (getHPFrequency : ℚ)) / 1000000 *
        (1 - 1 / 2 ^ 48) ≤ y ∧
      y ≤ (LOOP_LENGTH : ℚ) * c / ((pcDelta w 1 : ℚ) / (getHPFrequency : ℚ)) / 1000000 *
        (1 + 1 / 2 ^ 48) ∧
      ∀ R : Nat, pcDelta w 1 * (R * 1000000) = LOOP_LENGTH * c * getHPFrequency →
        ⌊y⌋ = (R : Int) ∨ ⌊y⌋ = (R : Int) - 1 := by
  obtain ⟨y, w', hrun, hy, lo, hi, hv⟩ := getClassicalFrequency_floor info w c hfam hE
  refine ⟨y, w', hrun, hy, lo, hi, ?_⟩
  intro R hR
  have hE' : (0 : ℚ) < (pcDelta w 1 : ℚ) := by exact_mod_cast hE
  have hRq : (LOOP_LENGTH : ℚ) * c / ((pcDelta w 1 : ℚ) / (getHPFrequency : ℚ)) / 1000000 =
      (R : ℚ) := by
    have h1 : ((pcDelta w 1 * (R * 1000000) : Nat) : ℚ) =
        ((LOOP_LENGTH * c * getHPFrequency : Nat) : ℚ) := by exact_mod_cast hR
    have hf : (getHPFrequency : ℚ) = 1000000 := by norm_num [getHPFrequency]
    push_cast at h1
    rw [hf] at h1 ⊢
    have h2 : (LOOP_LENGTH : ℚ) * c = (R : ℚ) * (pcDelta w 1 : ℚ) := by linarith
    rw [h2]
    field_simp
    ring
  rw [hRq] at lo hi hv
  have hsmall : (R : ℚ) * (1 / 2 ^ 48) < 1 := by
    have : (R : ℚ) * (1 / 2 ^ 48) ≤ 1150000000 * (1 / 2 ^ 48) :=
      mul_le_mul_of_nonneg_right hv (by norm_num)
    have : (1150000000 : ℚ) * (1 / 2 ^ 48) < 1 := by norm_num
    linarith
  have h1 : ((R : Int) - 1 : Int) ≤ ⌊y⌋ := by
    rw [Int.le_floor]
    push_cast
    linarith
  have h2 : ⌊y⌋ < (R : Int) + 1 := by
    rw [Int.floor_lt]
    push_cast
    linarith
  omega

/-- Witness of **C23**, amended: the example 80486 takes 4.7 seconds for the
loop, the time of 10,000,000 * 47 cycles at 100 MHz, and the result is 99, one
below the rate; on the machine `timerClock` (family 3, 1150000 microseconds,
the time of 10,000,000 * 115 cycles at 1000 MHz) the result is 1000. -/
theorem getClassicalFrequency_value_witness :
    (i486Info.identity.family = 4 ∧ 0 < pcDelta i486World 1 ∧
      pcDelta i486World 1 * (100 * 1000000) = LOOP_LENGTH * 47 * getHPFrequency) ∧
    (∃ (y : ℚ) (w' : World), getClassicalFrequency i486Info i486World = some (⌊y⌋, w') ∧
      (⌊y⌋ = 100 ∨ ⌊y⌋ = 100 - 1)) ∧
    (getClassicalFrequency i486Info i486World).map Prod.fst = some 99 ∧
    pcDelta timerClockWorld 1 * (1000 * 1000000) = LOOP_LENGTH * 115 * getHPFrequency ∧
    (getClassicalFrequency i386Info timerClockWorld).map Prod.fst = some 1000 := by
  have hE : 0 < pcDelta i486World 1 := by decide!
  have hR : pcDelta i486World 1 * (100 * 1000000) = LOOP_LENGTH * 47 * getHPFrequency := by
    decide!
  obtain ⟨y, w', h, _, _, _, hall⟩ := getClassicalFrequency_value i486Info i486World 47
    (Or.inr (Or.inl ⟨rfl, rfl⟩)) hE
  refine ⟨⟨rfl, hE, hR⟩, ⟨y, w', h, ?_⟩, by decide!, by decide!, by decide!⟩
  exact hall 100 hR

/-- **C22.** For every identity whose family is not 3, 4 or 5,
`getClassicalFrequency` returns exactly 0, whatever the two wall-clock samples
are (an elapsed time of zero ticks included) and whatever the tick frequency
is. -/
theorem getClassicalFrequency_unknown_family (info : CPUInfo) (w : World)
    (h3 : info.identity.family ≠ 3) (h4 : info.identity.family ≠ 4)
    (h5 : info.identity.family ≠ 5) :
    getClassicalFrequency info w =
      some (0, ((w.log Event.hpCounter).log (Event.timingLoop LOOP_LENGTH)).log
        Event.hpCounter) := by
  unfold getClassicalFrequency
  simp only [getHPCounter, classicalTimingLoop]
  rw [if_neg h3, if_neg h4, if_neg h5]

/-- Witness of **C22**: a record of family 0 on the machine `stoppedClock`,
where the elapsed time of the loop is zero ticks: the result is 0. -/
theorem getClassicalFrequency_unknown_family_witness :
    pcDelta stoppedClockWorld 1 = 0 ∧ blankInfo.identity.family = 0 ∧
    (getClassicalFrequency blankInfo stoppedClockWorld).map Prod.fst = some 0 := by
  refine ⟨by decide!, rfl, ?_⟩
  rw [getClassicalFrequency_unknown_family blankInfo stoppedClockWorld (by decide) (by decide)
    (by decide)]
  rfl

/-! ## The pass as a whole: the probes, the guarded fields, the cache strategies -/

theorem getCPUInfo_noCPUID (fuel : Nat) (info : CPUInfo) (w : World)
    (hns : w.hw.cpuidInstr ≠ ProbeOutcome.executes) :
    getCPUInfo fuel info w =
      if w.survives w.hw.cpuidInstr = true then
        some ({ info with supportsCPUID := false },
          w.afterProbe w.hw.cpuidInstr Event.probeCPUID)
      else none := by
  unfold getCPUInfo
  rw [getCPUIDSupport_eq]
  split
  · simp only [Option.bind_eq_bind, Option.some_bind, hns, decide_False, Bool.false_eq_true,
      if_false]
  · rfl

/-- **C28.** Each probe returns unless the instruction faults while the signal
of the fault is blocked, in which case the process is killed. When it returns,
whatever the instruction did (it executed, or it raised an illegal-instruction
or a protection fault) and whatever handlers were installed: the `SIGILL` and
`SIGSEGV` handlers in force after the call are exactly those in force before
it, the machine is the same, the only hardware event is the probe, and the
result is `true` exactly when the instruction executed without a fault. A
fault that was caught leaves its signal blocked. -/
theorem probes_restore_handlers (w : World) :
    ((w.survives w.hw.cpuidInstr = true →
      ∃ b w', getCPUIDSupport w = some (b, w') ∧
        w'.sigILL = w.sigILL ∧ w'.sigSEGV = w.sigSEGV ∧ w'.hw = w.hw ∧
        w'.trace = w.trace ++ [Event.probeCPUID] ∧
        (b = true ↔ w.hw.cpuidInstr = ProbeOutcome.executes) ∧
        w'.blockedILL =
          (w.blockedILL || decide (w.hw.cpuidInstr = ProbeOutcome.illegalInstruction)) ∧
        w'.blockedSEGV =
          (w.blockedSEGV || decide (w.hw.cpuidInstr = ProbeOutcome.protectionFault))) ∧
     (w.survives w.hw.cpuidInstr = false → getCPUIDSupport w = none)) ∧
    ((w.survives w.hw.orpsInstr = true →
      ∃ b w', getSSEFPSupport w = some (b, w') ∧
        w'.sigILL = w.sigILL ∧ w'.sigSEGV = w.sigSEGV ∧ w'.hw = w.hw ∧
        w'.trace = w.trace ++ [Event.probeSSEFP] ∧
        (b = true ↔ w.hw.orpsInstr = ProbeOutcome.executes) ∧
        w'.blockedILL =
          (w.blockedILL || decide (w.hw.orpsInstr = ProbeOutcome.illegalInstruction)) ∧
        w'.blockedSEGV =
          (w.blockedSEGV || decide (w.hw.orpsInstr = ProbeOutcome.protectionFault))) ∧
     (w.survives w.hw.orpsInstr = false → getSSEFPSupport w = none)) := by
  have hflags : ∀ (o : ProbeOutcome) (e : Event), w.survives o = true →
      (w.afterProbe o e).blockedILL =
        (w.blockedILL || decide (o = ProbeOutcome.illegalInstruction)) ∧
      (w.afterProbe o e).blockedSEGV =
        (w.blockedSEGV || decide (o = ProbeOutcome.protectionFault)) := by
    intro o e _
    cases o <;> simp [World.afterProbe, World.log]
  refine ⟨⟨?_, ?_⟩, ⟨?_, ?_⟩⟩
  · intro hs
    refine ⟨_, _, by rw [getCPUIDSupport_eq, if_pos hs], World.afterProbe_sigILL _ _ _,
      World.afterProbe_sigSEGV _ _ _, World.afterProbe_hw _ _ _, World.afterProbe_trace _ _ _,
      by simp, hflags _ _ hs⟩
  · intro hs
    rw [getCPUIDSupport_eq, if_neg (by simp [hs])]
  · intro hs
    refine ⟨_, _, by rw [getSSEFPSupport_eq, if_pos hs], World.afterProbe_sigILL _ _ _,
      World.afterProbe_sigSEGV _ _ _, World.afterProbe_hw _ _ _, World.afterProbe_trace _ _ _,
      by simp, hflags _ _ hs⟩
  · intro hs
    rw [getSSEFPSupport_eq, if_neg (by simp [hs])]

/-- Witness of **C28**: on the example 80386 at the start of a process the
`cpuid` probe returns `false` with the handlers restored and `SIGILL` left
blocked, and a second probe in the world it leaves does not return; on the
example Pentium 4 the probe returns `true`. -/
theorem probes_restore_handlers_witness :
    i386World.survives i386World.hw.cpuidInstr = true ∧
    (∃ w', getCPUIDSupport i386World = some (false, w') ∧
      w'.sigILL = i386World.sigILL ∧ w'.sigSEGV = i386World.sigSEGV ∧
      w'.blockedILL = true ∧ getCPUIDSupport w' = none) ∧
    ∃ w', getCPUIDSupport pentium4World = some (true, w') ∧
      w'.sigILL = pentium4World.sigILL ∧ w'.sigSEGV = pentium4World.sigSEGV := by
  obtain ⟨b, w', h, s1, s2, hh, _, hb, f1, _⟩ := (probes_restore_handlers i386World).1.1 rfl
  have hb' : b = false := by
    cases b
    · rfl
    · exact absurd (hb.mp rfl) (by decide)
  subst hb'
  have f1' : w'.blockedILL = true := by rw [f1]; rfl
  have hdead : w'.survives w'.hw.cpuidInstr = false := by
    rw [hh]
    show (!w'.blockedILL) = false
    rw [f1']; rfl
  obtain ⟨b2, w2, h2, t1, t2, _, _, hb2, _⟩ := (probes_restore_handlers pentium4World).1.1 rfl
  have hb2' : b2 = true := hb2.mpr rfl
  subst hb2'
  exact ⟨rfl, ⟨w', h, s1, s2, f1', (probes_restore_handlers w').1.2 hdead⟩, w2, h2, t1, t2⟩

theorem vendor_written (v v' : Fin 13 → Nat) (a b c : Nat) :
    storeByte (storeU32 (storeU32 (storeU32 v' 0 a) 8 b) 4 c) 12 0 =
      storeByte (storeU32 (storeU32 (storeU32 v 0 a) 8 b) 4 c) 12 0 := by
  funext i
  have hi := i.isLt
  simp only [storeByte, storeU32]
  split_ifs <;> first | rfl | omega

theorem getIdentity_carry (id id' : Identity) (w : World) :
    getIdentity id' w = (getIdentity id w).map (fun p =>
      ({ p.1 with hasExtendedName := id'.hasExtendedName, firstNonSpace := id'.firstNonSpace,
                  extendedName := id'.extendedName }, p.2)) := by
  unfold getIdentity
  simp only [Option.bind_eq_bind]
  rcases CPUID 0 w with _ | ⟨r0, w1⟩
  · rfl
  · simp only [Option.some_bind]
    rcases CPUID 1 w1 with _ | ⟨r1, w2⟩
    · rfl
    · simp only [Option.some_bind, Option.map_some']
      rw [vendor_written id.vendor id'.vendor]

theorem getFeatures_carry (f f' : Features) (w : World)
    (hsup : w.hw.cpuidInstr = ProbeOutcome.executes) :
    getFeatures f' w = (getFeatures f w).map (fun p =>
      ({ p.1 with serialNumber := f'.serialNumber, _3dnow := f'._3dnow,
                  _3dnowPlus := f'._3dnowPlus, ssemmx := f'.ssemmx, mmxPlus := f'.mmxPlus,
                  supportsMP := f'.supportsMP }, p.2)) := by
  by_cases hl : (w.answer 1).edx.testBit 25 = true → w.survives w.hw.orpsInstr = true
  · rw [getFeatures_eq f' w hsup hl, getFeatures_eq f w hsup hl]
    rfl
  · simp only [Classical.not_imp, Bool.not_eq_true] at hl
    rw [getFeatures_killed f' w hsup hl.1 hl.2, getFeatures_killed f w hsup hl.1 hl.2]
    rfl

theorem getExtendedFeatures_carry (id : Identity) (f f' : Features) (w : World) :
    getExtendedFeatures id f' w = (getExtendedFeatures id f w).map (fun p =>
      ({ f' with _3dnow := p.1._3dnow, _3dnowPlus := p.1._3dnowPlus, ssemmx := p.1.ssemmx,
                 mmxPlus := p.1.mmxPlus, supportsMP := p.1.supportsMP }, p.2)) := by
  unfold getExtendedFeatures
  simp only [Option.bind_eq_bind]
  rcases checkExtendedLevelSupport id 0x80000001 w with _ | ⟨s, w1⟩
  · rfl
  · simp only [Option.some_bind]
    cases s
    · rfl
    · simp only [if_true]
      rcases CPUID 0x80000001 w1 with _ | ⟨r, w2⟩
      · rfl
      · rfl

theorem getCacheDetails_carry (id : Identity) (c c' : Cache) (w : World) :
    getCacheDetails id c' w = getCacheDetails id c w := by
  unfold getCacheDetails
  simp only [Option.bind_eq_bind]
  rcases checkExtendedLevelSupport id 0x80000005 w with _ | ⟨s5, w1⟩
  · rfl
  · simp only [Option.some_bind]
    cases s5
    · simp only [Bool.false_eq_true, if_false, Option.some_bind]
      rcases checkExtendedLevelSupport id 0x80000006 w1 with _ | ⟨s6, w2⟩
      · rfl
      · simp only [Option.some_bind]
        cases s6
        · rfl
        · simp only [if_true]
          rcases CPUID 0x80000006 w2 with _ | ⟨r, w3⟩
          · rfl
          · rfl
    · simp only [if_true]
      rcases CPUID 0x80000005 w1 with _ | ⟨r5, w2⟩
      · rfl
      · simp only [Option.some_bind]
        rcases checkExtendedLevelSupport id 0x80000006 w2 with _ | ⟨s6, w3⟩
        · rfl
        · simp only [Option.some_bind]
          cases s6
          · rfl
          · simp only [if_true]
            rcases CPUID 0x80000006 w3 with _ | ⟨r, w4⟩
            · rfl
            · rfl

theorem getClassicalCacheDetails_carry (c c' : Cache) (w : World) :
    getClassicalCacheDetails c' w = getClassicalCacheDetails c w := by
  unfold getClassicalCacheDetails
  simp only [Option.bind_eq_bind]
  rcases classicalPasses 254 0 _ w with _ | ⟨d, w1⟩
  · rfl
  · simp only [Option.some_bind]
    split_ifs <;> rfl

theorem getPowerManagement_carry (id : Identity) (pm pm' : PowerManagement) (w : World) :
    getPowerManagement id pm' w = getPowerManagement id pm w := by
  unfold getPowerManagement
  simp only [Option.bind_eq_bind]

theorem storeU32_agree {n : Nat} (b b' : Fin n → Nat) (off x : Nat)
    (h : ∀ i : Fin n, i.val < off → b i = b' i) :
    ∀ i : Fin n, i.val < off + 4 → storeU32 b off x i = storeU32 b' off x i := by
  intro i hi
  unfold storeU32
  by_cases hc : off ≤ i.val ∧ i.val < off + 4
  · rw [if_pos hc, if_pos hc]
  · rw [if_neg hc, if_neg hc]
    exact h i (by omega)

theorem extendedName_written (v v' : Fin 49 → Nat) (a0 a1 a2 a3 b0 b1 b2 b3 c0 c1 c2 c3 : Nat) :
    storeByte (storeU32 (storeU32 (storeU32 (storeU32 (storeU32 (storeU32 (storeU32 (storeU32
      (storeU32 (storeU32 (storeU32 (storeU32 v' 0 a0) 4 a1) 8 a2) 12 a3) 16 b0) 20 b1) 24 b2)
      28 b3) 32 c0) 36 c1) 40 c2) 44 c3) 48 0 =
    storeByte (storeU32 (storeU32 (storeU32 (storeU32 (storeU32 (storeU32 (storeU32 (storeU32
      (storeU32 (storeU32 (storeU32 (storeU32 v 0 a0) 4 a1) 8 a2) 12 a3) 16 b0) 20 b1) 24 b2)
      28 b3) 32 c0) 36 c1) 40 c2) 44 c3) 48 0 := by
  have h0 : ∀ i : Fin 49, i.val < 0 → v' i = v i := fun i hi => absurd hi (Nat.not_lt_zero _)
  have h1 := storeU32_agree v' v 0 a0 h0
  have h2 := storeU32_agree _ _ 4 a1 h1
  have h3 := storeU32_agree _ _ 8 a2 h2
  have h4 := storeU32_agree _ _ 12 a3 h3
  have h5 := storeU32_agree _ _ 16 b0 h4
  have h6 := storeU32_agree _ _ 20 b1 h5
  have h7 := storeU32_agree _ _ 24 b2 h6
  have h8 := storeU32_agree _ _ 28 b3 h7
  have h9 := storeU32_agree _ _ 32 c0 h8
  have h10 := storeU32_agree _ _ 36 c1 h9
  have h11 := storeU32_agree _ _ 40 c2 h10
  have h12 := storeU32_agree _ _ 44 c3 h11
  funext i
  unfold storeByte
  by_cases hi : i.val = 48
  · rw [if_pos hi, if_pos hi]
  · rw [if_neg hi, if_neg hi]
    exact h12 i (by have := i.isLt; omega)

theorem getExtendedIdentity_carry (id : Identity) (e : Bool) (fns : Nat) (name : Fin 49 → Nat)
    (w : World) :
    getExtendedIdentity
        { id with hasExtendedName := e, firstNonSpace := fns, extendedName := name } w =
      (getExtendedIdentity id w).map (fun p =>
        (if p.1.hasExtendedName = true then p.1
         else { p.1 with firstNonSpace := fns, extendedName := name }, p.2)) := by
  unfold getExtendedIdentity
  simp only [Option.bind_eq_bind]
  have hc : ∀ L w, checkExtendedLevelSupport
      { manufacturer := id.manufacturer, type := id.type, family := id.family, model := id.model,
        stepping := id.stepping, vendor := id.vendor, brand := id.brand,
        hasExtendedName := false, firstNonSpace := fns, extendedName := name } L w =
      checkExtendedLevelSupport
      { manufacturer := id.manufacturer, type := id.type, family := id.family, model := id.model,
        stepping := id.stepping, vendor := id.vendor, brand := id.brand,
        hasExtendedName := false, firstNonSpace := id.firstNonSpace,
        extendedName := id.extendedName } L w :=
    fun L w => checkExtendedLevelSupport_congr _ _ L w rfl rfl rfl
  simp only [hc]
  rcases checkExtendedLevelSupport _ 0x80000002 w with _ | ⟨s2, w1⟩
  · rfl
  · simp only [Option.some_bind]
    cases s2
    · rfl
    · simp only [Bool.not_true, Bool.false_eq_true, if_false]
      rcases checkExtendedLevelSupport _ 0x80000003 w1 with _ | ⟨s3, w2⟩
      · rfl
      · simp only [Option.some_bind]
        cases s3
        · rfl
        · simp only [Bool.not_true, Bool.false_eq_true, if_false]
          rcases checkExtendedLevelSupport _ 0x80000004 w2 with _ | ⟨s4, w3⟩
          · rfl
          · simp only [Option.some_bind]
            cases s4
            · rfl
            · simp only [Bool.not_true, Bool.false_eq_true, if_false]
              rcases CPUID 0x80000002 w3 with _ | ⟨r2, w4⟩
              · rfl
              · simp only [Option.some_bind]
                rcases CPUID 0x80000003 w4 with _ | ⟨r3, w5⟩
                · rfl
                · simp only [Option.some_bind]
                  rcases CPUID 0x80000004 w5 with _ | ⟨r4, w6⟩
                  · rfl
                  · simp only [Option.some_bind, Option.map_some', if_true]
                    rw [extendedName_written id.extendedName name]

theorem getSerialNumber_carry (info info' : CPUInfo) (w : World)
    (h : info'.features.serial = info.features.serial) :
    getSerialNumber info' w = (getSerialNumber info w).map (fun p =>
      ({ info' with features :=
          { info'.features with serialNumber := p.1.features.serialNumber } }, p.2)) := by
  unfold getSerialNumber
  rw [h]
  by_cases hs : info.features.serial = true
  · simp only [hs, if_true, Option.bind_eq_bind]
    rcases CPUID 3 w with _ | ⟨r, w1⟩
    · simp only [Option.none_bind, Option.map_none']
    · simp only [Option.some_bind, Option.map_some']
  · simp only [hs, Bool.false_eq_true, if_false, Option.map_none']

theorem getExtendedFeatures_congr (id id' : Identity) (f : Features) (w : World)
    (hm : id'.manufacturer = id.manufacturer)
    (hf : id'.family = id.family) (hmo : id'.model = id.model) :
    getExtendedFeatures id' f w = getExtendedFeatures id f w := by
  unfold getExtendedFeatures
  rw [checkExtendedLevelSupport_congr id id' _ w hm hf hmo, hm]

theorem getCacheDetails_congr (id id' : Identity) (c c' : Cache) (w : World)
    (hm : id'.manufacturer = id.manufacturer)
    (hf : id'.family = id.family) (hmo : id'.model = id.model) :
    getCacheDetails id' c' w = getCacheDetails id c w := by
  rw [getCacheDetails_carry id' c c' w]
  unfold getCacheDetails
  simp only [checkExtendedLevelSupport_congr id id' _ _ hm hf hmo]

theorem getPowerManagement_congr (id id' : Identity) (pm pm' : PowerManagement) (w : World)
    (hm : id'.manufacturer = id.manufacturer)
    (hf : id'.family = id.family) (hmo : id'.model = id.model) :
    getPowerManagement id' pm' w = getPowerManagement id pm w := by
  rw [getPowerManagement_carry id' pm pm' w]
  unfold getPowerManagement
  simp only [checkExtendedLevelSupport_congr id id' _ _ hm hf hmo]

theorem getCPUFrequency_congr (fuel : Nat) (info info' : CPUInfo) (w : World)
    (ht : info'.features.tsc = info.features.tsc)
    (hf : info'.identity.family = info.identity.family) :
    getCPUFrequency fuel info' w = getCPUFrequency fuel info w := by
  unfold getCPUFrequency getClassicalFrequency
  rw [ht, hf]

theorem getFeatures_core (f : Features) (w : World)
    (hsup : w.hw.cpuidInstr = ProbeOutcome.executes) (f' : Features) (w' : World)
    (h : getFeatures f w = some (f', w')) : w'.hw = w.hw := by
  by_cases hl : (w.answer 1).edx.testBit 25 = true → w.survives w.hw.orpsInstr = true
  · rw [getFeatures_eq f w hsup hl] at h
    simp only [Option.some.injEq, Prod.mk.injEq] at h
    rw [← h.2]
    split
    · exact World.afterProbe_hw _ _ _
    · rfl
  · simp only [Classical.not_imp, Bool.not_eq_true] at hl
    rw [getFeatures_killed f w hsup hl.1 hl.2] at h
    cases h

theorem getCPUInfo_carry (fuel : Nat) (info info' : CPUInfo) (w : World) :
    getCPUInfo fuel info' w =
      (getCPUInfo fuel info w).map (fun p => (carryOver info' p.1, p.2)) := by
  by_cases hsup : w.hw.cpuidInstr = ProbeOutcome.executes
  · unfold getCPUInfo
    simp only [Option.bind_eq_bind, getCPUIDSupport_of_executes w hsup, Option.some_bind,
      if_true]
    -- identity
    obtain ⟨id1, h1⟩ := getIdentity_core info.identity (w.log Event.probeCPUID) hsup
    have h1' := getIdentity_carry info.identity info'.identity (w.log Event.probeCPUID)
    rw [h1] at h1'
    rw [h1, h1']
    simp only [Option.some_bind, Option.map_some']
    generalize hw1 : ((((w.log Event.probeCPUID).log Event.probeCPUID).log (Event.cpuid 0)).log
      Event.probeCPUID).log (Event.cpuid 1) = w1
    have hs1 : w1.hw.cpuidInstr = ProbeOutcome.executes := by rw [← hw1]; exact hsup
    obtain ⟨id2, w2, h2, r2, _⟩ := getExtendedIdentity_core id1 w1 hs1
    have h2' := getExtendedIdentity_carry id1 info'.identity.hasExtendedName
      info'.identity.firstNonSpace info'.identity.extendedName w1
    rw [h2] at h2'
    simp only [Option.map_some'] at h2'
    obtain ⟨id2', h2'', hid2'⟩ : ∃ x, getExtendedIdentity
        { id1 with hasExtendedName := info'.identity.hasExtendedName,
                   firstNonSpace := info'.identity.firstNonSpace,
                   extendedName := info'.identity.extendedName } w1 = some (x, w2) ∧
        x = (if id2.hasExtendedName = true then id2
             else { id2 with firstNonSpace := info'.identity.firstNonSpace,
                             extendedName := info'.identity.extendedName }) := ⟨_, h2', rfl⟩
    rw [h2, h2'']
    simp only [Option.some_bind]
    have em : id2'.manufacturer = id2.manufacturer := by rw [hid2']; split <;> rfl
    have ef : id2'.family = id2.family := by rw [hid2']; split <;> rfl
    have emo : id2'.model = id2.model := by rw [hid2']; split <;> rfl
    have hs2 : w2.hw.cpuidInstr = ProbeOutcome.executes := r2.1.symm ▸ hs1
    -- features
    have h3' := getFeatures_carry info.features info'.features w2 hs2
    rcases h3 : getFeatures info.features w2 with _ | ⟨f3, w3⟩
    · rw [h3] at h3'
      rw [h3']
      rfl
    have hw3 := getFeatures_core info.features w2 hs2 f3 w3 h3
    rw [h3] at h3'
    simp only [Option.map_some'] at h3'
    rw [h3']
    simp only [Option.some_bind]
    have hs3 : w3.hw.cpuidInstr = ProbeOutcome.executes := hw3.symm ▸ hs2
    obtain ⟨f4, w4, h4, r4, hself⟩ := getExtendedFeatures_core id2 f3 w3 hs3
    obtain ⟨a, b, c, d, e, hf4⟩ : ∃ a b c d e, f4 =
        { f3 with _3dnow := a, _3dnowPlus := b, ssemmx := c, mmxPlus := d, supportsMP := e } :=
      ⟨_, _, _, _, _, hself⟩
    subst hf4
    have h4' := getExtendedFeatures_carry id2 f3
      { f3 with serialNumber := info'.features.serialNumber, _3dnow := info'.features._3dnow,
                _3dnowPlus := info'.features._3dnowPlus, ssemmx := info'.features.ssemmx,
                mmxPlus := info'.features.mmxPlus, supportsMP := info'.features.supportsMP } w3
    rw [← getExtendedFeatures_congr id2 id2' _ w3 em ef emo, h4] at h4'
    simp only [Option.map_some'] at h4'
    rw [h4, h4']
    simp only [Option.some_bind]
    have hs4 : w4.hw.cpuidInstr = ProbeOutcome.executes := r4.1.symm ▸ hs3
    -- serial number
    have hser : ∃ (sn : Fin 30 → Nat) (w5 : World), w5.hw = w4.hw ∧
        (if f3.serial = true then
            getSerialNumber
              { supportsCPUID := true, identity := id2,
                features :=
                  { f3 with
                    _3dnow := a, _3dnowPlus := b, ssemmx := c, mmxPlus := d, supportsMP := e },
                cache := info.cache, powerManagement := info.powerManagement,
                frequency := info.frequency }
              w4
          else
            some ((
              { supportsCPUID := true, identity := id2,
                features :=
                  { f3 with
                    _3dnow := a, _3dnowPlus := b, ssemmx := c, mmxPlus := d, supportsMP := e },
                cache := info.cache, powerManagement := info.powerManagement,
                frequency := info.frequency }), w4)) =
          some ((
              { supportsCPUID := true, identity := id2,
                features :=
                  { f3 with
                    serialNumber := (if f3.serial = true then sn else f3.serialNumber),
                    _3dnow := a, _3dnowPlus := b, ssemmx := c, mmxPlus := d, supportsMP := e },
                cache := info.cache, powerManagement := info.powerManagement,
                frequency := info.frequency }), w5) ∧
        (if f3.serial = true then
            getSerialNumber
              { supportsCPUID := true, identity := id2',
                features :=
                  { f3 with
                    serialNumber := info'.features.serialNumber,
                    _3dnow := a, _3dnowPlus := b, ssemmx := c, mmxPlus := d, supportsMP := e },
                cache := info'.cache, powerManagement := info'.powerManagement,
                frequency := info'.frequency }
              w4
          else
            some ((
              { supportsCPUID := true, identity := id2',
                features :=
                  { f3 with
                    serialNumber := info'.features.serialNumber,
                    _3dnow := a, _3dnowPlus := b, ssemmx := c, mmxPlus := d, supportsMP := e },
                cache := info'.cache, powerManagement := info'.powerManagement,
                frequency := info'.frequency }), w4)) =
          some ((
              { supportsCPUID := true, identity := id2',
                features :=
                  { f3 with
                    serialNumber := (if f3.serial = true then sn else info'.features.serialNumber),
                    _3dnow := a, _3dnowPlus := b, ssemmx := c, mmxPlus := d, supportsMP := e },
                cache := info'.cache, powerManagement := info'.powerManagement,
                frequency := info'.frequency }), w5) := by
      by_cases hS : f3.serial = true
      · rw [if_pos hS, if_pos hS]
        obtain ⟨sn, hsn⟩ := getSerialNumber_core
          { supportsCPUID := true, identity := id2,
            features :=
              { f3 with
                _3dnow := a, _3dnowPlus := b, ssemmx := c, mmxPlus := d, supportsMP := e },
            cache := info.cache, powerManagement := info.powerManagement,
            frequency := info.frequency } w4 hs4 hS
        have hc := getSerialNumber_carry
          { supportsCPUID := true, identity := id2,
            features :=
              { f3 with
                _3dnow := a, _3dnowPlus := b, ssemmx := c, mmxPlus := d, supportsMP := e },
            cache := info.cache, powerManagement := info.powerManagement,
            frequency := info.frequency }
          { supportsCPUID := true, identity := id2',
            features :=
              { f3 with
                serialNumber := info'.features.serialNumber,
                _3dnow := a, _3dnowPlus := b, ssemmx := c, mmxPlus := d, supportsMP := e },
            cache := info'.cache, powerManagement := info'.powerManagement,
            frequency := info'.frequency } w4 rfl
        rw [hsn] at hc
        refine ⟨sn, (w4.log Event.probeCPUID).log (Event.cpuid 3), rfl, ?_, ?_⟩
        · rw [hsn]
          simp only [hS, if_true]
        · rw [hc]
          simp only [hS, if_true, Option.map_some']
      · refine ⟨fun _ => 0, w4, rfl, ?_, ?_⟩
        · simp only [hS, Bool.false_eq_true, if_false]
        · simp only [hS, Bool.false_eq_true, if_false]
    obtain ⟨sn, w5, hw5, h5, h5'⟩ := hser
    rw [h5, h5']
    simp only [Option.some_bind]
    have hs5 : w5.hw.cpuidInstr = ProbeOutcome.executes := hw5.symm ▸ hs4
    -- cache
    rw [getCacheDetails_congr id2 id2' info.cache info'.cache w5 em ef emo]
    obtain ⟨found, c6, w6, h6, r6⟩ := getCacheDetails_core id2 info.cache w5 hs5
    rw [h6]
    simp only [Option.some_bind]
    have hs6 : w6.hw.cpuidInstr = ProbeOutcome.executes := r6.1.symm ▸ hs5
    have hcache : ∃ c7 w7, (if (!found) = true then getClassicalCacheDetails c6 w6
        else some (c6, w6)) = some (c7, w7) ∧ w7.hw = w6.hw := by
      cases found
      · obtain ⟨c7, w7, h7, r7⟩ := getClassicalCacheDetails_core c6 w6 hs6
        exact ⟨c7, w7, by simpa using h7, r7.1⟩
      · exact ⟨_, _, rfl, rfl⟩
    obtain ⟨c7, w7, h7, hw7⟩ := hcache
    rw [h7]
    simp only [Option.some_bind]
    have hs7 : w7.hw.cpuidInstr = ProbeOutcome.executes := hw7.symm ▸ hs6
    -- power management
    rw [getPowerManagement_congr id2 id2' info.powerManagement info'.powerManagement w7 em ef emo]
    obtain ⟨pm8, w8, h8, r8⟩ := getPowerManagement_core id2 info.powerManagement w7 hs7
    rw [h8]
    simp only [Option.some_bind]
    rw [getCPUFrequency_congr fuel
      { supportsCPUID := true, identity := id2,
        features :=
          { f3 with
            serialNumber := (if f3.serial = true then sn else f3.serialNumber),
            _3dnow := a, _3dnowPlus := b, ssemmx := c, mmxPlus := d, supportsMP := e },
        cache := c7, powerManagement := pm8, frequency := info.frequency }
      { supportsCPUID := true, identity := id2',
        features :=
          { f3 with
            serialNumber := (if f3.serial = true then sn else info'.features.serialNumber),
            _3dnow := a, _3dnowPlus := b, ssemmx := c, mmxPlus := d, supportsMP := e },
        cache := c7, powerManagement := pm8, frequency := info'.frequency } w8 rfl ef]
    rcases getCPUFrequency fuel _ w8 with _ | ⟨fr, w9⟩
    · rfl
    · simp only [Option.some_bind, Option.map_some', carryOver, if_true, Option.some.injEq,
        Prod.mk.injEq, and_true]
      subst hid2'
      cases hE : id2.hasExtendedName
      · cases hS : f3.serial <;> simp only [Bool.false_eq_true, if_false, if_true]
      · have hid : id2 =
            { manufacturer := id2.manufacturer, type := id2.type, family := id2.family,
              model := id2.model, stepping := id2.stepping, vendor := id2.vendor,
              brand := id2.brand, hasExtendedName := true, firstNonSpace := id2.firstNonSpace,
              extendedName := id2.extendedName } := by
          rw [← hE]
        cases hS : f3.serial <;> simp only [Bool.false_eq_true, if_false, if_true] <;>
          rw [← hid]
  · rw [getCPUInfo_noCPUID fuel info' w hsup, getCPUInfo_noCPUID fuel info w hsup]
    split <;> rfl

/-- A second pass on an unchanged machine: when a pass on the record `info`
returns the record `r` and leaves the signal mask as it found it, a pass that
starts from `r` on the same machine state, under the mask the first pass left,
returns `r` again. -/
theorem getCPUInfo_again (fuel : Nat) (info r : CPUInfo) (w w' : World)
    (h : getCPUInfo fuel info w = some (r, w'))
    (h1 : w'.blockedILL = w.blockedILL) (h2 : w'.blockedSEGV = w.blockedSEGV) :
    getCPUInfo fuel r (w.withBlocked w'.blockedILL w'.blockedSEGV) = some (r, w') := by
  have hw : w.withBlocked w'.blockedILL w'.blockedSEGV = w := by
    rw [h1, h2]
    cases w
    rfl
  rw [hw]
  have h2 := getCPUInfo_carry fuel info r w
  rw [h] at h2
  rw [h2]
  simp only [Option.map_some', Option.some.injEq, Prod.mk.injEq, and_true]
  unfold carryOver
  by_cases hs : r.supportsCPUID = true
  · rw [if_pos hs]
    cases hE : r.identity.hasExtendedName <;> cases hS : r.features.serial <;>
      simp only [Bool.false_eq_true, if_false, if_true]
  · rw [if_neg hs]
    have : r.supportsCPUID = false := by simpa using hs
    rw [← this]

/-- **C29**, the code at the failing inputs. On the example 80386 the first
pass returns a record and leaves `SIGILL` blocked, because the `cpuid` probe
caught its fault; a second pass from that record does not return, neither on
the unchanged machine state under the mask the first pass left nor in the
world the first pass left: the probe faults while `SIGILL` is blocked. The same
happens on the example Pentium III whose operating system has not enabled SSE,
where the `orps` probe catches the fault, and the census of two such
processors does not return. On the example Pentium 4, where no probe faults,
the second pass returns the record of the first. -/
theorem getCPUInfo_second_pass :
    (∃ r w', getCPUInfo 10 blankInfo i386World = some (r, w') ∧
      w'.blockedILL = true ∧
      getCPUInfo 10 r (i386World.withBlocked w'.blockedILL w'.blockedSEGV) = none ∧
      getCPUInfo 10 r w' = none) ∧
    (∃ r w', getCPUInfo 10 blankInfo pentium3NoSSEWorld = some (r, w') ∧
      r.features.sse = true ∧ r.features.ssefp = false ∧ w'.blockedILL = true ∧
      getCPUInfo 10 r (pentium3NoSSEWorld.withBlocked w'.blockedILL w'.blockedSEGV) = none ∧
      getCPUInfo 10 r w' = none) ∧
    (getMultipleCPUInfo 10 [blankInfo, blankInfo] twoWayNoSSEProcess).isSome = false ∧
    (∃ r w', getCPUInfo 10 blankInfo pentium4World = some (r, w') ∧
      w'.blockedILL = false ∧ w'.blockedSEGV = false ∧
      getCPUInfo 10 r (pentium4World.withBlocked w'.blockedILL w'.blockedSEGV) =
        some (r, w')) := by
  have e1 : (getCPUInfo 10 blankInfo i386World).map (fun p =>
      (p.2.blockedILL,
        (getCPUInfo 10 p.1 (i386World.withBlocked p.2.blockedILL p.2.blockedSEGV)).isNone,
        (getCPUInfo 10 p.1 p.2).isNone)) = some (true, true, true) := by decide!
  have e2 : (getCPUInfo 10 blankInfo pentium3NoSSEWorld).map (fun p =>
      (p.1.features.sse, p.1.features.ssefp, p.2.blockedILL,
        (getCPUInfo 10 p.1
          (pentium3NoSSEWorld.withBlocked p.2.blockedILL p.2.blockedSEGV)).isNone,
        (getCPUInfo 10 p.1 p.2).isNone)) = some (true, false, true, true, true) := by decide!
  have e3 : (getCPUInfo 10 blankInfo pentium4World).map (fun p =>
      (p.2.blockedILL, p.2.blockedSEGV)) = some (false, false) := by decide!
  obtain ⟨⟨r1, w1⟩, h1, q1⟩ := Option.map_eq_some'.mp e1
  obtain ⟨⟨r2, w2⟩, h2, q2⟩ := Option.map_eq_some'.mp e2
  obtain ⟨⟨r3, w3⟩, h3, q3⟩ := Option.map_eq_some'.mp e3
  simp only [Prod.mk.injEq] at q1 q2 q3
  refine ⟨⟨r1, w1, h1, q1.1, Option.isNone_iff_eq_none.mp q1.2.1,
      Option.isNone_iff_eq_none.mp q1.2.2⟩,
    ⟨r2, w2, h2, q2.1, q2.2.1, q2.2.2.1, Option.isNone_iff_eq_none.mp q2.2.2.2.1,
      Option.isNone_iff_eq_none.mp q2.2.2.2.2⟩, by decide!,
    ⟨r3, w3, h3, q3.1, q3.2, getCPUInfo_again 10 blankInfo r3 pentium4World w3 h3 q3.1 q3.2⟩⟩

/-- Counterexample to **C30** as stated: on the example 80486 (CPUID
supported, no extended name, no serial number) the passes that start from the
records `blankInfo` and `staleInfo` end with different first non-space
indices (0 and 7) and different serial number texts; on the example 80386 (no
CPUID) the passes that start from `blankInfo` and `i486Info` end with
different families (0 and 4). -/
theorem getCPUInfo_initial_record_counterexample :
    (getCPUInfo 10 blankInfo i486World).map (fun p => p.1.identity.firstNonSpace) = some 0 ∧
    (getCPUInfo 10 staleInfo i486World).map (fun p => p.1.identity.firstNonSpace) = some 7 ∧
    (getCPUInfo 10 blankInfo i486World).map (fun p => p.1.features.serialNumber 0) = some 0 ∧
    (getCPUInfo 10 staleInfo i486World).map (fun p => p.1.features.serialNumber 0) = some 65 ∧
    (getCPUInfo 10 blankInfo i386World).map (fun p => p.1.identity.family) = some 0 ∧
    (getCPUInfo 10 i486Info i386World).map (fun p => p.1.identity.family) = some 4 := by
  decide!

/-- **C30**, amended. For every two initial records and the same machine
state, the two passes return together and leave the same world, and the record
of the second is that of the first with the unwritten fields taken from the
second initial record (`carryOver`). The two records agree on `supportsCPUID`;
when CPUID is supported they agree on cache, power management, frequency, on
every identity field up to `hasExtendedName`, on every feature field other
than `serialNumber`, on `firstNonSpace` and `extendedName` when there is an
extended name and on `serialNumber` when `serial` is set; the fields behind a
clear flag, and every field but `supportsCPUID` when CPUID is not supported,
hold what the initial record held. -/
theorem getCPUInfo_initial_record (fuel : Nat) (info₁ info₂ : CPUInfo) (w : World) :
    ((getCPUInfo fuel info₁ w).isSome = (getCPUInfo fuel info₂ w).isSome) ∧
    (∀ r₁ w₁, getCPUInfo fuel info₁ w = some (r₁, w₁) →
      getCPUInfo fuel info₂ w = some (carryOver info₂ r₁, w₁)) ∧
    (∀ r : CPUInfo,
      (carryOver info₂ r).supportsCPUID = r.supportsCPUID ∧
      (r.supportsCPUID = false → carryOver info₂ r = { info₂ with supportsCPUID := false }) ∧
      (r.supportsCPUID = true →
        (carryOver info₂ r).cache = r.cache ∧
        (carryOver info₂ r).powerManagement = r.powerManagement ∧
        (carryOver info₂ r).frequency = r.frequency ∧
        (carryOver info₂ r).identity.manufacturer = r.identity.manufacturer ∧
        (carryOver info₂ r).identity.type = r.identity.type ∧
        (carryOver info₂ r).identity.family = r.identity.family ∧
        (carryOver info₂ r).identity.model = r.identity.model ∧
        (carryOver info₂ r).identity.stepping = r.identity.stepping ∧
        (carryOver info₂ r).identity.vendor = r.identity.vendor ∧
        (carryOver info₂ r).identity.brand = r.identity.brand ∧
        (carryOver info₂ r).identity.hasExtendedName = r.identity.hasExtendedName ∧
        { (carryOver info₂ r).features with serialNumber := r.features.serialNumber } =
          r.features ∧
        (r.identity.hasExtendedName = true →
          (carryOver info₂ r).identity.firstNonSpace = r.identity.firstNonSpace ∧
          (carryOver info₂ r).identity.extendedName = r.identity.extendedName) ∧
        (r.identity.hasExtendedName = false →
          (carryOver info₂ r).identity.firstNonSpace = info₂.identity.firstNonSpace ∧
          (carryOver info₂ r).identity.extendedName = info₂.identity.extendedName) ∧
        (r.features.serial = true →
          (carryOver info₂ r).features.serialNumber = r.features.serialNumber) ∧
        (r.features.serial = false →
          (carryOver info₂ r).features.serialNumber = info₂.features.serialNumber))) := by
  have h := getCPUInfo_carry fuel info₁ info₂ w
  refine ⟨?_, ?_, ?_⟩
  · rw [h]; simp
  · intro r₁ w₁ h1
    rw [h, h1]
    rfl
  · intro r
    refine ⟨?_, ?_, ?_⟩
    · unfold carryOver
      cases hs : r.supportsCPUID <;> simp
    · intro hs
      unfold carryOver
      simp [hs]
    · intro hs
      unfold carryOver
      rw [if_pos hs]
      refine ⟨rfl, rfl, rfl, rfl, rfl, rfl, rfl, rfl, rfl, rfl, rfl, rfl, ?_, ?_, ?_, ?_⟩
      · intro hE; simp only [hE, if_true, and_self]
      · intro hE; simp only [hE, Bool.false_eq_true, if_false, and_self]
      · intro hS; simp only [hS, if_true]
      · intro hS; simp only [hS, Bool.false_eq_true, if_false]

/-- Witness of **C30**, amended: on the example Pentium 4, which has an
extended name and no serial number, the passes that start from `blankInfo` and
from `staleInfo` return the same frequency, family and first non-space index
(14), and each keeps the serial number text it started with. -/
theorem getCPUInfo_initial_record_witness :
    ∃ r₁ w₁, getCPUInfo 10 blankInfo pentium4World = some (r₁, w₁) ∧
      getCPUInfo 10 staleInfo pentium4World = some (carryOver staleInfo r₁, w₁) ∧
      r₁.supportsCPUID = true ∧ r₁.identity.hasExtendedName = true ∧
      r₁.features.serial = false ∧
      (carryOver staleInfo r₁).frequency = r₁.frequency ∧
      (carryOver staleInfo r₁).identity.firstNonSpace = r₁.identity.firstNonSpace ∧
      r₁.identity.firstNonSpace = 14 ∧
      (carryOver staleInfo r₁).features.serialNumber = staleInfo.features.serialNumber := by
  have hsome : (getCPUInfo 10 blankInfo pentium4World).isSome = true := by decide!
  obtain ⟨⟨r₁, w₁⟩, h⟩ := Option.isSome_iff_exists.mp hsome
  have e1 : (getCPUInfo 10 blankInfo pentium4World).map (fun p => p.1.supportsCPUID) =
      some true := by decide!
  have e2 : (getCPUInfo 10 blankInfo pentium4World).map (fun p => p.1.identity.hasExtendedName) =
      some true := by decide!
  have e3 : (getCPUInfo 10 blankInfo pentium4World).map (fun p => p.1.features.serial) =
      some false := by decide!
  have e4 : (getCPUInfo 10 blankInfo pentium4World).map (fun p => p.1.identity.firstNonSpace) =
      some 14 := by decide!
  rw [h] at e1 e2 e3 e4
  simp only [Option.map_some', Option.some.injEq] at e1 e2 e3 e4
  obtain ⟨_, hrun, hfields⟩ := getCPUInfo_initial_record 10 blankInfo staleInfo pentium4World
  obtain ⟨_, _, hsup⟩ := hfields r₁
  obtain ⟨_, _, hfr, _, _, _, _, _, _, _, _, _, hext, _, _, hser⟩ := hsup e1
  exact ⟨r₁, w₁, h, hrun r₁ w₁ h, e1, e2, e3, hfr, (hext e2).1, e4, hser e3⟩

/-! ## The census -/

/-- A detection pass leaves the machine and the signal handlers as they were. -/
theorem getCPUInfo_frame (fuel : Nat) (info r : CPUInfo) (w w' : World)
    (h : getCPUInfo fuel info w = some (r, w')) :
    w'.hw = w.hw ∧ w'.sigILL = w.sigILL ∧ w'.sigSEGV = w.sigSEGV := by
  by_cases hsup : w.hw.cpuidInstr = ProbeOutcome.executes
  · by_cases hlive : (w.hw.cpuid 1 (w.trace.count (Event.cpuid 1) + 1)).edx.testBit 25 = true →
        w.survives w.hw.orpsInstr = true
    swap
    · simp only [Classical.not_imp, Bool.not_eq_true] at hlive
      rw [getCPUInfo_killed fuel info w hsup hlive.1 hlive.2] at h
      cases h
    obtain ⟨id2, f5, w5, found, c6, w6, c7, w7, pm8, w8, r5, _, r6, _, _, r7, _, r8, _, hrun⟩ :=
      getCPUInfo_stages fuel info w hsup hlive
    rw [hrun] at h
    obtain ⟨q, hq, hmk⟩ := Option.map_eq_some'.mp h
    have hw' : w' = q.2 := by
      have := congrArg (fun p : CPUInfo × World => p.2) hmk
      exact this.symm
    have rf := getCPUFrequency_reaches fuel _ w8 q.1 q.2 hq
    rw [hw']
    refine ⟨?_, ?_, ?_⟩
    · rw [rf.1, r8.1, r7.1, r6.1, r5.1]
    · rw [rf.2.1, r8.2.1, r7.2.1, r6.2.1, r5.2.1]
    · rw [rf.2.2.1, r8.2.2.1, r7.2.2.1, r6.2.2.1, r5.2.2.1]
  · rw [getCPUInfo_noCPUID fuel info w hsup] at h
    split at h
    · simp only [Option.some.injEq, Prod.mk.injEq] at h
      rw [← h.2]
      exact ⟨World.afterProbe_hw _ _ _, World.afterProbe_sigILL _ _ _,
        World.afterProbe_sigSEGV _ _ _⟩
    · cases h

theorem cpuCount_foldl_le (mask : Nat) :
    ∀ (l : List Nat) (n : Nat),
      l.foldl (fun cpuCount i => if CPU_ISSET i mask = true then cpuCount + 1 else cpuCount) n ≤
        n + l.length := by
  intro l
  induction l with
  | nil => intro n; simp
  | cons a t ih =>
    intro n
    simp only [List.foldl_cons, List.length_cons]
    split
    · have := ih (n + 1); omega
    · have := ih n; omega

theorem getCPUCount_le (p : Process) : (getCPUCount p).1 ≤ CPU_SETSIZE := by
  unfold getCPUCount
  split
  · simp
  · have := cpuCount_foldl_le ‹_› (List.range CPU_SETSIZE) 0
    simpa using this

theorem Process.world_leave_ne (p : Process) (i j : Nat) (w : World) (hne : j ≠ i)
    (h1 : w.sigILL = p.sigILL) (h2 : w.sigSEGV = p.sigSEGV)
    (h3 : w.blockedILL = p.blockedILL) (h4 : w.blockedSEGV = p.blockedSEGV) :
    (p.leave i w).world j = p.world j := by
  unfold Process.leave Process.world
  simp only [h1, h2, h3, h4, if_neg hne]

theorem sched_setaffinity_blocked (mask : Nat) (p : Process) :
    (sched_setaffinity mask p).2.blockedILL = p.blockedILL ∧
    (sched_setaffinity mask p).2.blockedSEGV = p.blockedSEGV := by
  unfold sched_setaffinity
  cases h : p.kernel.permitted mask <;> simp [h]

theorem sched_getaffinity_blocked (p : Process) :
    (sched_getaffinity p).2.blockedILL = p.blockedILL ∧
    (sched_getaffinity p).2.blockedSEGV = p.blockedSEGV := by
  unfold sched_getaffinity
  cases h : p.kernel.getaffinityFails (p.calls.count Syscall.getaffinity) <;> simp [h]

theorem sched_setaffinity_spec (mask : Nat) (p : Process) :
    (sched_setaffinity mask p).1 = p.kernel.permitted mask ∧
    (sched_setaffinity mask p).2.kernel = p.kernel ∧
    (sched_setaffinity mask p).2.sigILL = p.sigILL ∧
    (sched_setaffinity mask p).2.sigSEGV = p.sigSEGV ∧
    (sched_setaffinity mask p).2.traces = p.traces ∧
    (sched_setaffinity mask p).2.calls = p.calls ++ [Syscall.setaffinity mask] ∧
    (sched_setaffinity mask p).2.affinity =
      (if p.kernel.permitted mask = true then mask else p.affinity) := by
  unfold sched_setaffinity
  cases h : p.kernel.permitted mask <;> simp [h]

/-- The census loop over a list of distinct indices: it returns when every
pass on a bound processor returns and leaves the signal mask as it found it;
it counts the binds the kernel accepted,
writes the record of the `j`-th of them at `array[totalQueried + j]` and
leaves every other entry as it was. -/
theorem censusLoop_spec (fuel : Nat) (K : Kernel) :
    ∀ (l : List Nat) (tq : Nat) (array : List CPUInfo) (p : Process),
      p.kernel = K → l.Nodup →
      tq + (l.filter (fun i => K.permitted (CPU_SET i CPU_ZERO))).length ≤ array.length →
      (∀ j i info, (l.filter (fun i => K.permitted (CPU_SET i CPU_ZERO)))[j]? = some i →
        array[tq + j]? = some info →
        ∃ r w', getCPUInfo fuel info (p.world i) = some (r, w') ∧
          w'.blockedILL = p.blockedILL ∧ w'.blockedSEGV = p.blockedSEGV) →
      ∃ array' p',
        censusLoop fuel l tq array p =
          some (tq + (l.filter (fun i => K.permitted (CPU_SET i CPU_ZERO))).length, array', p') ∧
        array'.length = array.length ∧ p'.kernel = K ∧
        p'.sigILL = p.sigILL ∧ p'.sigSEGV = p.sigSEGV ∧
        p'.calls = p.calls ++ l.map (fun i => Syscall.setaffinity (CPU_SET i CPU_ZERO)) ∧
        (∀ j, j < tq → array'[j]? = array[j]?) ∧
        (∀ j, tq + (l.filter (fun i => K.permitted (CPU_SET i CPU_ZERO))).length ≤ j →
          array'[j]? = array[j]?) ∧
        (∀ j i info, (l.filter (fun i => K.permitted (CPU_SET i CPU_ZERO)))[j]? = some i →
          array[tq + j]? = some info →
          array'[tq + j]? = (getCPUInfo fuel info (p.world i)).map Prod.fst) := by
  intro l
  induction l with
  | nil =>
    intro tq array p hk _ _ _
    refine ⟨array, p, rfl, rfl, hk, rfl, rfl, by simp, fun _ _ => rfl, fun _ _ => rfl, ?_⟩
    intro j i info h
    simp at h
  | cons i rest ih =>
    intro tq array p hk hnd hlen hpass
    have hnd' : rest.Nodup := (List.nodup_cons.mp hnd).2
    have hi : i ∉ rest := (List.nodup_cons.mp hnd).1
    obtain ⟨s1, s2, s3, s4, s5, s6, _⟩ := sched_setaffinity_spec (CPU_SET i CPU_ZERO) p
    obtain ⟨sb1, sb2⟩ := sched_setaffinity_blocked (CPU_SET i CPU_ZERO) p
    obtain ⟨P1, hP1⟩ : ∃ P1, P1 = (sched_setaffinity (CPU_SET i CPU_ZERO) p).2 := ⟨_, rfl⟩
    rw [← hP1] at s2 s3 s4 s5 s6 sb1 sb2
    have hw1 : ∀ j, P1.world j = p.world j := by
      intro j; unfold Process.world; rw [s2, s3, s4, s5, sb1, sb2]
    unfold censusLoop
    by_cases hp : K.permitted (CPU_SET i CPU_ZERO) = true
    · -- the bind succeeds
      have hset : sched_setaffinity (CPU_SET i CPU_ZERO) p = (true, P1) :=
        Prod.ext (by rw [s1, hk]; exact hp) hP1.symm
      have hf : (i :: rest).filter (fun i => K.permitted (CPU_SET i CPU_ZERO)) =
          i :: rest.filter (fun i => K.permitted (CPU_SET i CPU_ZERO)) := by
        simp [List.filter_cons, hp]
      rw [hf] at hlen hpass ⊢
      simp only [List.length_cons] at hlen ⊢
      simp only [hset, Bool.not_true, Bool.false_eq_true, if_false, Option.bind_eq_bind]
      have htq : tq < array.length := by omega
      obtain ⟨info0, h0⟩ : ∃ info0, array[tq]? = some info0 :=
        ⟨_, List.getElem?_eq_getElem htq⟩
      obtain ⟨r, w1, hr, hk1, hk2⟩ := hpass 0 i info0 (by simp) (by simpa using h0)
      rw [h0]
      simp only [Option.some_bind, hw1, hr]
      obtain ⟨_, hs1, hs2⟩ := getCPUInfo_frame fuel info0 r (p.world i) w1 hr
      have hs1' : w1.sigILL = P1.sigILL := by rw [s3]; exact hs1
      have hs2' : w1.sigSEGV = P1.sigSEGV := by rw [s4]; exact hs2
      have hk1' : w1.blockedILL = P1.blockedILL := by rw [sb1]; exact hk1
      have hk2' : w1.blockedSEGV = P1.blockedSEGV := by rw [sb2]; exact hk2
      obtain ⟨array', p', hrun, hl, hk', hsi, hss, hcalls, hlow, hhigh, hrec⟩ :=
        ih (tq + 1) (array.set tq r) (P1.leave i w1)
          (by rw [← hk, ← s2]; rfl) hnd' (by rw [List.length_set]; omega)
          (by
            intro j i' info hj ha
            have hmem : i' ∈ rest := (List.mem_filter.mp (List.getElem?_mem hj)).1
            have hne : i' ≠ i := fun e => hi (e ▸ hmem)
            rw [Process.world_leave_ne _ i i' w1 hne hs1' hs2' hk1' hk2', hw1]
            rw [List.getElem?_set_ne (by omega)] at ha
            have hf1 : (P1.leave i w1).blockedILL = p.blockedILL := hk1
            have hf2 : (P1.leave i w1).blockedSEGV = p.blockedSEGV := hk2
            rw [hf1, hf2]
            exact hpass (j + 1) i' info (by simpa using hj) (by rw [← ha]; congr 1; omega))
      refine ⟨array', p', ?_, ?_, hk', ?_, ?_, ?_, ?_, ?_, ?_⟩
      · rw [hrun]; congr 2; omega
      · rw [hl, List.length_set]
      · rw [hsi]; exact hs1
      · rw [hss]; exact hs2
      · rw [hcalls]
        have : (P1.leave i w1).calls = P1.calls := rfl
        rw [this, s6]; simp
      · intro j hj
        rw [hlow j (by omega), List.getElem?_set_ne (by omega)]
      · intro j hj
        rw [hhigh j (by omega), List.getElem?_set_ne (by omega)]
      · intro j i' info hj ha
        cases j with
        | zero =>
          simp only [List.getElem?_cons_zero, Option.some.injEq] at hj
          subst hj
          simp only [Nat.add_zero] at ha ⊢
          rw [h0] at ha
          simp only [Option.some.injEq] at ha
          subst ha
          rw [hlow tq (by omega), List.getElem?_set_self htq, hr]
          rfl
        | succ j =>
          simp only [List.getElem?_cons_succ] at hj
          have hmem : i' ∈ rest := (List.mem_filter.mp (List.getElem?_mem hj)).1
          have hne : i' ≠ i := fun e => hi (e ▸ hmem)
          have e1 : tq + (j + 1) = tq + 1 + j := by omega
          rw [e1] at ha ⊢
          have := hrec j i' info hj (by rw [List.getElem?_set_ne (by omega)]; exact ha)
          rw [this, Process.world_leave_ne _ i i' w1 hne hs1' hs2' hk1' hk2', hw1]
    · -- the bind fails
      have hp' : K.permitted (CPU_SET i CPU_ZERO) = false := by simpa using hp
      have hset : sched_setaffinity (CPU_SET i CPU_ZERO) p = (false, P1) :=
        Prod.ext (by rw [s1, hk]; exact hp') hP1.symm
      have hf : (i :: rest).filter (fun i => K.permitted (CPU_SET i CPU_ZERO)) =
          rest.filter (fun i => K.permitted (CPU_SET i CPU_ZERO)) := by
        simp [List.filter_cons, hp']
      rw [hf] at hlen hpass ⊢
      simp only [hset, Bool.not_false, if_true]
      obtain ⟨array', p', hrun, hl, hk', hsi, hss, hcalls, hlow, hhigh, hrec⟩ :=
        ih tq array P1 (by rw [s2]; exact hk) hnd' hlen
          (by
            intro j i' info hj ha
            rw [hw1, sb1, sb2]
            exact hpass j i' info hj ha)
      refine ⟨array', p', hrun, hl, hk', ?_, ?_, ?_, hlow, hhigh, ?_⟩
      · rw [hsi, s3]
      · rw [hss, s4]
      · rw [hcalls, s6]; simp
      · intro j i' info hj ha
        rw [hrec j i' info hj ha, hw1]

theorem sched_getaffinity_spec (p : Process) :
    (sched_getaffinity p).1 =
      (if p.kernel.getaffinityFails (p.calls.count Syscall.getaffinity) = true then none
       else some p.affinity) ∧
    (sched_getaffinity p).2.kernel = p.kernel ∧
    (sched_getaffinity p).2.sigILL = p.sigILL ∧
    (sched_getaffinity p).2.sigSEGV = p.sigSEGV ∧
    (sched_getaffinity p).2.traces = p.traces ∧
    (sched_getaffinity p).2.calls = p.calls ++ [Syscall.getaffinity] ∧
    (sched_getaffinity p).2.affinity = p.affinity := by
  unfold sched_getaffinity
  cases h : p.kernel.getaffinityFails (p.calls.count Syscall.getaffinity) <;> simp [h]

theorem getCPUCount_spec (p : Process) :
    (getCPUCount p).2 = (sched_getaffinity p).2 := by
  unfold getCPUCount
  split <;> rename_i h <;> rw [h]

theorem censusLoop_kernel (fuel : Nat) :
    ∀ (l : List Nat) (tq : Nat) (array : List CPUInfo) (p : Process) (k : Nat)
      (array' : List CPUInfo) (p' : Process),
      censusLoop fuel l tq array p = some (k, array', p') → p'.kernel = p.kernel := by
  intro l
  induction l with
  | nil =>
    intro tq array p k array' p' h
    simp only [censusLoop, Option.some.injEq, Prod.mk.injEq] at h
    rw [← h.2.2]
  | cons i rest ih =>
    intro tq array p k array' p' h
    obtain ⟨_, s2, _⟩ := sched_setaffinity_spec (CPU_SET i CPU_ZERO) p
    unfold censusLoop at h
    simp only [] at h
    split at h
    · rw [ih _ _ _ _ _ _ h, s2]
    · simp only [Option.bind_eq_bind] at h
      obtain ⟨info, _, h2⟩ := Option.bind_eq_some.mp h
      obtain ⟨⟨r, w1⟩, _, h3⟩ := Option.bind_eq_some.mp h2
      rw [ih _ _ _ _ _ _ h3]
      exact s2

/-- The census as a whole: it returns when the array has room for every
attempted processor and every pass on a bound processor returns and leaves the
signal mask as it found it. -/
theorem getMultipleCPUInfo_spec (fuel : Nat) (array : List CPUInfo) (p : Process)
    (hlen : (censusAttempts p).length ≤ array.length)
    (hpass : ∀ (j i : Nat) (info : CPUInfo), (boundProcessors p)[j]? = some i →
      array[j]? = some info →
      ∃ r w', getCPUInfo fuel info (p.world i) = some (r, w') ∧
        w'.blockedILL = p.blockedILL ∧ w'.blockedSEGV = p.blockedSEGV) :
    ∃ array' p',
      getMultipleCPUInfo fuel array p = some ((boundProcessors p).length, array', p') ∧
      array'.length = array.length ∧ p'.kernel = p.kernel ∧
      p'.sigILL = p.sigILL ∧ p'.sigSEGV = p.sigSEGV ∧
      p'.calls = p.calls ++ Syscall.getaffinity ::
        (if p.kernel.getaffinityFails (p.calls.count Syscall.getaffinity) = true then []
         else Syscall.getaffinity ::
          ((censusAttempts p).map (fun i => Syscall.setaffinity (CPU_SET i CPU_ZERO)) ++
            [Syscall.setaffinity p.affinity])) ∧
      (∀ j : Nat, (boundProcessors p).length ≤ j → array'[j]? = array[j]?) ∧
      (∀ (j i : Nat) (info : CPUInfo), (boundProcessors p)[j]? = some i →
        array[j]? = some info →
        array'[j]? = (getCPUInfo fuel info (p.world i)).map Prod.fst) := by
  obtain ⟨g1, g2, g3, g4, g5, g6, g7⟩ := sched_getaffinity_spec p
  obtain ⟨P0, hP0⟩ : ∃ P0, P0 = (sched_getaffinity p).2 := ⟨_, rfl⟩
  rw [← hP0] at g2 g3 g4 g5 g6 g7
  by_cases hq : p.kernel.getaffinityFails (p.calls.count Syscall.getaffinity) = true
  · rw [if_pos hq] at g1
    have hsg : sched_getaffinity p = (none, P0) := Prod.ext g1 hP0.symm
    have hat : censusAttempts p = [] := by unfold censusAttempts; rw [hsg]
    have hb : boundProcessors p = [] := by unfold boundProcessors; rw [hat, List.filter_nil]
    refine ⟨array, P0, ?_, rfl, g2, g3, g4, ?_, fun _ _ => rfl, ?_⟩
    · unfold getMultipleCPUInfo
      rw [hsg, hb]
      rfl
    · rw [g6, if_pos hq]
    · intro j i info h
      rw [hb] at h
      simp at h
  · rw [if_neg hq] at g1
    have hsg : sched_getaffinity p = (some p.affinity, P0) := Prod.ext g1 hP0.symm
    obtain ⟨_, c2, c3, c4, c5, c6, c7⟩ := sched_getaffinity_spec P0
    obtain ⟨gb1, gb2⟩ := sched_getaffinity_blocked p
    obtain ⟨cb1, cb2⟩ := sched_getaffinity_blocked P0
    have hcc := getCPUCount_spec P0
    obtain ⟨P1, hP1⟩ : ∃ P1, P1 = (getCPUCount P0).2 := ⟨_, rfl⟩
    rw [← hcc, ← hP1] at c2 c3 c4 c5 c6 c7 cb1 cb2
    rw [← hP0] at gb1 gb2
    have hf1 : P1.blockedILL = p.blockedILL := by rw [cb1, gb1]
    have hf2 : P1.blockedSEGV = p.blockedSEGV := by rw [cb2, gb2]
    obtain ⟨n, hn⟩ : ∃ n, n = (getCPUCount P0).1 := ⟨_, rfl⟩
    have hgc : getCPUCount P0 = (n, P1) := Prod.ext hn.symm hP1.symm
    have hat : censusAttempts p = List.range n := by
      unfold censusAttempts; rw [hsg]; simp only [hn]
    have hb : boundProcessors p =
        (List.range n).filter (fun i => p.kernel.permitted (CPU_SET i CPU_ZERO)) := by
      unfold boundProcessors; rw [hat]
    have hw : ∀ j, P1.world j = p.world j := by
      intro j; unfold Process.world; rw [c2, c3, c4, c5, g2, g3, g4, g5, hf1, hf2]
    rw [hat, List.length_range] at hlen
    rw [hb] at hpass ⊢
    have hfl : ((List.range n).filter (fun i => p.kernel.permitted (CPU_SET i CPU_ZERO))).length
        ≤ n := by
      have := List.length_filter_le (fun i => p.kernel.permitted (CPU_SET i CPU_ZERO))
        (List.range n)
      simpa using this
    obtain ⟨array', P2, hrun, hl, hk, hsi, hss, hcalls, _, hhigh, hrec⟩ :=
      censusLoop_spec fuel p.kernel (List.range n) 0 array P1 (by rw [c2, g2])
        (List.nodup_range n) (by omega)
        (by
          intro j i info hj ha
          rw [hw, hf1, hf2]
          rw [Nat.zero_add] at ha
          exact hpass j i info hj ha)
    obtain ⟨_, r2, r3, r4, _, r6, _⟩ := sched_setaffinity_spec p.affinity P2
    refine ⟨array', (sched_setaffinity p.affinity P2).2, ?_, hl, ?_, ?_, ?_, ?_, ?_, ?_⟩
    · unfold getMultipleCPUInfo
      rw [hsg]
      simp only [hgc, hrun, Option.bind_eq_bind, Option.some_bind, Nat.zero_add]
    · rw [r2, hk]
    · rw [r3, hsi, c3, g3]
    · rw [r4, hss, c4, g4]
    · rw [r6, hcalls, c6, g6, if_neg hq, hat]
      simp
    · intro j hj
      exact hhigh j (by omega)
    · intro j i info hj ha
      have := hrec j i info hj (by rw [Nat.zero_add]; exact ha)
      rw [Nat.zero_add] at this
      rw [this, hw]

/-- Whenever the census returns and the kernel accepts the mask that was in
force at entry, that mask is in force again at the return. -/
theorem getMultipleCPUInfo_restores (fuel : Nat) (array : List CPUInfo) (p : Process)
    (hperm : p.kernel.permitted p.affinity = true)
    (k : Nat) (array' : List CPUInfo) (p' : Process)
    (h : getMultipleCPUInfo fuel array p = some (k, array', p')) :
    p'.affinity = p.affinity := by
  obtain ⟨g1, g2, _, _, _, _, g7⟩ := sched_getaffinity_spec p
  obtain ⟨P0, hP0⟩ : ∃ P0, P0 = (sched_getaffinity p).2 := ⟨_, rfl⟩
  rw [← hP0] at g2 g7
  by_cases hq : p.kernel.getaffinityFails (p.calls.count Syscall.getaffinity) = true
  · rw [if_pos hq] at g1
    have hsg : sched_getaffinity p = (none, P0) := Prod.ext g1 hP0.symm
    unfold getMultipleCPUInfo at h
    rw [hsg] at h
    simp only [Option.some.injEq, Prod.mk.injEq] at h
    rw [← h.2.2, g7]
  · rw [if_neg hq] at g1
    have hsg : sched_getaffinity p = (some p.affinity, P0) := Prod.ext g1 hP0.symm
    obtain ⟨_, c2, _⟩ := sched_getaffinity_spec P0
    have hcc := getCPUCount_spec P0
    rw [← hcc] at c2
    unfold getMultipleCPUInfo at h
    rw [hsg] at h
    simp only [Option.bind_eq_bind] at h
    obtain ⟨⟨tq, a2, P2⟩, hloop, h2⟩ := Option.bind_eq_some.mp h
    have hk2 := censusLoop_kernel fuel _ _ _ _ _ _ _ hloop
    simp only [Option.some.injEq, Prod.mk.injEq] at h2
    obtain ⟨_, _, _, _, _, _, r7⟩ := sched_setaffinity_spec p.affinity P2
    rw [← h2.2.2, r7, hk2, c2, g2, if_pos hperm]

/-- **C25**, the code at the failing input. A process started on processors 1
and 3 of four (affinity mask `0b1010`): `getCPUCount` returns 2, and the
census calls `sched_setaffinity` for the single-processor masks of the indices
0 and 1, then for the old mask. Index 0 is not enabled in the mask and is
bound; index 3 is enabled and is never attempted. -/
theorem getMultipleCPUInfo_binds_prefix :
    CPU_ISSET 0 restrictedProcess.affinity = false ∧
    CPU_ISSET 1 restrictedProcess.affinity = true ∧
    CPU_ISSET 2 restrictedProcess.affinity = false ∧
    CPU_ISSET 3 restrictedProcess.affinity = true ∧
    censusAttempts restrictedProcess = [0, 1] ∧
    (getMultipleCPUInfo 10 [blankInfo, blankInfo] restrictedProcess).map
        (fun r => (r.1, r.2.2.calls)) =
      some (2, [Syscall.getaffinity, Syscall.getaffinity,
        Syscall.setaffinity (CPU_SET 0 CPU_ZERO), Syscall.setaffinity (CPU_SET 1 CPU_ZERO),
        Syscall.setaffinity restrictedProcess.affinity]) := by
  decide!

/-- **C27.** When the mask in force at entry is one the kernel accepts, then
on every return of `getMultipleCPUInfo`, for every pattern of accepted and
refused binds, the affinity mask in force equals the mask at entry; the
function does return when the array has an entry for each attempted processor
and every pass on a bound processor returns without catching a fault (it
leaves the signal mask of the process as it found it). When the initial affinity query
fails, the function returns 0 after that one call: no `sched_setaffinity`
call is made and the array is returned as it was. -/
theorem getMultipleCPUInfo_affinity (fuel : Nat) (array : List CPUInfo) (p : Process)
    (hperm : p.kernel.permitted p.affinity = true) :
    (∀ (k : Nat) (array' : List CPUInfo) (p' : Process),
      getMultipleCPUInfo fuel array p = some (k, array', p') → p'.affinity = p.affinity) ∧
    ((censusAttempts p).length ≤ array.length →
      (∀ (j i : Nat) (info : CPUInfo), (boundProcessors p)[j]? = some i →
        array[j]? = some info →
        ∃ r w', getCPUInfo fuel info (p.world i) = some (r, w') ∧
          w'.blockedILL = p.blockedILL ∧ w'.blockedSEGV = p.blockedSEGV) →
      ∃ (k : Nat) (array' : List CPUInfo) (p' : Process),
        getMultipleCPUInfo fuel array p = some (k, array', p') ∧ p'.affinity = p.affinity) ∧
    (p.kernel.getaffinityFails (p.calls.count Syscall.getaffinity) = true →
      ∃ p', getMultipleCPUInfo fuel array p = some (0, array, p') ∧
        p'.affinity = p.affinity ∧ p'.calls = p.calls ++ [Syscall.getaffinity]) := by
  refine ⟨fun k array' p' h => getMultipleCPUInfo_restores fuel array p hperm k array' p' h,
    ?_, ?_⟩
  · intro hlen hpass
    obtain ⟨array', p', hrun, _⟩ := getMultipleCPUInfo_spec fuel array p hlen hpass
    exact ⟨_, array', p', hrun, getMultipleCPUInfo_restores fuel array p hperm _ array' p' hrun⟩
  · intro hq
    obtain ⟨g1, _, _, _, _, g6, g7⟩ := sched_getaffinity_spec p
    rw [if_pos hq] at g1
    have hsg : sched_getaffinity p = (none, (sched_getaffinity p).2) := Prod.ext g1 rfl
    refine ⟨(sched_getaffinity p).2, ?_, g7, g6⟩
    unfold getMultipleCPUInfo
    rw [hsg]

/-- Witness of **C27**: on the eight-processor example, where four binds are
refused, the census returns with the full mask 255 in force again; on the
process whose affinity query fails, it returns 0 with the mask 15 untouched. -/
theorem getMultipleCPUInfo_affinity_witness :
    eightWayProcess.kernel.permitted eightWayProcess.affinity = true ∧
    (∃ (k : Nat) (array' : List CPUInfo) (p' : Process),
      getMultipleCPUInfo 10 (List.replicate 8 blankInfo) eightWayProcess =
        some (k, array', p') ∧ p'.affinity = 255) ∧
    (getMultipleCPUInfo 10 (List.replicate 8 blankInfo) eightWayProcess).map
        (fun r => r.2.2.calls) =
      some [Syscall.getaffinity, Syscall.getaffinity, Syscall.setaffinity 1,
        Syscall.setaffinity 2, Syscall.setaffinity 4, Syscall.setaffinity 8,
        Syscall.setaffinity 16, Syscall.setaffinity 32, Syscall.setaffinity 64,
        Syscall.setaffinity 128, Syscall.setaffinity 255] ∧
    (getMultipleCPUInfo 10 (List.replicate 8 blankInfo) blindProcess).map
        (fun r => (r.1, r.2.2.affinity, r.2.2.calls)) =
      some (0, 15, [Syscall.getaffinity]) := by
  have hperm : eightWayProcess.kernel.permitted eightWayProcess.affinity = true := by decide
  have ha : censusAttempts eightWayProcess = [0, 1, 2, 3, 4, 5, 6, 7] := by decide!
  have hsome : (getCPUInfo 10 blankInfo pentium4World).map
      (fun q => (q.2.blockedILL, q.2.blockedSEGV)) = some (false, false) := by decide!
  obtain ⟨_, hret, _⟩ :=
    getMultipleCPUInfo_affinity 10 (List.replicate 8 blankInfo) eightWayProcess hperm
  obtain ⟨k, array', p', hrun, haff⟩ := hret (by rw [ha]; simp)
    (by
      intro j i info _ hinfo
      have hmem := List.getElem?_mem hinfo
      have : info = blankInfo := List.eq_of_mem_replicate hmem
      subst this
      obtain ⟨⟨r, w'⟩, hr, hfl⟩ := Option.map_eq_some'.mp hsome
      simp only [Prod.mk.injEq] at hfl
      exact ⟨r, w', hr, hfl.1, hfl.2⟩)
  exact ⟨hperm, ⟨k, array', p', hrun, haff⟩, by decide!, by decide!⟩

/-! ## The L3 sizes of the descriptor table, and the length of the leaf-2 loop -/

theorem observedSize_L3_values (b : Nat) (v : Int) (h : observedSize CacheKind.L3 b = some v) :
    v = 512 ∨ v = 3096 ∨ (1024 : Int) ∣ v := by
  unfold observedSize at h
  obtain ⟨e, he, rfl⟩ := Option.map_eq_some'.mp h
  have hmem := List.mem_of_find?_eq_some he
  have hk := List.find?_some he
  have hall : ∀ e ∈ descriptorTable, e.2.1 = CacheKind.L3 →
      e.2.2 = 512 ∨ e.2.2 = 3096 ∨ (1024 : Int) ∣ e.2.2 := by decide
  refine hall e hmem ?_
  simp only [Bool.and_eq_true, beq_iff_eq] at hk
  exact hk.2

theorem lastObserved_L3_values (bytes : List Nat) :
    (lastObserved CacheKind.L3 bytes).getD (-1) = -1 ∨
    (lastObserved CacheKind.L3 bytes).getD (-1) = 512 ∨
    (lastObserved CacheKind.L3 bytes).getD (-1) = 3096 ∨
    (1024 : Int) ∣ (lastObserved CacheKind.L3 bytes).getD (-1) := by
  unfold lastObserved
  cases hl : (bytes.filterMap (observedSize CacheKind.L3)).getLast? with
  | none => left; rfl
  | some v =>
    right
    have hv : v ∈ bytes.filterMap (observedSize CacheKind.L3) := List.mem_of_getLast?_eq_some hl
    obtain ⟨b, _, hb⟩ := List.mem_filterMap.mp hv
    exact observedSize_L3_values b v hb

/-- The L3 size `getClassicalCacheDetails` computes is -1, 512, 3096 or a
multiple of 1024, for every sequence of leaf-2 results. -/
theorem getClassicalCacheDetails_L3_values (cache : Cache) (w : World)
    (hsup : w.hw.cpuidInstr = ProbeOutcome.executes) :
    ∃ cache' w', getClassicalCacheDetails cache w = some (cache', w') ∧
      (cache'.L3CacheSize = -1 ∨ cache'.L3CacheSize = 512 ∨ cache'.L3CacheSize = 3096 ∨
        (1024 : Int) ∣ cache'.L3CacheSize) := by
  obtain ⟨k, cache', w', _, _, hrun, _, _, _, _, _, _, h3⟩ :=
    getClassicalCacheDetails_spec cache w hsup
  refine ⟨cache', w', hrun, ?_⟩
  rw [h3]
  exact lastObserved_L3_values _

/-- **C37**, the code at the failing input. On a machine whose leaf-2 result
carries the descriptor byte `0x8d`, `getClassicalCacheDetails` stores 3096 in
`L3CacheSize`, which is not -1, not 512 and not a multiple of 1024 (three
megabytes are 3072 KB). Run on descriptors that are all -1, the `switch` leaves
-1, 512 or a multiple of 1024 in `L3Unified` for every other byte value. -/
theorem getClassicalCacheDetails_descriptor_8d :
    (getClassicalCacheDetails blankInfo.cache descriptor8dWorld).map
        (fun r => r.1.L3CacheSize) = some 3096 ∧
    ¬ ((3096 : Int) = -1 ∨ (3096 : Int) = 512 ∨ (1024 : Int) ∣ 3096) ∧
    (3 * 1024 : Int) = 3072 ∧
    (List.range 256).all (fun b =>
      decide (b = 0x8d ∨
        (processDescriptor ⟨-1, -1, -1, -1, -1⟩ b).L3Unified = -1 ∨
        (processDescriptor ⟨-1, -1, -1, -1, -1⟩ b).L3Unified = 512 ∨
        (1024 : Int) ∣ (processDescriptor ⟨-1, -1, -1, -1, -1⟩ b).L3Unified)) = true := by
  refine ⟨by decide!, by decide, by decide, by decide!⟩

theorem classicalPasses_fuel_succ :
    ∀ (fuel passCounter : Nat) (d : Descriptors) (w : World) (r : Descriptors × World),
      classicalPasses fuel passCounter d w = some r →
      classicalPasses (fuel + 1) passCounter d w = some r := by
  intro fuel
  induction fuel with
  | zero =>
    intro pc d w r h
    unfold classicalPasses at h ⊢
    cases hc : CPUID 2 w with
    | none => rw [hc] at h; exact absurd h (by simp)
    | some x =>
      obtain ⟨r0, w0⟩ := x
      rw [hc] at h
      simp only [] at h ⊢
      split at h
      · exact absurd h (by simp)
      · rename_i hlt
        rw [if_neg hlt]
        exact h
  | succ n ih =>
    intro pc d w r h
    unfold classicalPasses at h ⊢
    cases hc : CPUID 2 w with
    | none => rw [hc] at h; exact absurd h (by simp)
    | some x =>
      obtain ⟨r0, w0⟩ := x
      rw [hc] at h
      simp only [] at h ⊢
      split at h
      · rename_i hlt
        rw [if_pos hlt]
        exact ih _ _ _ _ h
      · rename_i hlt
        rw [if_neg hlt]
        exact h

theorem classicalPasses_fuel_le (fuel fuel' passCounter : Nat) (d : Descriptors) (w : World)
    (r : Descriptors × World) (hle : fuel ≤ fuel')
    (h : classicalPasses fuel passCounter d w = some r) :
    classicalPasses fuel' passCounter d w = some r := by
  induction fuel', hle using Nat.le_induction with
  | base => exact h
  | succ n _ ih => exact classicalPasses_fuel_succ n passCounter d w r ih

/-- **C35.** On a machine that executes `cpuid`, `getClassicalCacheDetails`
returns for every sequence of leaf-2 results, after `k` queries of leaf 2 with
`1 ≤ k ≤ 255`, and the only hardware events of the call are the probes and
these queries. The bound of the loop model is not what ends the loop: run with
any larger bound, the loop returns the same result. -/
theorem getClassicalCacheDetails_terminates (cache : Cache) (w : World)
    (hsup : w.hw.cpuidInstr = ProbeOutcome.executes) :
    ∃ (k : Nat) (cache' : Cache) (w' : World),
      getClassicalCacheDetails cache w = some (cache', w') ∧
      1 ≤ k ∧ k ≤ 255 ∧
      w'.trace.count (Event.cpuid 2) = w.trace.count (Event.cpuid 2) + k ∧
      w.Reaches w' [Event.probeCPUID, Event.cpuid 2] ∧
      ∃ d : Descriptors, ∀ fuel : Nat, 254 ≤ fuel →
        classicalPasses fuel 0
          { L1Code := -1, L1Data := -1, L1Trace := -1, L2Unified := -1, L3Unified := -1 } w =
          some (d, w') := by
  obtain ⟨k, cache', w', hk1, hk2, hrun, hreach, hcount, _⟩ :=
    getClassicalCacheDetails_spec cache w hsup
  obtain ⟨d, w'', hloop, _⟩ := classicalPasses_core 254 0
    { L1Code := -1, L1Data := -1, L1Trace := -1, L2Unified := -1, L3Unified := -1 } w hsup
    (by omega)
  have hw : w'' = w' := by
    unfold getClassicalCacheDetails at hrun
    rw [hloop] at hrun
    simp only [Option.bind_eq_bind, Option.some_bind, Option.some.injEq, Prod.mk.injEq] at hrun
    exact hrun.2
  subst hw
  exact ⟨k, cache', w'', hrun, hk1, hk2, hcount, hreach, d,
    fun fuel hf => classicalPasses_fuel_le 254 fuel 0 _ w _ hf hloop⟩

/-- Witness of **C35**: both bounds are reached. The example Pentium 4, whose
leaf 2 announces one pass, is queried once; a machine whose every leaf-2 result
announces 255 passes is queried 255 times. -/
theorem getClassicalCacheDetails_terminates_witness :
    pentium4World.hw.cpuidInstr = ProbeOutcome.executes ∧
    (∃ (k : Nat) (cache' : Cache) (w' : World),
      getClassicalCacheDetails blankInfo.cache pentium4World = some (cache', w') ∧
      1 ≤ k ∧ k ≤ 255 ∧ w'.trace.count (Event.cpuid 2) = k) ∧
    (getClassicalCacheDetails blankInfo.cache pentium4World).map
        (fun r => r.2.trace.count (Event.cpuid 2)) = some 1 ∧
    (getClassicalCacheDetails blankInfo.cache fullCountWorld).map
        (fun r => r.2.trace.count (Event.cpuid 2)) = some 255 := by
  obtain ⟨k, cache', w', hrun, h1, h2, hc, _⟩ :=
    getClassicalCacheDetails_terminates blankInfo.cache pentium4World rfl
  exact ⟨rfl, ⟨k, cache', w', hrun, h1, h2, by rw [hc]; simp [pentium4World]⟩,
    by decide!, by decide!⟩

/-! ## The text of the serial number -/

theorem hexDigit_isLowerHex (d : Nat) (h : d < 16) : isLowerHex (hexDigit d) = true := by
  interval_cases d <;> decide

theorem byteLE_lt (x k : Nat) : byteLE x k < 256 := by
  unfold byteLE
  exact Nat.mod_lt _ (by norm_num)

theorem serialText_length (s : Nat → Nat) : (serialText s).length = 30 := by
  simp [serialText, hex2]

theorem serialText_congr (s t : Nat → Nat) (h : ∀ j, j < 12 → s j = t j) :
    serialText s = serialText t := by
  simp only [serialText, h 0 (by omega), h 1 (by omega), h 2 (by omega), h 3 (by omega),
    h 4 (by omega), h 5 (by omega), h 6 (by omega), h 7 (by omega), h 8 (by omega),
    h 9 (by omega), h 10 (by omega), h 11 (by omega)]

theorem serialByte_eq (r : Regs) (j : Nat) (hj : j < 12) :
    (if j < 4 then byteLE (u32 r.ebx) j
      else if j < 8 then byteLE (u32 r.ecx) (j - 4)
      else byteLE (u32 r.edx) (j - 8)) = serialByte r j := by
  interval_cases j <;> simp [serialByte, Regs.word]

/-- The text of `getSerialNumber`, position by position. -/
theorem getSerialNumber_chars (info : CPUInfo) (w : World)
    (hsup : w.hw.cpuidInstr = ProbeOutcome.executes) (hserial : info.features.serial = true) :
    ∃ info' w', getSerialNumber info w = some (info', w') ∧
      ∀ i, i < 30 → charAt info'.features.serialNumber i =
        (serialText (serialByte (w.answer 3))).getD i 0 := by
  unfold getSerialNumber
  rw [if_pos hserial]
  simp only [Option.bind_eq_bind, CPUID_eq 3 w hsup, Option.some_bind]
  refine ⟨_, _, rfl, ?_⟩
  intro i hi
  rw [← serialText_congr _ _ (serialByte_eq (w.answer 3))]
  unfold charAt
  rw [dif_pos hi]

theorem serialText_getD (s : Nat → Nat) (hs : ∀ j, s j < 256) (i : Nat) (hi : i < 29) :
    (serialText s).getD i 0 =
      if i % 5 = 4 then 45
      else hexDigit (if i % 5 % 2 = 0 then s (2 * (i / 5) + i % 5 / 2) / 16
        else s (2 * (i / 5) + i % 5 / 2) % 16) := by
  have hhi : ∀ j, s j / 16 % 16 = s j / 16 :=
    fun j => Nat.mod_eq_of_lt (by have := hs j; omega)
  interval_cases i <;> simp [serialText, hex2, hhi]

/-- **C36.** When the serial-number flag is set, `getSerialNumber` returns for
every leaf-3 result, and `sprintf` writes 30 bytes, the size of
`serialNumber`: 29 characters and the terminator. Position `i < 29` holds `-`
when `i % 5 = 4` (the five positions 4, 9, 14, 19, 24) and otherwise one
lower-case hexadecimal digit of byte `2 * (i / 5) + i % 5 / 2` of the twelve
little-endian bytes of EBX, ECX, EDX: the high digit first. Position 29 holds
the terminator, and no earlier position holds a zero byte. -/
theorem getSerialNumber_text (info : CPUInfo) (w : World)
    (hsup : w.hw.cpuidInstr = ProbeOutcome.executes) (hserial : info.features.serial = true) :
    ∃ info' w', getSerialNumber info w = some (info', w') ∧
      (serialText (serialByte (w.answer 3))).length = 30 ∧
      (∀ i, i < 29 → i % 5 = 4 → charAt info'.features.serialNumber i = 45) ∧
      (∀ i, i < 29 → i % 5 ≠ 4 →
        charAt info'.features.serialNumber i =
          hexDigit (if i % 5 % 2 = 0
            then serialByte (w.answer 3) (2 * (i / 5) + i % 5 / 2) / 16
            else serialByte (w.answer 3) (2 * (i / 5) + i % 5 / 2) % 16) ∧
        isLowerHex (charAt info'.features.serialNumber i) = true) ∧
      charAt info'.features.serialNumber 29 = 0 ∧
      (∀ i, i < 29 → charAt info'.features.serialNumber i ≠ 0) := by
  obtain ⟨info', w', hrun, hch⟩ := getSerialNumber_chars info w hsup hserial
  obtain ⟨sn, hsn⟩ : ∃ sn, sn = info'.features.serialNumber := ⟨_, rfl⟩
  rw [← hsn] at hch
  have hb : ∀ j, serialByte (w.answer 3) j < 256 := fun j => byteLE_lt _ _
  have hdash : ∀ i, i < 29 → i % 5 = 4 → charAt sn i = 45 := by
    intro i hi h5
    rw [hch i (by omega), serialText_getD _ hb i hi, if_pos h5]
  have hdigit : ∀ i, i < 29 → i % 5 ≠ 4 →
      charAt sn i =
        hexDigit (if i % 5 % 2 = 0
          then serialByte (w.answer 3) (2 * (i / 5) + i % 5 / 2) / 16
          else serialByte (w.answer 3) (2 * (i / 5) + i % 5 / 2) % 16) := by
    intro i hi h5
    rw [hch i (by omega), serialText_getD _ hb i hi, if_neg h5]
  have hhex : ∀ i, i < 29 → i % 5 ≠ 4 → isLowerHex (charAt sn i) = true := by
    intro i hi h5
    rw [hdigit i hi h5]
    apply hexDigit_isLowerHex
    have := hb (2 * (i / 5) + i % 5 / 2)
    split <;> omega
  refine ⟨info', w', hrun, serialText_length _, ?_, ?_, ?_, ?_⟩
  · rw [← hsn]; exact hdash
  · rw [← hsn]; exact fun i hi h5 => ⟨hdigit i hi h5, hhex i hi h5⟩
  · rw [← hsn, hch 29 (by omega)]
    simp [serialText, hex2]
  · rw [← hsn]
    intro i hi
    by_cases h5 : i % 5 = 4
    · rw [hdash i hi h5]; decide
    · intro h0
      have := hhex i hi h5
      rw [h0] at this
      exact absurd this (by decide)

/-- Witness of **C36**: the example Pentium III, whose leaf 3 holds
`0x0000A5F0`, `0x89ABCDEF`, `0x01234567` in EBX, ECX, EDX, gets the text
`f0a5-0000-efcd-ab89-6745-2301`. -/
theorem getSerialNumber_text_witness :
    pentium3World.hw.cpuidInstr = ProbeOutcome.executes ∧
    serialInfo.features.serial = true ∧
    (∃ info' w', getSerialNumber serialInfo pentium3World = some (info', w') ∧
      charAt info'.features.serialNumber 29 = 0 ∧
      (∀ i, i < 29 → charAt info'.features.serialNumber i ≠ 0)) ∧
    (getSerialNumber serialInfo pentium3World).map
        (fun r => (List.range 30).map (charAt r.1.features.serialNumber)) =
      some (literal "f0a5-0000-efcd-ab89-6745-2301" ++ [0]) := by
  obtain ⟨info', w', hrun, _, _, _, h29, hnz⟩ :=
    getSerialNumber_text serialInfo pentium3World rfl rfl
  exact ⟨rfl, rfl, ⟨info', w', hrun, h29, hnz⟩, by decide!⟩

/-! ## The names -/

theorem drop_range_map_charAt {n : Nat} (buf : Fin n → Nat) (off : Nat) (h : off < n) :
    ((List.range n).map (charAt buf)).drop off =
      buf ⟨off, h⟩ :: ((List.range n).map (charAt buf)).drop (off + 1) := by
  have hl : off < ((List.range n).map (charAt buf)).length := by simpa using h
  rw [List.drop_eq_getElem_cons hl]
  congr 1
  simp [charAt, h]

/-- A string read from a character array that holds a zero byte at or after
the start of the read: the bytes before the first zero byte. -/
theorem cString_spec {n : Nat} (buf : Fin n → Nat) :
    ∀ (fuel off : Nat), n ≤ off + fuel →
      (∃ j, off ≤ j ∧ j < n ∧ charAt buf j = 0) →
      cString buf fuel off = some (bytesFrom buf off) := by
  intro fuel
  induction fuel with
  | zero =>
    intro off hf ⟨j, h1, h2, _⟩
    omega
  | succ m ih =>
    intro off hf ⟨j, h1, h2, h3⟩
    have hoff : off < n := by omega
    unfold cString bytesFrom
    rw [dif_pos hoff, drop_range_map_charAt buf off hoff]
    by_cases hz : buf ⟨off, hoff⟩ = 0
    · rw [if_pos hz]
      simp [List.takeWhile_cons, hz]
    · rw [if_neg hz]
      have hj : off + 1 ≤ j := by
        rcases Nat.eq_or_lt_of_le h1 with h | h
        · subst h
          simp only [charAt, hoff, dite_true] at h3
          exact absurd h3 hz
        · exact h
      rw [ih (off + 1) (by omega) ⟨j, hj, h2, h3⟩]
      simp [List.takeWhile_cons, hz, bytesFrom]

theorem bytesFrom_head {n : Nat} (buf : Fin n → Nat) (off : Nat) (c : Nat)
    (h : (bytesFrom buf off).head? = some c) : off < n ∧ c = charAt buf off := by
  unfold bytesFrom at h
  by_cases hoff : off < n
  · rw [drop_range_map_charAt buf off hoff, List.takeWhile_cons] at h
    split at h
    · simp only [List.head?_cons, Option.some.injEq] at h
      exact ⟨hoff, by simp [charAt, hoff, h]⟩
    · simp at h
  · rw [List.drop_of_length_le (by simp; omega)] at h
    simp at h

theorem ite_prop {α : Type} (P : α → Prop) (c : Prop) [Decidable c] (a b : α)
    (ha : P a) (hb : P b) : P (if c then a else b) := by
  split <;> assumption

theorem getD_zero_append (s x : List Nat) (h : s ≠ []) :
    (s ++ x).getD 0 0 = s.getD 0 0 := by
  cases s with
  | nil => exact absurd rfl h
  | cons a t => rfl

theorem getProcessorBrandName_first (info : CPUInfo) (h : info.identity.brand ≠ 0) :
    (getProcessorBrandName info).getD 0 0 ≠ 78 := by
  obtain ⟨b, hb⟩ : ∃ b, b = info.identity.brand := ⟨_, rfl⟩
  unfold getProcessorBrandName
  rw [← hb] at h ⊢
  rw [if_neg h]
  dsimp only []
  repeat' apply ite_prop (fun l : List Nat => l.getD 0 0 ≠ 78)
  all_goals first
    | exact fun h => absurd h (by decide)
    | (try simp only [List.append_assoc]
       rw [getD_zero_append _ _ (by decide)]
       exact fun h => absurd h (by decide))


theorem getProcessorBrandName_notSupported (info : CPUInfo) :
    getProcessorBrandName info = literal "Not Supported" ↔ info.identity.brand = 0 := by
  constructor
  · intro h
    by_contra hb
    have := getProcessorBrandName_first info hb
    rw [h] at this
    exact this (by decide)
  · intro hb
    unfold getProcessorBrandName
    rw [if_pos hb]

/-- **C31.** For every record: when `hasExtendedName` is set and the extended
name holds a zero byte at or after `firstNonSpace`, `getProcessorName` returns
the bytes of `extendedName` from `firstNonSpace` up to that terminator;
otherwise, with a brand index other than 0, it returns
`getProcessorBrandName()`, which is then not `"Not Supported"` (that string is
returned for the brand index 0 and for no other); otherwise it returns
`getClassicalProcessorName()`. When the identity is the one
`getExtendedIdentity` returned with `hasExtendedName` set, the terminator is
there and the returned name does not start with whitespace. -/
theorem getProcessorName_dispatch (info : CPUInfo) :
    (info.identity.hasExtendedName = true →
      (∃ j, info.identity.firstNonSpace ≤ j ∧ j < 49 ∧
        charAt info.identity.extendedName j = 0) →
      getProcessorName info =
        some (bytesFrom info.identity.extendedName info.identity.firstNonSpace)) ∧
    (info.identity.hasExtendedName = false → info.identity.brand ≠ 0 →
      getProcessorName info = some (getProcessorBrandName info) ∧
      getProcessorBrandName info ≠ literal "Not Supported") ∧
    (info.identity.hasExtendedName = false → info.identity.brand = 0 →
      getProcessorName info = some (getClassicalProcessorName info)) ∧
    (getProcessorBrandName info = literal "Not Supported" ↔ info.identity.brand = 0) ∧
    (∀ (id : Identity) (w w' : World), w.hw.cpuidInstr = ProbeOutcome.executes →
      getExtendedIdentity id w = some (info.identity, w') →
      info.identity.hasExtendedName = true →
      getProcessorName info =
        some (bytesFrom info.identity.extendedName info.identity.firstNonSpace) ∧
      ∀ c, (bytesFrom info.identity.extendedName info.identity.firstNonSpace).head? = some c →
        isspace c = false) := by
  have hext : info.identity.hasExtendedName = true →
      (∃ j, info.identity.firstNonSpace ≤ j ∧ j < 49 ∧
        charAt info.identity.extendedName j = 0) →
      getProcessorName info =
        some (bytesFrom info.identity.extendedName info.identity.firstNonSpace) := by
    intro h hz
    unfold getProcessorName
    rw [if_pos h]
    exact cString_spec _ 49 _ (by omega) hz
  refine ⟨hext, ?_, ?_, getProcessorBrandName_notSupported info, ?_⟩
  · intro h hb
    refine ⟨?_, fun hn => hb ((getProcessorBrandName_notSupported info).mp hn)⟩
    unfold getProcessorName
    rw [if_neg (by simp [h]), if_pos hb]
  · intro h hb
    unfold getProcessorName
    rw [if_neg (by simp [h]), if_neg (by simp [hb])]
  · intro id w w' hsup hrun h
    obtain ⟨id', w'', hrun', _, _, _, _, hname⟩ := getExtendedIdentity_core id w hsup
    rw [hrun] at hrun'
    simp only [Option.some.injEq, Prod.mk.injEq] at hrun'
    obtain ⟨hid, _⟩ := hrun'
    rw [← hid] at hname
    obtain ⟨_, h48, hfns⟩ := hname h
    obtain ⟨_, hle, _, hns⟩ := skipSpace_spec info.identity.extendedName 48 0 (by omega) (by omega)
    rw [← hfns] at hle hns
    refine ⟨hext h ⟨48, hle, by omega, h48⟩, ?_⟩
    intro c hc
    obtain ⟨_, hc'⟩ := bytesFrom_head _ _ c hc
    subst hc'
    rcases Nat.lt_or_ge info.identity.firstNonSpace 48 with hlt | hge
    · exact hns hlt
    · have : info.identity.firstNonSpace = 48 := by omega
      rw [this, h48]
      decide

/-- Witness of **C31**, the three paths. The example 486 has no extended name
and the brand index 0, and gets its classical name; the example Pentium III
has the brand index 2 and gets the brand name; the example Pentium 4 reports
a name with 14 leading spaces and gets it without them. -/
theorem getProcessorName_dispatch_witness :
    (i486Info.identity.hasExtendedName = false ∧ i486Info.identity.brand = 0 ∧
      getProcessorName i486Info = some (literal "i80486DX4")) ∧
    (getCPUInfo 10 blankInfo pentium3World).map
        (fun r => (r.1.identity.hasExtendedName, r.1.identity.brand, getProcessorName r.1)) =
      some (false, 2, some (literal "0.18 \xc2\xb5m Intel Pentium III")) ∧
    (∃ id' w', getExtendedIdentity pentium4Identity pentium4World = some (id', w') ∧
      id'.hasExtendedName = true ∧ id'.firstNonSpace = 14 ∧
      getProcessorName { blankInfo with identity := id' } =
        some (bytesFrom id'.extendedName id'.firstNonSpace)) ∧
    (getExtendedIdentity pentium4Identity pentium4World).map
        (fun r => getProcessorName { blankInfo with identity := r.1 }) =
      some (some (literal "Intel(R) Pentium(R) 4 CPU 2.40GHz")) := by
  obtain ⟨r, hr⟩ : ∃ r, getExtendedIdentity pentium4Identity pentium4World = some r :=
    Option.isSome_iff_exists.mp (by decide!)
  have hflag : (getExtendedIdentity pentium4Identity pentium4World).map
      (fun r => (r.1.hasExtendedName, r.1.firstNonSpace)) = some (true, 14) := by decide!
  rw [hr] at hflag
  simp only [Option.map_some', Option.some.injEq, Prod.mk.injEq] at hflag
  refine ⟨⟨rfl, rfl, ((getProcessorName_dispatch i486Info).2.2.1 rfl rfl).trans (by decide!)⟩,
    by decide!, ⟨r.1, r.2, hr, hflag.1, hflag.2, ?_⟩, by decide!⟩
  exact ((getProcessorName_dispatch { blankInfo with identity := r.1 }).2.2.2.2
    pentium4Identity pentium4World r.2 rfl hr hflag.1).1

theorem vendor_layout (v : Fin 13 → Nat) (a c d : Nat) (i : Nat) (hi : i < 13) :
    charAt (storeByte (storeU32 (storeU32 (storeU32 v 0 a) 8 c) 4 d) 12 0) i =
      if i < 4 then byteLE a i else if i < 8 then byteLE d (i - 4)
      else if i < 12 then byteLE c (i - 8) else 0 := by
  interval_cases i <;> simp [charAt, storeByte, storeU32]

theorem getIdentity_vendor_eq (id : Identity) (w : World)
    (hsup : w.hw.cpuidInstr = ProbeOutcome.executes) :
    ∃ id' w', getIdentity id w = some (id', w') ∧
      id'.vendor = storeByte (storeU32 (storeU32 (storeU32 id.vendor 0 (u32 (w.answer 0).ebx))
        8 (u32 (w.answer 0).ecx)) 4 (u32 (w.answer 0).edx)) 12 0 := by
  simp only [getIdentity, CPUID_eq 0 w hsup, Option.bind_eq_bind, Option.some_bind]
  rw [CPUID_eq 1 _ (by simpa using hsup)]
  simp only [Option.some_bind]
  exact ⟨_, _, rfl, rfl⟩

/-- **C32.** For every leaf-0 result, `getIdentity` returns with
`vendor[0..3]` the little-endian bytes of EBX, `vendor[4..7]` those of EDX,
`vendor[8..11]` those of ECX and `vendor[12]` zero, whatever manufacturer the
table gives. When the manufacturer is `UnknownManufacturer`, `getVendorName`
returns the string held in `vendor`: its bytes up to the first zero byte,
which are all twelve bytes when none of them is zero. -/
theorem getIdentity_vendor (id : Identity) (w : World)
    (hsup : w.hw.cpuidInstr = ProbeOutcome.executes) :
    ∃ id' w', getIdentity id w = some (id', w') ∧
      (∀ i, i < 4 → charAt id'.vendor i = byteLE (u32 (w.answer 0).ebx) i) ∧
      (∀ i, i < 4 → charAt id'.vendor (4 + i) = byteLE (u32 (w.answer 0).edx) i) ∧
      (∀ i, i < 4 → charAt id'.vendor (8 + i) = byteLE (u32 (w.answer 0).ecx) i) ∧
      charAt id'.vendor 12 = 0 ∧
      (id'.manufacturer = Manufacturer.UnknownManufacturer →
        ∀ info : CPUInfo, info.identity = id' →
          getVendorName info = some (bytesFrom id'.vendor 0) ∧
          ((∀ i, i < 12 → charAt id'.vendor i ≠ 0) →
            getVendorName info = some ((List.range 12).map (charAt id'.vendor)))) := by
  obtain ⟨id', w', hrun, hv⟩ := getIdentity_vendor_eq id w hsup
  have hlay : ∀ i, i < 13 → charAt id'.vendor i =
      if i < 4 then byteLE (u32 (w.answer 0).ebx) i
      else if i < 8 then byteLE (u32 (w.answer 0).edx) (i - 4)
      else if i < 12 then byteLE (u32 (w.answer 0).ecx) (i - 8) else 0 := by
    intro i hi
    rw [hv]
    exact vendor_layout _ _ _ _ i hi
  have h12 : charAt id'.vendor 12 = 0 := by rw [hlay 12 (by omega)]; simp
  refine ⟨id', w', hrun, ?_, ?_, ?_, h12, ?_⟩
  · intro i hi
    rw [hlay i (by omega), if_pos hi]
  · intro i hi
    rw [hlay (4 + i) (by omega), if_neg (by omega), if_pos (by omega)]
    congr 1
    omega
  · intro i hi
    rw [hlay (8 + i) (by omega), if_neg (by omega), if_neg (by omega), if_pos (by omega)]
    congr 1
    omega
  · intro hm info hinfo
    have hname : getVendorName info = some (bytesFrom id'.vendor 0) := by
      unfold getVendorName
      rw [hinfo, hm]
      exact cString_spec id'.vendor 13 0 (by omega) ⟨12, by omega, by omega, h12⟩
    refine ⟨hname, fun hnz => ?_⟩
    rw [hname]
    unfold bytesFrom
    rw [List.drop_zero, List.range_succ, List.map_append, List.takeWhile_append_of_pos]
    · simp [h12]
    · intro c hc
      obtain ⟨i, hi, rfl⟩ := List.mem_map.mp hc
      simpa using hnz i (List.mem_range.mp hi)

/-- Witness of **C32**: a machine whose vendor string is `"VIA VIA VIA "`,
which the table does not list, gets `UnknownManufacturer`, and `getVendorName`
returns the twelve bytes of the string. -/
theorem getIdentity_vendor_witness :
    unlistedVendorWorld.hw.cpuidInstr = ProbeOutcome.executes ∧
    (∃ id' w', getIdentity blankInfo.identity unlistedVendorWorld = some (id', w') ∧
      charAt id'.vendor 12 = 0) ∧
    (getIdentity blankInfo.identity unlistedVendorWorld).map
        (fun r => (r.1.manufacturer, getVendorName { blankInfo with identity := r.1 })) =
      some (Manufacturer.UnknownManufacturer, some (literal "VIA VIA VIA ")) ∧
    (getIdentity blankInfo.identity pentium4World).map
        (fun r => (r.1.manufacturer, (List.range 13).map (charAt r.1.vendor))) =
      some (Manufacturer.Intel, literal "GenuineIntel" ++ [0]) := by
  obtain ⟨id', w', hrun, _, _, _, h12, _⟩ :=
    getIdentity_vendor blankInfo.identity unlistedVendorWorld rfl
  exact ⟨rfl, ⟨id', w', hrun, h12⟩, by decide!, by decide!⟩

/-! ## The assertions of the detection pass -/

/-- **C33.** On a machine that executes `cpuid` and whose leaf `0x80000000`
reports the same maximum at every query: if leaf `L` is eligible under
`checkExtendedLevelSupport` at some moment, every leaf `L' ≤ L` is eligible at
every moment. So `getExtendedIdentity` sets `hasExtendedName` exactly when
leaf `0x80000004` is eligible, and `getCacheDetails` never returns an L2 size
other than -1 together with the L1 size -1. -/
theorem checkExtendedLevelSupport_monotone (id : Identity) (w : World)
    (hsup : w.hw.cpuidInstr = ProbeOutcome.executes)
    (hstable : ∀ k, (w.hw.cpuid 0x80000000 k).eax = (w.hw.cpuid 0x80000000 0).eax) :
    (∀ (w₁ w₂ : World) (L L' : Nat), w₁.hw = w.hw → w₂.hw = w.hw → L' ≤ L →
      eligible id L w₁ → eligible id L' w₂) ∧
    (∃ id' w', getExtendedIdentity id w = some (id', w') ∧
      (id'.hasExtendedName = true ↔ eligible id 0x80000004 w)) ∧
    (∀ cache : Cache, ∃ found cache' w',
      getCacheDetails id cache w = some (found, cache', w') ∧
      (cache'.L2CacheSize ≠ -1 → cache'.L1CacheSize ≠ -1)) := by
  have hans : ∀ w₁ : World, w₁.hw = w.hw →
      (w₁.answer 0x80000000).eax = (w.hw.cpuid 0x80000000 0).eax := by
    intro w₁ h
    unfold World.answer
    rw [h]
    exact hstable _
  refine ⟨?_, ?_, ?_⟩
  · intro w₁ w₂ L L' h1 h2 hle hel
    rw [eligible_iff id L w₁ (by rw [h1]; exact hsup), hans w₁ h1] at hel
    rw [eligible_iff id L' w₂ (by rw [h2]; exact hsup), hans w₂ h2]
    exact ⟨hel.1, le_trans hle hel.2⟩
  · obtain ⟨id', w', hrun, _, _, hflag, _⟩ := getExtendedIdentity_core id w hsup
    refine ⟨id', w', hrun, ?_⟩
    rw [hflag, eligible_iff id _ w hsup, hans w rfl, hstable, hstable (_ + 1), hstable (_ + 2)]
    cases belowVendorFloor id <;> simp
    omega
  · intro cache
    obtain ⟨found, cache', w', hrun, h1, h2, _⟩ := getCacheDetails_values id cache w hsup
    refine ⟨found, cache', w', hrun, ?_⟩
    intro hL2
    rw [hstable] at h2
    rw [hans w rfl] at h1
    have hc2 : (!belowVendorFloor id &&
        decide (0x80000006 ≤ u32 (w.hw.cpuid 0x80000000 0).eax)) = true := by
      by_contra hc
      rw [if_neg hc] at h2
      exact hL2 h2
    have hc1 : (!belowVendorFloor id &&
        decide (0x80000005 ≤ u32 (w.hw.cpuid 0x80000000 0).eax)) = true := by
      simp only [Bool.and_eq_true, Bool.not_eq_true', decide_eq_true_eq] at hc2 ⊢
      exact ⟨hc2.1, by omega⟩
    rw [if_pos hc1] at h1
    rw [h1, and_0xFF, and_0xFF, toInt_small _ (by omega), toInt_small _ (by omega)]
    omega

/-- Witness of **C33**: the example Athlon reports the maximum `0x80000007` at
every query; its name leaves and both cache leaves are eligible, the name flag
is set and both cache sizes are known. -/
theorem checkExtendedLevelSupport_monotone_witness :
    athlonWorld.hw.cpuidInstr = ProbeOutcome.executes ∧
    (∀ k, (athlonWorld.hw.cpuid 0x80000000 k).eax =
      (athlonWorld.hw.cpuid 0x80000000 0).eax) ∧
    (eligible athlonIdentity 0x80000007 athlonWorld →
      eligible athlonIdentity 0x80000004 athlonWorld) ∧
    (∃ id' w', getExtendedIdentity athlonIdentity athlonWorld = some (id', w') ∧
      (id'.hasExtendedName = true ↔ eligible athlonIdentity 0x80000004 athlonWorld)) ∧
    (getExtendedIdentity athlonIdentity athlonWorld).map (fun r => r.1.hasExtendedName) =
      some true ∧
    (getCacheDetails athlonIdentity blankInfo.cache athlonWorld).map (fun r => r.2.1) =
      some { L1CacheSize := 128, L2CacheSize := 256, L3CacheSize := -1 } := by
  have h := checkExtendedLevelSupport_monotone athlonIdentity athlonWorld rfl (fun _ => rfl)
  exact ⟨rfl, fun _ => rfl,
    h.1 athlonWorld athlonWorld 0x80000007 0x80000004 rfl rfl (by decide),
    h.2.1, by decide!, by decide!⟩

end CPUDetect
